import Mathlib

/-!
# APRS packet encoder of `gps-radio-tiva-c` (`aprs_board.c`)

A shallow embedding of the bit-level encoder (`advanceBitstreamBit`,
`encodeAndAppendBits`), the payload formatter (`createPacketPayload`), the
message assembler (`generateMessage`) and the entry point `sendAprsMessage`,
followed by the properties proved about them.

Conventions of the embedding:

* machine integers are natural numbers; a reduction `% 2^w` is written where
  the C code truncates (`currentByte <<= 1`, the `uint8_t` index of the payload
  formatter, the `uint16_t` message counter);
* a byte array is a function from indices to bytes (`Buffer`);
* a pointer that the code tests against null is an `Option`;
* a `return false` from inside the loops keeps the partially written state,
  because the callers go on using the buffer and the encoding data.
-/

namespace Hab

/-! ## Data model -/

/-- A byte array in memory: index to byte value. -/
abbrev Buffer := Nat → Nat

/-- Position of a bit in a packed buffer (`BitstreamPos`): byte index and bit index. -/
structure BitstreamPos where
  bitstreamCharIdx : Nat
  bitstreamCharBitIdx : Nat
  deriving DecidableEq, Repr

/-- Modelled from the spec: `EncodingData` is declared in `aprs_board_impl.h`, which is
not part of the sources. The spec lists its content: the current write position, the last
physical bit written, the run counter of consecutive logical ones and the running CRC. -/
structure EncodingData where
  bitstreamSize : BitstreamPos
  lastBit : Bool
  numberOfOnes : Nat
  fcs : Nat
  deriving DecidableEq, Repr

inductive STUFFING_TYPE where
  | ST_NO_STUFFING
  | ST_PERFORM_STUFFING
  deriving DecidableEq, Repr

inductive FCS_TYPE where
  | FCS_NONE
  | FCS_CALCULATE
  deriving DecidableEq, Repr

inductive SHIFT_ONE_LEFT_TYPE where
  | SHIFT_ONE_LEFT_NO
  | SHIFT_ONE_LEFT
  deriving DecidableEq, Repr

open STUFFING_TYPE FCS_TYPE SHIFT_ONE_LEFT_TYPE

/-- Modelled from the spec: `FCS_POLYNOMIAL` is defined in `aprs_board_impl.h`, which is
not part of the sources; the spec gives the reflected CRC-16/X.25 polynomial 0x8408. -/
def FCS_POLYNOMIAL : Nat := 0x8408

/-- Modelled from the spec: `FCS_INITIAL_VALUE` is defined in `aprs_board_impl.h`; the
CRC-16/X.25 named by the spec starts from 0xFFFF. -/
def FCS_INITIAL_VALUE : Nat := 0xFFFF

/-- Modelled from the spec: `FCS_POST_PROCESSING_XOR_VALUE` is defined in
`aprs_board_impl.h`; the spec has the CRC "XORed with 0xFFFF before extraction". -/
def FCS_POST_PROCESSING_XOR_VALUE : Nat := 0xFFFF

/-! ## Bit-level encoder -/

/-- `advanceBitstreamBit` (aprs_board.c, lines 112-123). -/
def advanceBitstreamBit (p : BitstreamPos) : BitstreamPos :=
  if p.bitstreamCharBitIdx ≥ 7 then
    { bitstreamCharIdx := p.bitstreamCharIdx + 1, bitstreamCharBitIdx := 0 }
  else
    { bitstreamCharIdx := p.bitstreamCharIdx, bitstreamCharBitIdx := p.bitstreamCharBitIdx + 1 }

/-- The statement `buf[p.idx] |= 1 << p.bit` on a `uint8_t` array. -/
def setBufferBit (buf : Buffer) (p : BitstreamPos) : Buffer :=
  fun i =>
    if i = p.bitstreamCharIdx then (buf i ||| (1 <<< p.bitstreamCharBitIdx)) % 256 else buf i

/-- The statement `buf[p.idx] &= ~(1 << p.bit)` on a `uint8_t` array. -/
def clearBufferBit (buf : Buffer) (p : BitstreamPos) : Buffer :=
  fun i =>
    if i = p.bitstreamCharIdx then buf i &&& (0xFF ^^^ (1 <<< p.bitstreamCharBitIdx)) else buf i

/-- The test `buf[p.idx] & (1 << p.bit)` with which the stored bits are read back
(aprs_board.c, line 457). -/
def readBufferBit (buf : Buffer) (p : BitstreamPos) : Bool :=
  (buf p.bitstreamCharIdx &&& (1 <<< p.bitstreamCharBitIdx)) != 0

/-- One step of the CRC accumulator (aprs_board.c, lines 166-171). -/
def fcsUpdate (fcs currentByte iBit : Nat) : Nat :=
  let shiftBit := fcs &&& 0x0001
  let fcs1 := fcs >>> 1
  if shiftBit ≠ ((currentByte >>> iBit) &&& 0x01) then fcs1 ^^^ FCS_POLYNOMIAL else fcs1

/-- Body of the inner loop of `encodeAndAppendBits` (aprs_board.c, lines 158-246) for bit
`iBit` of `currentByte`. The first component is `false` when the body executes
`return false`; the buffer and encoding data are the ones at that moment. -/
def encodeBit (buf : Buffer) (maxBitstreamBufferLen : Nat) (ed : EncodingData)
    (currentByte iBit : Nat) (stuffingType : STUFFING_TYPE) (fcsType : FCS_TYPE) :
    Bool × Buffer × EncodingData :=
  let currentBit := currentByte &&& (1 <<< iBit)
  let ed1 : EncodingData :=
    if fcsType = FCS_CALCULATE then { ed with fcs := fcsUpdate ed.fcs currentByte iBit } else ed
  if currentBit ≠ 0 then
    if ed1.bitstreamSize.bitstreamCharIdx ≥ maxBitstreamBufferLen then (false, buf, ed1)
    else
      -- as we are encoding 1 keep current bit as is
      let buf1 :=
        if ed1.lastBit then setBufferBit buf ed1.bitstreamSize
        else clearBufferBit buf ed1.bitstreamSize
      let ed2 := { ed1 with bitstreamSize := advanceBitstreamBit ed1.bitstreamSize }
      if stuffingType = ST_PERFORM_STUFFING then
        let ed3 := { ed2 with numberOfOnes := ed2.numberOfOnes + 1 }
        if ed3.numberOfOnes = 5 then
          if ed3.bitstreamSize.bitstreamCharIdx ≥ maxBitstreamBufferLen then (false, buf1, ed3)
          else
            -- we need to insert 0 after 5 consecutive ones
            let buf2 :=
              if ed3.lastBit then clearBufferBit buf1 ed3.bitstreamSize
              else setBufferBit buf1 ed3.bitstreamSize
            let ed4 := { ed3 with lastBit := if ed3.lastBit then false else true }
            let ed5 := { ed4 with numberOfOnes := 0 }
            (true, buf2, { ed5 with bitstreamSize := advanceBitstreamBit ed5.bitstreamSize })
        else (true, buf1, ed3)
      else (true, buf1, ed2)
  else
    if ed1.bitstreamSize.bitstreamCharIdx ≥ maxBitstreamBufferLen then (false, buf, ed1)
    else
      -- as we are encoding 0 we need to flip bit
      let buf1 :=
        if ed1.lastBit then clearBufferBit buf ed1.bitstreamSize
        else setBufferBit buf ed1.bitstreamSize
      let ed2 := { ed1 with lastBit := if ed1.lastBit then false else true }
      let ed3 := { ed2 with bitstreamSize := advanceBitstreamBit ed2.bitstreamSize }
      if stuffingType = ST_PERFORM_STUFFING then (true, buf1, { ed3 with numberOfOnes := 0 })
      else (true, buf1, ed3)

/-- The inner loop `for (iBit = 0; iBit < 8; ++iBit)` over the given bit indices, leaving
at the first `return false`. -/
def encodeByteBits (maxBitstreamBufferLen : Nat) (currentByte : Nat)
    (stuffingType : STUFFING_TYPE) (fcsType : FCS_TYPE) :
    List Nat → Buffer → EncodingData → Bool × Buffer × EncodingData
  | [], buf, ed => (true, buf, ed)
  | iBit :: rest, buf, ed =>
    match encodeBit buf maxBitstreamBufferLen ed currentByte iBit stuffingType fcsType with
    | (true, buf1, ed1) =>
      encodeByteBits maxBitstreamBufferLen currentByte stuffingType fcsType rest buf1 ed1
    | (false, buf1, ed1) => (false, buf1, ed1)

/-- The byte that the inner loop works on: `pMessageData[iByte]`, shifted left by one
within 8 bits for `SHIFT_ONE_LEFT` (aprs_board.c, lines 149-154). -/
def shiftedByte (shiftOneLeftType : SHIFT_ONE_LEFT_TYPE) (b : Nat) : Nat :=
  if shiftOneLeftType = SHIFT_ONE_LEFT then ((b % 256) <<< 1) % 256 else b % 256

/-- The outer loop `for (iByte = 0; iByte < messageDataSize; ++iByte)` over the bytes read
from the message (aprs_board.c, lines 147-248). -/
def encodeBytes (maxBitstreamBufferLen : Nat) (stuffingType : STUFFING_TYPE)
    (fcsType : FCS_TYPE) (shiftOneLeftType : SHIFT_ONE_LEFT_TYPE) :
    List Nat → Buffer → EncodingData → Bool × Buffer × EncodingData
  | [], buf, ed => (true, buf, ed)
  | b :: rest, buf, ed =>
    match encodeByteBits maxBitstreamBufferLen (shiftedByte shiftOneLeftType b) stuffingType
        fcsType (List.range 8) buf ed with
    | (true, buf1, ed1) =>
      encodeBytes maxBitstreamBufferLen stuffingType fcsType shiftOneLeftType rest buf1 ed1
    | (false, buf1, ed1) => (false, buf1, ed1)

/-- `encodeAndAppendBits` (aprs_board.c, lines 125-257). The three pointers are options;
the result is the return value with the contents of the destination buffer and of the
encoding data after the call. Byte `iByte` of the message is `pMessageData[iByte]`. -/
def encodeAndAppendBits (pBitstreamBuffer : Option Buffer) (maxBitstreamBufferLen : Nat)
    (pEncodingData : Option EncodingData) (pMessageData : Option (List Nat))
    (messageDataSize : Nat) (stuffingType : STUFFING_TYPE) (fcsType : FCS_TYPE)
    (shiftOneLeftType : SHIFT_ONE_LEFT_TYPE) : Bool × Option Buffer × Option EncodingData :=
  match pBitstreamBuffer, pEncodingData with
  | some buf, some ed =>
    if maxBitstreamBufferLen < messageDataSize then (false, some buf, some ed)
    else if messageDataSize = 0 then (true, some buf, some ed)
    else
      match pMessageData with
      | none => (false, some buf, some ed)
      | some data =>
        match encodeBytes maxBitstreamBufferLen stuffingType fcsType shiftOneLeftType
            ((List.range messageDataSize).map (fun iByte => data.getD iByte 0)) buf ed with
        | (true, buf1, ed1) =>
          if stuffingType = ST_NO_STUFFING then
            -- reset ones as we didn't do any stuffing while sending this data
            (true, some buf1, some { ed1 with numberOfOnes := 0 })
          else (true, some buf1, some ed1)
        | (false, buf1, ed1) => (false, some buf1, some ed1)
  | b, e => (false, b, e)

/-! ## Reading the bitstream back -/

/-- The `n` bits stored from position `p` on, walked with `advanceBitstreamBit`. -/
def readBits (buf : Buffer) : BitstreamPos → Nat → List Bool
  | _, 0 => []
  | p, n + 1 => readBufferBit buf p :: readBits buf (advanceBitstreamBit p) n

/-- Linear bit offset of a position. -/
def bitOffset (p : BitstreamPos) : Nat := 8 * p.bitstreamCharIdx + p.bitstreamCharBitIdx

/-- Reverse NRZI: a bit equal to the previous physical bit is a logical one (no
transition), a different bit is a logical zero (transition). -/
def nrziDecode : Bool → List Bool → List Bool
  | _, [] => []
  | prev, x :: xs => (x == prev) :: nrziDecode x xs

/-- Bit destuffing: `n` counts the consecutive ones seen so far; the bit that follows five
consecutive ones is removed. -/
def destuffBits : Nat → List Bool → List Bool
  | _, [] => []
  | n, b :: bs =>
    if n = 5 then destuffBits 0 bs
    else if b then b :: destuffBits (n + 1) bs
    else b :: destuffBits 0 bs

/-- The bits 0 (LSB) to 7 (MSB) of a byte. -/
def byteBits (b : Nat) : List Bool := (List.range 8).map (fun i => b.testBit i)

/-- The bits of a byte sequence, LSB first, each byte shifted as `shiftOneLeftType` says. -/
def messageBits (shiftOneLeftType : SHIFT_ONE_LEFT_TYPE) (data : List Nat) : List Bool :=
  data.flatMap (fun b => byteBits (shiftedByte shiftOneLeftType b))

/-- Length of the longest run of consecutive `true` in a list, given that `n` of them
precede it. -/
def longestOnesRun : Nat → List Bool → Nat
  | n, [] => n
  | n, true :: bs => longestOnesRun (n + 1) bs
  | n, false :: bs => max n (longestOnesRun 0 bs)

/-! ## Linear view of the packed buffer -/

/-- Position of the bit with linear offset `q`. -/
def posOf (q : Nat) : BitstreamPos := { bitstreamCharIdx := q / 8, bitstreamCharBitIdx := q % 8 }

/-- The bit with linear offset `q` of a buffer. -/
def bitAt (buf : Buffer) (q : Nat) : Bool := (buf (q / 8)).testBit (q % 8)

/-- Store of one bit at linear offset `q`, by the two statements the encoder uses. -/
def putBit (buf : Buffer) (q : Nat) (v : Bool) : Buffer :=
  if v then setBufferBit buf (posOf q) else clearBufferBit buf (posOf q)

/-- Store of consecutive bits from linear offset `q` on. -/
def writeBits (buf : Buffer) : Nat → List Bool → Buffer
  | _, [] => buf
  | q, v :: vs => writeBits (putBit buf q v) (q + 1) vs

/-! ## The line code as a function on bit lists -/

/-- NRZI coding of a list of logical bits after the physical bit `last`: a one repeats the
previous physical bit, a zero inverts it. -/
def nrziEncode : Bool → List Bool → List Bool
  | _, [] => []
  | last, b :: bs => (if b then last else !last) :: nrziEncode (if b then last else !last) bs

/-- The physical bit that ends the NRZI coding of a list of logical bits. -/
def nrziLast : Bool → List Bool → Bool
  | last, [] => last
  | last, b :: bs => nrziLast (if b then last else !last) bs

/-- The logical bits sent for one source bit when `n` ones precede it: the bit itself, and
a zero after it when it is the fifth one of a stuffed segment. -/
def stuffStep (stuffingType : STUFFING_TYPE) (n : Nat) (b : Bool) : List Bool :=
  if b then
    if stuffingType = ST_PERFORM_STUFFING ∧ n + 1 = 5 then [true, false] else [true]
  else [false]

/-- The run counter after one source bit. -/
def onesStep (stuffingType : STUFFING_TYPE) (n : Nat) (b : Bool) : Nat :=
  if stuffingType = ST_PERFORM_STUFFING then
    if b then (if n + 1 = 5 then 0 else n + 1) else 0
  else n

/-- Bit stuffing of a list of source bits, `n` ones preceding it. -/
def stuffBits (stuffingType : STUFFING_TYPE) : Nat → List Bool → List Bool
  | _, [] => []
  | n, b :: bs => stuffStep stuffingType n b ++ stuffBits stuffingType (onesStep stuffingType n b) bs

/-- The run counter after a list of source bits. -/
def onesAfter (stuffingType : STUFFING_TYPE) : Nat → List Bool → Nat
  | n, [] => n
  | n, b :: bs => onesAfter stuffingType (onesStep stuffingType n b) bs

/-- The CRC step of `fcsUpdate` for an input bit given as a boolean. -/
def crcBit (fcs : Nat) (b : Bool) : Nat :=
  if fcs &&& 1 ≠ b.toNat then (fcs >>> 1) ^^^ FCS_POLYNOMIAL else fcs >>> 1

/-- The CRC accumulator after a list of input bits, when the call calculates the FCS. -/
def fcsAfter (fcsType : FCS_TYPE) (fcs : Nat) (bs : List Bool) : Nat :=
  if fcsType = FCS_CALCULATE then bs.foldl crcBit fcs else fcs

/-- The encoding data after the source bits `bs` have been written from offset `q` on. -/
def edAfter (stuffingType : STUFFING_TYPE) (fcsType : FCS_TYPE) (ed : EncodingData) (q : Nat)
    (bs : List Bool) : EncodingData :=
  { bitstreamSize := posOf (q + (stuffBits stuffingType ed.numberOfOnes bs).length)
    lastBit := nrziLast ed.lastBit (stuffBits stuffingType ed.numberOfOnes bs)
    numberOfOnes := onesAfter stuffingType ed.numberOfOnes bs
    fcs := fcsAfter fcsType ed.fcs bs }

/-! ## Payload formatter -/

/-- Modelled from the spec: the GPS structures are declared in headers that are not part
of the sources. A latitude or longitude is degrees, minutes (scaled by 10^6, as the
divisions in `createPacketPayload` show), a hemisphere character and a validity flag;
numeric fields are taken as unsigned integers. -/
structure AngularCoordinate where
  isValid : Bool
  degrees : Nat
  minutes : Nat
  hemisphere : Nat
  deriving DecidableEq, Repr

/-- Modelled from the spec: UTC time with its validity flag; `seconds` is scaled by 100, as
the division in `createPacketPayload` shows. -/
structure GpsTime where
  isValid : Bool
  hours : Nat
  minutes : Nat
  seconds : Nat
  deriving DecidableEq, Repr

/-- Modelled from the spec: the fields of the GGA sentence that the formatter reads. -/
structure GpggaData where
  latitude : AngularCoordinate
  longitude : AngularCoordinate
  utcTime : GpsTime
  altitudeMslMeters : Nat
  deriving DecidableEq, Repr

/-- Modelled from the spec: the fields of the VTG sentence that the formatter reads. -/
structure GpvtgData where
  trueCourseDegrees : Nat
  speedKph : Nat
  deriving DecidableEq, Repr

/-- Modelled from the spec: `GpsData`, the GPS snapshot read by the formatter. -/
structure GpsData where
  gpggaData : GpggaData
  gpvtgData : GpvtgData
  deriving DecidableEq, Repr

/-- Modelled from the spec: `Telemetry`, CPU temperature and supply voltage. -/
structure Telemetry where
  cpuTemperature : Nat
  voltage : Nat
  deriving DecidableEq, Repr

/-- Character codes of a string. -/
def asciiBytes (s : String) : List Nat := s.toList.map Char.toNat

/-- The conversion `%0<width>u` of `sprintf` for an `unsigned int` argument: the decimal
digits, padded with zeros on the left to at least `width` characters. -/
def formatUnsigned (width v : Nat) : List Nat :=
  let digits := (Nat.toDigits 10 (v % 4294967296)).map Char.toNat
  List.replicate (width - digits.length) 48 ++ digits

/-- The call `sprintf((char*) &pBuffer[start], ...)` producing `chars`: the characters are
stored from `start` on, followed by the terminating NUL. -/
def sprintfAt (pBuffer : Buffer) (start : Nat) (chars : List Nat) : Buffer :=
  fun i =>
    if start ≤ i ∧ i < start + chars.length then chars.getD (i - start) 0
    else if i = start + chars.length then 0
    else pBuffer i

/-- The telemetry field `"T#%03u,%03u,%03u,%03u,000,000,00000000 a=%05u"`
(aprs_board.c, lines 326-332). -/
def telemetryChars (gpsDataSource : Nat) (pGpsData : GpsData) (pTelemetry : Telemetry)
    (messageIdx : Nat) : List Nat :=
  asciiBytes "T#" ++ formatUnsigned 3 messageIdx ++ asciiBytes "," ++
    formatUnsigned 3 gpsDataSource ++ asciiBytes "," ++
    formatUnsigned 3 (pTelemetry.cpuTemperature / 10) ++ asciiBytes "," ++
    formatUnsigned 3 (pTelemetry.voltage / 10) ++ asciiBytes ",000,000,00000000 a=" ++
    formatUnsigned 5 ((pGpsData.gpggaData.altitudeMslMeters % 4294967296) / 10)

/-- The timestamp `"@%02u%02u%02uz"` (aprs_board.c, lines 272-276). -/
def timestampChars (pGpsData : GpsData) : List Nat :=
  asciiBytes "@" ++ formatUnsigned 2 pGpsData.gpggaData.utcTime.hours ++
    formatUnsigned 2 pGpsData.gpggaData.utcTime.minutes ++
    formatUnsigned 2 (pGpsData.gpggaData.utcTime.seconds / 100) ++ asciiBytes "z"

/-- The position `"%02u%02u.%02u%1c/%03u%02u.%02u%1c"` (aprs_board.c, lines 293-308). -/
def positionChars (pGpsData : GpsData) : List Nat :=
  let latMinutesWhole := pGpsData.gpggaData.latitude.minutes / 1000000
  let latMinutesFraction :=
    (pGpsData.gpggaData.latitude.minutes - latMinutesWhole * 1000000) / 10000
  let lonMinutesWhole := pGpsData.gpggaData.longitude.minutes / 1000000
  let lonMinutesFraction :=
    (pGpsData.gpggaData.longitude.minutes - lonMinutesWhole * 1000000) / 10000
  formatUnsigned 2 pGpsData.gpggaData.latitude.degrees ++
    formatUnsigned 2 latMinutesWhole ++ asciiBytes "." ++
    formatUnsigned 2 latMinutesFraction ++ [pGpsData.gpggaData.latitude.hemisphere % 256] ++
    asciiBytes "/" ++
    formatUnsigned 3 pGpsData.gpggaData.longitude.degrees ++
    formatUnsigned 2 lonMinutesWhole ++ asciiBytes "." ++
    formatUnsigned 2 lonMinutesFraction ++ [pGpsData.gpggaData.longitude.hemisphere % 256]

/-- The course and speed `">%03u/%03u"` (aprs_board.c, lines 315-318). -/
def courseSpeedChars (pGpsData : GpsData) : List Nat :=
  asciiBytes ">" ++ formatUnsigned 3 (pGpsData.gpvtgData.trueCourseDegrees / 10) ++
    asciiBytes "/" ++ formatUnsigned 3 (pGpsData.gpvtgData.speedKph / 10)

/-- The telemetry part of `createPacketPayload` (aprs_board.c, lines 321-334), entered
with the index `bufferStartIdx`. -/
def createPacketPayloadTelemetry (gpsDataSource : Nat) (pGpsData : GpsData)
    (pTelemetry : Telemetry) (messageIdx : Nat) (pBuffer : Buffer) (bufferSize : Nat)
    (bufferStartIdx : Nat) : Nat × Buffer :=
  if bufferStartIdx + 42 > bufferSize then (0, pBuffer)
  else
    let chars := telemetryChars gpsDataSource pGpsData pTelemetry messageIdx
    ((bufferStartIdx + chars.length) % 256, sprintfAt pBuffer bufferStartIdx chars)

/-- The position and course part of `createPacketPayload` (aprs_board.c, lines 288-319),
entered with the index `bufferStartIdx`, followed by the telemetry part. -/
def createPacketPayloadPosition (gpsDataSource : Nat) (pGpsData : GpsData)
    (pTelemetry : Telemetry) (messageIdx : Nat) (pBuffer : Buffer) (bufferSize : Nat)
    (bufferStartIdx : Nat) : Nat × Buffer :=
  if bufferStartIdx + 19 > bufferSize then (0, pBuffer)
  else
    let position := positionChars pGpsData
    let pBuffer1 := sprintfAt pBuffer bufferStartIdx position
    let bufferStartIdx1 := (bufferStartIdx + position.length) % 256
    if bufferStartIdx1 + 7 > bufferSize then (0, pBuffer1)
    else
      let courseSpeed := courseSpeedChars pGpsData
      let pBuffer2 := sprintfAt pBuffer1 bufferStartIdx1 courseSpeed
      let bufferStartIdx2 := (bufferStartIdx1 + courseSpeed.length) % 256
      createPacketPayloadTelemetry gpsDataSource pGpsData pTelemetry messageIdx pBuffer2
        bufferSize bufferStartIdx2

/-- `createPacketPayload` (aprs_board.c, lines 259-335): the returned `uint8_t` and the
contents of `pBuffer` after the call. `bufferStartIdx` is a `uint8_t`, reduced modulo 256
at each `+=`. -/
def createPacketPayload (gpsDataSource : Nat) (pGpsData : GpsData) (pTelemetry : Telemetry)
    (messageIdx : Nat) (pBuffer : Buffer) (bufferSize : Nat) : Nat × Buffer :=
  let bufferStartIdx := 0
  if pGpsData.gpggaData.latitude.isValid && pGpsData.gpggaData.longitude.isValid then
    if pGpsData.gpggaData.utcTime.isValid then
      if bufferStartIdx + 8 > bufferSize then (0, pBuffer)
      else
        let chars := timestampChars pGpsData
        createPacketPayloadPosition gpsDataSource pGpsData pTelemetry messageIdx
          (sprintfAt pBuffer bufferStartIdx chars) bufferSize
          ((bufferStartIdx + chars.length) % 256)
    else
      if bufferStartIdx + 1 > bufferSize then (0, pBuffer)
      else
        createPacketPayloadPosition gpsDataSource pGpsData pTelemetry messageIdx
          (fun i => if i = bufferStartIdx then 33 else pBuffer i) bufferSize
          ((bufferStartIdx + 1) % 256)
  else
    createPacketPayloadTelemetry gpsDataSource pGpsData pTelemetry messageIdx pBuffer
      bufferSize bufferStartIdx

/-- The first `n` bytes of a buffer. -/
def bufferBytes (buf : Buffer) (n : Nat) : List Nat := (List.range n).map buf

/-- The example of the spec: 37 deg 46.494000 min N, 122 deg 25.164000 min W, both valid,
UTC time not valid, altitude 100 m, course 180, speed 50. -/
def exampleGpsData : GpsData :=
  { gpggaData :=
      { latitude := { isValid := true, degrees := 37, minutes := 46494000, hemisphere := 78 }
        longitude := { isValid := true, degrees := 122, minutes := 25164000, hemisphere := 87 }
        utcTime := { isValid := false, hours := 0, minutes := 0, seconds := 0 }
        altitudeMslMeters := 100 }
    gpvtgData := { trueCourseDegrees := 180, speedKph := 50 } }

/-- The telemetry of the spec's example: CPU temperature 250, voltage 330. -/
def exampleTelemetry : Telemetry := { cpuTemperature := 250, voltage := 330 }

/-! ## Message assembler -/

/-- Modelled from the spec: `Callsign` is declared in a header that is not part of the
sources: six ASCII characters and the SSID byte. -/
structure Callsign where
  callsign : List Nat
  ssid : Nat
  deriving DecidableEq, Repr

/-- `CALLSIGN_SOURCE` (aprs_board.c, lines 23-30): "HABHAB", SSID byte 0xF6. -/
def CALLSIGN_SOURCE : Callsign :=
  { callsign := ['H', 'A', 'B', 'H', 'A', 'B'].map Char.toNat, ssid := 0xF6 }

/-- `CALLSIGN_DESTINATION_1` (aprs_board.c, lines 32-39): "WIDE1 ", SSID byte 0xE2. -/
def CALLSIGN_DESTINATION_1 : Callsign :=
  { callsign := ['W', 'I', 'D', 'E', '1', ' '].map Char.toNat, ssid := 0xE2 }

/-- `CALLSIGN_DESTINATION_2` (aprs_board.c, lines 41-48): "WIDE2 ", SSID byte 0xE5. -/
def CALLSIGN_DESTINATION_2 : Callsign :=
  { callsign := ['W', 'I', 'D', 'E', '2', ' '].map Char.toNat, ssid := 0xE5 }

/-- The compile-time constants of `aprs_board_impl.h` that the code uses; the header is not
part of the sources, so they are parameters. The loops over the flag counts use a `uint8_t`
counter, so the counts are below 256 in any configuration whose loops end. -/
structure Config where
  PREFIX_FLAGS_COUNT : Nat
  SUFFIX_FLAGS_COUNT : Nat
  APRS_PAYLOAD_LEN : Nat
  APRS_BITSTREAM_MAX_LEN : Nat
  LEADING_ONES_COUNT_TO_CANCEL_PREVIOUS_PACKET : Nat
  LEADING_WARMUP_AMPLITUDE_DC_PULSES_COUNT : Nat
  F1200_PWM_PULSES_COUNT_PER_SYMBOL : Nat
  deriving DecidableEq, Repr

/-- A call `encodeAndAppendBits(bitstreamBuffer, maxBitstreamBufferLen, &encodingData, ...)`
as `generateMessage` makes it: the return value is discarded, the buffer and the encoding
data are the ones the call leaves. -/
def encodeCall (maxBitstreamBufferLen : Nat) (s : Buffer × EncodingData) (data : List Nat)
    (messageDataSize : Nat) (stuffingType : STUFFING_TYPE) (fcsType : FCS_TYPE)
    (shiftOneLeftType : SHIFT_ONE_LEFT_TYPE) : Buffer × EncodingData :=
  match encodeAndAppendBits (some s.1) maxBitstreamBufferLen (some s.2) (some data)
      messageDataSize stuffingType fcsType shiftOneLeftType with
  | (_, some buf, some ed) => (buf, ed)
  | _ => s

/-- The loops `for (i = 0; i < count; ++i)` that encode one flag byte 0x7E per pass
(aprs_board.c, lines 354-357 and 400-403). -/
def encodeFlags (maxBitstreamBufferLen : Nat) : Nat → Buffer × EncodingData → Buffer × EncodingData
  | 0, s => s
  | count + 1, s =>
    encodeFlags maxBitstreamBufferLen count
      (encodeCall maxBitstreamBufferLen s [0x7E] 1 ST_NO_STUFFING FCS_NONE SHIFT_ONE_LEFT_NO)

/-- What `generateMessage` leaves: its return value, the contents of the destination
buffer and of `*pBitstreamSize`, and the globals `g_aprsMessageId` and
`g_aprsPayloadBuffer`. -/
structure GenerateResult where
  result : Bool
  bitstreamBuffer : Option Buffer
  bitstreamSize : Option BitstreamPos
  g_aprsMessageId : Nat
  g_aprsPayloadBuffer : Buffer

/-- `generateMessage` (aprs_board.c, lines 337-408), without the `DUMP_DATA_TO_UART0`
section. The four pointers that the code tests are options. -/
def generateMessage (cfg : Config) (g_aprsMessageId : Nat) (g_aprsPayloadBuffer : Buffer)
    (pCallsignSource : Option Callsign) (gpsDataSource : Nat) (pGpsData : Option GpsData)
    (pTelemetry : Telemetry) (bitstreamBuffer : Option Buffer) (maxBitstreamBufferLen : Nat)
    (pBitstreamSize : Option BitstreamPos) : GenerateResult :=
  match pBitstreamSize, pCallsignSource, pGpsData, bitstreamBuffer with
  | some bitstreamSize0, some callsignSource, some gpsData, some buffer0 =>
    let encodingData : EncodingData :=
      { bitstreamSize := { bitstreamCharIdx := 0, bitstreamCharBitIdx := 0 }
        lastBit := true
        numberOfOnes := 0
        fcs := FCS_INITIAL_VALUE }
    let s0 := encodeFlags maxBitstreamBufferLen cfg.PREFIX_FLAGS_COUNT (buffer0, encodingData)
    -- addresses to and from
    let s1 := encodeCall maxBitstreamBufferLen s0 CALLSIGN_DESTINATION_1.callsign 6
      ST_PERFORM_STUFFING FCS_CALCULATE SHIFT_ONE_LEFT
    let s2 := encodeCall maxBitstreamBufferLen s1 [CALLSIGN_DESTINATION_1.ssid] 1
      ST_PERFORM_STUFFING FCS_CALCULATE SHIFT_ONE_LEFT_NO
    let s3 := encodeCall maxBitstreamBufferLen s2 callsignSource.callsign 6
      ST_PERFORM_STUFFING FCS_CALCULATE SHIFT_ONE_LEFT
    let s4 := encodeCall maxBitstreamBufferLen s3 [callsignSource.ssid] 1
      ST_PERFORM_STUFFING FCS_CALCULATE SHIFT_ONE_LEFT_NO
    let s5 := encodeCall maxBitstreamBufferLen s4 CALLSIGN_DESTINATION_2.callsign 6
      ST_PERFORM_STUFFING FCS_CALCULATE SHIFT_ONE_LEFT
    let s6 := encodeCall maxBitstreamBufferLen s5 [CALLSIGN_DESTINATION_2.ssid] 1
      ST_PERFORM_STUFFING FCS_CALCULATE SHIFT_ONE_LEFT_NO
    -- control bytes
    let s7 := encodeCall maxBitstreamBufferLen s6 [0x03] 1
      ST_PERFORM_STUFFING FCS_CALCULATE SHIFT_ONE_LEFT_NO
    let s8 := encodeCall maxBitstreamBufferLen s7 [0xF0] 1
      ST_PERFORM_STUFFING FCS_CALCULATE SHIFT_ONE_LEFT_NO
    -- packet contents
    let payload := createPacketPayload gpsDataSource gpsData pTelemetry g_aprsMessageId
      g_aprsPayloadBuffer (cfg.APRS_PAYLOAD_LEN % 256)
    let bufferSize := payload.1
    let messageId1 := (g_aprsMessageId + 1) % 65536
    if bufferSize = 0 then
      { result := false
        bitstreamBuffer := some s8.1
        bitstreamSize := some bitstreamSize0
        g_aprsMessageId := messageId1
        g_aprsPayloadBuffer := payload.2 }
    else
      let s9 := encodeCall maxBitstreamBufferLen s8 (bufferBytes payload.2 bufferSize) bufferSize
        ST_PERFORM_STUFFING FCS_CALCULATE SHIFT_ONE_LEFT_NO
      -- fcs
      let s10 : Buffer × EncodingData :=
        (s9.1, { s9.2 with fcs := s9.2.fcs ^^^ FCS_POST_PROCESSING_XOR_VALUE })
      let fcsByteLow := s10.2.fcs &&& 0x00FF
      let s11 := encodeCall maxBitstreamBufferLen s10 [fcsByteLow] 1
        ST_PERFORM_STUFFING FCS_NONE SHIFT_ONE_LEFT_NO
      let fcsByteHigh := (s11.2.fcs >>> 8) &&& 0x00FF
      let s12 := encodeCall maxBitstreamBufferLen s11 [fcsByteHigh] 1
        ST_PERFORM_STUFFING FCS_NONE SHIFT_ONE_LEFT_NO
      -- suffix flags
      let s13 := encodeFlags maxBitstreamBufferLen cfg.SUFFIX_FLAGS_COUNT s12
      { result := true
        bitstreamBuffer := some s13.1
        bitstreamSize := some s13.2.bitstreamSize
        g_aprsMessageId := messageId1
        g_aprsPayloadBuffer := payload.2 }
  | bitstreamSize, _, _, buffer =>
    { result := false
      bitstreamBuffer := buffer
      bitstreamSize := bitstreamSize
      g_aprsMessageId := g_aprsMessageId
      g_aprsPayloadBuffer := g_aprsPayloadBuffer }

/-! ## Transmission state and entry point -/

/-- The hardware services called by the core. -/
inductive HardwareCall where
  | enableHx1
  | disableHx1
  | enableAprsPwm
  | disableAprsPwm
  | clearAprsPwmInterrupt
  | setAprsPwmPulseWidth (width : Nat)
  deriving DecidableEq, Repr

/-- The globals of `aprs_board.c` (lines 50-65) and the list of hardware calls made so
far. `F` is the type of the two oscillator phases (`float` in the code). -/
structure AprsState (F : Type) where
  g_sendingMessage : Bool
  g_leadingOnesLeft : Nat
  g_leadingWarmUpLeft : Nat
  g_currentBitstreamPos : BitstreamPos
  g_currentBitstreamSize : BitstreamPos
  g_currentBitstream : Buffer
  g_currentFrequencyIsF1200 : Bool
  g_currentF1200Frame : F
  g_currentF2200Frame : F
  g_currentSymbolPulsesCount : Nat
  g_aprsMessageId : Nat
  g_aprsPayloadBuffer : Buffer
  hardwareCalls : List HardwareCall

/-- The assignments of `sendAprsMessage` before the message is built (aprs_board.c,
lines 79-91). -/
def resetTransmission {F : Type} [Zero F] (cfg : Config) (s : AprsState F) : AprsState F :=
  { s with
    g_leadingOnesLeft := cfg.LEADING_ONES_COUNT_TO_CANCEL_PREVIOUS_PACKET % 65536
    g_leadingWarmUpLeft := cfg.LEADING_WARMUP_AMPLITUDE_DC_PULSES_COUNT % 65536
    g_currentBitstreamSize := { bitstreamCharIdx := 0, bitstreamCharBitIdx := 0 }
    g_currentBitstreamPos := { bitstreamCharIdx := 0, bitstreamCharBitIdx := 0 }
    g_currentF1200Frame := 0
    g_currentF2200Frame := 0
    g_currentFrequencyIsF1200 := true
    g_currentSymbolPulsesCount := cfg.F1200_PWM_PULSES_COUNT_PER_SYMBOL % 256 }

/-- The call of `generateMessage` that `sendAprsMessage` makes (aprs_board.c,
lines 93-99) on the state `s`. -/
def sendAprsMessageBuild {F : Type} (cfg : Config) (s : AprsState F) (gpsDataSource : Nat)
    (pGpsData : Option GpsData) (pTelemetry : Telemetry) : GenerateResult :=
  generateMessage cfg s.g_aprsMessageId s.g_aprsPayloadBuffer (some CALLSIGN_SOURCE)
    gpsDataSource pGpsData pTelemetry (some s.g_currentBitstream)
    (cfg.APRS_BITSTREAM_MAX_LEN % 65536) (some s.g_currentBitstreamSize)

/-- `sendAprsMessage` (aprs_board.c, lines 72-110): the return value and the state after
the call. -/
def sendAprsMessage {F : Type} [Zero F] (cfg : Config) (s : AprsState F) (gpsDataSource : Nat)
    (pGpsData : Option GpsData) (pTelemetry : Telemetry) : Bool × AprsState F :=
  if s.g_sendingMessage then (false, s)
  else
    let s1 := resetTransmission cfg s
    let r := sendAprsMessageBuild cfg s1 gpsDataSource pGpsData pTelemetry
    let s2 : AprsState F :=
      { s1 with
        g_currentBitstream := r.bitstreamBuffer.getD s1.g_currentBitstream
        g_currentBitstreamSize := r.bitstreamSize.getD s1.g_currentBitstreamSize
        g_aprsMessageId := r.g_aprsMessageId
        g_aprsPayloadBuffer := r.g_aprsPayloadBuffer }
    if r.result then
      (true,
        { s2 with
          g_sendingMessage := true
          hardwareCalls :=
            s2.hardwareCalls ++ [HardwareCall.enableHx1, HardwareCall.enableAprsPwm] })
    else (false, s2)

/-! ## Reference CRC-16/X.25 -/

/-- One shift of the reflected CRC register: shift right, and xor the reflected
polynomial 0x8408 when the bit shifted out is one. -/
def crc16Shift (crc : Nat) : Nat :=
  if crc % 2 = 1 then (crc >>> 1) ^^^ 0x8408 else crc >>> 1

/-- Reference CRC-16/X.25 update by one byte, in the byte-wise form: xor the byte into the
register, then shift eight times. -/
def crc16X25Byte (crc byte : Nat) : Nat := crc16Shift^[8] (crc ^^^ byte)

/-- Reference CRC-16/X.25 register after a byte sequence, from the initial value 0xFFFF
(before the final complement). -/
def crc16X25Register (bytes : List Nat) : Nat := bytes.foldl crc16X25Byte 0xFFFF

/-- Reference CRC-16/X.25 of a byte sequence: the register complemented. -/
def crc16X25 (bytes : List Nat) : Nat := crc16X25Register bytes ^^^ 0xFFFF

/-- The bytes of a frame between the flags, as they are transmitted: the three addresses
with their characters shifted left by one bit and their SSID bytes, control 0x03, PID 0xF0
and the information field. -/
def frameBytes (callsignSource : Callsign) (info : List Nat) : List Nat :=
  CALLSIGN_DESTINATION_1.callsign.map (shiftedByte SHIFT_ONE_LEFT) ++ [0xE2] ++
    callsignSource.callsign.map (shiftedByte SHIFT_ONE_LEFT) ++ [callsignSource.ssid % 256] ++
    CALLSIGN_DESTINATION_2.callsign.map (shiftedByte SHIFT_ONE_LEFT) ++ [0xE5] ++
    [0x03, 0xF0] ++ info.map (fun b => b % 256)

/-- The flag byte 0x7E, `count` times, as bits. -/
def flagBits (count : Nat) : List Bool := (List.replicate count (byteBits 0x7E)).flatten

/-- A configuration used in the examples. -/
def exampleConfig : Config :=
  { PREFIX_FLAGS_COUNT := 2
    SUFFIX_FLAGS_COUNT := 1
    APRS_PAYLOAD_LEN := 128
    APRS_BITSTREAM_MAX_LEN := 200
    LEADING_ONES_COUNT_TO_CANCEL_PREVIOUS_PACKET := 3
    LEADING_WARMUP_AMPLITUDE_DC_PULSES_COUNT := 4
    F1200_PWM_PULSES_COUNT_PER_SYMBOL := 32 }

/-- The state at start-up (aprs_board.c, lines 50-65), with rational phases. -/
def idleState : AprsState ℚ :=
  { g_sendingMessage := false
    g_leadingOnesLeft := 0
    g_leadingWarmUpLeft := 0
    g_currentBitstreamPos := { bitstreamCharIdx := 0, bitstreamCharBitIdx := 0 }
    g_currentBitstreamSize := { bitstreamCharIdx := 0, bitstreamCharBitIdx := 0 }
    g_currentBitstream := fun _ => 0
    g_currentFrequencyIsF1200 := true
    g_currentF1200Frame := 0
    g_currentF2200Frame := 0
    g_currentSymbolPulsesCount := 0
    g_aprsMessageId := 0
    g_aprsPayloadBuffer := fun _ => 0
    hardwareCalls := [] }

/-- The frame between the flags with its two FCS bytes: the low byte, then the high byte
of the complemented reference CRC of `frameBytes`. -/
def frameWithFcs (callsignSource : Callsign) (info : List Nat) : List Nat :=
  frameBytes callsignSource info ++
    [crc16X25 (frameBytes callsignSource info) &&& 0xFF,
      (crc16X25 (frameBytes callsignSource info) >>> 8) &&& 0xFF]

/-- The logical line bits of a whole message: the prefix flags, the stuffed bits of the
frame with its FCS, the suffix flags. -/
def frameLine (cfg : Config) (callsignSource : Callsign) (info : List Nat) : List Bool :=
  flagBits cfg.PREFIX_FLAGS_COUNT ++
    stuffBits ST_PERFORM_STUFFING 0 ((frameWithFcs callsignSource info).flatMap byteBits) ++
    flagBits cfg.SUFFIX_FLAGS_COUNT

/-- The buffer and the encoding data once the logical line bits `line` have been written
from offset 0 on into `buffer0`, starting from the physical bit 1, with run counter `n`
and CRC accumulator `fcs`. -/
def lineState (buffer0 : Buffer) (line : List Bool) (n fcs : Nat) : Buffer × EncodingData :=
  (writeBits buffer0 0 (nrziEncode true line),
    { bitstreamSize := posOf line.length
      lastBit := nrziLast true line
      numberOfOnes := n
      fcs := fcs })

/-- The information field of the spec's example with message index 7 and GPS source 1, as
`createPacketPayload` leaves it in a zeroed buffer of `APRS_PAYLOAD_LEN` bytes. -/
def exampleInfo : List Nat :=
  bufferBytes
    (createPacketPayload 1 exampleGpsData exampleTelemetry 7 (fun _ => 0)
      (exampleConfig.APRS_PAYLOAD_LEN % 256)).2
    (createPacketPayload 1 exampleGpsData exampleTelemetry 7 (fun _ => 0)
      (exampleConfig.APRS_PAYLOAD_LEN % 256)).1

/-! ## Payload layout -/

/-- The numeric fields fit the widths of their conversions in the format strings of
`createPacketPayload`: two digits for hours, minutes, seconds, latitude degrees and whole
minutes (the hundredths of minutes always do), three for longitude degrees, course, speed,
message index, GPS source, temperature and voltage, five for the altitude. -/
@[reducible] def fieldsFit (gpsDataSource : Nat) (pGpsData : GpsData) (pTelemetry : Telemetry)
    (messageIdx : Nat) : Prop :=
  pGpsData.gpggaData.utcTime.hours < 100 ∧
  pGpsData.gpggaData.utcTime.minutes < 100 ∧
  pGpsData.gpggaData.utcTime.seconds / 100 < 100 ∧
  pGpsData.gpggaData.latitude.degrees < 100 ∧
  pGpsData.gpggaData.latitude.minutes / 1000000 < 100 ∧
  pGpsData.gpggaData.longitude.degrees < 1000 ∧
  pGpsData.gpggaData.longitude.minutes / 1000000 < 100 ∧
  pGpsData.gpvtgData.trueCourseDegrees / 10 < 1000 ∧
  pGpsData.gpvtgData.speedKph / 10 < 1000 ∧
  messageIdx < 1000 ∧
  gpsDataSource < 1000 ∧
  pTelemetry.cpuTemperature / 10 < 1000 ∧
  pTelemetry.voltage / 10 < 1000 ∧
  (pGpsData.gpggaData.altitudeMslMeters % 4294967296) / 10 < 100000

/-- The complete information field: the characters that `createPacketPayload` produces
when every capacity check passes. -/
def informationField (gpsDataSource : Nat) (pGpsData : GpsData) (pTelemetry : Telemetry)
    (messageIdx : Nat) : List Nat :=
  (if pGpsData.gpggaData.latitude.isValid && pGpsData.gpggaData.longitude.isValid then
    (if pGpsData.gpggaData.utcTime.isValid then timestampChars pGpsData else asciiBytes "!") ++
      positionChars pGpsData ++ courseSpeedChars pGpsData
  else []) ++ telemetryChars gpsDataSource pGpsData pTelemetry messageIdx

/-! ## Waveform synthesizer -/

/-- What `Pwm10Handler` and `normalizePulseWidth` take from outside `aprs_board.c`: the
functions `sinf`, `cosf` and `asinf` of `math.h`, the conversion `(uint32_t)` of a `float`,
and the constants of `aprs_board_impl.h`, which is not part of the sources. `F` is the type
of the `float` values. -/
structure Synthesizer (F : Type) where
  sinf : F → F
  cosf : F → F
  asinf : F → F
  toUInt32 : F → Nat
  PWM_MIN_PULSE_WIDTH : Nat
  PWM_MAX_PULSE_WIDTH : Nat
  PWM_STEP_SIZE : F
  AMPLITUDE_SHIFT : F
  AMPLITUDE_SCALER : F
  RECIPROCAL_AMPLITUDE_SCALER : F
  ANGULAR_FREQUENCY_F1200 : F
  ANGULAR_FREQUENCY_F2200 : F
  RECIPROCAL_ANGULAR_FREQUENCY_F1200 : F
  RECIPROCAL_ANGULAR_FREQUENCY_F2200 : F
  HALF_PERIOD_F1200 : F
  HALF_PERIOD_F2200 : F
  F2200_PWM_PULSES_COUNT_PER_SYMBOL : F

/-- The macro `SINE(v)` (aprs_board.c, line 19). -/
def SINE {F : Type} (m : Synthesizer F) (v : F) : F := m.sinf v

/-- The macro `COSINE_G_THAN_0(v)` (aprs_board.c, line 20). -/
def COSINE_G_THAN_0 {F : Type} [Zero F] [LE F] [DecidableRel (LE.le : F → F → Prop)]
    (m : Synthesizer F) (v : F) : Bool :=
  decide (m.cosf v ≥ 0)

/-- The macro `INVERSE_SINE(v)` (aprs_board.c, line 21). -/
def INVERSE_SINE {F : Type} (m : Synthesizer F) (v : F) : F := m.asinf v

/-- `normalizePulseWidth` (aprs_board.c, lines 410-421). -/
def normalizePulseWidth {F : Type} [NatCast F] [LT F] [DecidableRel (LT.lt : F → F → Prop)]
    (m : Synthesizer F) (width : F) : F :=
  if width < (m.PWM_MIN_PULSE_WIDTH : F) then (m.PWM_MIN_PULSE_WIDTH : F)
  else if width > (m.PWM_MAX_PULSE_WIDTH : F) then (m.PWM_MAX_PULSE_WIDTH : F)
  else width

/-- The phase given to the tone that becomes active at a tone switch (aprs_board.c, lines
462-478 for the switch to 2200 Hz, lines 485-501 for the switch to 1200 Hz): `frame` is the
phase of the outgoing tone and `angularFrequency` its angular frequency; the other three
constants are those of the new tone. -/
def switchedFrame {F : Type} [Add F] [Sub F] [Mul F] [Zero F] [NatCast F] [LT F] [LE F]
    [DecidableRel (LT.lt : F → F → Prop)] [DecidableRel (LE.le : F → F → Prop)]
    (m : Synthesizer F)
    (angularFrequency reciprocalAngularFrequency halfPeriod pulsesCount frame : F) : F :=
  let trigArg := angularFrequency * frame
  let pulseWidth :=
    normalizePulseWidth m (m.AMPLITUDE_SHIFT + m.AMPLITUDE_SCALER * SINE m trigArg)
  let pulsePositive := COSINE_G_THAN_0 m trigArg
  let newFrame :=
    if pulsePositive then
      reciprocalAngularFrequency *
        INVERSE_SINE m (m.RECIPROCAL_AMPLITUDE_SCALER * (pulseWidth - m.AMPLITUDE_SHIFT))
    else
      halfPeriod - reciprocalAngularFrequency *
        INVERSE_SINE m (m.RECIPROCAL_AMPLITUDE_SCALER * (pulseWidth - m.AMPLITUDE_SHIFT))
  if newFrame < 0 then newFrame + pulsesCount else newFrame

/-- The tone sample of a tick (aprs_board.c, lines 510-531): the pulse width of the active
tone is written, its phase advances by `PWM_STEP_SIZE` and wraps, and the pulse count of
the symbol, a `uint8_t`, is incremented. -/
def toneSample {F : Type} [Add F] [Sub F] [Mul F] [NatCast F] [LE F]
    [DecidableRel (LE.le : F → F → Prop)] (cfg : Config) (m : Synthesizer F)
    (s : AprsState F) : AprsState F :=
  if s.g_currentFrequencyIsF1200 then
    let pulseWidth := m.toUInt32
      (m.AMPLITUDE_SHIFT +
        m.AMPLITUDE_SCALER * SINE m (m.ANGULAR_FREQUENCY_F1200 * s.g_currentF1200Frame))
    let frame := s.g_currentF1200Frame + m.PWM_STEP_SIZE
    { s with
      hardwareCalls := s.hardwareCalls ++ [HardwareCall.setAprsPwmPulseWidth pulseWidth]
      g_currentF1200Frame :=
        if frame ≥ (cfg.F1200_PWM_PULSES_COUNT_PER_SYMBOL : F) then
          frame - (cfg.F1200_PWM_PULSES_COUNT_PER_SYMBOL : F)
        else frame
      g_currentSymbolPulsesCount := (s.g_currentSymbolPulsesCount + 1) % 256 }
  else
    let pulseWidth := m.toUInt32
      (m.AMPLITUDE_SHIFT +
        m.AMPLITUDE_SCALER * SINE m (m.ANGULAR_FREQUENCY_F2200 * s.g_currentF2200Frame))
    let frame := s.g_currentF2200Frame + m.PWM_STEP_SIZE
    { s with
      hardwareCalls := s.hardwareCalls ++ [HardwareCall.setAprsPwmPulseWidth pulseWidth]
      g_currentF2200Frame :=
        if frame ≥ m.F2200_PWM_PULSES_COUNT_PER_SYMBOL then
          frame - m.F2200_PWM_PULSES_COUNT_PER_SYMBOL
        else frame
      g_currentSymbolPulsesCount := (s.g_currentSymbolPulsesCount + 1) % 256 }

/-- The test of `Pwm10Handler` for the end of the bitstream (aprs_board.c, lines 439-440):
both indices of the cursor are at or above those of the fill size. -/
def cursorAtEnd {F : Type} (s : AprsState F) : Bool :=
  decide (s.g_currentBitstreamPos.bitstreamCharIdx ≥ s.g_currentBitstreamSize.bitstreamCharIdx) &&
    decide (s.g_currentBitstreamPos.bitstreamCharBitIdx ≥
      s.g_currentBitstreamSize.bitstreamCharBitIdx)

/-- The streaming branch of a symbol boundary (aprs_board.c, lines 456-506): the bit at
the cursor selects the tone, a tone switch recomputes the phase of the new tone, and the
cursor advances. -/
def streamSymbol {F : Type} [Add F] [Sub F] [Mul F] [Zero F] [NatCast F] [LT F] [LE F]
    [DecidableRel (LT.lt : F → F → Prop)] [DecidableRel (LE.le : F → F → Prop)]
    (cfg : Config) (m : Synthesizer F)
    (s : AprsState F) : AprsState F :=
  let isOne := readBufferBit s.g_currentBitstream s.g_currentBitstreamPos
  let s1 : AprsState F :=
    if !isOne && s.g_currentFrequencyIsF1200 then
      -- make sure new zero bit frequency is 2200
      { s with
        g_currentF2200Frame :=
          switchedFrame m m.ANGULAR_FREQUENCY_F1200 m.RECIPROCAL_ANGULAR_FREQUENCY_F2200
            m.HALF_PERIOD_F2200 m.F2200_PWM_PULSES_COUNT_PER_SYMBOL s.g_currentF1200Frame
        g_currentFrequencyIsF1200 := false }
    else if isOne && !s.g_currentFrequencyIsF1200 then
      -- make sure new one bit frequency is 1200
      { s with
        g_currentF1200Frame :=
          switchedFrame m m.ANGULAR_FREQUENCY_F2200 m.RECIPROCAL_ANGULAR_FREQUENCY_F1200
            m.HALF_PERIOD_F1200 (cfg.F1200_PWM_PULSES_COUNT_PER_SYMBOL : F)
            s.g_currentF2200Frame
        g_currentFrequencyIsF1200 := true }
    else s
  { s1 with g_currentBitstreamPos := advanceBitstreamBit s1.g_currentBitstreamPos }

/-- `Pwm10Handler` (aprs_board.c, lines 423-533): the state after one invocation. -/
def Pwm10Handler {F : Type} [Add F] [Sub F] [Mul F] [Zero F] [NatCast F] [LT F] [LE F]
    [DecidableRel (LT.lt : F → F → Prop)] [DecidableRel (LE.le : F → F → Prop)]
    (cfg : Config) (m : Synthesizer F)
    (s : AprsState F) : AprsState F :=
  let s0 : AprsState F :=
    { s with hardwareCalls := s.hardwareCalls ++ [HardwareCall.clearAprsPwmInterrupt] }
  if s0.g_leadingWarmUpLeft ≠ 0 then
    -- make sure HX1 has a chance to warm up
    { s0 with
      hardwareCalls :=
        s0.hardwareCalls ++ [HardwareCall.setAprsPwmPulseWidth m.PWM_MIN_PULSE_WIDTH]
      g_leadingWarmUpLeft := s0.g_leadingWarmUpLeft - 1 }
  else if s0.g_currentSymbolPulsesCount ≥ cfg.F1200_PWM_PULSES_COUNT_PER_SYMBOL then
    let s1 : AprsState F := { s0 with g_currentSymbolPulsesCount := 0 }
    if !s1.g_sendingMessage || cursorAtEnd s1 then
      { s1 with
        hardwareCalls :=
          s1.hardwareCalls ++
            [HardwareCall.disableAprsPwm, HardwareCall.disableHx1,
              HardwareCall.setAprsPwmPulseWidth m.PWM_MIN_PULSE_WIDTH]
        g_sendingMessage := false }
    else if s1.g_leadingOnesLeft ≠ 0 then
      -- send ones to stabilize HX1 and cancel any previously not-fully received packets
      toneSample cfg m
        { s1 with
          g_currentFrequencyIsF1200 := true
          g_leadingOnesLeft := s1.g_leadingOnesLeft - 1 }
    else toneSample cfg m (streamSymbol cfg m s1)
  else toneSample cfg m s0

/-- The state after `ticks` invocations of `Pwm10Handler`. -/
def runTicks {F : Type} [Add F] [Sub F] [Mul F] [Zero F] [NatCast F] [LT F] [LE F]
    [DecidableRel (LT.lt : F → F → Prop)] [DecidableRel (LE.le : F → F → Prop)]
    (cfg : Config) (m : Synthesizer F) :
    Nat → AprsState F → AprsState F
  | 0, s => s
  | ticks + 1, s => runTicks cfg m ticks (Pwm10Handler cfg m s)

/-- A synthesizer over the rationals for the examples: the three functions are the
constant 0, which is the value of the sine at the phase 0 where the examples evaluate it. -/
def exampleSynthesizer : Synthesizer ℚ :=
  { sinf := fun _ => 0
    cosf := fun _ => 1
    asinf := fun _ => 0
    toUInt32 := fun x => x.floor.toNat % 4294967296
    PWM_MIN_PULSE_WIDTH := 1
    PWM_MAX_PULSE_WIDTH := 100
    PWM_STEP_SIZE := 1
    AMPLITUDE_SHIFT := 50
    AMPLITUDE_SCALER := 49
    RECIPROCAL_AMPLITUDE_SCALER := 1 / 49
    ANGULAR_FREQUENCY_F1200 := 1
    ANGULAR_FREQUENCY_F2200 := 2
    RECIPROCAL_ANGULAR_FREQUENCY_F1200 := 1
    RECIPROCAL_ANGULAR_FREQUENCY_F2200 := 1 / 2
    HALF_PERIOD_F1200 := 16
    HALF_PERIOD_F2200 := 8
    F2200_PWM_PULSES_COUNT_PER_SYMBOL := 16 }

/-- The control part of the transmission state: sending flag, warm-up ticks left, leading
ones left, linear offset of the cursor, pulse count of the current symbol, and the fill
size. -/
def Control {F : Type} (s : AprsState F) (size : BitstreamPos) (sending : Bool)
    (warmUp ones cursor count : Nat) : Prop :=
  s.g_sendingMessage = sending ∧ s.g_leadingWarmUpLeft = warmUp ∧ s.g_leadingOnesLeft = ones ∧
    s.g_currentBitstreamPos = posOf cursor ∧ s.g_currentSymbolPulsesCount = count ∧
    s.g_currentBitstreamSize = size

/-- The state that `sendAprsMessage` leaves for the spec's example, called at start-up. -/
def exampleTransmission : AprsState ℚ :=
  (sendAprsMessage exampleConfig idleState 1 (some exampleGpsData) exampleTelemetry).2

/-- A synthesizer over the rationals whose amplitude exceeds the pulse-width range: the
functions have the values of sine, cosine and inverse sine at a quarter period, where the
sine is 1, and `AMPLITUDE_SHIFT + AMPLITUDE_SCALER` is above `PWM_MAX_PULSE_WIDTH`. -/
def peakSynthesizer : Synthesizer ℚ :=
  { exampleSynthesizer with
    sinf := fun _ => 1
    cosf := fun _ => 0
    asinf := fun _ => 0
    AMPLITUDE_SHIFT := 80 }

/-- A synthesizer whose constants are consistent with 32 ticks per period of the 1200 Hz
tone: the angular frequencies are `pi / 16` and `11 * pi / 96` per tick, with their
reciprocals, half periods and periods in ticks. The functions of `math.h`, the conversion
to `uint32_t` and the value of `pi` are parameters. -/
def continuousSynthesizer {F : Type} [Field F] (sinf cosf asinf : F → F) (toUInt32 : F → Nat)
    (pi : F) : Synthesizer F :=
  { sinf := sinf
    cosf := cosf
    asinf := asinf
    toUInt32 := toUInt32
    PWM_MIN_PULSE_WIDTH := 1
    PWM_MAX_PULSE_WIDTH := 100
    PWM_STEP_SIZE := 1
    AMPLITUDE_SHIFT := 50
    AMPLITUDE_SCALER := 49
    RECIPROCAL_AMPLITUDE_SCALER := 1 / 49
    ANGULAR_FREQUENCY_F1200 := pi / 16
    ANGULAR_FREQUENCY_F2200 := 11 * pi / 96
    RECIPROCAL_ANGULAR_FREQUENCY_F1200 := 16 / pi
    RECIPROCAL_ANGULAR_FREQUENCY_F2200 := 96 / (11 * pi)
    HALF_PERIOD_F1200 := 16
    HALF_PERIOD_F2200 := 96 / 11
    F2200_PWM_PULSES_COUNT_PER_SYMBOL := 192 / 11 }

/-- A state at the first symbol boundary of the streaming phase: sending, no warm-up tick
and no leading one left, the cursor at the start of a bitstream of 8 zero bits, the 1200 Hz
tone active at phase 0, and the pulse counter at 32. -/
def toneSwitchState {F : Type} [Zero F] : AprsState F :=
  { g_sendingMessage := true
    g_leadingOnesLeft := 0
    g_leadingWarmUpLeft := 0
    g_currentBitstreamPos := { bitstreamCharIdx := 0, bitstreamCharBitIdx := 0 }
    g_currentBitstreamSize := { bitstreamCharIdx := 1, bitstreamCharBitIdx := 0 }
    g_currentBitstream := fun _ => 0
    g_currentFrequencyIsF1200 := true
    g_currentF1200Frame := 0
    g_currentF2200Frame := 0
    g_currentSymbolPulsesCount := 32
    g_aprsMessageId := 0
    g_aprsPayloadBuffer := fun _ => 0
    hardwareCalls := [] }

/-! ## Decimal fields -/

/-- The number that a string of decimal digit characters denotes. -/
def decimalValue (chars : List Nat) : Nat :=
  chars.foldl (fun value c => 10 * value + (c - 48)) 0

/-- What the C standard asks of the conversion `%0<width>u` for an `unsigned int` of the
given value: the characters are decimal digits, the number they denote is the value, there
are at least `width` of them, and more than `width` only when the first is not a zero. -/
def IsZeroPadded (width value : Nat) (chars : List Nat) : Prop :=
  (∀ c ∈ chars, 48 ≤ c ∧ c ≤ 57) ∧ decimalValue chars = value ∧ width ≤ chars.length ∧
    (width < chars.length → chars.head? ≠ some 48)

instance (width value : Nat) (chars : List Nat) : Decidable (IsZeroPadded width value chars) := by
  unfold IsZeroPadded
  infer_instance

/-- The phase update of a tone sample (aprs_board.c, lines 514-518 and 524-528): the phase
advances by `step` and, when it has reached `pulsesCount`, is reduced by it once. -/
def advancePhase {F : Type} [Add F] [Sub F] [LE F] [DecidableRel (LE.le : F → F → Prop)]
    (step pulsesCount frame : F) : F :=
  if frame + step ≥ pulsesCount then frame + step - pulsesCount else frame + step

/-! ## The C type `float` -/

/-- The integer nearest to a rational, the even one of the two when it is halfway. -/
def roundHalfEven (x : ℚ) : ℤ :=
  if x - ⌊x⌋ < 1 / 2 then ⌊x⌋
  else if 1 / 2 < x - ⌊x⌋ then ⌊x⌋ + 1
  else if ⌊x⌋ % 2 = 0 then ⌊x⌋
  else ⌊x⌋ + 1

/-- The exponent of the unit in the last place of the binary32 format at `x`: with 24
significant bits it is 23 below the binary exponent of `x`, which is taken as -126 for the
subnormal numbers. -/
def ulpExponent (x : ℚ) : ℤ := max (Int.log 2 |x|) (-126) - 23

/-- The value of the C type `float` (IEEE 754 binary32, round to nearest, ties to even) that
an operation with the exact result `x` delivers, for `x` of a magnitude below `2 ^ 128`. -/
def roundBinary32 (x : ℚ) : ℚ :=
  (roundHalfEven (x / (2 : ℚ) ^ ulpExponent x) : ℚ) * (2 : ℚ) ^ ulpExponent x

/-- A value of the C type `float`, as the rational it stands for. The operations below
round their exact result to binary32, as the single-precision unit does. -/
structure Binary32 where
  toRat : ℚ
  deriving DecidableEq

instance : Add Binary32 := ⟨fun a b => ⟨roundBinary32 (a.toRat + b.toRat)⟩⟩

instance : Sub Binary32 := ⟨fun a b => ⟨roundBinary32 (a.toRat - b.toRat)⟩⟩

instance : Mul Binary32 := ⟨fun a b => ⟨roundBinary32 (a.toRat * b.toRat)⟩⟩

instance : Zero Binary32 := ⟨⟨0⟩⟩

instance : NatCast Binary32 := ⟨fun n => ⟨roundBinary32 n⟩⟩

instance : LT Binary32 := ⟨fun a b => a.toRat < b.toRat⟩

instance : LE Binary32 := ⟨fun a b => a.toRat ≤ b.toRat⟩

instance : DecidableRel (LT.lt : Binary32 → Binary32 → Prop) :=
  fun a b => inferInstanceAs (Decidable (a.toRat < b.toRat))

instance : DecidableRel (LE.le : Binary32 → Binary32 → Prop) :=
  fun a b => inferInstanceAs (Decidable (a.toRat ≤ b.toRat))

/-- A configuration with 44 ticks per symbol. -/
def floatConfig : Config :=
  { exampleConfig with F1200_PWM_PULSES_COUNT_PER_SYMBOL := 44 }

/-- A synthesizer in `float` arithmetic for 44 ticks per symbol: a period of the 1200 Hz
tone takes 44 ticks and a period of the 2200 Hz tone takes `44 * 1200 / 2200 = 24` ticks.
The angular frequencies are `pi / 22` and `pi / 12` per tick with 22/7 for `pi`, and the
functions of `math.h` have their values at the phase 0. -/
def floatSynthesizer : Synthesizer Binary32 :=
  { sinf := fun _ => ⟨0⟩
    cosf := fun _ => ⟨1⟩
    asinf := fun _ => ⟨0⟩
    toUInt32 := fun x => x.toRat.floor.toNat % 4294967296
    PWM_MIN_PULSE_WIDTH := 1
    PWM_MAX_PULSE_WIDTH := 100
    PWM_STEP_SIZE := ⟨1⟩
    AMPLITUDE_SHIFT := ⟨50⟩
    AMPLITUDE_SCALER := ⟨49⟩
    RECIPROCAL_AMPLITUDE_SCALER := ⟨roundBinary32 (1 / 49)⟩
    ANGULAR_FREQUENCY_F1200 := ⟨roundBinary32 (1 / 7)⟩
    ANGULAR_FREQUENCY_F2200 := ⟨roundBinary32 (11 / 42)⟩
    RECIPROCAL_ANGULAR_FREQUENCY_F1200 := ⟨7⟩
    RECIPROCAL_ANGULAR_FREQUENCY_F2200 := ⟨roundBinary32 (42 / 11)⟩
    HALF_PERIOD_F1200 := ⟨22⟩
    HALF_PERIOD_F2200 := ⟨12⟩
    F2200_PWM_PULSES_COUNT_PER_SYMBOL := ⟨24⟩ }

/-- A state at the boundary of a symbol of a leading one, with 44 ticks per symbol: the
1200 Hz tone is active at the given phase and stays for the symbol. -/
def leadingOneState (frame : Binary32) : AprsState Binary32 :=
  { (toneSwitchState : AprsState Binary32) with
    g_leadingOnesLeft := 1
    g_currentSymbolPulsesCount := 44
    g_currentF1200Frame := frame }

/-- A state at the boundary of a symbol of a zero bit, with 44 ticks per symbol: the
2200 Hz tone is active at the given phase and stays for the symbol. -/
def zeroBitState (frame : Binary32) : AprsState Binary32 :=
  { (toneSwitchState : AprsState Binary32) with
    g_currentFrequencyIsF1200 := false
    g_currentSymbolPulsesCount := 44
    g_currentF2200Frame := frame }

/-! ## Order of the actions of the handler -/

/-- An action of `Pwm10Handler` that is visible outside it: a call of a hardware function
or an assignment to the flag `g_sendingMessage`. -/
inductive HandlerAction where
  | call (c : HardwareCall)
  | setSendingMessage (value : Bool)
  deriving DecidableEq, Repr

/-- The hardware calls among a list of actions, in order. -/
def actionCalls : List HandlerAction → List HardwareCall
  | [] => []
  | HandlerAction.call c :: rest => c :: actionCalls rest
  | HandlerAction.setSendingMessage _ :: rest => actionCalls rest

/-- The globals of `aprs_board.c` together with the actions performed so far, in the order
in which the statements of the program perform them. -/
structure TracedState (F : Type) where
  state : AprsState F
  actions : List HandlerAction

/-- A statement that calls a hardware function. -/
def TracedState.call {F : Type} (t : TracedState F) (c : HardwareCall) : TracedState F :=
  { state := { t.state with hardwareCalls := t.state.hardwareCalls ++ [c] }
    actions := t.actions ++ [HandlerAction.call c] }

/-- The statement `g_sendingMessage = value`. -/
def TracedState.setSendingMessage {F : Type} (t : TracedState F) (value : Bool) :
    TracedState F :=
  { state := { t.state with g_sendingMessage := value }
    actions := t.actions ++ [HandlerAction.setSendingMessage value] }

/-- Statements that assign to the other globals: no action is recorded. -/
def TracedState.assign {F : Type} (t : TracedState F) (f : AprsState F → AprsState F) :
    TracedState F :=
  { t with state := f t.state }

/-- The tone sample of a tick (aprs_board.c, lines 510-532), statement by statement: the
call `setAprsPwmPulseWidth(pulseWidth)`, then the update of the phase, then the increment
of the pulse count. -/
def toneSampleTraced {F : Type} [Add F] [Sub F] [Mul F] [NatCast F] [LE F]
    [DecidableRel (LE.le : F → F → Prop)] (cfg : Config) (m : Synthesizer F)
    (t : TracedState F) : TracedState F :=
  if t.state.g_currentFrequencyIsF1200 then
    let pulseWidth := m.toUInt32
      (m.AMPLITUDE_SHIFT +
        m.AMPLITUDE_SCALER * SINE m (m.ANGULAR_FREQUENCY_F1200 * t.state.g_currentF1200Frame))
    let t1 := t.call (HardwareCall.setAprsPwmPulseWidth pulseWidth)
    let t2 := t1.assign (fun s =>
      { s with
        g_currentF1200Frame :=
          if s.g_currentF1200Frame + m.PWM_STEP_SIZE ≥
              (cfg.F1200_PWM_PULSES_COUNT_PER_SYMBOL : F) then
            s.g_currentF1200Frame + m.PWM_STEP_SIZE -
              (cfg.F1200_PWM_PULSES_COUNT_PER_SYMBOL : F)
          else s.g_currentF1200Frame + m.PWM_STEP_SIZE })
    t2.assign (fun s =>
      { s with g_currentSymbolPulsesCount := (s.g_currentSymbolPulsesCount + 1) % 256 })
  else
    let pulseWidth := m.toUInt32
      (m.AMPLITUDE_SHIFT +
        m.AMPLITUDE_SCALER * SINE m (m.ANGULAR_FREQUENCY_F2200 * t.state.g_currentF2200Frame))
    let t1 := t.call (HardwareCall.setAprsPwmPulseWidth pulseWidth)
    let t2 := t1.assign (fun s =>
      { s with
        g_currentF2200Frame :=
          if s.g_currentF2200Frame + m.PWM_STEP_SIZE ≥ m.F2200_PWM_PULSES_COUNT_PER_SYMBOL then
            s.g_currentF2200Frame + m.PWM_STEP_SIZE - m.F2200_PWM_PULSES_COUNT_PER_SYMBOL
          else s.g_currentF2200Frame + m.PWM_STEP_SIZE })
    t2.assign (fun s =>
      { s with g_currentSymbolPulsesCount := (s.g_currentSymbolPulsesCount + 1) % 256 })

/-- `Pwm10Handler` (aprs_board.c, lines 423-533), statement by statement in the order of
the source, recording the hardware calls and the assignments to `g_sendingMessage`. -/
def Pwm10HandlerTraced {F : Type} [Add F] [Sub F] [Mul F] [Zero F] [NatCast F] [LT F] [LE F]
    [DecidableRel (LT.lt : F → F → Prop)] [DecidableRel (LE.le : F → F → Prop)]
    (cfg : Config) (m : Synthesizer F) (t : TracedState F) : TracedState F :=
  let t0 := t.call HardwareCall.clearAprsPwmInterrupt
  if t0.state.g_leadingWarmUpLeft ≠ 0 then
    -- make sure HX1 has a chance to warm up
    let t1 := t0.call (HardwareCall.setAprsPwmPulseWidth m.PWM_MIN_PULSE_WIDTH)
    t1.assign (fun s => { s with g_leadingWarmUpLeft := s.g_leadingWarmUpLeft - 1 })
  else if t0.state.g_currentSymbolPulsesCount ≥ cfg.F1200_PWM_PULSES_COUNT_PER_SYMBOL then
    let t1 := t0.assign (fun s => { s with g_currentSymbolPulsesCount := 0 })
    if !t1.state.g_sendingMessage || cursorAtEnd t1.state then
      let t2 := t1.call HardwareCall.disableAprsPwm
      let t3 := t2.call HardwareCall.disableHx1
      let t4 := t3.call (HardwareCall.setAprsPwmPulseWidth m.PWM_MIN_PULSE_WIDTH)
      t4.setSendingMessage false
    else if t1.state.g_leadingOnesLeft ≠ 0 then
      -- send ones to stabilize HX1 and cancel any previously not-fully received packets
      let t2 := t1.assign (fun s => { s with g_currentFrequencyIsF1200 := true })
      let t3 := t2.assign (fun s => { s with g_leadingOnesLeft := s.g_leadingOnesLeft - 1 })
      toneSampleTraced cfg m t3
    else toneSampleTraced cfg m (t1.assign (streamSymbol cfg m))
  else toneSampleTraced cfg m t0

/-- A state at the end of a transmission: sending, no warm-up tick and no leading one
left, the pulse counter at 32 and the cursor at the fill size of one byte. -/
def endOfTransmissionState : AprsState ℚ :=
  { (toneSwitchState : AprsState ℚ) with
    g_currentBitstreamPos := { bitstreamCharIdx := 1, bitstreamCharBitIdx := 0 } }

/-! ## I2C slave handler -/

/-- What `I2cSlaveHandler` and `updateI2CEEPROM` take from outside `i2c.c`: the number of
registers and the register indices of `i2c.h`, the status values of the driver library,
whether `EEPROM_ENABLED` is defined, and the function `eepromRead` of `eeprom.h`. None of
them is part of the sources, so they are parameters. -/
structure I2cConfig where
  I2C_NUM_REGS : Nat
  REG_EEADDR_0 : Nat
  REG_EEADDR_1 : Nat
  REG_EEDATA_0 : Nat
  REG_DATA_AVAILABLE : Nat
  REG_LON_0 : Nat
  REG_HDG_1 : Nat
  I2C_SLAVE_ACT_RREQ_FBR : Nat
  I2C_SLAVE_ACT_RREQ : Nat
  I2C_SLAVE_ACT_TREQ : Nat
  EEPROM_ENABLED : Bool
  eepromRead : Nat → Nat

/-- The static `i2cData` (i2c.c, lines 58-66): the register file of `uint8_t`, the address
pointer, a `uint8_t`, and the running flag. -/
structure I2cData where
  regs : Nat → Nat
  address : Nat
  running : Nat

/-- The statement `regs[index] = (uint8_t) value`. -/
def storeReg (regs : Nat → Nat) (index value : Nat) : Nat → Nat :=
  fun i => if i = index then value % 256 else regs i

/-- `updateI2CEEPROM` (i2c.c, lines 68-78): with `EEPROM_ENABLED` the word read from the
EEPROM is stored in the four registers from `REG_EEDATA_0` on, low byte first as on the
little-endian target; without it the function does nothing. -/
def updateI2CEEPROM (cfg : I2cConfig) (d : I2cData) : I2cData :=
  if cfg.EEPROM_ENABLED then
    let address := d.regs cfg.REG_EEADDR_0 ||| (d.regs cfg.REG_EEADDR_1 <<< 8)
    let data := cfg.eepromRead (((address &&& 0x1FF) <<< 2) % 4294967296) % 4294967296
    { d with
      regs :=
        storeReg (storeReg (storeReg (storeReg d.regs cfg.REG_EEDATA_0 data)
          (cfg.REG_EEDATA_0 + 1) (data >>> 8)) (cfg.REG_EEDATA_0 + 2) (data >>> 16))
          (cfg.REG_EEDATA_0 + 3) (data >>> 24) }
  else d

/-- What one invocation of `I2cSlaveHandler` leaves: the static `i2cData`, the byte given to
`I2CSlaveDataPut` if any, the ACK value, and the indices of the accesses `regs[address]`
made through the address pointer. -/
structure I2cHandlerResult where
  i2cData : I2cData
  dataPut : Option Nat
  ack : Bool
  addressedRegs : List Nat

/-- `I2cSlaveHandler` (i2c.c, lines 85-145). `action` is the value of `I2CSlaveStatus` and
`busData` the value that `I2CSlaveDataGet` returns when it is called, both `uint32_t`. -/
def I2cSlaveHandler (cfg : I2cConfig) (d : I2cData) (action busData : Nat) :
    I2cHandlerResult :=
  let action := action % 4294967296
  if action = cfg.I2C_SLAVE_ACT_RREQ_FBR then
    -- this is the address
    let newAddress := busData % 4294967296
    let newAddress :=
      if newAddress ≥ cfg.I2C_NUM_REGS then (cfg.I2C_NUM_REGS + 4294967295) % 4294967296
      else newAddress
    { i2cData := { d with address := newAddress % 256, running := 1 }
      dataPut := none
      ack := true
      addressedRegs := [] }
  else if action = cfg.I2C_SLAVE_ACT_RREQ then
    -- always ACK, but only allow changes to the EEADDR register
    let data := busData % 4294967296
    let address := d.address
    let changes : Bool := decide (address = cfg.REG_EEADDR_0 ∨ address = cfg.REG_EEADDR_1)
    let d1 :=
      if changes then updateI2CEEPROM cfg { d with regs := storeReg d.regs address data }
      else d
    let address := (address + 1) % 4294967296
    let address := if address ≥ cfg.I2C_NUM_REGS then 0 else address
    { i2cData := { d1 with address := address % 256 }
      dataPut := none
      ack := true
      addressedRegs := if changes then [d.address] else [] }
  else if action = cfg.I2C_SLAVE_ACT_TREQ then
    -- data has been requested from us
    let address := d.address
    let d1 :=
      if address ≥ cfg.REG_LON_0 ∧ address ≤ cfg.REG_HDG_1 then
        { d with regs := storeReg d.regs cfg.REG_DATA_AVAILABLE 0 }
      else d
    let put := d1.regs address
    let address := (address + 1) % 4294967296
    let address := if address ≥ cfg.I2C_NUM_REGS then 0 else address
    { i2cData := { d1 with address := address % 256 }
      dataPut := some put
      ack := true
      addressedRegs := [d.address] }
  else
    -- no action, or an invalid action
    { i2cData := d, dataPut := none, ack := false, addressedRegs := [] }

/-- A sequence of invocations of `I2cSlaveHandler`, one per pair of a status and a bus
value: the static after them, and the indices of all accesses `regs[address]`. -/
def runI2cSlaveHandler (cfg : I2cConfig) : I2cData → List (Nat × Nat) → I2cData × List Nat
  | d, [] => (d, [])
  | d, (action, busData) :: rest =>
    let r := I2cSlaveHandler cfg d action busData
    let after := runI2cSlaveHandler cfg r.i2cData rest
    (after.1, r.addressedRegs ++ after.2)

/-- A register map for the examples: 65 registers, as the map at the head of `i2c.c`
lists them, the status values of the driver library, no EEPROM. -/
def exampleI2cConfig : I2cConfig :=
  { I2C_NUM_REGS := 65
    REG_EEADDR_0 := 8
    REG_EEADDR_1 := 9
    REG_EEDATA_0 := 10
    REG_DATA_AVAILABLE := 3
    REG_LON_0 := 20
    REG_HDG_1 := 27
    I2C_SLAVE_ACT_RREQ_FBR := 5
    I2C_SLAVE_ACT_RREQ := 1
    I2C_SLAVE_ACT_TREQ := 2
    EEPROM_ENABLED := false
    eepromRead := fun _ => 0 }

/-- The static `i2cData` as `initializeI2C` leaves its address pointer and running flag
(i2c.c, lines 229-230), with a zeroed register file. -/
def initialI2cData : I2cData := { regs := fun _ => 0, address := 0, running := 0 }

/-! ## GPS update of the main loop -/

/-- Modelled from the spec: `Message` is declared in `uart.h`, which is not part of the
sources: the bytes of a received sentence and their number. -/
structure Message where
  message : Nat → Nat
  size : Nat

/-- Which GPS module a pointer argument of `updateGPS` refers to: `main` passes the
statics of the Venus module or those of the Copernicus module (main.c, lines 215-216). -/
inductive GpsModule where
  | venus
  | copernicus
  deriving DecidableEq, Repr

/-- The calls that `updateGPS` makes to the parsers and to `submitI2CData`, with the
module whose message and data are passed and the I2C index. -/
inductive GpsCall where
  | parseGpggaMessageIfValid (messageIn dataOut : GpsModule)
  | parseGpvtgMessageIfValid (messageIn dataOut : GpsModule)
  | submitI2CData (index : Nat) (data : GpsModule)
  deriving DecidableEq, Repr

/-- The statics `venusGpsMessage` and `copernicusGpsMessage` (main.c, lines 20-21) and the
calls made so far. -/
structure GpsState where
  venusGpsMessage : Message
  copernicusGpsMessage : Message
  calls : List GpsCall

/-- The test `memcmp(bytes + offset, text, n) == 0` for the `n` characters of `text`. -/
def memcmpEq (bytes : Nat → Nat) (offset : Nat) (text : String) : Bool :=
  (List.range (asciiBytes text).length).all
    (fun i => bytes (offset + i) % 256 == (asciiBytes text).getD i 0)

/-- The message that a pointer argument refers to. -/
def GpsState.messageOf (s : GpsState) : GpsModule → Message
  | GpsModule.venus => s.venusGpsMessage
  | GpsModule.copernicus => s.copernicusGpsMessage

/-- `updateGPS` (main.c, lines 78-118), without the `DUMP_DATA_TO_UART0` section.
`received` is what `readMessage(channel, messageIn)` delivers: `none` when it returns
false, the message it stores into `*messageIn` when it returns true. -/
def updateGPS (s : GpsState) (channel : Nat) (messageIn dataOut : GpsModule)
    (received : Option Message) : GpsState :=
  match received with
  | none => s
  | some msg =>
    let s1 : GpsState :=
      match messageIn with
      | GpsModule.venus => { s with venusGpsMessage := msg }
      | GpsModule.copernicus => { s with copernicusGpsMessage := msg }
    if (s1.messageOf messageIn).size > 6 then
      if memcmpEq (s1.messageOf messageIn).message 0 "$GP" then
        if memcmpEq (s1.messageOf messageIn).message 3 "GGA" then
          -- Global Positioning System fix
          { s1 with
            calls := s1.calls ++
              [GpsCall.parseGpggaMessageIfValid messageIn dataOut,
                GpsCall.submitI2CData channel dataOut] }
        else if memcmpEq s1.venusGpsMessage.message 3 "VTG" then
          -- Track made good and ground speed
          { s1 with
            calls := s1.calls ++
              [GpsCall.parseGpvtgMessageIfValid messageIn dataOut,
                GpsCall.submitI2CData channel dataOut] }
        else s1
      else s1
    else s1

/-- A message with the characters of a string, followed by zeros. -/
def messageOfString (text : String) : Message :=
  { message := fun i => (asciiBytes text).getD i 0, size := (asciiBytes text).length }

/-- The statics at start-up: zero-initialised messages, no call made. -/
def initialGpsState : GpsState :=
  { venusGpsMessage := { message := fun _ => 0, size := 0 }
    copernicusGpsMessage := { message := fun _ => 0, size := 0 }
    calls := [] }

/-! ## Properties of the packed buffer -/

theorem posOf_bitOffset (p : BitstreamPos) (h : p.bitstreamCharBitIdx < 8) :
    posOf (bitOffset p) = p := by
  cases p with
  | mk c b =>
    simp only [posOf, bitOffset, BitstreamPos.mk.injEq] at *
    omega

theorem bitOffset_posOf (q : Nat) : bitOffset (posOf q) = q := by
  simp only [posOf, bitOffset]
  omega

theorem advanceBitstreamBit_posOf (q : Nat) : advanceBitstreamBit (posOf q) = posOf (q + 1) := by
  simp only [advanceBitstreamBit, posOf]
  split
  · simp only [BitstreamPos.mk.injEq]; omega
  · simp only [BitstreamPos.mk.injEq]; omega

theorem and_one_shiftLeft_ne_zero (b k : Nat) : (b &&& (1 <<< k) ≠ 0) ↔ b.testBit k = true := by
  rw [Nat.one_shiftLeft, Nat.and_two_pow]
  cases h : b.testBit k
  · simp
  · simp [Nat.pos_iff_ne_zero.mp (Nat.two_pow_pos k)]

theorem readBufferBit_posOf (buf : Buffer) (q : Nat) : readBufferBit buf (posOf q) = bitAt buf q := by
  have h := and_one_shiftLeft_ne_zero (buf (q / 8)) (q % 8)
  simp only [readBufferBit, bitAt, posOf]
  cases hb : (buf (q / 8)).testBit (q % 8)
  · simp only [hb, Bool.false_eq_true, iff_false, not_not] at h
    simp [h]
  · simp only [hb, iff_true] at h
    simp [h]

theorem testBit_255 (j : Nat) : Nat.testBit 255 j = decide (j < 8) := by
  have h := Nat.testBit_two_pow_sub_one 8 j
  simpa using h

theorem bitAt_putBit (buf : Buffer) (q j : Nat) (v : Bool) :
    bitAt (putBit buf q v) j = if j = q then v else bitAt buf j := by
  have hmod : j % 8 < 8 := Nat.mod_lt _ (by decide)
  by_cases hj : j = q
  · subst hj
    cases v
    · simp [putBit, bitAt, clearBufferBit, posOf, Nat.testBit_and, Nat.testBit_xor,
        Nat.one_shiftLeft, Nat.testBit_two_pow, testBit_255, hmod]
    · simp [putBit, bitAt, setBufferBit, posOf, Nat.testBit_or,
        Nat.one_shiftLeft, Nat.testBit_two_pow, hmod]
      have := Nat.testBit_mod_two_pow (buf (j / 8) ||| 2 ^ (j % 8)) 8 (j % 8)
      simp only [Nat.reducePow] at this
      rw [this]
      simp [hmod, Nat.testBit_or, Nat.testBit_two_pow]
  · simp only [hj, if_false]
    by_cases hc : j / 8 = q / 8
    · have hb : ¬ (q % 8 = j % 8) := by omega
      cases v
      · simp [putBit, bitAt, clearBufferBit, posOf, hc, Nat.testBit_and, Nat.testBit_xor,
          Nat.one_shiftLeft, Nat.testBit_two_pow, testBit_255, hmod, hb]
      · simp only [putBit, bitAt, setBufferBit, posOf, hc, if_true, Nat.one_shiftLeft]
        have := Nat.testBit_mod_two_pow (buf (q / 8) ||| 2 ^ (q % 8)) 8 (j % 8)
        simp only [Nat.reducePow] at this
        rw [this]
        simp [hmod, Nat.testBit_or, Nat.testBit_two_pow, hb]
    · cases v <;> simp [putBit, bitAt, clearBufferBit, setBufferBit, posOf, hc]

theorem shiftRight_and_one (c i : Nat) : (c >>> i) &&& 1 = (c.testBit i).toNat := by
  rw [Nat.and_one_is_mod, Nat.testBit, Nat.one_and_eq_mod_two]
  rcases Nat.mod_two_eq_zero_or_one (c >>> i) with h | h <;> simp [h]

theorem fcsUpdate_eq (fcs c i : Nat) : fcsUpdate fcs c i = crcBit fcs (c.testBit i) := by
  simp only [fcsUpdate, crcBit, shiftRight_and_one]

theorem encodeBit_eq (buf : Buffer) (maxLen : Nat) (ed : EncodingData) (c i : Nat)
    (st : STUFFING_TYPE) (ft : FCS_TYPE) (q : Nat) (hpos : ed.bitstreamSize = posOf q)
    (hcap : q + (stuffBits st ed.numberOfOnes [c.testBit i]).length ≤ 8 * maxLen) :
    encodeBit buf maxLen ed c i st ft =
      (true, writeBits buf q (nrziEncode ed.lastBit (stuffBits st ed.numberOfOnes [c.testBit i])),
        edAfter st ft ed q [c.testBit i]) := by
  obtain ⟨pos, last, n, fcs⟩ := ed
  simp only at hpos hcap
  subst hpos
  have hbit := and_one_shiftLeft_ne_zero c i
  have hq : ¬ (q / 8 ≥ maxLen) := by
    have : 1 ≤ (stuffBits st n [c.testBit i]).length := by
      simp only [stuffBits, stuffStep]
      split <;> [split; skip] <;> simp
    omega
  cases hb : c.testBit i
  · have hz : c &&& 1 <<< i = 0 := by
      by_contra hne
      have := hbit.mp hne
      simp [hb] at this
    cases st <;> cases ft <;> cases last <;>
      simp [encodeBit, hz, hq, edAfter, stuffBits, stuffStep, onesStep, onesAfter, nrziEncode,
        nrziLast, writeBits, putBit, advanceBitstreamBit_posOf, fcsAfter, fcsUpdate_eq, hb,
        show (posOf q).bitstreamCharIdx = q / 8 from rfl]
  · have hz : c &&& 1 <<< i ≠ 0 := hbit.mpr hb
    cases st
    · cases ft <;> cases last <;>
        simp [encodeBit, hz, hq, edAfter, stuffBits, stuffStep, onesStep, onesAfter, nrziEncode,
          nrziLast, writeBits, putBit, advanceBitstreamBit_posOf, fcsAfter, fcsUpdate_eq, hb,
          show (posOf q).bitstreamCharIdx = q / 8 from rfl]
    · by_cases h5 : n + 1 = 5
      · have hq2 : ¬ ((q + 1) / 8 ≥ maxLen) := by
          simp [stuffBits, stuffStep, hb, h5] at hcap
          omega
        have hn : n = 4 := by omega
        subst hn
        cases ft <;> cases last <;>
          simp [encodeBit, hz, hq, hq2, edAfter, stuffBits, stuffStep, onesStep, onesAfter,
            nrziEncode, nrziLast, writeBits, putBit, advanceBitstreamBit_posOf, fcsAfter,
            fcsUpdate_eq, hb, show (posOf q).bitstreamCharIdx = q / 8 from rfl,
            show (posOf (q + 1)).bitstreamCharIdx = (q + 1) / 8 from rfl]
      · cases ft <;> cases last <;>
          simp [encodeBit, hz, hq, h5, edAfter, stuffBits, stuffStep, onesStep, onesAfter,
            nrziEncode, nrziLast, writeBits, putBit, advanceBitstreamBit_posOf, fcsAfter,
            fcsUpdate_eq, hb, show (posOf q).bitstreamCharIdx = q / 8 from rfl]
theorem writeBits_append (buf : Buffer) (q : Nat) (a b : List Bool) :
    writeBits buf q (a ++ b) = writeBits (writeBits buf q a) (q + a.length) b := by
  induction a generalizing buf q with
  | nil => simp [writeBits]
  | cons x xs ih =>
    show writeBits (putBit buf q x) (q + 1) (xs ++ b) = _
    rw [ih]
    simp only [writeBits, List.length_cons]
    rw [show q + 1 + xs.length = q + (xs.length + 1) by omega]

theorem nrziEncode_append (last : Bool) (a b : List Bool) :
    nrziEncode last (a ++ b) = nrziEncode last a ++ nrziEncode (nrziLast last a) b := by
  induction a generalizing last with
  | nil => simp [nrziEncode, nrziLast]
  | cons x xs ih => simp [nrziEncode, nrziLast, ih]

theorem nrziLast_append (last : Bool) (a b : List Bool) :
    nrziLast last (a ++ b) = nrziLast (nrziLast last a) b := by
  induction a generalizing last with
  | nil => simp [nrziLast]
  | cons x xs ih => simp [nrziLast, ih]

theorem length_nrziEncode (last : Bool) (a : List Bool) : (nrziEncode last a).length = a.length := by
  induction a generalizing last with
  | nil => simp [nrziEncode]
  | cons x xs ih => simp [nrziEncode, ih]

theorem stuffBits_append (st : STUFFING_TYPE) (n : Nat) (a b : List Bool) :
    stuffBits st n (a ++ b) = stuffBits st n a ++ stuffBits st (onesAfter st n a) b := by
  induction a generalizing n with
  | nil => simp [stuffBits, onesAfter]
  | cons x xs ih => simp [stuffBits, onesAfter, ih]

theorem onesAfter_append (st : STUFFING_TYPE) (n : Nat) (a b : List Bool) :
    onesAfter st n (a ++ b) = onesAfter st (onesAfter st n a) b := by
  induction a generalizing n with
  | nil => simp [onesAfter]
  | cons x xs ih => simp [onesAfter, ih]

theorem fcsAfter_append (ft : FCS_TYPE) (fcs : Nat) (a b : List Bool) :
    fcsAfter ft fcs (a ++ b) = fcsAfter ft (fcsAfter ft fcs a) b := by
  cases ft <;> simp [fcsAfter]

theorem edAfter_append (st : STUFFING_TYPE) (ft : FCS_TYPE) (ed : EncodingData) (q : Nat)
    (a b : List Bool) :
    edAfter st ft (edAfter st ft ed q a) (q + (stuffBits st ed.numberOfOnes a).length) b =
      edAfter st ft ed q (a ++ b) := by
  simp only [edAfter, stuffBits_append, nrziLast_append, onesAfter_append, fcsAfter_append,
    List.length_append, Nat.add_assoc]

theorem edAfter_nil (st : STUFFING_TYPE) (ft : FCS_TYPE) (ed : EncodingData) (q : Nat)
    (hpos : ed.bitstreamSize = posOf q) : edAfter st ft ed q [] = ed := by
  obtain ⟨pos, last, n, fcs⟩ := ed
  simp only at hpos
  subst hpos
  cases ft <;> simp [edAfter, stuffBits, nrziLast, onesAfter, fcsAfter]

/-- The line bits written for the source bits `bs` from the state `ed`. -/
theorem encodeByteBits_eq (maxLen c : Nat) (st : STUFFING_TYPE) (ft : FCS_TYPE) (is : List Nat)
    (buf : Buffer) (ed : EncodingData) (q : Nat) (hpos : ed.bitstreamSize = posOf q)
    (hcap : q + (stuffBits st ed.numberOfOnes (is.map c.testBit)).length ≤ 8 * maxLen) :
    encodeByteBits maxLen c st ft is buf ed =
      (true, writeBits buf q (nrziEncode ed.lastBit (stuffBits st ed.numberOfOnes (is.map c.testBit))),
        edAfter st ft ed q (is.map c.testBit)) := by
  induction is generalizing buf ed q with
  | nil =>
    simp [encodeByteBits, stuffBits, nrziEncode, writeBits, edAfter_nil st ft ed q hpos]
  | cons i rest ih =>
    have happ : (i :: rest).map c.testBit = [c.testBit i] ++ rest.map c.testBit := by simp
    rw [happ] at hcap ⊢
    rw [stuffBits_append, List.length_append] at hcap
    have h1 := encodeBit_eq buf maxLen ed c i st ft q hpos (by omega)
    simp only [encodeByteBits, h1]
    have hpos2 : (edAfter st ft ed q [c.testBit i]).bitstreamSize =
        posOf (q + (stuffBits st ed.numberOfOnes [c.testBit i]).length) := rfl
    have hn : (edAfter st ft ed q [c.testBit i]).numberOfOnes =
        onesAfter st ed.numberOfOnes [c.testBit i] := rfl
    have hl : (edAfter st ft ed q [c.testBit i]).lastBit =
        nrziLast ed.lastBit (stuffBits st ed.numberOfOnes [c.testBit i]) := rfl
    rw [ih _ _ _ hpos2 (by rw [hn]; omega), edAfter_append, hn, hl, stuffBits_append,
      nrziEncode_append, writeBits_append, length_nrziEncode]

theorem encodeBytes_eq (maxLen : Nat) (st : STUFFING_TYPE) (ft : FCS_TYPE)
    (sh : SHIFT_ONE_LEFT_TYPE) (data : List Nat) (buf : Buffer) (ed : EncodingData) (q : Nat)
    (hpos : ed.bitstreamSize = posOf q)
    (hcap : q + (stuffBits st ed.numberOfOnes (messageBits sh data)).length ≤ 8 * maxLen) :
    encodeBytes maxLen st ft sh data buf ed =
      (true, writeBits buf q (nrziEncode ed.lastBit (stuffBits st ed.numberOfOnes (messageBits sh data))),
        edAfter st ft ed q (messageBits sh data)) := by
  induction data generalizing buf ed q with
  | nil =>
    simp [encodeBytes, messageBits, stuffBits, nrziEncode, writeBits, edAfter_nil st ft ed q hpos]
  | cons b rest ih =>
    have happ : messageBits sh (b :: rest) = byteBits (shiftedByte sh b) ++ messageBits sh rest := by
      simp [messageBits]
    rw [happ] at hcap ⊢
    rw [stuffBits_append, List.length_append] at hcap
    have hbb : List.map (shiftedByte sh b).testBit (List.range 8) = byteBits (shiftedByte sh b) := rfl
    have h1 := encodeByteBits_eq maxLen (shiftedByte sh b) st ft (List.range 8) buf ed q hpos
      (by rw [hbb]; omega)
    simp only [encodeBytes, h1]
    have hpos2 : (edAfter st ft ed q (byteBits (shiftedByte sh b))).bitstreamSize =
        posOf (q + (stuffBits st ed.numberOfOnes (byteBits (shiftedByte sh b))).length) := rfl
    have hn : (edAfter st ft ed q (byteBits (shiftedByte sh b))).numberOfOnes =
        onesAfter st ed.numberOfOnes (byteBits (shiftedByte sh b)) := rfl
    have hl : (edAfter st ft ed q (byteBits (shiftedByte sh b))).lastBit =
        nrziLast ed.lastBit (stuffBits st ed.numberOfOnes (byteBits (shiftedByte sh b))) := rfl
    rw [hbb, ih _ _ _ hpos2 (by rw [hn]; omega), edAfter_append, hn, hl, stuffBits_append,
      nrziEncode_append, writeBits_append, length_nrziEncode]
theorem bitAt_writeBits_lt (buf : Buffer) (q j : Nat) (vs : List Bool) (h : j < q) :
    bitAt (writeBits buf q vs) j = bitAt buf j := by
  induction vs generalizing buf q with
  | nil => rfl
  | cons v vs ih =>
    simp only [writeBits]
    rw [ih _ _ (by omega), bitAt_putBit, if_neg (by omega)]

theorem readBits_writeBits (buf : Buffer) (q : Nat) (vs : List Bool) :
    readBits (writeBits buf q vs) (posOf q) vs.length = vs := by
  induction vs generalizing buf q with
  | nil => rfl
  | cons v vs ih =>
    simp only [writeBits, List.length_cons, readBits, advanceBitstreamBit_posOf, ih,
      readBufferBit_posOf]
    rw [bitAt_writeBits_lt _ _ _ _ (by omega), bitAt_putBit, if_pos rfl]

/-- Bits read below the offset where a later write starts are not changed by it. -/
theorem readBits_writeBits_below (buf : Buffer) (q0 q : Nat) (vs : List Bool) (k : Nat)
    (h : q0 + k ≤ q) : readBits (writeBits buf q vs) (posOf q0) k = readBits buf (posOf q0) k := by
  induction k generalizing q0 with
  | zero => rfl
  | succ k ih =>
    simp only [readBits, advanceBitstreamBit_posOf, readBufferBit_posOf]
    rw [ih _ (by omega), bitAt_writeBits_lt _ _ _ _ (by omega)]

theorem nrziDecode_encode_append (last : Bool) (a rest : List Bool) :
    nrziDecode last (nrziEncode last a ++ rest) = a ++ nrziDecode (nrziLast last a) rest := by
  induction a generalizing last with
  | nil => simp [nrziEncode, nrziLast]
  | cons x xs ih =>
    cases x <;> cases last <;> simp [nrziEncode, nrziLast, nrziDecode, ih]

theorem nrziDecode_encode (last : Bool) (a : List Bool) :
    nrziDecode last (nrziEncode last a) = a := by
  have h := nrziDecode_encode_append last a []
  simpa [nrziDecode] using h

theorem destuffBits_stuffBits (n : Nat) (bs : List Bool) (hn : n < 5) :
    destuffBits n (stuffBits ST_PERFORM_STUFFING n bs) = bs := by
  induction bs generalizing n with
  | nil => simp [stuffBits, destuffBits]
  | cons b bs ih =>
    cases b
    · simp [stuffBits, stuffStep, onesStep, destuffBits, ih 0 (by decide), Nat.ne_of_lt hn]
    · by_cases h5 : n + 1 = 5
      · simp [stuffBits, stuffStep, onesStep, destuffBits, ih 0 (by decide), Nat.ne_of_lt hn, h5]
      · simp [stuffBits, stuffStep, onesStep, destuffBits, ih (n + 1) (by omega),
          Nat.ne_of_lt hn, h5]

theorem stuffBits_no_stuffing (n : Nat) (bs : List Bool) :
    stuffBits ST_NO_STUFFING n bs = bs := by
  induction bs generalizing n with
  | nil => rfl
  | cons b bs ih => cases b <;> simp [stuffBits, stuffStep, onesStep, ih]

theorem longestOnesRun_stuffBits (n : Nat) (bs : List Bool) (hn : n < 5) :
    longestOnesRun n (stuffBits ST_PERFORM_STUFFING n bs) ≤ 5 := by
  induction bs generalizing n with
  | nil => simp [stuffBits, longestOnesRun]; omega
  | cons b bs ih =>
    cases b
    · have := ih 0 (by decide)
      simp [stuffBits, stuffStep, onesStep, longestOnesRun]
      omega
    · by_cases h5 : n + 1 = 5
      · have := ih 0 (by decide)
        simp [stuffBits, stuffStep, onesStep, longestOnesRun, h5]
        omega
      · have := ih (n + 1) (by omega)
        simpa [stuffBits, stuffStep, onesStep, longestOnesRun, h5] using this

theorem length_messageBits (sh : SHIFT_ONE_LEFT_TYPE) (data : List Nat) :
    (messageBits sh data).length = 8 * data.length := by
  induction data with
  | nil => rfl
  | cons b rest ih =>
    have happ : messageBits sh (b :: rest) = byteBits (shiftedByte sh b) ++ messageBits sh rest := by
      simp [messageBits]
    rw [happ, List.length_append, ih]
    simp [byteBits]
    omega

theorem length_le_stuffBits (st : STUFFING_TYPE) (n : Nat) (bs : List Bool) :
    bs.length ≤ (stuffBits st n bs).length := by
  induction bs generalizing n with
  | nil => simp
  | cons b bs ih =>
    have := ih (onesStep st n b)
    simp only [stuffBits, List.length_append, List.length_cons, stuffStep]
    split <;> [split; skip] <;> simp <;> omega

theorem range_map_getD (data : List Nat) :
    (List.range data.length).map (fun iByte => data.getD iByte 0) = data := by
  apply List.ext_getElem
  · simp
  · intro i h1 h2
    simp at h1
    simp [List.getD_eq_getElem?_getD, List.getElem?_eq_getElem h1]

/-- A call of `encodeAndAppendBits` with valid pointers, a message that is not empty and
enough room for the line bits succeeds and stores the NRZI coding of the stuffed source
bits. -/
theorem encodeAndAppendBits_eq (buf : Buffer) (maxLen : Nat) (ed : EncodingData)
    (data : List Nat) (st : STUFFING_TYPE) (ft : FCS_TYPE) (sh : SHIFT_ONE_LEFT_TYPE) (q : Nat)
    (hne : data ≠ [])
    (hpos : ed.bitstreamSize = posOf q)
    (hcap : q + (stuffBits st ed.numberOfOnes (messageBits sh data)).length ≤ 8 * maxLen) :
    encodeAndAppendBits (some buf) maxLen (some ed) (some data) data.length st ft sh =
      (true,
        some (writeBits buf q (nrziEncode ed.lastBit (stuffBits st ed.numberOfOnes (messageBits sh data)))),
        some (if st = ST_NO_STUFFING then
            { edAfter st ft ed q (messageBits sh data) with numberOfOnes := 0 }
          else edAfter st ft ed q (messageBits sh data))) := by
  have hlen := length_le_stuffBits st ed.numberOfOnes (messageBits sh data)
  rw [length_messageBits] at hlen
  have hmax : ¬ (maxLen < data.length) := by omega
  have h0 : ¬ (data.length = 0) := fun h => hne (List.length_eq_zero.mp h)
  simp only [encodeAndAppendBits, hmax, h0, if_false, range_map_getD,
    encodeBytes_eq maxLen st ft sh data buf ed q hpos hcap]
  cases st <;> simp

theorem encodeAndAppendBits_nil (buf : Buffer) (maxLen : Nat) (ed : EncodingData)
    (st : STUFFING_TYPE) (ft : FCS_TYPE) (sh : SHIFT_ONE_LEFT_TYPE) :
    encodeAndAppendBits (some buf) maxLen (some ed) (some []) 0 st ft sh =
      (true, some buf, some ed) := by
  simp [encodeAndAppendBits]
/-! ## Round trip and run length of the stuffed line code -/

/-- C1: a byte sequence encoded by `encodeAndAppendBits` with `ST_PERFORM_STUFFING` into a
buffer with room for all line bits, from any last physical bit and a run counter below 5:
the call succeeds, and the bits written between the start and the end position, decoded
from NRZI relative to the initial last bit and destuffed (the run counter of the decoder
starting where the encoder's did), are the bits of the encoded bytes, LSB first. -/
theorem encodeAndAppendBits_roundtrip (buf : Buffer) (maxBitstreamBufferLen : Nat)
    (ed : EncodingData) (data : List Nat) (fcsType : FCS_TYPE)
    (shiftOneLeftType : SHIFT_ONE_LEFT_TYPE)
    (hbit : ed.bitstreamSize.bitstreamCharBitIdx < 8)
    (hones : ed.numberOfOnes < 5)
    (hcap : bitOffset ed.bitstreamSize +
        (stuffBits ST_PERFORM_STUFFING ed.numberOfOnes (messageBits shiftOneLeftType data)).length
          ≤ 8 * maxBitstreamBufferLen) :
    ∃ buf1 ed1,
      encodeAndAppendBits (some buf) maxBitstreamBufferLen (some ed) (some data) data.length
          ST_PERFORM_STUFFING fcsType shiftOneLeftType = (true, some buf1, some ed1) ∧
      destuffBits ed.numberOfOnes (nrziDecode ed.lastBit
          (readBits buf1 ed.bitstreamSize
            (bitOffset ed1.bitstreamSize - bitOffset ed.bitstreamSize))) =
        messageBits shiftOneLeftType data := by
  have hpos : ed.bitstreamSize = posOf (bitOffset ed.bitstreamSize) :=
    (posOf_bitOffset _ hbit).symm
  by_cases hne : data = []
  · subst hne
    refine ⟨buf, ed, encodeAndAppendBits_nil _ _ _ _ _ _, ?_⟩
    simp [readBits, nrziDecode, destuffBits, messageBits]
  · refine ⟨_, _, encodeAndAppendBits_eq buf maxBitstreamBufferLen ed data ST_PERFORM_STUFFING
      fcsType shiftOneLeftType _ hne hpos hcap, ?_⟩
    simp only [reduceCtorEq, if_false, edAfter, bitOffset_posOf, Nat.add_sub_cancel_left]
    rw [← length_nrziEncode ed.lastBit, hpos, bitOffset_posOf, readBits_writeBits,
      nrziDecode_encode, destuffBits_stuffBits _ _ hones]

theorem encodeAndAppendBits_roundtrip_witness :
    (0 : Nat) < 8 ∧ (3 : Nat) < 5 ∧
    bitOffset { bitstreamCharIdx := 0, bitstreamCharBitIdx := 0 } +
      (stuffBits ST_PERFORM_STUFFING 3 (messageBits SHIFT_ONE_LEFT_NO [0xFF, 0x7E])).length
        ≤ 8 * 3 ∧
    ∃ buf1 ed1,
      encodeAndAppendBits (some (fun _ => 0)) 3
          (some { bitstreamSize := { bitstreamCharIdx := 0, bitstreamCharBitIdx := 0 },
                  lastBit := true, numberOfOnes := 3, fcs := 0xFFFF })
          (some [0xFF, 0x7E]) [0xFF, 0x7E].length
          ST_PERFORM_STUFFING FCS_CALCULATE SHIFT_ONE_LEFT_NO = (true, some buf1, some ed1) ∧
      destuffBits 3 (nrziDecode true
          (readBits buf1 { bitstreamCharIdx := 0, bitstreamCharBitIdx := 0 }
            (bitOffset ed1.bitstreamSize -
              bitOffset { bitstreamCharIdx := 0, bitstreamCharBitIdx := 0 }))) =
        messageBits SHIFT_ONE_LEFT_NO [0xFF, 0x7E] :=
  ⟨by decide, by decide, by decide,
    encodeAndAppendBits_roundtrip (fun _ => 0) 3
      { bitstreamSize := { bitstreamCharIdx := 0, bitstreamCharBitIdx := 0 },
        lastBit := true, numberOfOnes := 3, fcs := 0xFFFF }
      [0xFF, 0x7E] FCS_CALCULATE SHIFT_ONE_LEFT_NO (by decide) (by decide) (by decide)⟩

/-- C2: a byte sequence encoded by `encodeAndAppendBits` with `ST_PERFORM_STUFFING`, the
run counter starting at 0, into a buffer with room for all line bits: the NRZI-decoded
bits of the written region hold no run of 6 or more consecutive ones, that is, the
physical bits never go 6 bits in a row without a transition. -/
theorem encodeAndAppendBits_no_six_ones (buf : Buffer) (maxBitstreamBufferLen : Nat)
    (ed : EncodingData) (data : List Nat) (fcsType : FCS_TYPE)
    (shiftOneLeftType : SHIFT_ONE_LEFT_TYPE)
    (hbit : ed.bitstreamSize.bitstreamCharBitIdx < 8)
    (hones : ed.numberOfOnes = 0)
    (hcap : bitOffset ed.bitstreamSize +
        (stuffBits ST_PERFORM_STUFFING ed.numberOfOnes (messageBits shiftOneLeftType data)).length
          ≤ 8 * maxBitstreamBufferLen) :
    ∃ buf1 ed1,
      encodeAndAppendBits (some buf) maxBitstreamBufferLen (some ed) (some data) data.length
          ST_PERFORM_STUFFING fcsType shiftOneLeftType = (true, some buf1, some ed1) ∧
      longestOnesRun 0 (nrziDecode ed.lastBit
          (readBits buf1 ed.bitstreamSize
            (bitOffset ed1.bitstreamSize - bitOffset ed.bitstreamSize))) ≤ 5 := by
  have hpos : ed.bitstreamSize = posOf (bitOffset ed.bitstreamSize) :=
    (posOf_bitOffset _ hbit).symm
  by_cases hne : data = []
  · subst hne
    refine ⟨buf, ed, encodeAndAppendBits_nil _ _ _ _ _ _, ?_⟩
    simp [readBits, nrziDecode, longestOnesRun]
  · refine ⟨_, _, encodeAndAppendBits_eq buf maxBitstreamBufferLen ed data ST_PERFORM_STUFFING
      fcsType shiftOneLeftType _ hne hpos hcap, ?_⟩
    simp only [reduceCtorEq, if_false, edAfter, bitOffset_posOf, Nat.add_sub_cancel_left]
    rw [← length_nrziEncode ed.lastBit, hpos, bitOffset_posOf, readBits_writeBits,
      nrziDecode_encode, hones]
    exact longestOnesRun_stuffBits 0 _ (by decide)

theorem encodeAndAppendBits_no_six_ones_witness :
    (0 : Nat) < 8 ∧ (0 : Nat) = 0 ∧
    bitOffset { bitstreamCharIdx := 0, bitstreamCharBitIdx := 0 } +
      (stuffBits ST_PERFORM_STUFFING 0 (messageBits SHIFT_ONE_LEFT_NO [0xFF, 0xFF])).length
        ≤ 8 * 3 ∧
    ∃ buf1 ed1,
      encodeAndAppendBits (some (fun _ => 0)) 3
          (some { bitstreamSize := { bitstreamCharIdx := 0, bitstreamCharBitIdx := 0 },
                  lastBit := false, numberOfOnes := 0, fcs := 0xFFFF })
          (some [0xFF, 0xFF]) [0xFF, 0xFF].length
          ST_PERFORM_STUFFING FCS_NONE SHIFT_ONE_LEFT_NO = (true, some buf1, some ed1) ∧
      longestOnesRun 0 (nrziDecode false
          (readBits buf1 { bitstreamCharIdx := 0, bitstreamCharBitIdx := 0 }
            (bitOffset ed1.bitstreamSize -
              bitOffset { bitstreamCharIdx := 0, bitstreamCharBitIdx := 0 }))) ≤ 5 :=
  ⟨by decide, by decide, by decide,
    encodeAndAppendBits_no_six_ones (fun _ => 0) 3
      { bitstreamSize := { bitstreamCharIdx := 0, bitstreamCharBitIdx := 0 },
        lastBit := false, numberOfOnes := 0, fcs := 0xFFFF }
      [0xFF, 0xFF] FCS_NONE SHIFT_ONE_LEFT_NO (by decide) (by decide) (by decide)⟩

/-! ## Entry point -/

/-- C7: `sendAprsMessage` called while a transmission is in progress returns false and
leaves the whole state as it is: counters, bitstream, fill size, cursor, both phases,
active tone, pulse count, message id, payload buffer, and the list of hardware calls. -/
theorem sendAprsMessage_while_sending {F : Type} [Zero F] (cfg : Config) (s : AprsState F)
    (gpsDataSource : Nat) (pGpsData : Option GpsData) (pTelemetry : Telemetry)
    (h : s.g_sendingMessage = true) :
    sendAprsMessage cfg s gpsDataSource pGpsData pTelemetry = (false, s) := by
  simp [sendAprsMessage, h]

theorem sendAprsMessage_while_sending_witness :
    (sendAprsMessage exampleConfig idleState 1 (some exampleGpsData) exampleTelemetry).2.g_sendingMessage
        = true ∧
      sendAprsMessage exampleConfig
          (sendAprsMessage exampleConfig idleState 1 (some exampleGpsData) exampleTelemetry).2
          1 (some exampleGpsData) exampleTelemetry =
        (false, (sendAprsMessage exampleConfig idleState 1 (some exampleGpsData) exampleTelemetry).2) :=
  ⟨by decide, sendAprsMessage_while_sending exampleConfig _ 1 (some exampleGpsData)
    exampleTelemetry (by decide)⟩

/-- C8: when no transmission is in progress, `sendAprsMessage` returns what its call of
`generateMessage` returns; when that is true the sending flag is set and `enableHx1` and
`enableAprsPwm` are called, in this order; when it is false the sending flag stays false
and no hardware call is made. -/
theorem sendAprsMessage_enables_iff_built {F : Type} [Zero F] (cfg : Config) (s : AprsState F)
    (gpsDataSource : Nat) (pGpsData : Option GpsData) (pTelemetry : Telemetry)
    (h : s.g_sendingMessage = false) :
    (sendAprsMessage cfg s gpsDataSource pGpsData pTelemetry).1 =
        (generateMessage cfg s.g_aprsMessageId s.g_aprsPayloadBuffer (some CALLSIGN_SOURCE)
          gpsDataSource pGpsData pTelemetry (some s.g_currentBitstream)
          (cfg.APRS_BITSTREAM_MAX_LEN % 65536)
          (some { bitstreamCharIdx := 0, bitstreamCharBitIdx := 0 })).result ∧
      (sendAprsMessage cfg s gpsDataSource pGpsData pTelemetry).2.g_sendingMessage =
        (sendAprsMessage cfg s gpsDataSource pGpsData pTelemetry).1 ∧
      (sendAprsMessage cfg s gpsDataSource pGpsData pTelemetry).2.hardwareCalls =
        if (sendAprsMessage cfg s gpsDataSource pGpsData pTelemetry).1 then
          s.hardwareCalls ++ [HardwareCall.enableHx1, HardwareCall.enableAprsPwm]
        else s.hardwareCalls := by
  simp only [sendAprsMessage, h, Bool.false_eq_true, if_false, sendAprsMessageBuild,
    resetTransmission]
  split <;> simp_all

theorem sendAprsMessage_enables_iff_built_witness :
    idleState.g_sendingMessage = false ∧
    ((sendAprsMessage exampleConfig idleState 1 (some exampleGpsData) exampleTelemetry).1 =
        (generateMessage exampleConfig idleState.g_aprsMessageId idleState.g_aprsPayloadBuffer
          (some CALLSIGN_SOURCE) 1 (some exampleGpsData) exampleTelemetry
          (some idleState.g_currentBitstream) (exampleConfig.APRS_BITSTREAM_MAX_LEN % 65536)
          (some { bitstreamCharIdx := 0, bitstreamCharBitIdx := 0 })).result ∧
      (sendAprsMessage exampleConfig idleState 1 (some exampleGpsData) exampleTelemetry).2.g_sendingMessage =
        (sendAprsMessage exampleConfig idleState 1 (some exampleGpsData) exampleTelemetry).1 ∧
      (sendAprsMessage exampleConfig idleState 1 (some exampleGpsData) exampleTelemetry).2.hardwareCalls =
        if (sendAprsMessage exampleConfig idleState 1 (some exampleGpsData) exampleTelemetry).1 then
          idleState.hardwareCalls ++ [HardwareCall.enableHx1, HardwareCall.enableAprsPwm]
        else idleState.hardwareCalls) :=
  ⟨rfl, sendAprsMessage_enables_iff_built exampleConfig idleState 1 (some exampleGpsData)
    exampleTelemetry rfl⟩
/-! ## Payload formatter -/

theorem bufferBytes_succ (buf : Buffer) (n : Nat) :
    bufferBytes buf (n + 1) = bufferBytes buf n ++ [buf n] := by
  simp [bufferBytes, List.range_succ]

theorem bufferBytes_congr (buf1 buf2 : Buffer) (n : Nat) (h : ∀ i, i < n → buf1 i = buf2 i) :
    bufferBytes buf1 n = bufferBytes buf2 n := by
  simp only [bufferBytes]
  apply List.map_congr_left
  intro i hi
  exact h i (List.mem_range.mp hi)

theorem bufferBytes_add (buf : Buffer) (n m : Nat) :
    bufferBytes buf (n + m) = bufferBytes buf n ++ (List.range m).map (fun i => buf (n + i)) := by
  induction m with
  | zero => simp [bufferBytes]
  | succ m ih =>
    rw [← Nat.add_assoc, bufferBytes_succ, ih, List.range_succ]
    simp

/-- After `sprintfAt`, the buffer up to the end of the stored characters is what was below
`start`, followed by the characters. -/
theorem bufferBytes_sprintfAt (buf : Buffer) (start : Nat) (chars : List Nat) :
    bufferBytes (sprintfAt buf start chars) (start + chars.length) =
      bufferBytes buf start ++ chars := by
  rw [bufferBytes_add]
  congr 1
  · apply bufferBytes_congr
    intro i hi
    simp only [sprintfAt]
    rw [if_neg (by omega), if_neg (by omega)]
  · apply List.ext_getElem
    · simp
    · intro i h1 h2
      simp only [List.length_map, List.length_range] at h1
      simp only [List.getElem_map, List.getElem_range, sprintfAt]
      rw [if_pos (by omega)]
      simp [List.getD_eq_getElem?_getD, List.getElem?_eq_getElem h1]

/-- C9: on the example of the spec (37 deg 46.494000 min N, 122 deg 25.164000 min W, both
valid, UTC time not valid, altitude 100 m, course 180, speed 50, CPU temperature 250,
voltage 330, message index 7, GPS source 1) and a buffer of at least 69 bytes,
`createPacketPayload` returns 69, the length of the payload it wrote; the payload starts
with "!3746.49N/12225.16W" and ends with "T#007,001,025,033,000,000,00000000 a=00010". -/
theorem createPacketPayload_example (pBuffer : Buffer) (bufferSize : Nat)
    (h : 69 ≤ bufferSize) :
    (createPacketPayload 1 exampleGpsData exampleTelemetry 7 pBuffer bufferSize).1 = 69 ∧
      bufferBytes (createPacketPayload 1 exampleGpsData exampleTelemetry 7 pBuffer bufferSize).2
          69 =
        asciiBytes "!3746.49N/12225.16W>018/005T#007,001,025,033,000,000,00000000 a=00010" ∧
      (bufferBytes (createPacketPayload 1 exampleGpsData exampleTelemetry 7 pBuffer bufferSize).2
          69).take 19 = asciiBytes "!3746.49N/12225.16W" ∧
      (bufferBytes (createPacketPayload 1 exampleGpsData exampleTelemetry 7 pBuffer bufferSize).2
          69).drop (69 - 42) = asciiBytes "T#007,001,025,033,000,000,00000000 a=00010" := by
  have hp : positionChars exampleGpsData = asciiBytes "3746.49N/12225.16W" := by decide
  have hc : courseSpeedChars exampleGpsData = asciiBytes ">018/005" := by decide
  have ht : telemetryChars 1 exampleGpsData exampleTelemetry 7 =
      asciiBytes "T#007,001,025,033,000,000,00000000 a=00010" := by decide
  have hv : (exampleGpsData.gpggaData.latitude.isValid &&
      exampleGpsData.gpggaData.longitude.isValid) = true := by decide
  have hu : exampleGpsData.gpggaData.utcTime.isValid = false := by decide
  have hlp : (asciiBytes "3746.49N/12225.16W").length = 18 := by decide
  have hlc : (asciiBytes ">018/005").length = 8 := by decide
  have hlt : (asciiBytes "T#007,001,025,033,000,000,00000000 a=00010").length = 42 := by decide
  have hres : createPacketPayload 1 exampleGpsData exampleTelemetry 7 pBuffer bufferSize =
      (69, sprintfAt (sprintfAt (sprintfAt (fun i => if i = 0 then 33 else pBuffer i) 1
        (asciiBytes "3746.49N/12225.16W")) 19 (asciiBytes ">018/005")) 27
        (asciiBytes "T#007,001,025,033,000,000,00000000 a=00010")) := by
    simp only [createPacketPayload, hv, hu, if_true, Bool.false_eq_true, if_false,
      createPacketPayloadPosition, createPacketPayloadTelemetry, hp, hc, ht, hlp, hlc, hlt]
    rw [if_neg (by omega), if_neg (by omega), if_neg (by omega), if_neg (by omega)]
  have hbytes : bufferBytes (sprintfAt (sprintfAt (sprintfAt (fun i => if i = 0 then 33 else pBuffer i) 1
        (asciiBytes "3746.49N/12225.16W")) 19 (asciiBytes ">018/005")) 27
        (asciiBytes "T#007,001,025,033,000,000,00000000 a=00010")) 69 =
      asciiBytes "!3746.49N/12225.16W>018/005T#007,001,025,033,000,000,00000000 a=00010" := by
    have e1 := bufferBytes_sprintfAt (sprintfAt (sprintfAt (fun i => if i = 0 then 33 else pBuffer i) 1
        (asciiBytes "3746.49N/12225.16W")) 19 (asciiBytes ">018/005")) 27
        (asciiBytes "T#007,001,025,033,000,000,00000000 a=00010")
    have e2 := bufferBytes_sprintfAt (sprintfAt (fun i => if i = 0 then 33 else pBuffer i) 1
        (asciiBytes "3746.49N/12225.16W")) 19 (asciiBytes ">018/005")
    have e3 := bufferBytes_sprintfAt (fun i => if i = 0 then 33 else pBuffer i) 1
        (asciiBytes "3746.49N/12225.16W")
    rw [hlt] at e1
    rw [hlc] at e2
    rw [hlp] at e3
    rw [e1, e2, e3]
    have e4 : bufferBytes (fun i => if i = 0 then 33 else pBuffer i) 1 = [33] := by
      simp [bufferBytes, List.range_succ]
    rw [e4]
    decide
  rw [hres]
  refine ⟨rfl, hbytes, ?_, ?_⟩
  · rw [hbytes]; decide
  · rw [hbytes]; decide

theorem createPacketPayload_example_witness :
    (69 : Nat) ≤ 128 ∧
    ((createPacketPayload 1 exampleGpsData exampleTelemetry 7 (fun _ => 0) 128).1 = 69 ∧
      bufferBytes (createPacketPayload 1 exampleGpsData exampleTelemetry 7 (fun _ => 0) 128).2
          69 =
        asciiBytes "!3746.49N/12225.16W>018/005T#007,001,025,033,000,000,00000000 a=00010" ∧
      (bufferBytes (createPacketPayload 1 exampleGpsData exampleTelemetry 7 (fun _ => 0) 128).2
          69).take 19 = asciiBytes "!3746.49N/12225.16W" ∧
      (bufferBytes (createPacketPayload 1 exampleGpsData exampleTelemetry 7 (fun _ => 0) 128).2
          69).drop (69 - 42) = asciiBytes "T#007,001,025,033,000,000,00000000 a=00010") :=
  ⟨by decide, createPacketPayload_example (fun _ => 0) 128 (by decide)⟩

/-- C10, the code at a message counter of 1000: `createPacketPayload` prints the counter
with four digits, "T#1000", so the telemetry field is 43 characters wide and the payload
70 characters long; the counter is not reduced modulo 1000. -/
theorem createPacketPayload_messageIdx_1000 :
    (createPacketPayload 1 exampleGpsData exampleTelemetry 1000 (fun _ => 0) 128).1 = 70 ∧
      bufferBytes
          (createPacketPayload 1 exampleGpsData exampleTelemetry 1000 (fun _ => 0) 128).2 70 =
        asciiBytes "!3746.49N/12225.16W>018/005T#1000,001,025,033,000,000,00000000 a=00010" ∧
      (telemetryChars 1 exampleGpsData exampleTelemetry 1000).length = 43 ∧
      (generateMessage exampleConfig 1000 (fun _ => 0) (some CALLSIGN_SOURCE) 1
          (some exampleGpsData) exampleTelemetry (some (fun _ => 0)) 200
          (some { bitstreamCharIdx := 0, bitstreamCharBitIdx := 0 })).g_aprsPayloadBuffer 29 =
        49 := by
  refine ⟨by decide, by decide, by decide, by decide⟩

set_option maxRecDepth 100000 in
/-- C6, the code at a capacity of 16 bytes, too small for the frame of 98 bytes:
`generateMessage` returns true with a fill size of 16 bytes, although a call of
`encodeAndAppendBits` that starts at byte 16 returns false. -/
theorem generateMessage_small_buffer_returns_true :
    (generateMessage exampleConfig 0 (fun _ => 0) (some CALLSIGN_SOURCE) 1
        (some exampleGpsData) exampleTelemetry (some (fun _ => 0)) 16
        (some { bitstreamCharIdx := 0, bitstreamCharBitIdx := 0 })).result = true ∧
      (generateMessage exampleConfig 0 (fun _ => 0) (some CALLSIGN_SOURCE) 1
        (some exampleGpsData) exampleTelemetry (some (fun _ => 0)) 16
        (some { bitstreamCharIdx := 0, bitstreamCharBitIdx := 0 })).bitstreamSize =
        some { bitstreamCharIdx := 16, bitstreamCharBitIdx := 0 } ∧
      (encodeAndAppendBits (some (fun _ => 0)) 16
        (some { bitstreamSize := { bitstreamCharIdx := 16, bitstreamCharBitIdx := 0 },
                lastBit := true, numberOfOnes := 0, fcs := 0 })
        (some [0x7E]) 1 ST_NO_STUFFING FCS_NONE SHIFT_ONE_LEFT_NO).1 = false := by
  refine ⟨by decide, by decide, by decide⟩
/-! ## CRC -/

theorem shiftRight_xor (a b k : Nat) : (a ^^^ b) >>> k = (a >>> k) ^^^ (b >>> k) := by
  apply Nat.eq_of_testBit_eq
  intro i
  simp [Nat.testBit_shiftRight, Nat.testBit_xor]

theorem mod_two_eq_testBit (a : Nat) : a % 2 = (a.testBit 0).toNat := by
  rw [Nat.testBit_zero]
  rcases Nat.mod_two_eq_zero_or_one a with h | h <;> simp [h]

/-- One shift of the reference register after xor-ing `x` in is the bitwise step of the
code on the lowest bit of `x`, with the rest of `x` still to be xor-ed in. -/
theorem crc16Shift_xor (d x : Nat) :
    crc16Shift (d ^^^ x) = crcBit d (x.testBit 0) ^^^ (x >>> 1) := by
  have h1 : (d ^^^ x) % 2 = ((d.testBit 0) ^^ (x.testBit 0)).toNat := by
    rw [mod_two_eq_testBit, Nat.testBit_xor]
  have h2 : d &&& 1 = (d.testBit 0).toNat := by
    rw [Nat.and_one_is_mod, mod_two_eq_testBit]
  simp only [crc16Shift, crcBit, h1, h2, shiftRight_xor, FCS_POLYNOMIAL]
  cases d.testBit 0 <;> cases x.testBit 0 <;> simp [Nat.xor_assoc, Nat.xor_comm (x >>> 1)]

theorem foldl_crcBit_range (n c b : Nat) :
    ((List.range n).map (fun i => b.testBit i)).foldl crcBit c ^^^ (b >>> n) =
      crc16Shift^[n] (c ^^^ b) := by
  induction n with
  | zero => simp
  | succ n ih =>
    rw [Function.iterate_succ_apply', ← ih, crc16Shift_xor, List.range_succ, List.map_append,
      List.foldl_append]
    simp [Nat.testBit_shiftRight, Nat.shiftRight_add]

/-- The bitwise CRC of the code over the bits of a byte is the byte-wise reference
update. -/
theorem foldl_crcBit_byteBits (c b : Nat) (hb : b < 256) :
    (byteBits b).foldl crcBit c = crc16X25Byte c b := by
  have h := foldl_crcBit_range 8 c b
  have hz : b >>> 8 = 0 := by
    rw [Nat.shiftRight_eq_div_pow]
    exact Nat.div_eq_of_lt hb
  rw [hz, Nat.xor_zero] at h
  exact h

theorem shiftedByte_lt (sh : SHIFT_ONE_LEFT_TYPE) (b : Nat) : shiftedByte sh b < 256 := by
  simp only [shiftedByte]
  split <;> omega

theorem messageBits_eq_flatMap (sh : SHIFT_ONE_LEFT_TYPE) (data : List Nat) :
    messageBits sh data = (data.map (shiftedByte sh)).flatMap byteBits := by
  simp [messageBits, List.flatMap_map]

theorem foldl_crcBit_flatMap (c : Nat) (bytes : List Nat) (h : ∀ b ∈ bytes, b < 256) :
    (bytes.flatMap byteBits).foldl crcBit c = bytes.foldl crc16X25Byte c := by
  induction bytes generalizing c with
  | nil => rfl
  | cons b rest ih =>
    simp only [List.flatMap_cons, List.foldl_append, List.foldl_cons]
    rw [foldl_crcBit_byteBits c b (h b (List.mem_cons_self _ _))]
    exact ih _ (fun x hx => h x (List.mem_cons_of_mem _ hx))

theorem crc16Shift_lt (c : Nat) (h : c < 65536) : crc16Shift c < 65536 := by
  have h1 : c >>> 1 < 2 ^ 16 := by
    rw [Nat.shiftRight_eq_div_pow]
    exact Nat.lt_of_le_of_lt (Nat.div_le_self _ _) h
  simp only [crc16Shift]
  split
  · exact Nat.xor_lt_two_pow h1 (by decide)
  · exact h1

theorem crc16X25Byte_lt (c b : Nat) (hc : c < 65536) (hb : b < 256) :
    crc16X25Byte c b < 65536 := by
  have h0 : c ^^^ b < 2 ^ 16 := Nat.xor_lt_two_pow hc (Nat.lt_trans hb (by decide))
  have hk : ∀ k x, x < 65536 → crc16Shift^[k] x < 65536 := by
    intro k
    induction k with
    | zero => intro x hx; exact hx
    | succ k ih =>
      intro x hx
      rw [Function.iterate_succ_apply']
      exact crc16Shift_lt _ (ih x hx)
  exact hk 8 _ h0

theorem foldl_crc16X25Byte_lt (bytes : List Nat) (c : Nat) (hc : c < 65536)
    (h : ∀ b ∈ bytes, b < 256) : bytes.foldl crc16X25Byte c < 65536 := by
  induction bytes generalizing c with
  | nil => exact hc
  | cons b rest ih =>
    exact ih _ (crc16X25Byte_lt c b hc (h b (List.mem_cons_self _ _)))
      (fun x hx => h x (List.mem_cons_of_mem _ hx))

theorem testBit_65535 (j : Nat) : Nat.testBit 65535 j = decide (j < 16) := by
  have h := Nat.testBit_two_pow_sub_one 16 j
  simpa using h

theorem testBit_ge_16 (c i : Nat) (hc : c < 65536) (hi : 16 ≤ i) : c.testBit i = false := by
  apply Nat.testBit_lt_two_pow
  have h2 : (2 : Nat) ^ 16 ≤ 2 ^ i := Nat.pow_le_pow_right (Nat.succ_pos 1) hi
  exact Nat.lt_of_lt_of_le hc h2

theorem fcs_low_xor (c : Nat) :
    c ^^^ ((c ^^^ 0xFFFF) &&& 0xFF) = ((c >>> 8) <<< 8) ||| 0xFF := by
  apply Nat.eq_of_testBit_eq
  intro i
  simp only [Nat.testBit_xor, Nat.testBit_and, Nat.testBit_or, Nat.testBit_shiftLeft,
    Nat.testBit_shiftRight, testBit_65535, testBit_255]
  by_cases h8 : i < 8
  · have h16 : i < 16 := by omega
    have hge : ¬ (i ≥ 8) := by omega
    cases c.testBit i <;> simp [h8, h16, hge]
  · have hge : i ≥ 8 := by omega
    have he : 8 + (i - 8) = i := by omega
    simp [h8, hge, he]

theorem fcs_high_byte (c : Nat) (hc : c < 65536) :
    ((c ^^^ 0xFFFF) >>> 8) &&& 0xFF = (c >>> 8) ^^^ 0xFF := by
  apply Nat.eq_of_testBit_eq
  intro i
  simp only [Nat.testBit_xor, Nat.testBit_and, Nat.testBit_shiftRight, testBit_65535,
    testBit_255]
  by_cases h8 : i < 8
  · have h16 : 8 + i < 16 := by omega
    simp [h8, h16]
  · have hf := testBit_ge_16 c (8 + i) hc (by omega)
    have h16 : ¬ (8 + i < 16) := by omega
    simp [h8, hf, h16]

set_option maxRecDepth 100000 in
theorem crc16_residue_low : ∀ h, h < 256 →
    crc16Shift^[8] ((h <<< 8) ||| 0xFF) = h ^^^ crc16Shift^[8] 0xFF := by
  decide

set_option maxRecDepth 100000 in
theorem crc16_residue_high : ∀ h, h < 256 →
    crc16Shift^[8] ((h ^^^ crc16Shift^[8] 0xFF) ^^^ (h ^^^ 0xFF)) = 0xF0B8 := by
  decide

/-- The self-check of CRC-16/X.25: after the complemented register has been fed back, low
byte first, the register holds 0xF0B8. -/
theorem crc16X25_residue (c : Nat) (hc : c < 65536) :
    crc16X25Byte (crc16X25Byte c ((c ^^^ 0xFFFF) &&& 0xFF)) (((c ^^^ 0xFFFF) >>> 8) &&& 0xFF) =
      0xF0B8 := by
  have hh : c >>> 8 < 256 := by
    rw [Nat.shiftRight_eq_div_pow]
    exact Nat.div_lt_of_lt_mul (by simpa using hc)
  simp only [crc16X25Byte]
  rw [fcs_low_xor, fcs_high_byte c hc, crc16_residue_low _ hh, crc16_residue_high _ hh]

/-! ## Message assembler -/

theorem encodeCall_lineState (maxLen : Nat) (buffer0 : Buffer) (line : List Bool) (n fcs : Nat)
    (data : List Nat) (size : Nat) (st : STUFFING_TYPE) (ft : FCS_TYPE)
    (sh : SHIFT_ONE_LEFT_TYPE) (hsize : size = data.length) (hne : data ≠ [])
    (hcap : line.length + (stuffBits st n (messageBits sh data)).length ≤ 8 * maxLen) :
    encodeCall maxLen (lineState buffer0 line n fcs) data size st ft sh =
      lineState buffer0 (line ++ stuffBits st n (messageBits sh data))
        (if st = ST_NO_STUFFING then 0 else onesAfter st n (messageBits sh data))
        (fcsAfter ft fcs (messageBits sh data)) := by
  subst hsize
  have h := encodeAndAppendBits_eq (writeBits buffer0 0 (nrziEncode true line)) maxLen
    { bitstreamSize := posOf line.length, lastBit := nrziLast true line, numberOfOnes := n,
      fcs := fcs } data st ft sh line.length hne rfl hcap
  simp only [encodeCall, lineState, h]
  simp only [nrziEncode_append, nrziLast_append, writeBits_append, length_nrziEncode,
    Nat.zero_add, edAfter, List.length_append]
  cases st <;> simp

theorem messageBits_flag : messageBits SHIFT_ONE_LEFT_NO [0x7E] = byteBits 0x7E := by
  decide

theorem length_byteBits (b : Nat) : (byteBits b).length = 8 := by
  simp [byteBits]

theorem flagBits_succ (k : Nat) : flagBits (k + 1) = byteBits 0x7E ++ flagBits k := by
  simp [flagBits, List.replicate_succ]

theorem length_flagBits (k : Nat) : (flagBits k).length = 8 * k := by
  induction k with
  | zero => rfl
  | succ k ih => rw [flagBits_succ, List.length_append, ih, length_byteBits]; omega

theorem encodeFlags_lineState (maxLen : Nat) (buffer0 : Buffer) (k : Nat) (line : List Bool)
    (n fcs : Nat) (hcap : line.length + 8 * k ≤ 8 * maxLen) :
    encodeFlags maxLen k (lineState buffer0 line n fcs) =
      lineState buffer0 (line ++ flagBits k) (if k = 0 then n else 0) fcs := by
  induction k generalizing line n with
  | zero => simp [encodeFlags, flagBits]
  | succ k ih =>
    have h1 := encodeCall_lineState maxLen buffer0 line n fcs [0x7E] 1 ST_NO_STUFFING FCS_NONE
      SHIFT_ONE_LEFT_NO rfl (by simp)
      (by rw [stuffBits_no_stuffing, messageBits_flag, length_byteBits]; omega)
    have hf : fcsAfter FCS_NONE fcs (byteBits 0x7E) = fcs := by simp [fcsAfter]
    have hl : (line ++ byteBits 0x7E).length + 8 * k ≤ 8 * maxLen := by
      rw [List.length_append, length_byteBits]; omega
    simp only [encodeFlags, h1, stuffBits_no_stuffing, messageBits_flag, if_true, hf]
    rw [ih _ _ hl, flagBits_succ]
    simp

theorem length_stuffBits_append_le (st : STUFFING_TYPE) (n : Nat) (a b : List Bool) :
    (stuffBits st n a).length ≤ (stuffBits st n (a ++ b)).length := by
  rw [stuffBits_append, List.length_append]
  omega

/-- A stuffed call continues the stuffed region written so far. -/
theorem encodeCall_stuffed (maxLen : Nat) (buffer0 : Buffer) (line bits : List Bool)
    (n fcs : Nat) (data : List Nat) (size : Nat) (ft : FCS_TYPE) (sh : SHIFT_ONE_LEFT_TYPE)
    (hsize : size = data.length) (hne : data ≠ [])
    (hcap : line.length +
      (stuffBits ST_PERFORM_STUFFING n (bits ++ messageBits sh data)).length ≤ 8 * maxLen) :
    encodeCall maxLen
        (lineState buffer0 (line ++ stuffBits ST_PERFORM_STUFFING n bits)
          (onesAfter ST_PERFORM_STUFFING n bits) fcs)
        data size ST_PERFORM_STUFFING ft sh =
      lineState buffer0 (line ++ stuffBits ST_PERFORM_STUFFING n (bits ++ messageBits sh data))
        (onesAfter ST_PERFORM_STUFFING n (bits ++ messageBits sh data))
        (fcsAfter ft fcs (messageBits sh data)) := by
  rw [stuffBits_append, List.length_append] at hcap
  rw [encodeCall_lineState maxLen buffer0 _ _ fcs data size ST_PERFORM_STUFFING ft sh hsize hne
    (by rw [List.length_append]; omega)]
  simp only [reduceCtorEq, if_false, stuffBits_append, onesAfter_append, List.append_assoc]

theorem byteBits_mod (b : Nat) : byteBits (b % 256) = byteBits b := by
  simp only [byteBits]
  apply List.map_congr_left
  intro i hi
  have h8 : i < 8 := List.mem_range.mp hi
  have := Nat.testBit_mod_two_pow b 8 i
  simp only [Nat.reducePow] at this
  simp [this, h8]

theorem messageBits_singleton (b : Nat) :
    messageBits SHIFT_ONE_LEFT_NO [b] = byteBits b := by
  simp [messageBits, shiftedByte, byteBits_mod]

/-- The bits that the nine FCS-calculated calls of `generateMessage` encode are the bits of
`frameBytes`. -/
theorem frameBytes_bits (cs : Callsign) (info : List Nat) :
    (frameBytes cs info).flatMap byteBits =
      messageBits SHIFT_ONE_LEFT CALLSIGN_DESTINATION_1.callsign ++
        messageBits SHIFT_ONE_LEFT_NO [CALLSIGN_DESTINATION_1.ssid] ++
        messageBits SHIFT_ONE_LEFT cs.callsign ++
        messageBits SHIFT_ONE_LEFT_NO [cs.ssid] ++
        messageBits SHIFT_ONE_LEFT CALLSIGN_DESTINATION_2.callsign ++
        messageBits SHIFT_ONE_LEFT_NO [CALLSIGN_DESTINATION_2.ssid] ++
        messageBits SHIFT_ONE_LEFT_NO [0x03] ++
        messageBits SHIFT_ONE_LEFT_NO [0xF0] ++
        messageBits SHIFT_ONE_LEFT_NO info := by
  have h1 : messageBits SHIFT_ONE_LEFT_NO [CALLSIGN_DESTINATION_1.ssid] = byteBits 0xE2 := by
    decide
  have h2 : messageBits SHIFT_ONE_LEFT_NO [CALLSIGN_DESTINATION_2.ssid] = byteBits 0xE5 := by
    decide
  have h3 : messageBits SHIFT_ONE_LEFT_NO [0x03] ++ messageBits SHIFT_ONE_LEFT_NO [0xF0] =
      byteBits 0x03 ++ byteBits 0xF0 := by decide
  have h4 : messageBits SHIFT_ONE_LEFT_NO info = (info.map (fun b => b % 256)).flatMap byteBits := by
    simp [messageBits, shiftedByte, List.flatMap_map]
  rw [h1, h2, h4, messageBits_singleton, messageBits_eq_flatMap, messageBits_eq_flatMap,
    messageBits_eq_flatMap]
  simp only [List.append_assoc, h3]
  simp [frameBytes, List.flatMap_append, byteBits_mod]

theorem frameBytes_lt (cs : Callsign) (info : List Nat) : ∀ b ∈ frameBytes cs info, b < 256 := by
  intro b hb
  simp only [frameBytes, List.mem_append, List.mem_map, List.mem_cons, List.not_mem_nil,
    or_false] at hb
  casesm* _ ∨ _
  all_goals
    rename_i hb
    obtain ⟨x, -, rfl⟩ := hb
    first | exact shiftedByte_lt _ _ | omega

/-- The CRC accumulator of the code after the frame is the reference CRC register. -/
theorem fcsAfter_frameBytes (cs : Callsign) (info : List Nat) :
    fcsAfter FCS_CALCULATE FCS_INITIAL_VALUE ((frameBytes cs info).flatMap byteBits) =
      crc16X25Register (frameBytes cs info) := by
  simp only [fcsAfter, if_true, crc16X25Register, FCS_INITIAL_VALUE]
  exact foldl_crcBit_flatMap _ _ (frameBytes_lt cs info)

theorem crc16X25Register_lt (bytes : List Nat) (h : ∀ b ∈ bytes, b < 256) :
    crc16X25Register bytes < 65536 :=
  foldl_crc16X25Byte_lt bytes 0xFFFF (by decide) h

theorem lineState_init (buffer0 : Buffer) (fcs : Nat) :
    ((buffer0,
        { bitstreamSize := { bitstreamCharIdx := 0, bitstreamCharBitIdx := 0 }
          lastBit := true
          numberOfOnes := 0
          fcs := fcs }) : Buffer × EncodingData) = lineState buffer0 [] 0 fcs := by
  simp [lineState, nrziEncode, nrziLast, writeBits, posOf]

theorem lineState_fcs (buffer0 : Buffer) (line : List Bool) (n fcs : Nat) :
    (lineState buffer0 line n fcs).2.fcs = fcs := rfl

theorem lineState_setFcs (buffer0 : Buffer) (line : List Bool) (n fcs g : Nat) :
    ((lineState buffer0 line n fcs).1,
      ({ bitstreamSize := (lineState buffer0 line n fcs).2.bitstreamSize
         lastBit := (lineState buffer0 line n fcs).2.lastBit
         numberOfOnes := (lineState buffer0 line n fcs).2.numberOfOnes
         fcs := g } : EncodingData)) = lineState buffer0 line n g := rfl

theorem fcsAfter_none (fcs : Nat) (bs : List Bool) : fcsAfter FCS_NONE fcs bs = fcs := by
  simp [fcsAfter]

/-- With a source callsign of six characters, a payload that is not empty and room for the
whole line, `generateMessage` succeeds and the buffer holds the NRZI coding, from the
physical bit 1, of `frameLine`: flags, stuffed frame with FCS, flags. -/
theorem generateMessage_eq (cfg : Config) (messageId : Nat) (payloadBuffer : Buffer)
    (cs : Callsign) (gpsDataSource : Nat) (gps : GpsData) (tel : Telemetry) (buffer0 : Buffer)
    (maxLen : Nat) (size0 : BitstreamPos)
    (hcs : cs.callsign.length = 6)
    (hpay : (createPacketPayload gpsDataSource gps tel messageId payloadBuffer
      (cfg.APRS_PAYLOAD_LEN % 256)).1 ≠ 0)
    (hcap : (frameLine cfg cs
      (bufferBytes
        (createPacketPayload gpsDataSource gps tel messageId payloadBuffer
          (cfg.APRS_PAYLOAD_LEN % 256)).2
        (createPacketPayload gpsDataSource gps tel messageId payloadBuffer
          (cfg.APRS_PAYLOAD_LEN % 256)).1)).length ≤ 8 * maxLen) :
    generateMessage cfg messageId payloadBuffer (some cs) gpsDataSource (some gps) tel
        (some buffer0) maxLen (some size0) =
      { result := true
        bitstreamBuffer := some (writeBits buffer0 0 (nrziEncode true (frameLine cfg cs
          (bufferBytes
            (createPacketPayload gpsDataSource gps tel messageId payloadBuffer
              (cfg.APRS_PAYLOAD_LEN % 256)).2
            (createPacketPayload gpsDataSource gps tel messageId payloadBuffer
              (cfg.APRS_PAYLOAD_LEN % 256)).1))))
        bitstreamSize := some (posOf (frameLine cfg cs
          (bufferBytes
            (createPacketPayload gpsDataSource gps tel messageId payloadBuffer
              (cfg.APRS_PAYLOAD_LEN % 256)).2
            (createPacketPayload gpsDataSource gps tel messageId payloadBuffer
              (cfg.APRS_PAYLOAD_LEN % 256)).1)).length)
        g_aprsMessageId := (messageId + 1) % 65536
        g_aprsPayloadBuffer := (createPacketPayload gpsDataSource gps tel messageId
          payloadBuffer (cfg.APRS_PAYLOAD_LEN % 256)).2 } := by
  generalize hp : createPacketPayload gpsDataSource gps tel messageId payloadBuffer
    (cfg.APRS_PAYLOAD_LEN % 256) = payload at hpay hcap ⊢
  obtain ⟨bufferSize, payloadBuffer1⟩ := payload
  simp only at hpay hcap ⊢
  generalize hinfo : bufferBytes payloadBuffer1 bufferSize = info at hcap ⊢
  have hinfoLen : bufferSize = info.length := by
    rw [← hinfo]; simp [bufferBytes]
  have hinfoNe : info ≠ [] := by
    intro h
    rw [h] at hinfoLen
    exact hpay hinfoLen
  -- the bits of the frame, call by call
  have hframe := frameBytes_bits cs info
  have hfcs := fcsAfter_frameBytes cs info
  have hreg := crc16X25Register_lt (frameBytes cs info) (frameBytes_lt cs info)
  generalize hlow : crc16X25 (frameBytes cs info) &&& 0xFF = low at *
  generalize hhigh : (crc16X25 (frameBytes cs info) >>> 8) &&& 0xFF = high at *
  have hall : (frameWithFcs cs info).flatMap byteBits =
      (frameBytes cs info).flatMap byteBits ++ messageBits SHIFT_ONE_LEFT_NO [low] ++
        messageBits SHIFT_ONE_LEFT_NO [high] := by
    simp only [frameWithFcs, hlow, hhigh, messageBits_singleton, List.flatMap_append,
      List.flatMap_cons, List.flatMap_nil, List.append_nil, List.append_assoc]
  simp only [frameLine, hall, List.length_append, length_flagBits] at hcap
  rw [hframe] at hcap hfcs
  -- capacity for each prefix of the stuffed region
  have c11 := hcap
  have c10 := Nat.le_trans (Nat.add_le_add_left (length_stuffBits_append_le ST_PERFORM_STUFFING 0
    _ (messageBits SHIFT_ONE_LEFT_NO [high])) (8 * cfg.PREFIX_FLAGS_COUNT))
    (Nat.le_trans (Nat.le_add_right _ _) c11)
  have c9 := Nat.le_trans (Nat.add_le_add_left (length_stuffBits_append_le ST_PERFORM_STUFFING 0
    _ (messageBits SHIFT_ONE_LEFT_NO [low])) (8 * cfg.PREFIX_FLAGS_COUNT)) c10
  have c8 := Nat.le_trans (Nat.add_le_add_left (length_stuffBits_append_le ST_PERFORM_STUFFING 0
    _ (messageBits SHIFT_ONE_LEFT_NO info)) (8 * cfg.PREFIX_FLAGS_COUNT)) c9
  have c7 := Nat.le_trans (Nat.add_le_add_left (length_stuffBits_append_le ST_PERFORM_STUFFING 0
    _ (messageBits SHIFT_ONE_LEFT_NO [0xF0])) (8 * cfg.PREFIX_FLAGS_COUNT)) c8
  have c6 := Nat.le_trans (Nat.add_le_add_left (length_stuffBits_append_le ST_PERFORM_STUFFING 0
    _ (messageBits SHIFT_ONE_LEFT_NO [0x03])) (8 * cfg.PREFIX_FLAGS_COUNT)) c7
  have c5 := Nat.le_trans (Nat.add_le_add_left (length_stuffBits_append_le ST_PERFORM_STUFFING 0
    _ (messageBits SHIFT_ONE_LEFT_NO [CALLSIGN_DESTINATION_2.ssid])) (8 * cfg.PREFIX_FLAGS_COUNT)) c6
  have c4 := Nat.le_trans (Nat.add_le_add_left (length_stuffBits_append_le ST_PERFORM_STUFFING 0
    _ (messageBits SHIFT_ONE_LEFT CALLSIGN_DESTINATION_2.callsign)) (8 * cfg.PREFIX_FLAGS_COUNT)) c5
  have c3 := Nat.le_trans (Nat.add_le_add_left (length_stuffBits_append_le ST_PERFORM_STUFFING 0
    _ (messageBits SHIFT_ONE_LEFT_NO [cs.ssid])) (8 * cfg.PREFIX_FLAGS_COUNT)) c4
  have c2 := Nat.le_trans (Nat.add_le_add_left (length_stuffBits_append_le ST_PERFORM_STUFFING 0
    _ (messageBits SHIFT_ONE_LEFT cs.callsign)) (8 * cfg.PREFIX_FLAGS_COUNT)) c3
  have c1 := Nat.le_trans (Nat.add_le_add_left (length_stuffBits_append_le ST_PERFORM_STUFFING 0
    _ (messageBits SHIFT_ONE_LEFT_NO [CALLSIGN_DESTINATION_1.ssid])) (8 * cfg.PREFIX_FLAGS_COUNT)) c2
  have c0 : ([] : List Bool).length + 8 * cfg.PREFIX_FLAGS_COUNT ≤ 8 * maxLen := by
    simp only [List.length_nil]; omega
  simp only [generateMessage, hp, lineState_init, if_neg hpay]
  rw [encodeFlags_lineState maxLen buffer0 cfg.PREFIX_FLAGS_COUNT [] 0 FCS_INITIAL_VALUE c0]
  simp only [List.nil_append, ite_self]
  have hstart : lineState buffer0 (flagBits cfg.PREFIX_FLAGS_COUNT) 0 FCS_INITIAL_VALUE =
      lineState buffer0 (flagBits cfg.PREFIX_FLAGS_COUNT ++ stuffBits ST_PERFORM_STUFFING 0 [])
        (onesAfter ST_PERFORM_STUFFING 0 []) FCS_INITIAL_VALUE := by
    simp [stuffBits, onesAfter]
  rw [hstart]
  rw [encodeCall_stuffed maxLen buffer0 _ [] 0 _ CALLSIGN_DESTINATION_1.callsign 6 FCS_CALCULATE
    SHIFT_ONE_LEFT rfl (by decide) (by rw [length_flagBits]; exact c1)]
  rw [encodeCall_stuffed maxLen buffer0 _ _ 0 _ [CALLSIGN_DESTINATION_1.ssid] 1 FCS_CALCULATE
    SHIFT_ONE_LEFT_NO rfl (by decide) (by rw [length_flagBits]; exact c2)]
  rw [encodeCall_stuffed maxLen buffer0 _ _ 0 _ cs.callsign 6 FCS_CALCULATE
    SHIFT_ONE_LEFT hcs.symm (by intro h; rw [h] at hcs; simp at hcs)
    (by rw [length_flagBits]; exact c3)]
  rw [encodeCall_stuffed maxLen buffer0 _ _ 0 _ [cs.ssid] 1 FCS_CALCULATE
    SHIFT_ONE_LEFT_NO rfl (by simp) (by rw [length_flagBits]; exact c4)]
  rw [encodeCall_stuffed maxLen buffer0 _ _ 0 _ CALLSIGN_DESTINATION_2.callsign 6 FCS_CALCULATE
    SHIFT_ONE_LEFT rfl (by decide) (by rw [length_flagBits]; exact c5)]
  rw [encodeCall_stuffed maxLen buffer0 _ _ 0 _ [CALLSIGN_DESTINATION_2.ssid] 1 FCS_CALCULATE
    SHIFT_ONE_LEFT_NO rfl (by decide) (by rw [length_flagBits]; exact c6)]
  rw [encodeCall_stuffed maxLen buffer0 _ _ 0 _ [0x03] 1 FCS_CALCULATE
    SHIFT_ONE_LEFT_NO rfl (by decide) (by rw [length_flagBits]; exact c7)]
  rw [encodeCall_stuffed maxLen buffer0 _ _ 0 _ [0xF0] 1 FCS_CALCULATE
    SHIFT_ONE_LEFT_NO rfl (by decide) (by rw [length_flagBits]; exact c8)]
  rw [hinfo]
  rw [encodeCall_stuffed maxLen buffer0 _ _ 0 _ info bufferSize FCS_CALCULATE
    SHIFT_ONE_LEFT_NO hinfoLen hinfoNe (by rw [length_flagBits]; exact c9)]
  simp only [← fcsAfter_append, List.nil_append]
  rw [hfcs]
  have hx : crc16X25Register (frameBytes cs info) ^^^ FCS_POST_PROCESSING_XOR_VALUE =
      crc16X25 (frameBytes cs info) := rfl
  simp only [lineState_fcs, lineState_setFcs, hx, hlow]
  rw [encodeCall_stuffed maxLen buffer0 _ _ 0 _ [low] 1 FCS_NONE
    SHIFT_ONE_LEFT_NO rfl (by simp) (by rw [length_flagBits]; exact c10)]
  simp only [lineState_fcs, fcsAfter_none, hhigh]
  rw [encodeCall_stuffed maxLen buffer0 _ _ 0 _ [high] 1 FCS_NONE
    SHIFT_ONE_LEFT_NO rfl (by simp)
    (by rw [length_flagBits]; exact Nat.le_trans (Nat.le_add_right _ _) c11)]
  rw [encodeFlags_lineState maxLen buffer0 cfg.SUFFIX_FLAGS_COUNT _ _ _
    (by rw [List.length_append, length_flagBits]; exact c11)]
  simp only [lineState, frameLine, hall, hframe]

theorem take_frame (a m b : List Bool) : (a ++ m ++ b).take a.length = a := by
  rw [List.append_assoc, List.take_left']
  rfl

theorem middle_frame (a m b : List Bool) :
    ((a ++ m ++ b).drop a.length).take ((a ++ m ++ b).length - a.length - b.length) = m := by
  rw [List.append_assoc, List.drop_left']
  · have h : (a ++ (m ++ b)).length - a.length - b.length = m.length := by
      simp only [List.length_append]; omega
    rw [h, List.take_left']
    rfl
  · rfl

theorem drop_frame (a m b : List Bool) :
    (a ++ m ++ b).drop ((a ++ m ++ b).length - b.length) = b := by
  have h : (a ++ m ++ b).length - b.length = (a ++ m).length := by
    simp only [List.length_append]; omega
  rw [h, List.drop_left']
  rfl

/-- Under the hypotheses of `generateMessage_eq`, the filled bitstream, decoded from NRZI
from the level 1, is `frameLine`. -/
theorem generateMessage_decoded (cfg : Config) (messageId : Nat) (payloadBuffer : Buffer)
    (cs : Callsign) (gpsDataSource : Nat) (gps : GpsData) (tel : Telemetry) (buffer0 : Buffer)
    (maxLen : Nat) (size0 : BitstreamPos)
    (hcs : cs.callsign.length = 6)
    (hpay : (createPacketPayload gpsDataSource gps tel messageId payloadBuffer
      (cfg.APRS_PAYLOAD_LEN % 256)).1 ≠ 0)
    (hcap : (frameLine cfg cs
      (bufferBytes
        (createPacketPayload gpsDataSource gps tel messageId payloadBuffer
          (cfg.APRS_PAYLOAD_LEN % 256)).2
        (createPacketPayload gpsDataSource gps tel messageId payloadBuffer
          (cfg.APRS_PAYLOAD_LEN % 256)).1)).length ≤ 8 * maxLen) :
    ∃ buffer1 size1,
      (generateMessage cfg messageId payloadBuffer (some cs) gpsDataSource (some gps) tel
        (some buffer0) maxLen (some size0)).result = true ∧
      (generateMessage cfg messageId payloadBuffer (some cs) gpsDataSource (some gps) tel
        (some buffer0) maxLen (some size0)).bitstreamBuffer = some buffer1 ∧
      (generateMessage cfg messageId payloadBuffer (some cs) gpsDataSource (some gps) tel
        (some buffer0) maxLen (some size0)).bitstreamSize = some size1 ∧
      nrziDecode true
          (readBits buffer1 { bitstreamCharIdx := 0, bitstreamCharBitIdx := 0 }
            (bitOffset size1)) =
        frameLine cfg cs
          (bufferBytes
            (createPacketPayload gpsDataSource gps tel messageId payloadBuffer
              (cfg.APRS_PAYLOAD_LEN % 256)).2
            (createPacketPayload gpsDataSource gps tel messageId payloadBuffer
              (cfg.APRS_PAYLOAD_LEN % 256)).1) := by
  rw [generateMessage_eq cfg messageId payloadBuffer cs gpsDataSource gps tel buffer0 maxLen size0
    hcs hpay hcap]
  refine ⟨_, _, rfl, rfl, rfl, ?_⟩
  have h0 : ({ bitstreamCharIdx := 0, bitstreamCharBitIdx := 0 } : BitstreamPos) = posOf 0 := rfl
  rw [bitOffset_posOf, h0, ← length_nrziEncode true, readBits_writeBits, nrziDecode_encode]

/-- C4: frame layout of `generateMessage`. With flag counts that fit the `uint8_t` loop
counters, a source callsign of six characters, a payload that is not empty and a buffer
with room for the whole line, `generateMessage` succeeds; the filled bitstream decoded
from NRZI (initial level 1) starts with `PREFIX_FLAGS_COUNT` flag bytes 0x7E of 8 bits
each, ends with `SUFFIX_FLAGS_COUNT` flag bytes, and the region between them destuffed is,
LSB first: "WIDE1 " shifted left one bit, 0xE2, the source callsign shifted left one bit,
its SSID byte, "WIDE2 " shifted left one bit, 0xE5, 0x03, 0xF0, the bytes returned by
`createPacketPayload`, and the two FCS bytes. -/
theorem generateMessage_frame_layout (cfg : Config) (messageId : Nat) (payloadBuffer : Buffer)
    (cs : Callsign) (gpsDataSource : Nat) (gps : GpsData) (tel : Telemetry) (buffer0 : Buffer)
    (maxLen : Nat) (size0 : BitstreamPos)
    (hprefixCount : cfg.PREFIX_FLAGS_COUNT < 256)
    (hsuffixCount : cfg.SUFFIX_FLAGS_COUNT < 256)
    (hcs : cs.callsign.length = 6)
    (hpay : (createPacketPayload gpsDataSource gps tel messageId payloadBuffer
      (cfg.APRS_PAYLOAD_LEN % 256)).1 ≠ 0)
    (hcap : (frameLine cfg cs
      (bufferBytes
        (createPacketPayload gpsDataSource gps tel messageId payloadBuffer
          (cfg.APRS_PAYLOAD_LEN % 256)).2
        (createPacketPayload gpsDataSource gps tel messageId payloadBuffer
          (cfg.APRS_PAYLOAD_LEN % 256)).1)).length ≤ 8 * maxLen) :
    ∃ buffer1 size1 line frame fcs,
      (generateMessage cfg messageId payloadBuffer (some cs) gpsDataSource (some gps) tel
        (some buffer0) maxLen (some size0)).result = true ∧
      (generateMessage cfg messageId payloadBuffer (some cs) gpsDataSource (some gps) tel
        (some buffer0) maxLen (some size0)).bitstreamBuffer = some buffer1 ∧
      (generateMessage cfg messageId payloadBuffer (some cs) gpsDataSource (some gps) tel
        (some buffer0) maxLen (some size0)).bitstreamSize = some size1 ∧
      line = nrziDecode true
          (readBits buffer1 { bitstreamCharIdx := 0, bitstreamCharBitIdx := 0 }
            (bitOffset size1)) ∧
      frame = frameBytes cs
        (bufferBytes
          (createPacketPayload gpsDataSource gps tel messageId payloadBuffer
            (cfg.APRS_PAYLOAD_LEN % 256)).2
          (createPacketPayload gpsDataSource gps tel messageId payloadBuffer
            (cfg.APRS_PAYLOAD_LEN % 256)).1) ∧
      fcs = crc16X25 frame ∧
      line.take (8 * cfg.PREFIX_FLAGS_COUNT) = flagBits cfg.PREFIX_FLAGS_COUNT ∧
      destuffBits 0 ((line.drop (8 * cfg.PREFIX_FLAGS_COUNT)).take
          (line.length - 8 * cfg.PREFIX_FLAGS_COUNT - 8 * cfg.SUFFIX_FLAGS_COUNT)) =
        (frame ++ [fcs &&& 0xFF, (fcs >>> 8) &&& 0xFF]).flatMap byteBits ∧
      line.drop (line.length - 8 * cfg.SUFFIX_FLAGS_COUNT) = flagBits cfg.SUFFIX_FLAGS_COUNT := by
  obtain ⟨buffer1, size1, h1, h2, h3, h4⟩ := generateMessage_decoded cfg messageId payloadBuffer
    cs gpsDataSource gps tel buffer0 maxLen size0 hcs hpay hcap
  refine ⟨buffer1, size1, _, _, _, h1, h2, h3, rfl, rfl, rfl, ?_, ?_, ?_⟩
  · rw [h4, frameLine, ← length_flagBits cfg.PREFIX_FLAGS_COUNT, take_frame]
  · rw [h4, frameLine, ← length_flagBits cfg.PREFIX_FLAGS_COUNT,
      ← length_flagBits cfg.SUFFIX_FLAGS_COUNT, middle_frame,
      destuffBits_stuffBits 0 _ (by decide)]
    rfl
  · rw [h4, frameLine, ← length_flagBits cfg.SUFFIX_FLAGS_COUNT, drop_frame]

theorem length_stuffBits_le (st : STUFFING_TYPE) (n : Nat) (bs : List Bool) (hn : n < 5) :
    (stuffBits st n bs).length ≤ bs.length + (n + bs.length) / 5 := by
  induction bs generalizing n with
  | nil => simp [stuffBits]
  | cons b bs ih =>
    cases st
    · rw [stuffBits_no_stuffing]; omega
    · cases b
      · have := ih 0 (by decide)
        simp only [stuffBits, stuffStep, onesStep, if_true, Bool.false_eq_true, if_false,
          List.length_append, List.length_cons, List.length_nil] at this ⊢
        omega
      · by_cases h5 : n + 1 = 5
        · have := ih 0 (by decide)
          simp only [stuffBits, stuffStep, onesStep, if_true, h5, and_self,
            List.length_append, List.length_cons, List.length_nil] at this ⊢
          omega
        · have := ih (n + 1) (by omega)
          simp only [stuffBits, stuffStep, onesStep, if_true, h5, and_false, if_false,
            List.length_append, List.length_cons, List.length_nil] at this ⊢
          omega

theorem length_flatMap_byteBits (bytes : List Nat) :
    (bytes.flatMap byteBits).length = 8 * bytes.length := by
  induction bytes with
  | nil => rfl
  | cons b rest ih =>
    simp only [List.flatMap_cons, List.length_append, length_byteBits, ih, List.length_cons]
    omega

theorem length_frameWithFcs (cs : Callsign) (info : List Nat) (hcs : cs.callsign.length = 6) :
    (frameWithFcs cs info).length = 25 + info.length := by
  simp [frameWithFcs, frameBytes, hcs, CALLSIGN_DESTINATION_1, CALLSIGN_DESTINATION_2]
  omega

/-- The line of a message takes at most one stuffed bit per five bits of the frame. -/
theorem length_frameLine_le (cfg : Config) (cs : Callsign) (info : List Nat)
    (hcs : cs.callsign.length = 6) :
    (frameLine cfg cs info).length ≤
      8 * cfg.PREFIX_FLAGS_COUNT + (8 * (25 + info.length) + 8 * (25 + info.length) / 5) +
        8 * cfg.SUFFIX_FLAGS_COUNT := by
  have h := length_stuffBits_le ST_PERFORM_STUFFING 0
    ((frameWithFcs cs info).flatMap byteBits) (by decide)
  rw [length_flatMap_byteBits, length_frameWithFcs cs info hcs, Nat.zero_add] at h
  simp only [frameLine, List.length_append, length_flagBits]
  omega

theorem exampleInfo_length : exampleInfo.length = 69 := by
  have h : (createPacketPayload 1 exampleGpsData exampleTelemetry 7 (fun _ => 0)
      (exampleConfig.APRS_PAYLOAD_LEN % 256)).1 = 69 := by decide
  simp [exampleInfo, bufferBytes, h]

theorem exampleFrame_fits :
    (frameLine exampleConfig CALLSIGN_SOURCE exampleInfo).length ≤ 8 * 200 := by
  have h := length_frameLine_le exampleConfig CALLSIGN_SOURCE exampleInfo (by decide)
  rw [exampleInfo_length] at h
  exact Nat.le_trans h (by decide)

theorem generateMessage_frame_layout_witness :
    exampleConfig.PREFIX_FLAGS_COUNT < 256 ∧ exampleConfig.SUFFIX_FLAGS_COUNT < 256 ∧
    CALLSIGN_SOURCE.callsign.length = 6 ∧
    (createPacketPayload 1 exampleGpsData exampleTelemetry 7 (fun _ => 0)
      (exampleConfig.APRS_PAYLOAD_LEN % 256)).1 ≠ 0 ∧
    (frameLine exampleConfig CALLSIGN_SOURCE exampleInfo).length ≤ 8 * 200 ∧
    ∃ buffer1 size1 line frame fcs,
      (generateMessage exampleConfig 7 (fun _ => 0) (some CALLSIGN_SOURCE) 1
        (some exampleGpsData) exampleTelemetry (some (fun _ => 0)) 200
        (some { bitstreamCharIdx := 0, bitstreamCharBitIdx := 0 })).result = true ∧
      (generateMessage exampleConfig 7 (fun _ => 0) (some CALLSIGN_SOURCE) 1
        (some exampleGpsData) exampleTelemetry (some (fun _ => 0)) 200
        (some { bitstreamCharIdx := 0, bitstreamCharBitIdx := 0 })).bitstreamBuffer =
          some buffer1 ∧
      (generateMessage exampleConfig 7 (fun _ => 0) (some CALLSIGN_SOURCE) 1
        (some exampleGpsData) exampleTelemetry (some (fun _ => 0)) 200
        (some { bitstreamCharIdx := 0, bitstreamCharBitIdx := 0 })).bitstreamSize =
          some size1 ∧
      line = nrziDecode true
          (readBits buffer1 { bitstreamCharIdx := 0, bitstreamCharBitIdx := 0 }
            (bitOffset size1)) ∧
      frame = frameBytes CALLSIGN_SOURCE exampleInfo ∧
      fcs = crc16X25 frame ∧
      line.take (8 * exampleConfig.PREFIX_FLAGS_COUNT) =
        flagBits exampleConfig.PREFIX_FLAGS_COUNT ∧
      destuffBits 0 ((line.drop (8 * exampleConfig.PREFIX_FLAGS_COUNT)).take
          (line.length - 8 * exampleConfig.PREFIX_FLAGS_COUNT -
            8 * exampleConfig.SUFFIX_FLAGS_COUNT)) =
        (frame ++ [fcs &&& 0xFF, (fcs >>> 8) &&& 0xFF]).flatMap byteBits ∧
      line.drop (line.length - 8 * exampleConfig.SUFFIX_FLAGS_COUNT) =
        flagBits exampleConfig.SUFFIX_FLAGS_COUNT :=
  ⟨by decide, by decide, by decide, by decide, exampleFrame_fits,
    generateMessage_frame_layout exampleConfig 7 (fun _ => 0) CALLSIGN_SOURCE 1 exampleGpsData
      exampleTelemetry (fun _ => 0) 200 { bitstreamCharIdx := 0, bitstreamCharBitIdx := 0 }
      (by decide) (by decide) (by decide) (by decide) exampleFrame_fits⟩

/-- C3: CRC self-check of `generateMessage`. With flag counts that fit the `uint8_t` loop
counters, a source callsign of six characters, a payload that is not empty and a buffer
with room for the whole line, `generateMessage` succeeds and the destuffed region between the flags is the frame (addresses as
transmitted, control, PID, information field) followed by the low byte and then the high
byte of the complemented reference CRC-16/X.25 of the frame; the reference CRC register run
over the frame and these two bytes ends at the residue 0xF0B8. -/
theorem generateMessage_fcs_selfcheck (cfg : Config) (messageId : Nat) (payloadBuffer : Buffer)
    (cs : Callsign) (gpsDataSource : Nat) (gps : GpsData) (tel : Telemetry) (buffer0 : Buffer)
    (maxLen : Nat) (size0 : BitstreamPos)
    (hprefixCount : cfg.PREFIX_FLAGS_COUNT < 256)
    (hsuffixCount : cfg.SUFFIX_FLAGS_COUNT < 256)
    (hcs : cs.callsign.length = 6)
    (hpay : (createPacketPayload gpsDataSource gps tel messageId payloadBuffer
      (cfg.APRS_PAYLOAD_LEN % 256)).1 ≠ 0)
    (hcap : (frameLine cfg cs
      (bufferBytes
        (createPacketPayload gpsDataSource gps tel messageId payloadBuffer
          (cfg.APRS_PAYLOAD_LEN % 256)).2
        (createPacketPayload gpsDataSource gps tel messageId payloadBuffer
          (cfg.APRS_PAYLOAD_LEN % 256)).1)).length ≤ 8 * maxLen) :
    ∃ buffer1 size1 frame fcs,
      (generateMessage cfg messageId payloadBuffer (some cs) gpsDataSource (some gps) tel
        (some buffer0) maxLen (some size0)).result = true ∧
      (generateMessage cfg messageId payloadBuffer (some cs) gpsDataSource (some gps) tel
        (some buffer0) maxLen (some size0)).bitstreamBuffer = some buffer1 ∧
      (generateMessage cfg messageId payloadBuffer (some cs) gpsDataSource (some gps) tel
        (some buffer0) maxLen (some size0)).bitstreamSize = some size1 ∧
      frame = frameBytes cs
        (bufferBytes
          (createPacketPayload gpsDataSource gps tel messageId payloadBuffer
            (cfg.APRS_PAYLOAD_LEN % 256)).2
          (createPacketPayload gpsDataSource gps tel messageId payloadBuffer
            (cfg.APRS_PAYLOAD_LEN % 256)).1) ∧
      fcs = crc16X25Register frame ^^^ 0xFFFF ∧
      destuffBits 0
          (((nrziDecode true
              (readBits buffer1 { bitstreamCharIdx := 0, bitstreamCharBitIdx := 0 }
                (bitOffset size1))).drop (8 * cfg.PREFIX_FLAGS_COUNT)).take
            (bitOffset size1 - 8 * cfg.PREFIX_FLAGS_COUNT - 8 * cfg.SUFFIX_FLAGS_COUNT)) =
        (frame ++ [fcs &&& 0xFF, (fcs >>> 8) &&& 0xFF]).flatMap byteBits ∧
      crc16X25Register (frame ++ [fcs &&& 0xFF, (fcs >>> 8) &&& 0xFF]) = 0xF0B8 := by
  have heq := generateMessage_eq cfg messageId payloadBuffer cs gpsDataSource gps tel buffer0
    maxLen size0 hcs hpay hcap
  obtain ⟨buffer1, size1, h1, h2, h3, h4⟩ := generateMessage_decoded cfg messageId payloadBuffer
    cs gpsDataSource gps tel buffer0 maxLen size0 hcs hpay hcap
  have hsize : bitOffset size1 = (frameLine cfg cs
      (bufferBytes
        (createPacketPayload gpsDataSource gps tel messageId payloadBuffer
          (cfg.APRS_PAYLOAD_LEN % 256)).2
        (createPacketPayload gpsDataSource gps tel messageId payloadBuffer
          (cfg.APRS_PAYLOAD_LEN % 256)).1)).length := by
    rw [heq] at h3
    simp only [Option.some.injEq] at h3
    rw [← h3, bitOffset_posOf]
  refine ⟨buffer1, size1, _, _, h1, h2, h3, rfl, rfl, ?_, ?_⟩
  · rw [h4, hsize, frameLine, ← length_flagBits cfg.PREFIX_FLAGS_COUNT,
      ← length_flagBits cfg.SUFFIX_FLAGS_COUNT, middle_frame,
      destuffBits_stuffBits 0 _ (by decide)]
    rfl
  · rw [crc16X25Register, List.foldl_append]
    exact crc16X25_residue _ (crc16X25Register_lt _ (frameBytes_lt cs _))

theorem generateMessage_fcs_selfcheck_witness :
    exampleConfig.PREFIX_FLAGS_COUNT < 256 ∧ exampleConfig.SUFFIX_FLAGS_COUNT < 256 ∧
    CALLSIGN_SOURCE.callsign.length = 6 ∧
    (createPacketPayload 1 exampleGpsData exampleTelemetry 7 (fun _ => 0)
      (exampleConfig.APRS_PAYLOAD_LEN % 256)).1 ≠ 0 ∧
    (frameLine exampleConfig CALLSIGN_SOURCE exampleInfo).length ≤ 8 * 200 ∧
    ∃ buffer1 size1 frame fcs,
      (generateMessage exampleConfig 7 (fun _ => 0) (some CALLSIGN_SOURCE) 1
        (some exampleGpsData) exampleTelemetry (some (fun _ => 0)) 200
        (some { bitstreamCharIdx := 0, bitstreamCharBitIdx := 0 })).result = true ∧
      (generateMessage exampleConfig 7 (fun _ => 0) (some CALLSIGN_SOURCE) 1
        (some exampleGpsData) exampleTelemetry (some (fun _ => 0)) 200
        (some { bitstreamCharIdx := 0, bitstreamCharBitIdx := 0 })).bitstreamBuffer =
          some buffer1 ∧
      (generateMessage exampleConfig 7 (fun _ => 0) (some CALLSIGN_SOURCE) 1
        (some exampleGpsData) exampleTelemetry (some (fun _ => 0)) 200
        (some { bitstreamCharIdx := 0, bitstreamCharBitIdx := 0 })).bitstreamSize =
          some size1 ∧
      frame = frameBytes CALLSIGN_SOURCE exampleInfo ∧
      fcs = crc16X25Register frame ^^^ 0xFFFF ∧
      destuffBits 0
          (((nrziDecode true
              (readBits buffer1 { bitstreamCharIdx := 0, bitstreamCharBitIdx := 0 }
                (bitOffset size1))).drop (8 * exampleConfig.PREFIX_FLAGS_COUNT)).take
            (bitOffset size1 - 8 * exampleConfig.PREFIX_FLAGS_COUNT -
              8 * exampleConfig.SUFFIX_FLAGS_COUNT)) =
        (frame ++ [fcs &&& 0xFF, (fcs >>> 8) &&& 0xFF]).flatMap byteBits ∧
      crc16X25Register (frame ++ [fcs &&& 0xFF, (fcs >>> 8) &&& 0xFF]) = 0xF0B8 :=
  ⟨by decide, by decide, by decide, by decide, exampleFrame_fits,
    generateMessage_fcs_selfcheck exampleConfig 7 (fun _ => 0) CALLSIGN_SOURCE 1 exampleGpsData
      exampleTelemetry (fun _ => 0) 200 { bitstreamCharIdx := 0, bitstreamCharBitIdx := 0 }
      (by decide) (by decide) (by decide) (by decide) exampleFrame_fits⟩

/-! ## CRC input of the encoder -/

/-- C5 as stated fails: for the byte 0x01 encoded with `SHIFT_ONE_LEFT` and
`FCS_CALCULATE` from the accumulator 0xFFFF, the accumulator after the call is not the
CRC update with the bits of the unshifted byte 0x01; it is the update with the bits of the
shifted byte 0x02. -/
theorem encodeAndAppendBits_fcs_unshifted_counterexample :
    (encodeAndAppendBits (some (fun _ => 0)) 2
        (some { bitstreamSize := { bitstreamCharIdx := 0, bitstreamCharBitIdx := 0 },
                lastBit := true, numberOfOnes := 0, fcs := 0xFFFF })
        (some [0x01]) 1 ST_PERFORM_STUFFING FCS_CALCULATE SHIFT_ONE_LEFT).1 = true ∧
      (encodeAndAppendBits (some (fun _ => 0)) 2
        (some { bitstreamSize := { bitstreamCharIdx := 0, bitstreamCharBitIdx := 0 },
                lastBit := true, numberOfOnes := 0, fcs := 0xFFFF })
        (some [0x01]) 1 ST_PERFORM_STUFFING FCS_CALCULATE SHIFT_ONE_LEFT).2.2.map
          EncodingData.fcs ≠ some ((byteBits 0x01).foldl crcBit 0xFFFF) ∧
      (encodeAndAppendBits (some (fun _ => 0)) 2
        (some { bitstreamSize := { bitstreamCharIdx := 0, bitstreamCharBitIdx := 0 },
                lastBit := true, numberOfOnes := 0, fcs := 0xFFFF })
        (some [0x01]) 1 ST_PERFORM_STUFFING FCS_CALCULATE SHIFT_ONE_LEFT).2.2.map
          EncodingData.fcs = some ((byteBits 0x02).foldl crcBit 0xFFFF) := by
  refine ⟨by decide, by decide, by decide⟩

/-- C5, amended: for a byte sequence passed to `encodeAndAppendBits` with `SHIFT_ONE_LEFT`
and `FCS_CALCULATE` into a buffer with room for all line bits, the CRC accumulator after
the call is the accumulator before it updated with the eight bits, LSB first, of each byte
as shifted left by one within 8 bits, the byte that is written to the output stream; this
is the reference CRC-16/X.25 update with the shifted bytes. -/
theorem encodeAndAppendBits_fcs_of_shifted (buf : Buffer) (maxBitstreamBufferLen : Nat)
    (ed : EncodingData) (data : List Nat) (stuffingType : STUFFING_TYPE)
    (hbit : ed.bitstreamSize.bitstreamCharBitIdx < 8)
    (hcap : bitOffset ed.bitstreamSize +
        (stuffBits stuffingType ed.numberOfOnes (messageBits SHIFT_ONE_LEFT data)).length
          ≤ 8 * maxBitstreamBufferLen) :
    ∃ buf1 ed1,
      encodeAndAppendBits (some buf) maxBitstreamBufferLen (some ed) (some data) data.length
          stuffingType FCS_CALCULATE SHIFT_ONE_LEFT = (true, some buf1, some ed1) ∧
      ed1.fcs =
        ((data.map (fun b => ((b % 256) <<< 1) % 256)).flatMap byteBits).foldl crcBit ed.fcs ∧
      ed1.fcs = (data.map (fun b => ((b % 256) <<< 1) % 256)).foldl crc16X25Byte ed.fcs := by
  have hpos : ed.bitstreamSize = posOf (bitOffset ed.bitstreamSize) :=
    (posOf_bitOffset _ hbit).symm
  have hbits : messageBits SHIFT_ONE_LEFT data =
      (data.map (fun b => ((b % 256) <<< 1) % 256)).flatMap byteBits := by
    simp [messageBits, shiftedByte, List.flatMap_map]
  have hlt : ∀ b ∈ data.map (fun b => ((b % 256) <<< 1) % 256), b < 256 := by
    intro b hb
    obtain ⟨x, -, rfl⟩ := List.mem_map.mp hb
    omega
  by_cases hne : data = []
  · subst hne
    exact ⟨buf, ed, encodeAndAppendBits_nil _ _ _ _ _ _, rfl, rfl⟩
  · refine ⟨_, _, encodeAndAppendBits_eq buf maxBitstreamBufferLen ed data stuffingType
      FCS_CALCULATE SHIFT_ONE_LEFT _ hne hpos hcap, ?_, ?_⟩
    · cases stuffingType <;> simp [edAfter, fcsAfter, hbits]
    · rw [← foldl_crcBit_flatMap _ _ hlt]
      cases stuffingType <;> simp [edAfter, fcsAfter, hbits]

theorem encodeAndAppendBits_fcs_of_shifted_witness :
    (0 : Nat) < 8 ∧
    bitOffset { bitstreamCharIdx := 0, bitstreamCharBitIdx := 0 } +
      (stuffBits ST_PERFORM_STUFFING 0 (messageBits SHIFT_ONE_LEFT [0x57])).length ≤ 8 * 2 ∧
    ∃ buf1 ed1,
      encodeAndAppendBits (some (fun _ => 0)) 2
          (some { bitstreamSize := { bitstreamCharIdx := 0, bitstreamCharBitIdx := 0 },
                  lastBit := true, numberOfOnes := 0, fcs := 0xFFFF })
          (some [0x57]) [0x57].length
          ST_PERFORM_STUFFING FCS_CALCULATE SHIFT_ONE_LEFT = (true, some buf1, some ed1) ∧
      ed1.fcs =
        (([0x57].map (fun b => ((b % 256) <<< 1) % 256)).flatMap byteBits).foldl crcBit 0xFFFF ∧
      ed1.fcs = ([0x57].map (fun b => ((b % 256) <<< 1) % 256)).foldl crc16X25Byte 0xFFFF :=
  ⟨by decide, by decide,
    encodeAndAppendBits_fcs_of_shifted (fun _ => 0) 2
      { bitstreamSize := { bitstreamCharIdx := 0, bitstreamCharBitIdx := 0 },
        lastBit := true, numberOfOnes := 0, fcs := 0xFFFF }
      [0x57] ST_PERFORM_STUFFING (by decide) (by decide)⟩

/-! ## Encoder: written bits, bounds and validation -/

/-! ## Written bits and validation of the encoder -/

theorem nrziEncode_getD (last : Bool) (l : List Bool) (i : Nat) (hi : i < l.length) :
    (nrziEncode last l).getD i false =
      if l.getD i false then
        (if i = 0 then last else (nrziEncode last l).getD (i - 1) false)
      else !(if i = 0 then last else (nrziEncode last l).getD (i - 1) false) := by
  induction l generalizing last i with
  | nil => simp at hi
  | cons b bs ih =>
    cases i with
    | zero => simp [nrziEncode]
    | succ i =>
      have hi2 : i < bs.length := by simpa using hi
      have h := ih (if b then last else !last) i hi2
      simp only [nrziEncode, List.getD_cons_succ, Nat.add_sub_cancel, Nat.succ_ne_zero, if_false]
      rw [h]
      cases i with
      | zero => simp [nrziEncode]
      | succ j => simp

theorem getLast?_getD_cons (x : Bool) (xs : List Bool) (a b : Bool) :
    (x :: xs).getLast?.getD a = (x :: xs).getLast?.getD b := by
  induction xs generalizing x with
  | nil => rfl
  | cons y ys ih => simpa [List.getLast?_cons_cons] using ih y

theorem nrziLast_eq_getLast (last : Bool) (l : List Bool) :
    nrziLast last l = (nrziEncode last l).getLast?.getD last := by
  induction l generalizing last with
  | nil => rfl
  | cons b bs ih =>
    simp only [nrziLast, nrziEncode]
    rw [ih]
    cases bs with
    | nil => simp [nrziEncode]
    | cons c cs =>
      simp only [nrziEncode, List.getLast?_cons_cons]
      exact getLast?_getD_cons _ _ _ _

/-- C14: for valid pointers, a bit index within 0..7 and room for all line bits,
`encodeAndAppendBits` succeeds and writes, from the start position on, the NRZI coding
of the bits 0 (LSB) to 7 (MSB) of each source byte in order, the byte shifted left by one
within 8 bits for `SHIFT_ONE_LEFT` (with a zero after every fifth consecutive one when
stuffing is performed): each written bit equals the previous physical bit when the
logical bit is one and its complement when it is zero, the first one relative to
`lastBit`; after the call `lastBit` is the last bit written. -/
theorem encodeAndAppendBits_writes_nrzi (buf : Buffer) (maxBitstreamBufferLen : Nat)
    (ed : EncodingData) (data : List Nat) (stuffingType : STUFFING_TYPE) (fcsType : FCS_TYPE)
    (shiftOneLeftType : SHIFT_ONE_LEFT_TYPE)
    (hbit : ed.bitstreamSize.bitstreamCharBitIdx < 8)
    (hcap : bitOffset ed.bitstreamSize +
        (stuffBits stuffingType ed.numberOfOnes (messageBits shiftOneLeftType data)).length
          ≤ 8 * maxBitstreamBufferLen) :
    ∃ buf1 ed1 logical written,
      encodeAndAppendBits (some buf) maxBitstreamBufferLen (some ed) (some data) data.length
          stuffingType fcsType shiftOneLeftType = (true, some buf1, some ed1) ∧
      logical = stuffBits stuffingType ed.numberOfOnes
        (data.flatMap (fun b =>
          (List.range 8).map (fun iBit => (shiftedByte shiftOneLeftType b).testBit iBit))) ∧
      (stuffingType = ST_NO_STUFFING →
        logical = data.flatMap (fun b =>
          (List.range 8).map (fun iBit => (shiftedByte shiftOneLeftType b).testBit iBit))) ∧
      written = readBits buf1 ed.bitstreamSize
        (bitOffset ed1.bitstreamSize - bitOffset ed.bitstreamSize) ∧
      written.length = logical.length ∧
      (∀ i, i < logical.length →
        written.getD i false =
          if logical.getD i false then
            (if i = 0 then ed.lastBit else written.getD (i - 1) false)
          else !(if i = 0 then ed.lastBit else written.getD (i - 1) false)) ∧
      ed1.lastBit = written.getLast?.getD ed.lastBit := by
  have hpos : ed.bitstreamSize = posOf (bitOffset ed.bitstreamSize) :=
    (posOf_bitOffset _ hbit).symm
  have hread : ∀ (b1 : Buffer) (e1 : EncodingData),
      b1 = writeBits buf (bitOffset ed.bitstreamSize)
        (nrziEncode ed.lastBit (stuffBits stuffingType ed.numberOfOnes
          (messageBits shiftOneLeftType data))) →
      e1.bitstreamSize = posOf (bitOffset ed.bitstreamSize +
        (stuffBits stuffingType ed.numberOfOnes (messageBits shiftOneLeftType data)).length) →
      readBits b1 ed.bitstreamSize (bitOffset e1.bitstreamSize - bitOffset ed.bitstreamSize) =
        nrziEncode ed.lastBit (stuffBits stuffingType ed.numberOfOnes
          (messageBits shiftOneLeftType data)) := by
    intro b1 e1 hb he
    rw [he, bitOffset_posOf, Nat.add_sub_cancel_left, hb, ← length_nrziEncode ed.lastBit]
    conv_lhs => rw [hpos]
    rw [bitOffset_posOf, readBits_writeBits]
  by_cases hne : data = []
  · subst hne
    refine ⟨buf, ed, _, _, encodeAndAppendBits_nil _ _ _ _ _ _, rfl, fun _ => rfl, rfl, ?_, ?_, ?_⟩
    · simp [readBits, stuffBits]
    · intro i hi
      simp [stuffBits] at hi
    · simp [readBits]
  · have hcall := encodeAndAppendBits_eq buf maxBitstreamBufferLen ed data stuffingType
      fcsType shiftOneLeftType _ hne hpos hcap
    refine ⟨_, _, _, _, hcall, rfl, ?_, rfl, ?_, ?_, ?_⟩
    · intro hst
      subst hst
      exact stuffBits_no_stuffing _ _
    · rw [hread _ _ rfl (by cases stuffingType <;> rfl), length_nrziEncode]
      rfl
    · intro i hi
      rw [hread _ _ rfl (by cases stuffingType <;> rfl)]
      exact nrziEncode_getD _ _ i hi
    · rw [hread _ _ rfl (by cases stuffingType <;> rfl), ← nrziLast_eq_getLast]
      cases stuffingType <;> rfl

theorem encodeAndAppendBits_writes_nrzi_witness :
    (0 : Nat) < 8 ∧
    bitOffset { bitstreamCharIdx := 0, bitstreamCharBitIdx := 0 } +
      (stuffBits ST_NO_STUFFING 0 (messageBits SHIFT_ONE_LEFT_NO [0x7E])).length ≤ 8 * 1 ∧
    ∃ buf1 ed1 logical written,
      encodeAndAppendBits (some (fun _ => 0)) 1
          (some { bitstreamSize := { bitstreamCharIdx := 0, bitstreamCharBitIdx := 0 },
                  lastBit := true, numberOfOnes := 0, fcs := 0xFFFF })
          (some [0x7E]) [0x7E].length
          ST_NO_STUFFING FCS_NONE SHIFT_ONE_LEFT_NO = (true, some buf1, some ed1) ∧
      logical = stuffBits ST_NO_STUFFING 0
        ([0x7E].flatMap (fun b =>
          (List.range 8).map (fun iBit => (shiftedByte SHIFT_ONE_LEFT_NO b).testBit iBit))) ∧
      (ST_NO_STUFFING = ST_NO_STUFFING →
        logical = [0x7E].flatMap (fun b =>
          (List.range 8).map (fun iBit => (shiftedByte SHIFT_ONE_LEFT_NO b).testBit iBit))) ∧
      written = readBits buf1 { bitstreamCharIdx := 0, bitstreamCharBitIdx := 0 }
        (bitOffset ed1.bitstreamSize -
          bitOffset { bitstreamCharIdx := 0, bitstreamCharBitIdx := 0 }) ∧
      written.length = logical.length ∧
      (∀ i, i < logical.length →
        written.getD i false =
          if logical.getD i false then
            (if i = 0 then true else written.getD (i - 1) false)
          else !(if i = 0 then true else written.getD (i - 1) false)) ∧
      ed1.lastBit = written.getLast?.getD true :=
  ⟨by decide, by decide,
    encodeAndAppendBits_writes_nrzi (fun _ => 0) 1
      { bitstreamSize := { bitstreamCharIdx := 0, bitstreamCharBitIdx := 0 },
        lastBit := true, numberOfOnes := 0, fcs := 0xFFFF }
      [0x7E] ST_NO_STUFFING FCS_NONE SHIFT_ONE_LEFT_NO (by decide) (by decide)⟩

/-- C16: `encodeAndAppendBits` returns false and leaves the buffer and the encoding data
as they are when the destination buffer is null, when the encoding data is null, when
`maxBitstreamBufferLen` is smaller than `messageDataSize`, and when `messageDataSize` is
positive and the message pointer is null; with `messageDataSize = 0`, a destination and
encoding data it returns true, also leaving both as they are. -/
theorem encodeAndAppendBits_validation (pBitstreamBuffer : Option Buffer) (buf : Buffer)
    (maxBitstreamBufferLen : Nat) (pEncodingData : Option EncodingData) (ed : EncodingData)
    (pMessageData : Option (List Nat)) (messageDataSize : Nat) (stuffingType : STUFFING_TYPE)
    (fcsType : FCS_TYPE) (shiftOneLeftType : SHIFT_ONE_LEFT_TYPE) :
    encodeAndAppendBits none maxBitstreamBufferLen pEncodingData pMessageData messageDataSize
        stuffingType fcsType shiftOneLeftType = (false, none, pEncodingData) ∧
      encodeAndAppendBits pBitstreamBuffer maxBitstreamBufferLen none pMessageData
        messageDataSize stuffingType fcsType shiftOneLeftType = (false, pBitstreamBuffer, none) ∧
      (maxBitstreamBufferLen < messageDataSize →
        encodeAndAppendBits (some buf) maxBitstreamBufferLen (some ed) pMessageData
          messageDataSize stuffingType fcsType shiftOneLeftType = (false, some buf, some ed)) ∧
      (0 < messageDataSize →
        encodeAndAppendBits (some buf) maxBitstreamBufferLen (some ed) none
          messageDataSize stuffingType fcsType shiftOneLeftType = (false, some buf, some ed)) ∧
      encodeAndAppendBits (some buf) maxBitstreamBufferLen (some ed) pMessageData 0
        stuffingType fcsType shiftOneLeftType = (true, some buf, some ed) := by
  refine ⟨?_, ?_, ?_, ?_, ?_⟩
  · cases pEncodingData <;> rfl
  · cases pBitstreamBuffer <;> rfl
  · intro h
    simp [encodeAndAppendBits, h]
  · intro h
    have h0 : messageDataSize ≠ 0 := by omega
    by_cases hm : maxBitstreamBufferLen < messageDataSize
    · simp [encodeAndAppendBits, hm]
    · simp [encodeAndAppendBits, hm, h0]
  · simp [encodeAndAppendBits]

theorem encodeAndAppendBits_validation_witness :
    (1 : Nat) < 2 ∧ (0 : Nat) < 2 ∧
    encodeAndAppendBits (some (fun _ => 0)) 1
        (some { bitstreamSize := { bitstreamCharIdx := 0, bitstreamCharBitIdx := 0 },
                lastBit := true, numberOfOnes := 0, fcs := 0xFFFF })
        (some [0x7E, 0x7E]) 2 ST_NO_STUFFING FCS_NONE SHIFT_ONE_LEFT_NO =
      (false, some (fun _ => 0),
        some { bitstreamSize := { bitstreamCharIdx := 0, bitstreamCharBitIdx := 0 },
               lastBit := true, numberOfOnes := 0, fcs := 0xFFFF }) ∧
    encodeAndAppendBits (some (fun _ => 0)) 1
        (some { bitstreamSize := { bitstreamCharIdx := 0, bitstreamCharBitIdx := 0 },
                lastBit := true, numberOfOnes := 0, fcs := 0xFFFF })
        none 2 ST_NO_STUFFING FCS_NONE SHIFT_ONE_LEFT_NO =
      (false, some (fun _ => 0),
        some { bitstreamSize := { bitstreamCharIdx := 0, bitstreamCharBitIdx := 0 },
               lastBit := true, numberOfOnes := 0, fcs := 0xFFFF }) :=
  ⟨by decide, by decide,
    (encodeAndAppendBits_validation none (fun _ => 0) 1 none
      { bitstreamSize := { bitstreamCharIdx := 0, bitstreamCharBitIdx := 0 },
        lastBit := true, numberOfOnes := 0, fcs := 0xFFFF }
      (some [0x7E, 0x7E]) 2 ST_NO_STUFFING FCS_NONE SHIFT_ONE_LEFT_NO).2.2.1 (by decide),
    (encodeAndAppendBits_validation none (fun _ => 0) 1 none
      { bitstreamSize := { bitstreamCharIdx := 0, bitstreamCharBitIdx := 0 },
        lastBit := true, numberOfOnes := 0, fcs := 0xFFFF }
      (some [0x7E, 0x7E]) 2 ST_NO_STUFFING FCS_NONE SHIFT_ONE_LEFT_NO).2.2.2.1 (by decide)⟩

/-! ## Bound of the destination buffer -/

theorem setBufferBit_of_ne (buf : Buffer) (p : BitstreamPos) (j : Nat)
    (h : j ≠ p.bitstreamCharIdx) : setBufferBit buf p j = buf j := by
  simp [setBufferBit, h]

theorem clearBufferBit_of_ne (buf : Buffer) (p : BitstreamPos) (j : Nat)
    (h : j ≠ p.bitstreamCharIdx) : clearBufferBit buf p j = buf j := by
  simp [clearBufferBit, h]

/-- The loop body stores nothing at or above the bound, whatever it returns. -/
theorem encodeBit_above (buf : Buffer) (maxLen : Nat) (ed : EncodingData) (c i : Nat)
    (st : STUFFING_TYPE) (ft : FCS_TYPE) (j : Nat) (hj : maxLen ≤ j) :
    (encodeBit buf maxLen ed c i st ft).2.1 j = buf j := by
  obtain ⟨⟨ci, bi⟩, last, n, fcs⟩ := ed
  simp only [encodeBit]
  by_cases hci : ci ≥ maxLen
  · cases ft <;> simp [hci]
  · have hne : j ≠ ci := by omega
    by_cases hadv : (advanceBitstreamBit ⟨ci, bi⟩).bitstreamCharIdx ≥ maxLen
    · cases ft <;> cases st <;> cases last <;>
        simp [hci, hadv, setBufferBit_of_ne, clearBufferBit_of_ne, hne] <;>
        (try split) <;> (try simp [setBufferBit_of_ne, clearBufferBit_of_ne, hne]) <;>
        (try split) <;> (try simp [setBufferBit_of_ne, clearBufferBit_of_ne, hne])
    · have hne2 : j ≠ (advanceBitstreamBit ⟨ci, bi⟩).bitstreamCharIdx := by omega
      cases ft <;> cases st <;> cases last <;>
        simp [hci, hadv, setBufferBit_of_ne, clearBufferBit_of_ne, hne, hne2] <;>
        (try split) <;> (try simp [setBufferBit_of_ne, clearBufferBit_of_ne, hne, hne2]) <;>
        (try split) <;> (try simp [setBufferBit_of_ne, clearBufferBit_of_ne, hne, hne2])

theorem encodeByteBits_above (maxLen c : Nat) (st : STUFFING_TYPE) (ft : FCS_TYPE)
    (is : List Nat) (buf : Buffer) (ed : EncodingData) (j : Nat) (hj : maxLen ≤ j) :
    (encodeByteBits maxLen c st ft is buf ed).2.1 j = buf j := by
  induction is generalizing buf ed with
  | nil => rfl
  | cons i rest ih =>
    have h1 := encodeBit_above buf maxLen ed c i st ft j hj
    simp only [encodeByteBits]
    rcases hr : encodeBit buf maxLen ed c i st ft with ⟨ok, buf1, ed1⟩
    rw [hr] at h1
    cases ok
    · exact h1
    · simp only
      rw [ih buf1 ed1]
      exact h1

theorem encodeBytes_above (maxLen : Nat) (st : STUFFING_TYPE) (ft : FCS_TYPE)
    (sh : SHIFT_ONE_LEFT_TYPE) (data : List Nat) (buf : Buffer) (ed : EncodingData) (j : Nat)
    (hj : maxLen ≤ j) :
    (encodeBytes maxLen st ft sh data buf ed).2.1 j = buf j := by
  induction data generalizing buf ed with
  | nil => rfl
  | cons b rest ih =>
    have h1 := encodeByteBits_above maxLen (shiftedByte sh b) st ft (List.range 8) buf ed j hj
    simp only [encodeBytes]
    rcases hr : encodeByteBits maxLen (shiftedByte sh b) st ft (List.range 8) buf ed with
      ⟨ok, buf1, ed1⟩
    rw [hr] at h1
    cases ok
    · exact h1
    · simp only
      rw [ih buf1 ed1]
      exact h1

/-- Whatever its arguments, `encodeAndAppendBits` leaves every byte at an index at or
above `maxBitstreamBufferLen` as it was. -/
theorem encodeAndAppendBits_above (buf : Buffer) (maxLen : Nat) (pe : Option EncodingData)
    (pd : Option (List Nat)) (size : Nat) (st : STUFFING_TYPE) (ft : FCS_TYPE)
    (sh : SHIFT_ONE_LEFT_TYPE) :
    ∃ buf1, (encodeAndAppendBits (some buf) maxLen pe pd size st ft sh).2.1 = some buf1 ∧
      ∀ j, maxLen ≤ j → buf1 j = buf j := by
  cases pe with
  | none => exact ⟨buf, rfl, fun _ _ => rfl⟩
  | some ed =>
    simp only [encodeAndAppendBits]
    by_cases hm : maxLen < size
    · exact ⟨buf, by simp [hm], fun _ _ => rfl⟩
    · by_cases h0 : size = 0
      · exact ⟨buf, by simp [hm, h0], fun _ _ => rfl⟩
      · cases pd with
        | none => exact ⟨buf, by simp [hm, h0], fun _ _ => rfl⟩
        | some data =>
          have h1 := encodeBytes_above maxLen st ft sh
            ((List.range size).map (fun iByte => data.getD iByte 0)) buf ed
          rcases hr : encodeBytes maxLen st ft sh
            ((List.range size).map (fun iByte => data.getD iByte 0)) buf ed with ⟨ok, buf1, ed1⟩
          rw [hr] at h1
          refine ⟨buf1, ?_, h1⟩
          rw [if_neg hm, if_neg h0]
          simp only [hr]
          cases ok <;> cases st <;> simp

theorem encodeBit_fail (buf : Buffer) (maxLen : Nat) (ed : EncodingData) (c i : Nat)
    (st : STUFFING_TYPE) (ft : FCS_TYPE) (q : Nat) (hpos : ed.bitstreamSize = posOf q)
    (hcap : ¬ (q + (stuffBits st ed.numberOfOnes [c.testBit i]).length ≤ 8 * maxLen)) :
    (encodeBit buf maxLen ed c i st ft).1 = false := by
  obtain ⟨pos, last, n, fcs⟩ := ed
  simp only at hpos hcap
  subst hpos
  have hbit := and_one_shiftLeft_ne_zero c i
  cases hb : c.testBit i
  · have hz : c &&& 1 <<< i = 0 := by
      by_contra hne
      have := hbit.mp hne
      simp [hb] at this
    have hq : q / 8 ≥ maxLen := by
      simp [stuffBits, stuffStep, hb] at hcap
      omega
    cases ft <;> simp [encodeBit, hz, hq, show (posOf q).bitstreamCharIdx = q / 8 from rfl]
  · have hz : c &&& 1 <<< i ≠ 0 := hbit.mpr hb
    by_cases hq : q / 8 ≥ maxLen
    · cases ft <;> simp [encodeBit, hz, hq, show (posOf q).bitstreamCharIdx = q / 8 from rfl]
    · cases st
      · simp [stuffBits, stuffStep, hb] at hcap
        omega
      · by_cases h5 : n + 1 = 5
        · have hq2 : (q + 1) / 8 ≥ maxLen := by
            simp [stuffBits, stuffStep, hb, h5] at hcap
            omega
          cases ft <;> cases last <;>
            simp [encodeBit, hz, hq, hq2, h5, advanceBitstreamBit_posOf,
              show (posOf q).bitstreamCharIdx = q / 8 from rfl,
              show (posOf (q + 1)).bitstreamCharIdx = (q + 1) / 8 from rfl]
        · simp [stuffBits, stuffStep, hb, h5] at hcap
          omega

theorem encodeByteBits_fail (maxLen c : Nat) (st : STUFFING_TYPE) (ft : FCS_TYPE)
    (is : List Nat) (buf : Buffer) (ed : EncodingData) (q : Nat)
    (hpos : ed.bitstreamSize = posOf q)
    (hlen : 0 < (stuffBits st ed.numberOfOnes (is.map c.testBit)).length)
    (hcap : ¬ (q + (stuffBits st ed.numberOfOnes (is.map c.testBit)).length ≤ 8 * maxLen)) :
    (encodeByteBits maxLen c st ft is buf ed).1 = false := by
  induction is generalizing buf ed q with
  | nil => simp [stuffBits] at hlen
  | cons i rest ih =>
    have happ : (i :: rest).map c.testBit = [c.testBit i] ++ rest.map c.testBit := by simp
    rw [happ, stuffBits_append, List.length_append] at hcap hlen
    by_cases h1 : q + (stuffBits st ed.numberOfOnes [c.testBit i]).length ≤ 8 * maxLen
    · simp only [encodeByteBits, encodeBit_eq buf maxLen ed c i st ft q hpos h1]
      exact ih _ _ _ rfl
        (by
          show 0 < (stuffBits st (onesAfter st ed.numberOfOnes [c.testBit i]) _).length
          omega)
        (by
          show ¬ (_ + (stuffBits st (onesAfter st ed.numberOfOnes [c.testBit i]) _).length ≤ _)
          omega)
    · have hf := encodeBit_fail buf maxLen ed c i st ft q hpos h1
      simp only [encodeByteBits]
      rcases hr : encodeBit buf maxLen ed c i st ft with ⟨ok, buf1, ed1⟩
      rw [hr] at hf
      simp only at hf
      subst hf
      rfl

theorem encodeBytes_fail (maxLen : Nat) (st : STUFFING_TYPE) (ft : FCS_TYPE)
    (sh : SHIFT_ONE_LEFT_TYPE) (data : List Nat) (buf : Buffer) (ed : EncodingData) (q : Nat)
    (hpos : ed.bitstreamSize = posOf q)
    (hlen : 0 < (stuffBits st ed.numberOfOnes (messageBits sh data)).length)
    (hcap : ¬ (q + (stuffBits st ed.numberOfOnes (messageBits sh data)).length ≤ 8 * maxLen)) :
    (encodeBytes maxLen st ft sh data buf ed).1 = false := by
  induction data generalizing buf ed q with
  | nil => simp [messageBits, stuffBits] at hlen
  | cons b rest ih =>
    have happ : messageBits sh (b :: rest) = byteBits (shiftedByte sh b) ++ messageBits sh rest := by
      simp [messageBits]
    have hbb : List.map (shiftedByte sh b).testBit (List.range 8) = byteBits (shiftedByte sh b) := rfl
    rw [happ, stuffBits_append, List.length_append] at hcap hlen
    have hl8 := length_le_stuffBits st ed.numberOfOnes (byteBits (shiftedByte sh b))
    rw [length_byteBits] at hl8
    by_cases h1 : q + (stuffBits st ed.numberOfOnes (byteBits (shiftedByte sh b))).length ≤ 8 * maxLen
    · simp only [encodeBytes, encodeByteBits_eq maxLen (shiftedByte sh b) st ft (List.range 8) buf
        ed q hpos (by rw [hbb]; exact h1)]
      rw [hbb]
      exact ih _ _ _ rfl
        (by
          show 0 < (stuffBits st (onesAfter st ed.numberOfOnes _) _).length
          omega)
        (by
          show ¬ (_ + (stuffBits st (onesAfter st ed.numberOfOnes _) _).length ≤ _)
          omega)
    · have hf := encodeByteBits_fail maxLen (shiftedByte sh b) st ft (List.range 8) buf ed q hpos
        (by rw [hbb]; omega) (by rw [hbb]; exact h1)
      simp only [encodeBytes]
      rcases hr : encodeByteBits maxLen (shiftedByte sh b) st ft (List.range 8) buf ed with
        ⟨ok, buf1, ed1⟩
      rw [hr] at hf
      simp only at hf
      subst hf
      rfl

theorem encodeAndAppendBits_fail (buf : Buffer) (maxLen : Nat) (ed : EncodingData)
    (data : List Nat) (st : STUFFING_TYPE) (ft : FCS_TYPE) (sh : SHIFT_ONE_LEFT_TYPE) (q : Nat)
    (hpos : ed.bitstreamSize = posOf q)
    (hlen : 0 < (stuffBits st ed.numberOfOnes (messageBits sh data)).length)
    (hcap : ¬ (q + (stuffBits st ed.numberOfOnes (messageBits sh data)).length ≤ 8 * maxLen)) :
    (encodeAndAppendBits (some buf) maxLen (some ed) (some data) data.length st ft sh).1 =
      false := by
  simp only [encodeAndAppendBits]
  by_cases hm : maxLen < data.length
  · simp [hm]
  · have h0 : ¬ (data.length = 0) := by
      intro h
      have hnil : data = [] := List.length_eq_zero.mp h
      subst hnil
      simp [messageBits, stuffBits] at hlen
    have hf := encodeBytes_fail maxLen st ft sh data buf ed q hpos hlen hcap
    rw [if_neg hm, if_neg h0, range_map_getD]
    rcases hr : encodeBytes maxLen st ft sh data buf ed with ⟨ok, buf1, ed1⟩
    rw [hr] at hf
    simp only at hf
    subst hf
    rfl

/-- C15: `encodeAndAppendBits` stores nothing at a byte index at or above
`maxBitstreamBufferLen`: whatever the encoding data, the message pointer and the message
size, every byte of the destination at such an index is after the call what it was
before. With valid pointers and a bit index within 0..7, the call returns false exactly
when one of the line bits to write (data bits and stuffed bits, counted from the start
position) falls on a byte index at or above `maxBitstreamBufferLen`. -/
theorem encodeAndAppendBits_bound (buf : Buffer) (maxBitstreamBufferLen : Nat)
    (ed : EncodingData) (data : List Nat) (stuffingType : STUFFING_TYPE) (fcsType : FCS_TYPE)
    (shiftOneLeftType : SHIFT_ONE_LEFT_TYPE)
    (hbit : ed.bitstreamSize.bitstreamCharBitIdx < 8) :
    (∀ (pEncodingData : Option EncodingData) (pMessageData : Option (List Nat))
        (messageDataSize : Nat),
      ∃ buf1,
        (encodeAndAppendBits (some buf) maxBitstreamBufferLen pEncodingData pMessageData
          messageDataSize stuffingType fcsType shiftOneLeftType).2.1 = some buf1 ∧
        ∀ j, maxBitstreamBufferLen ≤ j → buf1 j = buf j) ∧
      ((encodeAndAppendBits (some buf) maxBitstreamBufferLen (some ed) (some data) data.length
          stuffingType fcsType shiftOneLeftType).1 = false ↔
        ∃ k,
          k < (stuffBits stuffingType ed.numberOfOnes
            (messageBits shiftOneLeftType data)).length ∧
          maxBitstreamBufferLen ≤ (bitOffset ed.bitstreamSize + k) / 8) := by
  have hpos : ed.bitstreamSize = posOf (bitOffset ed.bitstreamSize) :=
    (posOf_bitOffset _ hbit).symm
  refine ⟨fun pe pd size =>
    encodeAndAppendBits_above buf maxBitstreamBufferLen pe pd size stuffingType fcsType
      shiftOneLeftType, ?_, ?_⟩
  · intro hfalse
    have hne : data ≠ [] := by
      intro h
      subst h
      have hn := encodeAndAppendBits_nil buf maxBitstreamBufferLen ed stuffingType fcsType
        shiftOneLeftType
      rw [show ([] : List Nat).length = 0 from rfl, hn] at hfalse
      simp at hfalse
    have hcap : ¬ (bitOffset ed.bitstreamSize +
        (stuffBits stuffingType ed.numberOfOnes (messageBits shiftOneLeftType data)).length
          ≤ 8 * maxBitstreamBufferLen) := by
      intro hc
      rw [encodeAndAppendBits_eq buf maxBitstreamBufferLen ed data stuffingType fcsType
        shiftOneLeftType _ hne hpos hc] at hfalse
      simp at hfalse
    have hl := length_le_stuffBits stuffingType ed.numberOfOnes
      (messageBits shiftOneLeftType data)
    rw [length_messageBits] at hl
    have hd : 0 < data.length := List.length_pos.mpr hne
    refine ⟨(stuffBits stuffingType ed.numberOfOnes
      (messageBits shiftOneLeftType data)).length - 1, by omega, by omega⟩
  · rintro ⟨k, hk, hmax⟩
    exact encodeAndAppendBits_fail buf maxBitstreamBufferLen ed data stuffingType fcsType
      shiftOneLeftType _ hpos (by omega) (by omega)

theorem encodeAndAppendBits_bound_witness :
    (0 : Nat) < 8 ∧
    ((∀ (pEncodingData : Option EncodingData) (pMessageData : Option (List Nat))
        (messageDataSize : Nat),
      ∃ buf1,
        (encodeAndAppendBits (some (fun _ => 0)) 1 pEncodingData pMessageData
          messageDataSize ST_PERFORM_STUFFING FCS_NONE SHIFT_ONE_LEFT_NO).2.1 = some buf1 ∧
        ∀ j, 1 ≤ j → buf1 j = (fun _ => 0) j) ∧
      ((encodeAndAppendBits (some (fun _ => 0)) 1
          (some { bitstreamSize := { bitstreamCharIdx := 0, bitstreamCharBitIdx := 0 },
                  lastBit := true, numberOfOnes := 0, fcs := 0xFFFF })
          (some [0xFF]) [0xFF].length
          ST_PERFORM_STUFFING FCS_NONE SHIFT_ONE_LEFT_NO).1 = false ↔
        ∃ k,
          k < (stuffBits ST_PERFORM_STUFFING 0 (messageBits SHIFT_ONE_LEFT_NO [0xFF])).length ∧
          1 ≤ (bitOffset { bitstreamCharIdx := 0, bitstreamCharBitIdx := 0 } + k) / 8)) :=
  ⟨by decide,
    encodeAndAppendBits_bound (fun _ => 0) 1
      { bitstreamSize := { bitstreamCharIdx := 0, bitstreamCharBitIdx := 0 },
        lastBit := true, numberOfOnes := 0, fcs := 0xFFFF }
      [0xFF] ST_PERFORM_STUFFING FCS_NONE SHIFT_ONE_LEFT_NO (by decide)⟩

/-! ## Payload formatter: lengths and structure -/

/-! ## Widths of the formatted fields -/

theorem length_toDigitsCore_le (k : Nat) :
    ∀ (fuel n : Nat) (ds : List Char), n < 10 ^ (k + 1) → n < fuel →
      (Nat.toDigitsCore 10 fuel n ds).length ≤ ds.length + (k + 1) := by
  induction k with
  | zero =>
    intro fuel n ds hn hf
    cases fuel with
    | zero => omega
    | succ f =>
      have h0 : n / 10 = 0 := by
        simp only [Nat.zero_add, Nat.pow_one] at hn
        omega
      simp [Nat.toDigitsCore, h0]
  | succ k ih =>
    intro fuel n ds hn hf
    cases fuel with
    | zero => omega
    | succ f =>
      by_cases h0 : n / 10 = 0
      · simp [Nat.toDigitsCore, h0]
      · have h1 : n / 10 < 10 ^ (k + 1) := by
          rw [Nat.pow_succ] at hn
          omega
        have h2 : n / 10 < f := by omega
        have := ih f (n / 10) (Nat.digitChar (n % 10) :: ds) h1 h2
        simp only [Nat.toDigitsCore, h0, if_false]
        simp only [List.length_cons] at this
        omega

theorem length_formatUnsigned (width v : Nat) (hw : 0 < width) (hv : v < 10 ^ width) :
    (formatUnsigned width v).length = width := by
  obtain ⟨k, rfl⟩ : ∃ k, width = k + 1 := ⟨width - 1, by omega⟩
  have hmod : v % 4294967296 < 10 ^ (k + 1) := Nat.lt_of_le_of_lt (Nat.mod_le _ _) hv
  have h := length_toDigitsCore_le k (v % 4294967296 + 1) (v % 4294967296) [] hmod (by omega)
  simp only [formatUnsigned, List.length_append, List.length_replicate, List.length_map]
  simp only [List.length_nil, Nat.zero_add] at h
  have h2 : (Nat.toDigits 10 (v % 4294967296)).length ≤ k + 1 := h
  omega

theorem length_timestampChars (gps : GpsData)
    (h1 : gps.gpggaData.utcTime.hours < 100) (h2 : gps.gpggaData.utcTime.minutes < 100)
    (h3 : gps.gpggaData.utcTime.seconds / 100 < 100) : (timestampChars gps).length = 8 := by
  simp only [timestampChars, List.length_append,
    length_formatUnsigned 2 _ (by decide) (show _ < 10 ^ 2 from h1),
    length_formatUnsigned 2 _ (by decide) (show _ < 10 ^ 2 from h2),
    length_formatUnsigned 2 _ (by decide) (show _ < 10 ^ 2 from h3)]
  decide

theorem length_positionChars (gps : GpsData)
    (h1 : gps.gpggaData.latitude.degrees < 100)
    (h2 : gps.gpggaData.latitude.minutes / 1000000 < 100)
    (h3 : gps.gpggaData.longitude.degrees < 1000)
    (h4 : gps.gpggaData.longitude.minutes / 1000000 < 100) :
    (positionChars gps).length = 18 := by
  have f1 : (gps.gpggaData.latitude.minutes -
      gps.gpggaData.latitude.minutes / 1000000 * 1000000) / 10000 < 10 ^ 2 := by
    simp only [Nat.reducePow]; omega
  have f2 : (gps.gpggaData.longitude.minutes -
      gps.gpggaData.longitude.minutes / 1000000 * 1000000) / 10000 < 10 ^ 2 := by
    simp only [Nat.reducePow]; omega
  simp only [positionChars, List.length_append, List.length_cons, List.length_nil,
    length_formatUnsigned 2 _ (by decide) (show _ < 10 ^ 2 from h1),
    length_formatUnsigned 2 _ (by decide) (show _ < 10 ^ 2 from h2),
    length_formatUnsigned 3 _ (by decide) (show _ < 10 ^ 3 from h3),
    length_formatUnsigned 2 _ (by decide) (show _ < 10 ^ 2 from h4),
    length_formatUnsigned 2 _ (by decide) f1,
    length_formatUnsigned 2 _ (by decide) f2]
  decide

theorem length_courseSpeedChars (gps : GpsData)
    (h1 : gps.gpvtgData.trueCourseDegrees / 10 < 1000)
    (h2 : gps.gpvtgData.speedKph / 10 < 1000) : (courseSpeedChars gps).length = 8 := by
  simp only [courseSpeedChars, List.length_append,
    length_formatUnsigned 3 _ (by decide) (show _ < 10 ^ 3 from h1),
    length_formatUnsigned 3 _ (by decide) (show _ < 10 ^ 3 from h2)]
  decide

theorem length_telemetryChars (src : Nat) (gps : GpsData) (tel : Telemetry) (idx : Nat)
    (h1 : idx < 1000) (h2 : src < 1000) (h3 : tel.cpuTemperature / 10 < 1000)
    (h4 : tel.voltage / 10 < 1000)
    (h5 : (gps.gpggaData.altitudeMslMeters % 4294967296) / 10 < 100000) :
    (telemetryChars src gps tel idx).length = 42 := by
  simp only [telemetryChars, List.length_append,
    length_formatUnsigned 3 _ (by decide) (show _ < 10 ^ 3 from h1),
    length_formatUnsigned 3 _ (by decide) (show _ < 10 ^ 3 from h2),
    length_formatUnsigned 3 _ (by decide) (show _ < 10 ^ 3 from h3),
    length_formatUnsigned 3 _ (by decide) (show _ < 10 ^ 3 from h4),
    length_formatUnsigned 5 _ (by decide) (show _ < 10 ^ 5 from h5)]
  decide

/-! ## Return value and structure of the information field -/

theorem length_informationField (src : Nat) (gps : GpsData) (tel : Telemetry) (idx : Nat)
    (hfit : fieldsFit src gps tel idx) :
    (informationField src gps tel idx).length =
      if gps.gpggaData.latitude.isValid && gps.gpggaData.longitude.isValid then
        (if gps.gpggaData.utcTime.isValid then 76 else 69)
      else 42 := by
  obtain ⟨h1, h2, h3, h4, h5, h6, h7, h8, h9, h10, h11, h12, h13, h14⟩ := hfit
  have lts := length_timestampChars gps h1 h2 h3
  have lpos := length_positionChars gps h4 h5 h6 h7
  have lcs := length_courseSpeedChars gps h8 h9
  have ltel := length_telemetryChars src gps tel idx h10 h11 h12 h13 h14
  have lbang : (asciiBytes "!").length = 1 := by decide
  simp only [informationField]
  cases hv : (gps.gpggaData.latitude.isValid && gps.gpggaData.longitude.isValid)
  · simp [ltel]
  · cases hu : gps.gpggaData.utcTime.isValid <;>
      simp [ltel, lts, lpos, lcs, lbang]

theorem bufferBytes_bang (pBuffer : Buffer) :
    bufferBytes (fun i => if i = 0 then 33 else pBuffer i) 1 = asciiBytes "!" := by
  have h : asciiBytes "!" = [33] := by decide
  simp [bufferBytes, List.range_succ, h]

/-- With fields that fit their widths, `createPacketPayload` returns 0 when the buffer is
smaller than the complete information field; otherwise it returns the length of the field
and the buffer starts with the field. -/
theorem createPacketPayload_fits (src : Nat) (gps : GpsData) (tel : Telemetry) (idx : Nat)
    (pBuffer : Buffer) (bufferSize : Nat) (hfit : fieldsFit src gps tel idx) :
    (createPacketPayload src gps tel idx pBuffer bufferSize).1 =
        (if bufferSize < (informationField src gps tel idx).length then 0
         else (informationField src gps tel idx).length) ∧
      ((informationField src gps tel idx).length ≤ bufferSize →
        bufferBytes (createPacketPayload src gps tel idx pBuffer bufferSize).2
          (informationField src gps tel idx).length = informationField src gps tel idx) := by
  have hlen := length_informationField src gps tel idx hfit
  obtain ⟨h1, h2, h3, h4, h5, h6, h7, h8, h9, h10, h11, h12, h13, h14⟩ := hfit
  have lts := length_timestampChars gps h1 h2 h3
  have lpos := length_positionChars gps h4 h5 h6 h7
  have lcs := length_courseSpeedChars gps h8 h9
  have ltel := length_telemetryChars src gps tel idx h10 h11 h12 h13 h14
  rw [hlen]
  cases hv : (gps.gpggaData.latitude.isValid && gps.gpggaData.longitude.isValid)
  · simp only [createPacketPayload, hv, Bool.false_eq_true, if_false,
      createPacketPayloadTelemetry, ltel, informationField, List.nil_append]
    by_cases hs : bufferSize < 42
    · simp [hs, show 0 + 42 > bufferSize by omega]
    · have e := bufferBytes_sprintfAt pBuffer 0 (telemetryChars src gps tel idx)
      rw [ltel] at e
      simp only [hs, if_false, show ¬ (0 + 42 > bufferSize) by omega, Nat.zero_add, Nat.reduceMod,
        true_and]
      intro _
      simpa [bufferBytes] using e
  · cases hu : gps.gpggaData.utcTime.isValid
    · simp only [createPacketPayload, hv, hu, Bool.false_eq_true, if_false, if_true,
        createPacketPayloadPosition, createPacketPayloadTelemetry, ltel, lpos, lcs,
        informationField, Nat.zero_add, Nat.reduceMod, Nat.reduceAdd]
      by_cases hs : bufferSize < 69
      · simp only [hs, if_true]
        refine ⟨?_, fun h => by omega⟩
        repeat' split
        all_goals rfl
      · have e1 := bufferBytes_sprintfAt
          (sprintfAt (sprintfAt (fun i => if i = 0 then 33 else pBuffer i) 1 (positionChars gps))
            19 (courseSpeedChars gps)) 27 (telemetryChars src gps tel idx)
        have e2 := bufferBytes_sprintfAt
          (sprintfAt (fun i => if i = 0 then 33 else pBuffer i) 1 (positionChars gps))
            19 (courseSpeedChars gps)
        have e3 := bufferBytes_sprintfAt (fun i => if i = 0 then 33 else pBuffer i) 1
          (positionChars gps)
        rw [ltel] at e1
        rw [lcs] at e2
        rw [lpos] at e3
        rw [if_neg (by omega), if_neg (by omega), if_neg (by omega), if_neg (by omega)]
        simp only [hs, if_false, true_and]
        intro _
        rw [e1, e2, e3, bufferBytes_bang]
    · simp only [createPacketPayload, hv, hu, if_true,
        createPacketPayloadPosition, createPacketPayloadTelemetry, ltel, lpos, lcs, lts,
        informationField, Nat.zero_add, Nat.reduceMod, Nat.reduceAdd]
      by_cases hs : bufferSize < 76
      · simp only [hs, if_true]
        refine ⟨?_, fun h => by omega⟩
        repeat' split
        all_goals rfl
      · have e1 := bufferBytes_sprintfAt
          (sprintfAt (sprintfAt (sprintfAt pBuffer 0 (timestampChars gps)) 8 (positionChars gps))
            26 (courseSpeedChars gps)) 34 (telemetryChars src gps tel idx)
        have e2 := bufferBytes_sprintfAt
          (sprintfAt (sprintfAt pBuffer 0 (timestampChars gps)) 8 (positionChars gps))
            26 (courseSpeedChars gps)
        have e3 := bufferBytes_sprintfAt (sprintfAt pBuffer 0 (timestampChars gps)) 8
          (positionChars gps)
        have e4 := bufferBytes_sprintfAt pBuffer 0 (timestampChars gps)
        rw [ltel] at e1
        rw [lcs] at e2
        rw [lpos] at e3
        rw [lts] at e4
        rw [if_neg (by omega), if_neg (by omega), if_neg (by omega), if_neg (by omega)]
        simp only [hs, if_false, true_and]
        intro _
        rw [e1, e2, e3, e4]
        simp [bufferBytes]

/-- C11: for an input whose numeric fields fit their printed widths, `createPacketPayload`
returns 0 exactly when `bufferSize` is smaller than the length of the complete information
field, which is 42 without a valid position, 69 with a position and no valid time and 76
with position and time; otherwise it returns that length, and the characters written from
the start of the buffer are the field. -/
theorem createPacketPayload_return_value (gpsDataSource : Nat) (pGpsData : GpsData)
    (pTelemetry : Telemetry) (messageIdx : Nat) (pBuffer : Buffer) (bufferSize : Nat)
    (hfit : fieldsFit gpsDataSource pGpsData pTelemetry messageIdx) :
    ∃ fieldLength,
      fieldLength =
        (if pGpsData.gpggaData.latitude.isValid && pGpsData.gpggaData.longitude.isValid then
          (if pGpsData.gpggaData.utcTime.isValid then 76 else 69)
        else 42) ∧
      (informationField gpsDataSource pGpsData pTelemetry messageIdx).length = fieldLength ∧
      ((createPacketPayload gpsDataSource pGpsData pTelemetry messageIdx pBuffer
          bufferSize).1 = 0 ↔ bufferSize < fieldLength) ∧
      (fieldLength ≤ bufferSize →
        (createPacketPayload gpsDataSource pGpsData pTelemetry messageIdx pBuffer
          bufferSize).1 = fieldLength ∧
        bufferBytes
          (createPacketPayload gpsDataSource pGpsData pTelemetry messageIdx pBuffer
            bufferSize).2 fieldLength =
          informationField gpsDataSource pGpsData pTelemetry messageIdx) := by
  have hlen := length_informationField gpsDataSource pGpsData pTelemetry messageIdx hfit
  obtain ⟨hret, hbytes⟩ := createPacketPayload_fits gpsDataSource pGpsData pTelemetry
    messageIdx pBuffer bufferSize hfit
  have hpos : 0 < (informationField gpsDataSource pGpsData pTelemetry messageIdx).length := by
    rw [hlen]
    split
    · split <;> decide
    · decide
  refine ⟨_, rfl, hlen, ?_, ?_⟩
  · rw [hret, ← hlen]
    by_cases hs : bufferSize <
        (informationField gpsDataSource pGpsData pTelemetry messageIdx).length
    · simp [hs]
    · simp only [hs, if_false, iff_false]
      omega
  · rw [← hlen]
    intro hge
    refine ⟨?_, hbytes hge⟩
    rw [hret, if_neg (by omega)]

theorem createPacketPayload_return_value_witness :
    fieldsFit 1 exampleGpsData exampleTelemetry 7 ∧
    ∃ fieldLength,
      fieldLength =
        (if exampleGpsData.gpggaData.latitude.isValid &&
            exampleGpsData.gpggaData.longitude.isValid then
          (if exampleGpsData.gpggaData.utcTime.isValid then 76 else 69)
        else 42) ∧
      (informationField 1 exampleGpsData exampleTelemetry 7).length = fieldLength ∧
      ((createPacketPayload 1 exampleGpsData exampleTelemetry 7 (fun _ => 0) 68).1 = 0 ↔
        68 < fieldLength) ∧
      (fieldLength ≤ 68 →
        (createPacketPayload 1 exampleGpsData exampleTelemetry 7 (fun _ => 0) 68).1 =
          fieldLength ∧
        bufferBytes (createPacketPayload 1 exampleGpsData exampleTelemetry 7 (fun _ => 0) 68).2
          fieldLength = informationField 1 exampleGpsData exampleTelemetry 7) :=
  ⟨by decide,
    createPacketPayload_return_value 1 exampleGpsData exampleTelemetry 7 (fun _ => 0) 68
      (by decide)⟩

/-- C12, the code at a buffer of 26 bytes: on the example of the spec the check before the
course and speed field passes (19 + 7 is not above 26), the eight characters ">018/005" are
stored at the indices 19 to 26 and the terminating NUL at 27, so the character '5' lands on
the index 26, which is `bufferSize`; the call then returns 0. -/
theorem createPacketPayload_writes_past_bufferSize :
    (createPacketPayload 1 exampleGpsData exampleTelemetry 7 (fun _ => 0) 26).1 = 0 ∧
      (createPacketPayload 1 exampleGpsData exampleTelemetry 7 (fun _ => 0) 26).2 26 = 53 ∧
      (createPacketPayload 1 exampleGpsData exampleTelemetry 7 (fun _ => 255) 26).2 27 = 0 ∧
      bufferBytes (createPacketPayload 1 exampleGpsData exampleTelemetry 7 (fun _ => 0) 26).2
          27 = asciiBytes "!3746.49N/12225.16W>018/005" ∧
      (courseSpeedChars exampleGpsData).length = 8 ∧
      fieldsFit 1 exampleGpsData exampleTelemetry 7 := by
  refine ⟨by decide, by decide, by decide, by decide, by decide, by decide⟩

/-! ## Digits of the formatted fields -/

theorem digitChar_toNat (d : Nat) (h : d < 10) : (Nat.digitChar d).toNat = 48 + d := by
  interval_cases d <;> rfl

theorem decimalValue_append_singleton (chars : List Nat) (c : Nat) :
    decimalValue (chars ++ [c]) = 10 * decimalValue chars + (c - 48) := by
  simp [decimalValue, List.foldl_append]

theorem decimalValue_replicate_append (k : Nat) (chars : List Nat) :
    decimalValue (List.replicate k 48 ++ chars) = decimalValue chars := by
  induction k with
  | zero => simp
  | succ k ih =>
    have h : decimalValue (48 :: (List.replicate k 48 ++ chars)) =
        decimalValue (List.replicate k 48 ++ chars) := by
      simp [decimalValue]
    rw [List.replicate_succ, List.cons_append, h, ih]

/-- The digits that `Nat.toDigitsCore` puts in front of the accumulator: decimal digits
that denote `n`, without a leading zero unless `n` is 0. -/
theorem toDigitsCore_spec :
    ∀ (fuel n : Nat) (ds : List Char), n < fuel →
      ∃ front : List Char, Nat.toDigitsCore 10 fuel n ds = front ++ ds ∧ front ≠ [] ∧
        (∀ c ∈ front, 48 ≤ c.toNat ∧ c.toNat ≤ 57) ∧
        decimalValue (front.map Char.toNat) = n ∧
        (n ≠ 0 → (front.map Char.toNat).head? ≠ some 48) ∧
        (n = 0 → front.length = 1) := by
  intro fuel
  induction fuel with
  | zero => intro n ds h; omega
  | succ f ih =>
    intro n ds hf
    have hd : (Nat.digitChar (n % 10)).toNat = 48 + n % 10 :=
      digitChar_toNat _ (Nat.mod_lt _ (by decide))
    by_cases h0 : n / 10 = 0
    · refine ⟨[Nat.digitChar (n % 10)], by simp [Nat.toDigitsCore, h0], by simp, ?_, ?_, ?_, ?_⟩
      · intro c hc
        simp only [List.mem_singleton] at hc
        rw [hc, hd]
        omega
      · simp only [List.map_cons, List.map_nil, decimalValue, List.foldl_cons, List.foldl_nil,
          hd]
        omega
      · intro hn
        simp only [List.map_cons, List.map_nil, List.head?_cons, hd, ne_eq, Option.some.injEq]
        omega
      · intro _
        rfl
    · obtain ⟨front, e1, e2, e3, e4, e5, _⟩ := ih (n / 10) (Nat.digitChar (n % 10) :: ds)
        (by omega)
      refine ⟨front ++ [Nat.digitChar (n % 10)], ?_, by simp, ?_, ?_, ?_, ?_⟩
      · simp only [Nat.toDigitsCore, h0, if_false, e1, List.append_assoc, List.singleton_append]
      · intro c hc
        rcases List.mem_append.mp hc with h | h
        · exact e3 c h
        · simp only [List.mem_singleton] at h
          rw [h, hd]
          omega
      · rw [List.map_append, List.map_cons, List.map_nil, decimalValue_append_singleton, e4, hd]
        omega
      · intro _
        have := e5 h0
        cases front with
        | nil => exact absurd rfl e2
        | cons a rest => simpa using this
      · intro hn
        omega

theorem formatUnsigned_isZeroPadded (width v : Nat) (hw : 0 < width) :
    IsZeroPadded width (v % 4294967296) (formatUnsigned width v) := by
  obtain ⟨front, e1, e2, e3, e4, e5, e6⟩ :=
    toDigitsCore_spec (v % 4294967296 + 1) (v % 4294967296) [] (by omega)
  have hdig : Nat.toDigits 10 (v % 4294967296) = front := by
    rw [Nat.toDigits, e1, List.append_nil]
  simp only [formatUnsigned, hdig]
  refine ⟨?_, ?_, ?_, ?_⟩
  · intro c hc
    rcases List.mem_append.mp hc with h | h
    · rw [List.eq_of_mem_replicate h]
      omega
    · obtain ⟨a, ha, rfl⟩ := List.mem_map.mp h
      exact e3 a ha
  · rw [decimalValue_replicate_append, e4]
  · simp only [List.length_append, List.length_replicate, List.length_map]
    omega
  · intro hlen
    simp only [List.length_append, List.length_replicate, List.length_map] at hlen
    have hk : width - front.length = 0 := by omega
    have hn : v % 4294967296 ≠ 0 := by
      intro h
      have := e6 h
      omega
    simp only [List.length_map, hk, List.replicate_zero, List.nil_append]
    exact e5 hn

theorem formatUnsigned_two (v : Nat) (h : v < 100) :
    formatUnsigned 2 v = [48 + v / 10, 48 + v % 10] := by
  obtain ⟨h1, h2, _, _⟩ := formatUnsigned_isZeroPadded 2 v (by decide)
  have hlen := length_formatUnsigned 2 v (by decide) (by simpa using h)
  have hmod : v % 4294967296 = v := Nat.mod_eq_of_lt (by omega)
  rw [hmod] at h2
  match hc : formatUnsigned 2 v, hlen with
  | [a, b], _ =>
    rw [hc] at h1 h2
    have ha := h1 a (by simp)
    have hb := h1 b (by simp)
    simp only [decimalValue, List.foldl_cons, List.foldl_nil] at h2
    have e1 : a = 48 + v / 10 := by omega
    have e2 : b = 48 + v % 10 := by omega
    rw [e1, e2]

theorem formatUnsigned_three (v : Nat) (h : v < 1000) :
    formatUnsigned 3 v = [48 + v / 100, 48 + v / 10 % 10, 48 + v % 10] := by
  obtain ⟨h1, h2, _, _⟩ := formatUnsigned_isZeroPadded 3 v (by decide)
  have hlen := length_formatUnsigned 3 v (by decide) (by simpa using h)
  have hmod : v % 4294967296 = v := Nat.mod_eq_of_lt (by omega)
  rw [hmod] at h2
  match hc : formatUnsigned 3 v, hlen with
  | [a, b, c], _ =>
    rw [hc] at h1 h2
    have ha := h1 a (by simp)
    have hb := h1 b (by simp)
    have hcc := h1 c (by simp)
    simp only [decimalValue, List.foldl_cons, List.foldl_nil] at h2
    have e1 : a = 48 + v / 100 := by omega
    have e2 : b = 48 + v / 10 % 10 := by omega
    have e3 : c = 48 + v % 10 := by omega
    rw [e1, e2, e3]

theorem length_formatUnsigned_le (width v : Nat) (hw : width ≤ 10) :
    (formatUnsigned width v).length ≤ 10 := by
  have hmod : v % 4294967296 < 10 ^ (9 + 1) := by
    have : v % 4294967296 < 4294967296 := Nat.mod_lt _ (by decide)
    norm_num
    omega
  have h := length_toDigitsCore_le 9 (v % 4294967296 + 1) (v % 4294967296) [] hmod (by omega)
  have h2 : (Nat.toDigits 10 (v % 4294967296)).length ≤ 10 := by
    simpa using h
  simp only [formatUnsigned, List.length_append, List.length_replicate, List.length_map]
  omega

theorem length_timestampChars_le (gps : GpsData) : (timestampChars gps).length ≤ 32 := by
  have h1 := length_formatUnsigned_le 2 gps.gpggaData.utcTime.hours (by decide)
  have h2 := length_formatUnsigned_le 2 gps.gpggaData.utcTime.minutes (by decide)
  have h3 := length_formatUnsigned_le 2 (gps.gpggaData.utcTime.seconds / 100) (by decide)
  have ha : (asciiBytes "@").length = 1 := by decide
  have hz : (asciiBytes "z").length = 1 := by decide
  simp only [timestampChars, List.length_append, ha, hz]
  omega

theorem length_positionChars_le (gps : GpsData) : (positionChars gps).length ≤ 65 := by
  have h1 := length_formatUnsigned_le 2 gps.gpggaData.latitude.degrees (by decide)
  have h2 := length_formatUnsigned_le 2 (gps.gpggaData.latitude.minutes / 1000000) (by decide)
  have h3 := length_formatUnsigned_le 2 ((gps.gpggaData.latitude.minutes -
    gps.gpggaData.latitude.minutes / 1000000 * 1000000) / 10000) (by decide)
  have h4 := length_formatUnsigned_le 3 gps.gpggaData.longitude.degrees (by decide)
  have h5 := length_formatUnsigned_le 2 (gps.gpggaData.longitude.minutes / 1000000) (by decide)
  have h6 := length_formatUnsigned_le 2 ((gps.gpggaData.longitude.minutes -
    gps.gpggaData.longitude.minutes / 1000000 * 1000000) / 10000) (by decide)
  have hd : (asciiBytes ".").length = 1 := by decide
  have hs : (asciiBytes "/").length = 1 := by decide
  simp only [positionChars, List.length_append, List.length_cons, List.length_nil, hd, hs]
  omega

theorem length_courseSpeedChars_le (gps : GpsData) : (courseSpeedChars gps).length ≤ 22 := by
  have h1 := length_formatUnsigned_le 3 (gps.gpvtgData.trueCourseDegrees / 10) (by decide)
  have h2 := length_formatUnsigned_le 3 (gps.gpvtgData.speedKph / 10) (by decide)
  have hg : (asciiBytes ">").length = 1 := by decide
  have hs : (asciiBytes "/").length = 1 := by decide
  simp only [courseSpeedChars, List.length_append, hg, hs]
  omega

theorem length_telemetryChars_le (src : Nat) (gps : GpsData) (tel : Telemetry) (idx : Nat) :
    (telemetryChars src gps tel idx).length ≤ 75 ∧
      0 < (telemetryChars src gps tel idx).length := by
  have h1 := length_formatUnsigned_le 3 idx (by decide)
  have h2 := length_formatUnsigned_le 3 src (by decide)
  have h3 := length_formatUnsigned_le 3 (tel.cpuTemperature / 10) (by decide)
  have h4 := length_formatUnsigned_le 3 (tel.voltage / 10) (by decide)
  have h5 := length_formatUnsigned_le 5 ((gps.gpggaData.altitudeMslMeters % 4294967296) / 10)
    (by decide)
  have ht : (asciiBytes "T#").length = 2 := by decide
  have hc : (asciiBytes ",").length = 1 := by decide
  have hm : (asciiBytes ",000,000,00000000 a=").length = 20 := by decide
  simp only [telemetryChars, List.length_append, ht, hc, hm]
  omega

/-- The telemetry part, when it does not return 0. -/
theorem createPacketPayloadTelemetry_success (src : Nat) (gps : GpsData) (tel : Telemetry)
    (idx : Nat) (pBuffer : Buffer) (bufferSize start : Nat) (hstart : start ≤ 180)
    (h : (createPacketPayloadTelemetry src gps tel idx pBuffer bufferSize start).1 ≠ 0) :
    createPacketPayloadTelemetry src gps tel idx pBuffer bufferSize start =
      (start + (telemetryChars src gps tel idx).length,
        sprintfAt pBuffer start (telemetryChars src gps tel idx)) := by
  have hl := (length_telemetryChars_le src gps tel idx).1
  unfold createPacketPayloadTelemetry at h ⊢
  split
  · next hg => simp [hg] at h
  · simp only []
    rw [Nat.mod_eq_of_lt (by omega)]

/-- The position part, when it does not return 0. -/
theorem createPacketPayloadPosition_success (src : Nat) (gps : GpsData) (tel : Telemetry)
    (idx : Nat) (pBuffer : Buffer) (bufferSize start : Nat) (hstart : start ≤ 32)
    (h : (createPacketPayloadPosition src gps tel idx pBuffer bufferSize start).1 ≠ 0) :
    createPacketPayloadPosition src gps tel idx pBuffer bufferSize start =
      (start + (positionChars gps).length + (courseSpeedChars gps).length +
          (telemetryChars src gps tel idx).length,
        sprintfAt
          (sprintfAt (sprintfAt pBuffer start (positionChars gps))
            (start + (positionChars gps).length) (courseSpeedChars gps))
          (start + (positionChars gps).length + (courseSpeedChars gps).length)
          (telemetryChars src gps tel idx)) := by
  have hp := length_positionChars_le gps
  have hc := length_courseSpeedChars_le gps
  unfold createPacketPayloadPosition at h ⊢
  split
  · next hg => simp [hg] at h
  · next hg =>
    simp only [hg, if_false] at h
    simp only []
    rw [Nat.mod_eq_of_lt (show start + (positionChars gps).length < 256 by omega)] at h ⊢
    split
    · next hg2 => simp [hg2] at h
    · next hg2 =>
      simp only [hg2, if_false] at h
      rw [Nat.mod_eq_of_lt (show start + (positionChars gps).length +
        (courseSpeedChars gps).length < 256 by omega)] at h ⊢
      exact createPacketPayloadTelemetry_success src gps tel idx _ bufferSize _ (by omega) h

/-- A call of `createPacketPayload` that does not return 0 returns the length of the
information field and leaves the field at the start of the buffer, whatever the widths of
the printed numbers are. -/
theorem createPacketPayload_success (src : Nat) (gps : GpsData) (tel : Telemetry) (idx : Nat)
    (pBuffer : Buffer) (bufferSize : Nat)
    (h : (createPacketPayload src gps tel idx pBuffer bufferSize).1 ≠ 0) :
    (createPacketPayload src gps tel idx pBuffer bufferSize).1 =
        (informationField src gps tel idx).length ∧
      bufferBytes (createPacketPayload src gps tel idx pBuffer bufferSize).2
        (createPacketPayload src gps tel idx pBuffer bufferSize).1 =
          informationField src gps tel idx := by
  have hts := length_timestampChars_le gps
  have hbang : (asciiBytes "!").length = 1 := by decide
  unfold createPacketPayload at h ⊢
  simp only [] at h ⊢
  cases hv : (gps.gpggaData.latitude.isValid && gps.gpggaData.longitude.isValid)
  · simp only [hv, Bool.false_eq_true, if_false] at h ⊢
    rw [createPacketPayloadTelemetry_success src gps tel idx pBuffer bufferSize 0 (by omega) h]
    simp only [informationField, hv, Bool.false_eq_true, if_false, List.nil_append,
      Nat.zero_add]
    refine ⟨trivial, ?_⟩
    have e := bufferBytes_sprintfAt pBuffer 0 (telemetryChars src gps tel idx)
    simpa [bufferBytes] using e
  · simp only [hv, if_true] at h ⊢
    cases hu : gps.gpggaData.utcTime.isValid
    · simp only [hu, Bool.false_eq_true, if_false] at h ⊢
      split at h
      · exact absurd rfl h
      · next hg =>
        simp only [hg, if_false]
        rw [Nat.zero_add, Nat.mod_eq_of_lt (by decide)] at h ⊢
        rw [createPacketPayloadPosition_success src gps tel idx _ bufferSize 1 (by omega) h]
        simp only [informationField, hv, hu, Bool.false_eq_true, if_false, if_true,
          List.length_append, hbang]
        refine ⟨trivial, ?_⟩
        rw [bufferBytes_sprintfAt, bufferBytes_sprintfAt, bufferBytes_sprintfAt,
          bufferBytes_bang]
    · simp only [hu, if_true] at h ⊢
      split at h
      · exact absurd rfl h
      · next hg =>
        simp only [hg, if_false]
        rw [Nat.zero_add, Nat.mod_eq_of_lt (show (timestampChars gps).length < 256 by omega)]
          at h ⊢
        rw [createPacketPayloadPosition_success src gps tel idx _ bufferSize _ hts h]
        simp only [informationField, hv, hu, if_true, List.length_append]
        refine ⟨trivial, ?_⟩
        rw [bufferBytes_sprintfAt, bufferBytes_sprintfAt, bufferBytes_sprintfAt]
        have e := bufferBytes_sprintfAt pBuffer 0 (timestampChars gps)
        rw [Nat.zero_add] at e
        rw [e]
        simp [bufferBytes]

/-- C13: in every successful call of `createPacketPayload` (one that does not return 0) the
output, that is the returned number of characters from the start of the buffer, is: with
latitude and longitude valid, the timestamp "@", hours, minutes, seconds, "z" when the UTC
time is valid and "!" otherwise, then the position (latitude degrees and minutes, ".",
hundredths of minutes, hemisphere, "/", the same for the longitude), then ">", course
divided by 10, "/", speed divided by 10, then the telemetry field; with latitude or
longitude not valid, the telemetry field alone. The telemetry field starts with "T#" and
the output ends with it. Every number is printed as `%0<width>u` prints it: its decimal
digits, padded with zeros to the width, so that a value below 100 is printed with its two
digits, tens first (`HH`, `MM`, `SS`, `DD`, `mm`) and a value below 1000 with its three
digits (`DDD`, `CCC`, `SSS`); with the values within these ranges the timestamp has 8
characters, the position 18 and the course and speed 8. -/
theorem createPacketPayload_structure (gpsDataSource : Nat) (pGpsData : GpsData)
    (pTelemetry : Telemetry) (messageIdx : Nat) (pBuffer : Buffer) (bufferSize : Nat)
    (hsuccess : (createPacketPayload gpsDataSource pGpsData pTelemetry messageIdx pBuffer
      bufferSize).1 ≠ 0) :
    ∃ output timestamp position courseSpeed telemetry,
      output = bufferBytes
        (createPacketPayload gpsDataSource pGpsData pTelemetry messageIdx pBuffer bufferSize).2
        (createPacketPayload gpsDataSource pGpsData pTelemetry messageIdx pBuffer bufferSize).1 ∧
      timestamp = asciiBytes "@" ++ formatUnsigned 2 pGpsData.gpggaData.utcTime.hours ++
        formatUnsigned 2 pGpsData.gpggaData.utcTime.minutes ++
        formatUnsigned 2 (pGpsData.gpggaData.utcTime.seconds / 100) ++ asciiBytes "z" ∧
      position =
        formatUnsigned 2 pGpsData.gpggaData.latitude.degrees ++
        formatUnsigned 2 (pGpsData.gpggaData.latitude.minutes / 1000000) ++ asciiBytes "." ++
        formatUnsigned 2 ((pGpsData.gpggaData.latitude.minutes -
          pGpsData.gpggaData.latitude.minutes / 1000000 * 1000000) / 10000) ++
        [pGpsData.gpggaData.latitude.hemisphere % 256] ++ asciiBytes "/" ++
        formatUnsigned 3 pGpsData.gpggaData.longitude.degrees ++
        formatUnsigned 2 (pGpsData.gpggaData.longitude.minutes / 1000000) ++ asciiBytes "." ++
        formatUnsigned 2 ((pGpsData.gpggaData.longitude.minutes -
          pGpsData.gpggaData.longitude.minutes / 1000000 * 1000000) / 10000) ++
        [pGpsData.gpggaData.longitude.hemisphere % 256] ∧
      courseSpeed = asciiBytes ">" ++
        formatUnsigned 3 (pGpsData.gpvtgData.trueCourseDegrees / 10) ++ asciiBytes "/" ++
        formatUnsigned 3 (pGpsData.gpvtgData.speedKph / 10) ∧
      telemetry = asciiBytes "T#" ++ formatUnsigned 3 messageIdx ++ asciiBytes "," ++
        formatUnsigned 3 gpsDataSource ++ asciiBytes "," ++
        formatUnsigned 3 (pTelemetry.cpuTemperature / 10) ++ asciiBytes "," ++
        formatUnsigned 3 (pTelemetry.voltage / 10) ++ asciiBytes ",000,000,00000000 a=" ++
        formatUnsigned 5 ((pGpsData.gpggaData.altitudeMslMeters % 4294967296) / 10) ∧
      output =
        (if pGpsData.gpggaData.latitude.isValid && pGpsData.gpggaData.longitude.isValid then
          (if pGpsData.gpggaData.utcTime.isValid then timestamp else asciiBytes "!") ++
            position ++ courseSpeed ++ telemetry
        else telemetry) ∧
      telemetry <:+ output ∧
      asciiBytes "T#" <+: telemetry ∧
      (∀ width v : Nat, 0 < width →
        IsZeroPadded width (v % 4294967296) (formatUnsigned width v)) ∧
      (∀ v : Nat, v < 100 → formatUnsigned 2 v = [48 + v / 10, 48 + v % 10]) ∧
      (∀ v : Nat, v < 1000 →
        formatUnsigned 3 v = [48 + v / 100, 48 + v / 10 % 10, 48 + v % 10]) ∧
      (asciiBytes "@" = [64] ∧ asciiBytes "z" = [122] ∧ asciiBytes "!" = [33] ∧
        asciiBytes "." = [46] ∧ asciiBytes "/" = [47] ∧ asciiBytes ">" = [62] ∧
        asciiBytes "," = [44] ∧ asciiBytes "T#" = [84, 35]) ∧
      (pGpsData.gpggaData.utcTime.hours < 100 → pGpsData.gpggaData.utcTime.minutes < 100 →
        pGpsData.gpggaData.utcTime.seconds / 100 < 100 → timestamp.length = 8) ∧
      (pGpsData.gpggaData.latitude.degrees < 100 →
        pGpsData.gpggaData.latitude.minutes / 1000000 < 100 →
        pGpsData.gpggaData.longitude.degrees < 1000 →
        pGpsData.gpggaData.longitude.minutes / 1000000 < 100 → position.length = 18) ∧
      (pGpsData.gpvtgData.trueCourseDegrees / 10 < 1000 →
        pGpsData.gpvtgData.speedKph / 10 < 1000 → courseSpeed.length = 8) := by
  obtain ⟨_, hout⟩ := createPacketPayload_success gpsDataSource pGpsData pTelemetry
    messageIdx pBuffer bufferSize hsuccess
  have hsplit : informationField gpsDataSource pGpsData pTelemetry messageIdx =
      (if pGpsData.gpggaData.latitude.isValid && pGpsData.gpggaData.longitude.isValid then
        (if pGpsData.gpggaData.utcTime.isValid then timestampChars pGpsData
          else asciiBytes "!") ++ positionChars pGpsData ++ courseSpeedChars pGpsData
      else []) ++ telemetryChars gpsDataSource pGpsData pTelemetry messageIdx := rfl
  refine ⟨_, _, _, _, _, rfl, rfl, rfl, rfl, rfl, ?_, ?_, ?_,
    fun width v hw => formatUnsigned_isZeroPadded width v hw,
    formatUnsigned_two, formatUnsigned_three,
    ⟨by decide, by decide, by decide, by decide, by decide, by decide, by decide, by decide⟩,
    fun h1 h2 h3 => length_timestampChars pGpsData h1 h2 h3,
    fun h1 h2 h3 h4 => length_positionChars pGpsData h1 h2 h3 h4,
    fun h1 h2 => length_courseSpeedChars pGpsData h1 h2⟩
  · rw [hout, informationField]
    split
    · rfl
    · rfl
  · rw [hout, hsplit]
    exact List.suffix_append _ _
  · exact ⟨_, rfl⟩

theorem createPacketPayload_structure_witness :
    (createPacketPayload 1 exampleGpsData exampleTelemetry 1000 (fun _ => 0) 128).1 ≠ 0 ∧
    (∃ output timestamp position courseSpeed telemetry,
      output = bufferBytes
        (createPacketPayload 1 exampleGpsData exampleTelemetry 1000 (fun _ => 0) 128).2
        (createPacketPayload 1 exampleGpsData exampleTelemetry 1000 (fun _ => 0) 128).1 ∧
      timestamp = asciiBytes "@" ++ formatUnsigned 2 exampleGpsData.gpggaData.utcTime.hours ++
        formatUnsigned 2 exampleGpsData.gpggaData.utcTime.minutes ++
        formatUnsigned 2 (exampleGpsData.gpggaData.utcTime.seconds / 100) ++ asciiBytes "z" ∧
      position =
        formatUnsigned 2 exampleGpsData.gpggaData.latitude.degrees ++
        formatUnsigned 2 (exampleGpsData.gpggaData.latitude.minutes / 1000000) ++
        asciiBytes "." ++
        formatUnsigned 2 ((exampleGpsData.gpggaData.latitude.minutes -
          exampleGpsData.gpggaData.latitude.minutes / 1000000 * 1000000) / 10000) ++
        [exampleGpsData.gpggaData.latitude.hemisphere % 256] ++ asciiBytes "/" ++
        formatUnsigned 3 exampleGpsData.gpggaData.longitude.degrees ++
        formatUnsigned 2 (exampleGpsData.gpggaData.longitude.minutes / 1000000) ++
        asciiBytes "." ++
        formatUnsigned 2 ((exampleGpsData.gpggaData.longitude.minutes -
          exampleGpsData.gpggaData.longitude.minutes / 1000000 * 1000000) / 10000) ++
        [exampleGpsData.gpggaData.longitude.hemisphere % 256] ∧
      courseSpeed = asciiBytes ">" ++
        formatUnsigned 3 (exampleGpsData.gpvtgData.trueCourseDegrees / 10) ++ asciiBytes "/" ++
        formatUnsigned 3 (exampleGpsData.gpvtgData.speedKph / 10) ∧
      telemetry = asciiBytes "T#" ++ formatUnsigned 3 1000 ++ asciiBytes "," ++
        formatUnsigned 3 1 ++ asciiBytes "," ++
        formatUnsigned 3 (exampleTelemetry.cpuTemperature / 10) ++ asciiBytes "," ++
        formatUnsigned 3 (exampleTelemetry.voltage / 10) ++
        asciiBytes ",000,000,00000000 a=" ++
        formatUnsigned 5 ((exampleGpsData.gpggaData.altitudeMslMeters % 4294967296) / 10) ∧
      output =
        (if exampleGpsData.gpggaData.latitude.isValid &&
            exampleGpsData.gpggaData.longitude.isValid then
          (if exampleGpsData.gpggaData.utcTime.isValid then timestamp else asciiBytes "!") ++
            position ++ courseSpeed ++ telemetry
        else telemetry) ∧
      telemetry <:+ output ∧
      asciiBytes "T#" <+: telemetry ∧
      (∀ width v : Nat, 0 < width →
        IsZeroPadded width (v % 4294967296) (formatUnsigned width v)) ∧
      (∀ v : Nat, v < 100 → formatUnsigned 2 v = [48 + v / 10, 48 + v % 10]) ∧
      (∀ v : Nat, v < 1000 →
        formatUnsigned 3 v = [48 + v / 100, 48 + v / 10 % 10, 48 + v % 10]) ∧
      (asciiBytes "@" = [64] ∧ asciiBytes "z" = [122] ∧ asciiBytes "!" = [33] ∧
        asciiBytes "." = [46] ∧ asciiBytes "/" = [47] ∧ asciiBytes ">" = [62] ∧
        asciiBytes "," = [44] ∧ asciiBytes "T#" = [84, 35]) ∧
      (exampleGpsData.gpggaData.utcTime.hours < 100 →
        exampleGpsData.gpggaData.utcTime.minutes < 100 →
        exampleGpsData.gpggaData.utcTime.seconds / 100 < 100 → timestamp.length = 8) ∧
      (exampleGpsData.gpggaData.latitude.degrees < 100 →
        exampleGpsData.gpggaData.latitude.minutes / 1000000 < 100 →
        exampleGpsData.gpggaData.longitude.degrees < 1000 →
        exampleGpsData.gpggaData.longitude.minutes / 1000000 < 100 → position.length = 18) ∧
      (exampleGpsData.gpvtgData.trueCourseDegrees / 10 < 1000 →
        exampleGpsData.gpvtgData.speedKph / 10 < 1000 → courseSpeed.length = 8)) ∧
    bufferBytes
        (createPacketPayload 1 exampleGpsData exampleTelemetry 1000 (fun _ => 0) 128).2
        (createPacketPayload 1 exampleGpsData exampleTelemetry 1000 (fun _ => 0) 128).1 =
      asciiBytes "!3746.49N/12225.16W>018/005T#1000,001,025,033,000,000,00000000 a=00010" :=
  ⟨by decide,
    createPacketPayload_structure 1 exampleGpsData exampleTelemetry 1000 (fun _ => 0) 128
      (by decide),
    by decide⟩

/-! ## Ticks of the synthesizer -/

theorem runTicks_add {F : Type} [Add F] [Sub F] [Mul F] [Zero F] [NatCast F]
    [LT F] [LE F] [DecidableRel (LT.lt : F → F → Prop)]
    [DecidableRel (LE.le : F → F → Prop)] (cfg : Config) (m : Synthesizer F)
    (a b : Nat) (s : AprsState F) :
    runTicks cfg m (a + b) s = runTicks cfg m b (runTicks cfg m a s) := by
  induction a generalizing s with
  | zero => simp [runTicks]
  | succ a ih =>
    rw [Nat.add_right_comm]
    simp only [runTicks]
    exact ih _

theorem runTicks_succ {F : Type} [Add F] [Sub F] [Mul F] [Zero F] [NatCast F]
    [LT F] [LE F] [DecidableRel (LT.lt : F → F → Prop)]
    [DecidableRel (LE.le : F → F → Prop)] (cfg : Config) (m : Synthesizer F)
    (a : Nat) (s : AprsState F) :
    runTicks cfg m (a + 1) s = Pwm10Handler cfg m (runTicks cfg m a s) := by
  rw [runTicks_add]
  rfl

theorem toneSample_control {F : Type} [LinearOrderedField F] (cfg : Config)
    (m : Synthesizer F) (s : AprsState F) (size : BitstreamPos) (snd : Bool)
    (w o q c : Nat) (h : Control s size snd w o q c) :
    Control (toneSample cfg m s) size snd w o q ((c + 1) % 256) := by
  obtain ⟨h1, h2, h3, h4, h5, h6⟩ := h
  simp only [toneSample]
  split <;> exact ⟨h1, h2, h3, h4, by simp [h5], h6⟩

theorem Pwm10Handler_warmUp {F : Type} [LinearOrderedField F] (cfg : Config)
    (m : Synthesizer F) (s : AprsState F) (size : BitstreamPos) (snd : Bool)
    (w o q c : Nat) (h : Control s size snd (w + 1) o q c) :
    Control (Pwm10Handler cfg m s) size snd w o q c := by
  obtain ⟨h1, h2, h3, h4, h5, h6⟩ := h
  simp only [Pwm10Handler, h2]
  exact ⟨h1, by simp, h3, h4, h5, h6⟩

theorem Pwm10Handler_hold {F : Type} [LinearOrderedField F] (cfg : Config)
    (m : Synthesizer F) (s : AprsState F) (size : BitstreamPos) (snd : Bool)
    (o q c : Nat) (h : Control s size snd 0 o q c)
    (hc : c < cfg.F1200_PWM_PULSES_COUNT_PER_SYMBOL) :
    Control (Pwm10Handler cfg m s) size snd 0 o q ((c + 1) % 256) := by
  have h' := h
  obtain ⟨h1, h2, h3, h4, h5, h6⟩ := h
  simp only [Pwm10Handler, h2, h5, ne_eq, not_true_eq_false, if_false,
    show ¬ (c ≥ cfg.F1200_PWM_PULSES_COUNT_PER_SYMBOL) by omega]
  refine toneSample_control cfg m _ size snd 0 o q c ⟨?_, ?_, ?_, ?_, ?_, ?_⟩ <;>
    first | rfl | assumption

theorem cursorAtEnd_posOf {F : Type} (s : AprsState F) (q B : Nat)
    (hpos : s.g_currentBitstreamPos = posOf q) (hsize : s.g_currentBitstreamSize = posOf B) :
    cursorAtEnd s = true ↔ (q / 8 ≥ B / 8 ∧ q % 8 ≥ B % 8) := by
  simp [cursorAtEnd, hpos, hsize, posOf]

theorem Pwm10Handler_leadingOne {F : Type} [LinearOrderedField F] (cfg : Config)
    (m : Synthesizer F) (s : AprsState F) (B o q c : Nat)
    (h : Control s (posOf B) true 0 (o + 1) q c)
    (hc : cfg.F1200_PWM_PULSES_COUNT_PER_SYMBOL ≤ c) (hq : q < B) :
    Control (Pwm10Handler cfg m s) (posOf B) true 0 o q 1 := by
  obtain ⟨h1, h2, h3, h4, h5, h6⟩ := h
  simp only [Pwm10Handler, h2, h5, ne_eq, not_true_eq_false, if_false, ge_iff_le, hc, if_true,
    h1, Bool.not_true, Bool.false_or, h3, Nat.succ_ne_zero,
    not_false_eq_true, Nat.add_sub_cancel]
  split
  · next ht =>
    have := (cursorAtEnd_posOf _ q B h4 h6).mp ht
    omega
  · refine toneSample_control cfg m _ (posOf B) true 0 o q 0 ⟨?_, ?_, ?_, ?_, ?_, ?_⟩ <;>
      first | rfl | assumption

theorem Pwm10Handler_stream {F : Type} [LinearOrderedField F] (cfg : Config)
    (m : Synthesizer F) (s : AprsState F) (B q c : Nat)
    (h : Control s (posOf B) true 0 0 q c)
    (hc : cfg.F1200_PWM_PULSES_COUNT_PER_SYMBOL ≤ c) (hq : q < B) :
    Control (Pwm10Handler cfg m s) (posOf B) true 0 0 (q + 1) 1 := by
  obtain ⟨h1, h2, h3, h4, h5, h6⟩ := h
  simp only [Pwm10Handler, h2, h5, ne_eq, not_true_eq_false, if_false, ge_iff_le, hc, if_true,
    h1, Bool.not_true, Bool.false_or, h3]
  split
  · next ht =>
    have := (cursorAtEnd_posOf _ q B h4 h6).mp ht
    omega
  · apply toneSample_control cfg m _ (posOf B) true 0 0 (q + 1) 0
    simp only [streamSymbol]
    refine ⟨?_, ?_, ?_, ?_, ?_, ?_⟩
    · split <;> [skip; split] <;> rfl
    · split <;> [skip; split] <;> rfl
    · split <;> [skip; split] <;> rfl
    · rw [← advanceBitstreamBit_posOf, ← h4]
      split <;> [skip; split] <;> rfl
    · split <;> [skip; split] <;> rfl
    · split <;> [skip; split] <;> exact h6

theorem Pwm10Handler_idle {F : Type} [LinearOrderedField F] (cfg : Config)
    (m : Synthesizer F) (s : AprsState F)
    (hwarm : s.g_leadingWarmUpLeft = 0)
    (hcount : cfg.F1200_PWM_PULSES_COUNT_PER_SYMBOL ≤ s.g_currentSymbolPulsesCount)
    (hend : s.g_sendingMessage = false ∨
      (s.g_currentBitstreamPos.bitstreamCharIdx ≥ s.g_currentBitstreamSize.bitstreamCharIdx ∧
        s.g_currentBitstreamPos.bitstreamCharBitIdx ≥
          s.g_currentBitstreamSize.bitstreamCharBitIdx)) :
    Pwm10Handler cfg m s =
      { s with
        g_currentSymbolPulsesCount := 0
        g_sendingMessage := false
        hardwareCalls := s.hardwareCalls ++
          [HardwareCall.clearAprsPwmInterrupt, HardwareCall.disableAprsPwm,
            HardwareCall.disableHx1, HardwareCall.setAprsPwmPulseWidth m.PWM_MIN_PULSE_WIDTH] } := by
  simp only [Pwm10Handler, hwarm, ne_eq, not_true_eq_false, if_false, ge_iff_le, hcount, if_true]
  split
  · simp only [List.append_assoc, List.singleton_append]
  · next hn =>
    exfalso
    apply hn
    rcases hend with h | ⟨h1, h2⟩
    · simp [h]
    · simp [cursorAtEnd, h1, h2]

theorem runTicks_one {F : Type} [Add F] [Sub F] [Mul F] [Zero F] [NatCast F]
    [LT F] [LE F] [DecidableRel (LT.lt : F → F → Prop)]
    [DecidableRel (LE.le : F → F → Prop)] (cfg : Config) (m : Synthesizer F)
    (s : AprsState F) : runTicks cfg m 1 s = Pwm10Handler cfg m s := rfl

theorem runTicks_warmUp {F : Type} [LinearOrderedField F] (cfg : Config) (m : Synthesizer F)
    (s : AprsState F) (size : BitstreamPos) (snd : Bool) (w o q c : Nat)
    (h : Control s size snd w o q c) (t : Nat) (ht : t ≤ w) :
    Control (runTicks cfg m t s) size snd (w - t) o q c := by
  induction t with
  | zero => exact h
  | succ t ih =>
    rw [runTicks_succ]
    apply Pwm10Handler_warmUp
    have := ih (by omega)
    rwa [show w - t = w - (t + 1) + 1 by omega] at this

theorem runTicks_hold {F : Type} [LinearOrderedField F] (cfg : Config) (m : Synthesizer F)
    (s : AprsState F) (size : BitstreamPos) (snd : Bool) (o q c : Nat)
    (h : Control s size snd 0 o q c) (hN : cfg.F1200_PWM_PULSES_COUNT_PER_SYMBOL ≤ 255)
    (j : Nat) (hj : c + j ≤ cfg.F1200_PWM_PULSES_COUNT_PER_SYMBOL) :
    Control (runTicks cfg m j s) size snd 0 o q (c + j) := by
  induction j with
  | zero => exact h
  | succ j ih =>
    rw [runTicks_succ]
    have h1 := Pwm10Handler_hold cfg m _ size snd o q (c + j) (ih (by omega)) (by omega)
    rwa [show (c + j + 1) % 256 = c + (j + 1) by omega] at h1

theorem runTicks_leadingOne {F : Type} [LinearOrderedField F] (cfg : Config)
    (m : Synthesizer F) (s : AprsState F) (B o q c : Nat)
    (h : Control s (posOf B) true 0 (o + 1) q c)
    (hc : cfg.F1200_PWM_PULSES_COUNT_PER_SYMBOL ≤ c) (hq : q < B)
    (hN : cfg.F1200_PWM_PULSES_COUNT_PER_SYMBOL ≤ 255)
    (i : Nat) (hi1 : 1 ≤ i) (hi2 : i ≤ cfg.F1200_PWM_PULSES_COUNT_PER_SYMBOL) :
    Control (runTicks cfg m i s) (posOf B) true 0 o q i := by
  have h1 := Pwm10Handler_leadingOne cfg m s B o q c h hc hq
  have h2 := runTicks_hold cfg m _ (posOf B) true o q 1 h1 hN (i - 1) (by omega)
  rw [← runTicks_one, ← runTicks_add] at h2
  rwa [show 1 + (i - 1) = i by omega] at h2

theorem runTicks_streamSymbol {F : Type} [LinearOrderedField F] (cfg : Config)
    (m : Synthesizer F) (s : AprsState F) (B q c : Nat)
    (h : Control s (posOf B) true 0 0 q c)
    (hc : cfg.F1200_PWM_PULSES_COUNT_PER_SYMBOL ≤ c) (hq : q < B)
    (hN : cfg.F1200_PWM_PULSES_COUNT_PER_SYMBOL ≤ 255)
    (i : Nat) (hi1 : 1 ≤ i) (hi2 : i ≤ cfg.F1200_PWM_PULSES_COUNT_PER_SYMBOL) :
    Control (runTicks cfg m i s) (posOf B) true 0 0 (q + 1) i := by
  have h1 := Pwm10Handler_stream cfg m s B q c h hc hq
  have h2 := runTicks_hold cfg m _ (posOf B) true 0 (q + 1) 1 h1 hN (i - 1) (by omega)
  rw [← runTicks_one, ← runTicks_add] at h2
  rwa [show 1 + (i - 1) = i by omega] at h2

theorem runTicks_leadingOnes {F : Type} [LinearOrderedField F] (cfg : Config)
    (m : Synthesizer F) (s : AprsState F) (B L q : Nat)
    (h : Control s (posOf B) true 0 L q cfg.F1200_PWM_PULSES_COUNT_PER_SYMBOL) (hq : q < B)
    (hN1 : 1 ≤ cfg.F1200_PWM_PULSES_COUNT_PER_SYMBOL)
    (hN : cfg.F1200_PWM_PULSES_COUNT_PER_SYMBOL ≤ 255) (l : Nat) (hl : l ≤ L) :
    Control (runTicks cfg m (cfg.F1200_PWM_PULSES_COUNT_PER_SYMBOL * l) s) (posOf B) true 0
      (L - l) q cfg.F1200_PWM_PULSES_COUNT_PER_SYMBOL := by
  induction l with
  | zero => exact h
  | succ l ih =>
    rw [Nat.mul_succ, runTicks_add]
    have h1 := ih (by omega)
    rw [show L - l = L - (l + 1) + 1 by omega] at h1
    exact runTicks_leadingOne cfg m _ B _ q _ h1 (le_refl _) hq hN _ hN1 (le_refl _)

theorem runTicks_stream {F : Type} [LinearOrderedField F] (cfg : Config)
    (m : Synthesizer F) (s : AprsState F) (B : Nat)
    (h : Control s (posOf B) true 0 0 0 cfg.F1200_PWM_PULSES_COUNT_PER_SYMBOL)
    (hN1 : 1 ≤ cfg.F1200_PWM_PULSES_COUNT_PER_SYMBOL)
    (hN : cfg.F1200_PWM_PULSES_COUNT_PER_SYMBOL ≤ 255) (j : Nat) (hj : j ≤ B) :
    Control (runTicks cfg m (cfg.F1200_PWM_PULSES_COUNT_PER_SYMBOL * j) s) (posOf B) true 0
      0 j cfg.F1200_PWM_PULSES_COUNT_PER_SYMBOL := by
  induction j with
  | zero => exact h
  | succ j ih =>
    rw [Nat.mul_succ, runTicks_add]
    exact runTicks_streamSymbol cfg m _ B j _ (ih (by omega)) (le_refl _) (by omega) hN _ hN1
      (le_refl _)

theorem Pwm10Handler_idle_control {F : Type} [LinearOrderedField F] (cfg : Config)
    (m : Synthesizer F) (s : AprsState F) (B o q c : Nat) (snd : Bool)
    (h : Control s (posOf B) snd 0 o q c)
    (hc : cfg.F1200_PWM_PULSES_COUNT_PER_SYMBOL ≤ c)
    (hend : snd = false ∨ (q / 8 ≥ B / 8 ∧ q % 8 ≥ B % 8)) :
    Control (Pwm10Handler cfg m s) (posOf B) false 0 o q 0 := by
  obtain ⟨h1, h2, h3, h4, h5, h6⟩ := h
  rw [Pwm10Handler_idle cfg m s h2 (by omega)
    (by
      rcases hend with h | h
      · exact Or.inl (h1.trans h)
      · right
        rw [h4, h6]
        exact h)]
  exact ⟨rfl, h2, h3, h4, rfl, h6⟩

/-- The schedule of a transmission that starts with `W` warm-up ticks, `L` leading ones,
a fill size of `B` bits and the pulse counter at `N`. -/
theorem runTicks_schedule {F : Type} [LinearOrderedField F] (cfg : Config)
    (m : Synthesizer F) (s : AprsState F) (B W L : Nat)
    (h : Control s (posOf B) true W L 0 cfg.F1200_PWM_PULSES_COUNT_PER_SYMBOL)
    (hN1 : 1 ≤ cfg.F1200_PWM_PULSES_COUNT_PER_SYMBOL)
    (hN : cfg.F1200_PWM_PULSES_COUNT_PER_SYMBOL ≤ 255) (hB : 0 < B) :
    (∀ t, t ≤ W → Control (runTicks cfg m t s) (posOf B) true (W - t) L 0
        cfg.F1200_PWM_PULSES_COUNT_PER_SYMBOL) ∧
      (∀ l i, l < L → 1 ≤ i → i ≤ cfg.F1200_PWM_PULSES_COUNT_PER_SYMBOL →
        Control (runTicks cfg m (W + cfg.F1200_PWM_PULSES_COUNT_PER_SYMBOL * l + i) s)
          (posOf B) true 0 (L - 1 - l) 0 i) ∧
      (∀ j i, j < B → 1 ≤ i → i ≤ cfg.F1200_PWM_PULSES_COUNT_PER_SYMBOL →
        Control (runTicks cfg m (W + cfg.F1200_PWM_PULSES_COUNT_PER_SYMBOL * (L + j) + i) s)
          (posOf B) true 0 0 (j + 1) i) ∧
      Control (runTicks cfg m (W + cfg.F1200_PWM_PULSES_COUNT_PER_SYMBOL * (L + B) + 1) s)
        (posOf B) false 0 0 B 0 := by
  have hw := runTicks_warmUp cfg m s (posOf B) true W L 0 _ h
  have hW := hw W (le_refl _)
  rw [Nat.sub_self] at hW
  have hl := runTicks_leadingOnes cfg m _ B L 0 hW hB hN1 hN
  have hL := hl L (le_refl _)
  rw [Nat.sub_self, ← runTicks_add] at hL
  have hs := runTicks_stream cfg m _ B hL hN1 hN
  refine ⟨hw, ?_, ?_, ?_⟩
  · intro l i hlL hi1 hi2
    have h1 := hl l (by omega)
    rw [show L - l = L - 1 - l + 1 by omega] at h1
    have h2 := runTicks_leadingOne cfg m _ B _ 0 _ h1 (le_refl _) hB hN i hi1 hi2
    rw [← runTicks_add, ← runTicks_add] at h2
    rwa [show W + cfg.F1200_PWM_PULSES_COUNT_PER_SYMBOL * l + i =
      W + (cfg.F1200_PWM_PULSES_COUNT_PER_SYMBOL * l + i) by omega]
  · intro j i hjB hi1 hi2
    have h1 := hs j (by omega)
    have h2 := runTicks_streamSymbol cfg m _ B j _ h1 (le_refl _) hjB hN i hi1 hi2
    rw [← runTicks_add, ← runTicks_add] at h2
    rwa [show W + cfg.F1200_PWM_PULSES_COUNT_PER_SYMBOL * (L + j) + i =
      W + cfg.F1200_PWM_PULSES_COUNT_PER_SYMBOL * L +
        (cfg.F1200_PWM_PULSES_COUNT_PER_SYMBOL * j + i) by rw [Nat.mul_add]; omega]
  · have h1 := hs B (le_refl _)
    have h2 := Pwm10Handler_idle_control cfg m _ B 0 B _ true h1 (le_refl _)
      (Or.inr ⟨le_refl _, le_refl _⟩)
    rw [← runTicks_one, ← runTicks_add, ← runTicks_add] at h2
    rwa [show W + cfg.F1200_PWM_PULSES_COUNT_PER_SYMBOL * (L + B) + 1 =
      W + cfg.F1200_PWM_PULSES_COUNT_PER_SYMBOL * L +
        (cfg.F1200_PWM_PULSES_COUNT_PER_SYMBOL * B + 1) by rw [Nat.mul_add]; omega]

/-- Every tick up to `W + N * (L + B)` is a warm-up tick or a tick of a symbol. -/
theorem tick_cases (N W K t : Nat) (hN : 1 ≤ N) (ht : t ≤ W + N * K) :
    t ≤ W ∨ ∃ k i, k < K ∧ 1 ≤ i ∧ i ≤ N ∧ t = W + N * k + i := by
  by_cases h : t ≤ W
  · exact Or.inl h
  · right
    refine ⟨(t - W - 1) / N, (t - W - 1) % N + 1, ?_, by omega, ?_, ?_⟩
    · apply Nat.div_lt_of_lt_mul
      omega
    · have := Nat.mod_lt (t - W - 1) (show N > 0 by omega)
      omega
    · have := Nat.div_add_mod (t - W - 1) N
      omega

theorem sendAprsMessage_control {F : Type} [LinearOrderedField F] (cfg : Config)
    (s0 s : AprsState F) (gpsDataSource : Nat) (pGpsData : Option GpsData)
    (pTelemetry : Telemetry)
    (hsend : sendAprsMessage cfg s0 gpsDataSource pGpsData pTelemetry = (true, s))
    (hN : cfg.F1200_PWM_PULSES_COUNT_PER_SYMBOL ≤ 255)
    (hW : cfg.LEADING_WARMUP_AMPLITUDE_DC_PULSES_COUNT < 65536)
    (hL : cfg.LEADING_ONES_COUNT_TO_CANCEL_PREVIOUS_PACKET < 65536)
    (hbit : s.g_currentBitstreamSize.bitstreamCharBitIdx < 8) :
    Control s (posOf (bitOffset s.g_currentBitstreamSize)) true
      cfg.LEADING_WARMUP_AMPLITUDE_DC_PULSES_COUNT
      cfg.LEADING_ONES_COUNT_TO_CANCEL_PREVIOUS_PACKET 0
      cfg.F1200_PWM_PULSES_COUNT_PER_SYMBOL := by
  rw [posOf_bitOffset _ hbit]
  simp only [sendAprsMessage] at hsend
  split at hsend
  · simp at hsend
  · split at hsend
    · simp only [Prod.mk.injEq, true_and] at hsend
      subst hsend
      refine ⟨rfl, ?_, ?_, rfl, ?_, rfl⟩
      · exact Nat.mod_eq_of_lt hW
      · exact Nat.mod_eq_of_lt hL
      · exact Nat.mod_eq_of_lt (by omega)
    · simp at hsend

theorem sendAprsMessage_built {F : Type} [Zero F] (cfg : Config) (s0 : AprsState F)
    (gpsDataSource : Nat) (gps : GpsData) (tel : Telemetry)
    (h0 : s0.g_sendingMessage = false)
    (hpay : (createPacketPayload gpsDataSource gps tel s0.g_aprsMessageId
      s0.g_aprsPayloadBuffer (cfg.APRS_PAYLOAD_LEN % 256)).1 ≠ 0)
    (hcap : (frameLine cfg CALLSIGN_SOURCE
      (bufferBytes
        (createPacketPayload gpsDataSource gps tel s0.g_aprsMessageId s0.g_aprsPayloadBuffer
          (cfg.APRS_PAYLOAD_LEN % 256)).2
        (createPacketPayload gpsDataSource gps tel s0.g_aprsMessageId s0.g_aprsPayloadBuffer
          (cfg.APRS_PAYLOAD_LEN % 256)).1)).length ≤ 8 * (cfg.APRS_BITSTREAM_MAX_LEN % 65536)) :
    (sendAprsMessage cfg s0 gpsDataSource (some gps) tel).1 = true ∧
      (sendAprsMessage cfg s0 gpsDataSource (some gps) tel).2.g_currentBitstreamSize =
        posOf (frameLine cfg CALLSIGN_SOURCE
          (bufferBytes
            (createPacketPayload gpsDataSource gps tel s0.g_aprsMessageId
              s0.g_aprsPayloadBuffer (cfg.APRS_PAYLOAD_LEN % 256)).2
            (createPacketPayload gpsDataSource gps tel s0.g_aprsMessageId
              s0.g_aprsPayloadBuffer (cfg.APRS_PAYLOAD_LEN % 256)).1)).length := by
  have hg := generateMessage_eq cfg s0.g_aprsMessageId s0.g_aprsPayloadBuffer CALLSIGN_SOURCE
    gpsDataSource gps tel s0.g_currentBitstream (cfg.APRS_BITSTREAM_MAX_LEN % 65536)
    { bitstreamCharIdx := 0, bitstreamCharBitIdx := 0 } (by decide) hpay hcap
  simp only [sendAprsMessage, h0, Bool.false_eq_true, if_false, sendAprsMessageBuild,
    resetTransmission, hg, if_true, Option.getD_some, and_self]

theorem exampleTransmission_size :
    (sendAprsMessage exampleConfig idleState 1 (some exampleGpsData) exampleTelemetry).1 = true ∧
      ∃ B, 16 ≤ B ∧
        (sendAprsMessage exampleConfig idleState 1 (some exampleGpsData)
          exampleTelemetry).2.g_currentBitstreamSize = posOf B := by
  have hlen : (createPacketPayload 1 exampleGpsData exampleTelemetry 0 (fun _ => 0)
      (exampleConfig.APRS_PAYLOAD_LEN % 256)).1 = 69 := by decide
  have h := sendAprsMessage_built exampleConfig idleState 1 exampleGpsData exampleTelemetry rfl
    (by
      show (createPacketPayload 1 exampleGpsData exampleTelemetry 0 (fun _ => 0)
        (exampleConfig.APRS_PAYLOAD_LEN % 256)).1 ≠ 0
      rw [hlen]
      decide)
    (by
      have h1 := length_frameLine_le exampleConfig CALLSIGN_SOURCE
        (bufferBytes
          (createPacketPayload 1 exampleGpsData exampleTelemetry 0 (fun _ => 0)
            (exampleConfig.APRS_PAYLOAD_LEN % 256)).2
          (createPacketPayload 1 exampleGpsData exampleTelemetry 0 (fun _ => 0)
            (exampleConfig.APRS_PAYLOAD_LEN % 256)).1) (by decide)
      rw [show ∀ (b : Buffer) (n : Nat), (bufferBytes b n).length = n from
        fun b n => by simp [bufferBytes], hlen] at h1
      exact Nat.le_trans h1 (by decide))
  refine ⟨h.1, _, ?_, h.2⟩
  simp only [frameLine, List.length_append, length_flagBits]
  have hp : exampleConfig.PREFIX_FLAGS_COUNT = 2 := rfl
  omega

theorem advanceBitstreamBit_bitIdx_lt (p : BitstreamPos) :
    (advanceBitstreamBit p).bitstreamCharBitIdx < 8 := by
  simp only [advanceBitstreamBit]
  split
  · exact Nat.zero_lt_succ 7
  · show p.bitstreamCharBitIdx + 1 < 8
    omega

theorem encodeBit_bitIdx_lt (buf : Buffer) (max : Nat) (ed : EncodingData) (cb i : Nat)
    (st : STUFFING_TYPE) (ft : FCS_TYPE) (h : ed.bitstreamSize.bitstreamCharBitIdx < 8) :
    (encodeBit buf max ed cb i st ft).2.2.bitstreamSize.bitstreamCharBitIdx < 8 := by
  have hfcs : ∀ f, ({ ed with fcs := f } : EncodingData).bitstreamSize = ed.bitstreamSize :=
    fun _ => rfl
  unfold encodeBit
  simp only []
  split_ifs <;> first
    | exact advanceBitstreamBit_bitIdx_lt _
    | exact h

theorem encodeByteBits_bitIdx_lt (max cb : Nat) (st : STUFFING_TYPE) (ft : FCS_TYPE)
    (l : List Nat) (buf : Buffer) (ed : EncodingData)
    (h : ed.bitstreamSize.bitstreamCharBitIdx < 8) :
    (encodeByteBits max cb st ft l buf ed).2.2.bitstreamSize.bitstreamCharBitIdx < 8 := by
  induction l generalizing buf ed with
  | nil => exact h
  | cons i rest ih =>
    have h1 := encodeBit_bitIdx_lt buf max ed cb i st ft h
    simp only [encodeByteBits]
    split
    · next buf1 ed1 heq =>
      rw [heq] at h1
      exact ih buf1 ed1 h1
    · next buf1 ed1 heq =>
      rw [heq] at h1
      exact h1

theorem encodeBytes_bitIdx_lt (max : Nat) (st : STUFFING_TYPE) (ft : FCS_TYPE)
    (sh : SHIFT_ONE_LEFT_TYPE) (l : List Nat) (buf : Buffer) (ed : EncodingData)
    (h : ed.bitstreamSize.bitstreamCharBitIdx < 8) :
    (encodeBytes max st ft sh l buf ed).2.2.bitstreamSize.bitstreamCharBitIdx < 8 := by
  induction l generalizing buf ed with
  | nil => exact h
  | cons b rest ih =>
    have h1 := encodeByteBits_bitIdx_lt max (shiftedByte sh b) st ft (List.range 8) buf ed h
    simp only [encodeBytes]
    split
    · next buf1 ed1 heq =>
      rw [heq] at h1
      exact ih buf1 ed1 h1
    · next buf1 ed1 heq =>
      rw [heq] at h1
      exact h1

theorem encodeCall_bitIdx_lt (max : Nat) (s : Buffer × EncodingData) (data : List Nat)
    (size : Nat) (st : STUFFING_TYPE) (ft : FCS_TYPE) (sh : SHIFT_ONE_LEFT_TYPE)
    (h : s.2.bitstreamSize.bitstreamCharBitIdx < 8) :
    (encodeCall max s data size st ft sh).2.bitstreamSize.bitstreamCharBitIdx < 8 := by
  have h1 := encodeBytes_bitIdx_lt max st ft sh
    ((List.range size).map (fun iByte => data.getD iByte 0)) s.1 s.2 h
  simp only [encodeCall, encodeAndAppendBits]
  split
  · next r buf ed heq =>
    split at heq
    · simp only [Prod.mk.injEq, Option.some.injEq] at heq
      obtain ⟨_, _, rfl⟩ := heq
      exact h
    · split at heq
      · simp only [Prod.mk.injEq, Option.some.injEq] at heq
        obtain ⟨_, _, rfl⟩ := heq
        exact h
      · split at heq
        · next buf1 ed1 heq1 =>
          rw [heq1] at h1
          split at heq
          · simp only [Prod.mk.injEq, Option.some.injEq] at heq
            obtain ⟨_, _, rfl⟩ := heq
            exact h1
          · simp only [Prod.mk.injEq, Option.some.injEq] at heq
            obtain ⟨_, _, rfl⟩ := heq
            exact h1
        · next buf1 ed1 heq1 =>
          rw [heq1] at h1
          simp only [Prod.mk.injEq, Option.some.injEq] at heq
          obtain ⟨_, _, rfl⟩ := heq
          exact h1
  · exact h

theorem encodeFlags_bitIdx_lt (max count : Nat) (s : Buffer × EncodingData)
    (h : s.2.bitstreamSize.bitstreamCharBitIdx < 8) :
    (encodeFlags max count s).2.bitstreamSize.bitstreamCharBitIdx < 8 := by
  induction count generalizing s with
  | zero => exact h
  | succ count ih =>
    simp only [encodeFlags]
    exact ih _ (encodeCall_bitIdx_lt max s _ _ _ _ _ h)

theorem generateMessage_bitIdx_lt (cfg : Config) (messageId : Nat) (payloadBuffer : Buffer)
    (pCallsignSource : Option Callsign) (gpsDataSource : Nat) (pGpsData : Option GpsData)
    (pTelemetry : Telemetry) (bitstreamBuffer : Option Buffer) (maxLen : Nat)
    (pBitstreamSize : Option BitstreamPos)
    (h : (generateMessage cfg messageId payloadBuffer pCallsignSource gpsDataSource pGpsData
      pTelemetry bitstreamBuffer maxLen pBitstreamSize).result = true) :
    ∃ p, (generateMessage cfg messageId payloadBuffer pCallsignSource gpsDataSource pGpsData
        pTelemetry bitstreamBuffer maxLen pBitstreamSize).bitstreamSize = some p ∧
      p.bitstreamCharBitIdx < 8 := by
  unfold generateMessage at h ⊢
  split
  · simp only [] at h ⊢
    split
    · next hz =>
      rw [if_pos hz] at h
      cases h
    · refine ⟨_, rfl, ?_⟩
      apply encodeFlags_bitIdx_lt
      iterate 11 apply encodeCall_bitIdx_lt
      apply encodeFlags_bitIdx_lt
      exact Nat.zero_lt_succ 7
  · next hne =>
    split at h
    · exact (hne _ _ _ _ rfl rfl rfl rfl).elim
    · cases h

theorem sendAprsMessage_bitIdx_lt {F : Type} [Zero F] (cfg : Config) (s0 s : AprsState F)
    (gpsDataSource : Nat) (pGpsData : Option GpsData) (pTelemetry : Telemetry)
    (hsend : sendAprsMessage cfg s0 gpsDataSource pGpsData pTelemetry = (true, s)) :
    s.g_currentBitstreamSize.bitstreamCharBitIdx < 8 := by
  simp only [sendAprsMessage] at hsend
  split at hsend
  · simp at hsend
  · split at hsend
    · next hres =>
      obtain ⟨p, hp, hlt⟩ := generateMessage_bitIdx_lt _ _ _ _ _ _ _ _ _ _ hres
      simp only [Prod.mk.injEq, true_and] at hsend
      subst hsend
      simp only [sendAprsMessageBuild] at hp ⊢
      rw [hp]
      exact hlt
    · simp at hsend

theorem toneSample_tone {F : Type} [LinearOrderedField F] (cfg : Config) (m : Synthesizer F)
    (s : AprsState F) :
    (toneSample cfg m s).g_currentFrequencyIsF1200 = s.g_currentFrequencyIsF1200 ∧
      (toneSample cfg m s).g_currentBitstream = s.g_currentBitstream := by
  simp only [toneSample]
  split <;> exact ⟨rfl, rfl⟩

theorem streamSymbol_tone {F : Type} [LinearOrderedField F] (cfg : Config) (m : Synthesizer F)
    (s : AprsState F) :
    (streamSymbol cfg m s).g_currentFrequencyIsF1200 =
        readBufferBit s.g_currentBitstream s.g_currentBitstreamPos ∧
      (streamSymbol cfg m s).g_currentBitstream = s.g_currentBitstream := by
  simp only [streamSymbol]
  cases h1 : readBufferBit s.g_currentBitstream s.g_currentBitstreamPos <;>
    cases h2 : s.g_currentFrequencyIsF1200 <;> simp [h2]

theorem Pwm10Handler_bitstream {F : Type} [LinearOrderedField F] (cfg : Config)
    (m : Synthesizer F) (s : AprsState F) :
    (Pwm10Handler cfg m s).g_currentBitstream = s.g_currentBitstream := by
  simp only [Pwm10Handler]
  split
  · rfl
  · split
    · split
      · rfl
      · split
        · rw [(toneSample_tone cfg m _).2]
        · rw [(toneSample_tone cfg m _).2, (streamSymbol_tone cfg m _).2]
    · rw [(toneSample_tone cfg m _).2]

theorem runTicks_bitstream {F : Type} [LinearOrderedField F] (cfg : Config)
    (m : Synthesizer F) (s : AprsState F) (t : Nat) :
    (runTicks cfg m t s).g_currentBitstream = s.g_currentBitstream := by
  induction t with
  | zero => rfl
  | succ t ih => rw [runTicks_succ, Pwm10Handler_bitstream, ih]

theorem Pwm10Handler_hold_tone {F : Type} [LinearOrderedField F] (cfg : Config)
    (m : Synthesizer F) (s : AprsState F) (hw : s.g_leadingWarmUpLeft = 0)
    (hc : s.g_currentSymbolPulsesCount < cfg.F1200_PWM_PULSES_COUNT_PER_SYMBOL) :
    (Pwm10Handler cfg m s).g_currentFrequencyIsF1200 = s.g_currentFrequencyIsF1200 := by
  simp only [Pwm10Handler, hw, ne_eq, not_true_eq_false, if_false,
    show ¬ (s.g_currentSymbolPulsesCount ≥ cfg.F1200_PWM_PULSES_COUNT_PER_SYMBOL) by omega]
  rw [(toneSample_tone cfg m _).1]

theorem Pwm10Handler_leadingOne_tone {F : Type} [LinearOrderedField F] (cfg : Config)
    (m : Synthesizer F) (s : AprsState F) (B o q c : Nat)
    (h : Control s (posOf B) true 0 (o + 1) q c)
    (hc : cfg.F1200_PWM_PULSES_COUNT_PER_SYMBOL ≤ c) (hq : q < B) :
    (Pwm10Handler cfg m s).g_currentFrequencyIsF1200 = true := by
  obtain ⟨h1, h2, h3, h4, h5, h6⟩ := h
  simp only [Pwm10Handler, h2, h5, ne_eq, not_true_eq_false, if_false, ge_iff_le, hc, if_true,
    h1, Bool.not_true, Bool.false_or, h3, Nat.succ_ne_zero,
    not_false_eq_true, Nat.add_sub_cancel]
  split
  · next ht =>
    have := (cursorAtEnd_posOf _ q B h4 h6).mp ht
    omega
  · rw [(toneSample_tone cfg m _).1]

theorem Pwm10Handler_stream_tone {F : Type} [LinearOrderedField F] (cfg : Config)
    (m : Synthesizer F) (s : AprsState F) (B q c : Nat)
    (h : Control s (posOf B) true 0 0 q c)
    (hc : cfg.F1200_PWM_PULSES_COUNT_PER_SYMBOL ≤ c) (hq : q < B) :
    (Pwm10Handler cfg m s).g_currentFrequencyIsF1200 =
      readBufferBit s.g_currentBitstream (posOf q) := by
  obtain ⟨h1, h2, h3, h4, h5, h6⟩ := h
  simp only [Pwm10Handler, h2, h5, ne_eq, not_true_eq_false, if_false, ge_iff_le, hc, if_true,
    h1, Bool.not_true, Bool.false_or, h3]
  split
  · next ht =>
    have := (cursorAtEnd_posOf _ q B h4 h6).mp ht
    omega
  · rw [(toneSample_tone cfg m _).1, (streamSymbol_tone cfg m _).1, ← h4]

theorem runTicks_hold_tone {F : Type} [LinearOrderedField F] (cfg : Config)
    (m : Synthesizer F) (s : AprsState F) (size : BitstreamPos) (snd : Bool) (o q c : Nat)
    (h : Control s size snd 0 o q c) (hN : cfg.F1200_PWM_PULSES_COUNT_PER_SYMBOL ≤ 255)
    (j : Nat) (hj : c + j ≤ cfg.F1200_PWM_PULSES_COUNT_PER_SYMBOL) :
    (runTicks cfg m j s).g_currentFrequencyIsF1200 = s.g_currentFrequencyIsF1200 := by
  induction j with
  | zero => rfl
  | succ j ih =>
    obtain ⟨_, h2, _, _, h5, _⟩ := runTicks_hold cfg m s size snd o q c h hN j (by omega)
    rw [runTicks_succ, Pwm10Handler_hold_tone cfg m _ h2 (by omega), ih (by omega)]

theorem runTicks_leadingOne_tone {F : Type} [LinearOrderedField F] (cfg : Config)
    (m : Synthesizer F) (s : AprsState F) (B o q c : Nat)
    (h : Control s (posOf B) true 0 (o + 1) q c)
    (hc : cfg.F1200_PWM_PULSES_COUNT_PER_SYMBOL ≤ c) (hq : q < B)
    (hN : cfg.F1200_PWM_PULSES_COUNT_PER_SYMBOL ≤ 255)
    (i : Nat) (hi1 : 1 ≤ i) (hi2 : i ≤ cfg.F1200_PWM_PULSES_COUNT_PER_SYMBOL) :
    (runTicks cfg m i s).g_currentFrequencyIsF1200 = true := by
  have h1 := Pwm10Handler_leadingOne cfg m s B o q c h hc hq
  have h2 := runTicks_hold_tone cfg m _ (posOf B) true o q 1 h1 hN (i - 1) (by omega)
  rw [← runTicks_one, ← runTicks_add, show 1 + (i - 1) = i by omega, runTicks_one,
    Pwm10Handler_leadingOne_tone cfg m s B o q c h hc hq] at h2
  exact h2

theorem runTicks_streamSymbol_tone {F : Type} [LinearOrderedField F] (cfg : Config)
    (m : Synthesizer F) (s : AprsState F) (B q c : Nat)
    (h : Control s (posOf B) true 0 0 q c)
    (hc : cfg.F1200_PWM_PULSES_COUNT_PER_SYMBOL ≤ c) (hq : q < B)
    (hN : cfg.F1200_PWM_PULSES_COUNT_PER_SYMBOL ≤ 255)
    (i : Nat) (hi1 : 1 ≤ i) (hi2 : i ≤ cfg.F1200_PWM_PULSES_COUNT_PER_SYMBOL) :
    (runTicks cfg m i s).g_currentFrequencyIsF1200 =
      readBufferBit s.g_currentBitstream (posOf q) := by
  have h1 := Pwm10Handler_stream cfg m s B q c h hc hq
  have h2 := runTicks_hold_tone cfg m _ (posOf B) true 0 (q + 1) 1 h1 hN (i - 1) (by omega)
  rw [← runTicks_one, ← runTicks_add, show 1 + (i - 1) = i by omega, runTicks_one,
    Pwm10Handler_stream_tone cfg m s B q c h hc hq] at h2
  exact h2

/-- The tone of every symbol of a transmission: the 1200 Hz tone for the leading ones, and
for the symbol of bit `j` the 1200 Hz tone exactly when bit `j` of the bitstream is set. -/
theorem runTicks_schedule_tone {F : Type} [LinearOrderedField F] (cfg : Config)
    (m : Synthesizer F) (s : AprsState F) (B W L : Nat)
    (h : Control s (posOf B) true W L 0 cfg.F1200_PWM_PULSES_COUNT_PER_SYMBOL)
    (hN1 : 1 ≤ cfg.F1200_PWM_PULSES_COUNT_PER_SYMBOL)
    (hN : cfg.F1200_PWM_PULSES_COUNT_PER_SYMBOL ≤ 255) (hB : 0 < B) :
    (∀ l i, l < L → 1 ≤ i → i ≤ cfg.F1200_PWM_PULSES_COUNT_PER_SYMBOL →
        (runTicks cfg m (W + cfg.F1200_PWM_PULSES_COUNT_PER_SYMBOL * l + i)
          s).g_currentFrequencyIsF1200 = true) ∧
      (∀ j i, j < B → 1 ≤ i → i ≤ cfg.F1200_PWM_PULSES_COUNT_PER_SYMBOL →
        (runTicks cfg m (W + cfg.F1200_PWM_PULSES_COUNT_PER_SYMBOL * (L + j) + i)
          s).g_currentFrequencyIsF1200 = readBufferBit s.g_currentBitstream (posOf j)) := by
  have hw := runTicks_warmUp cfg m s (posOf B) true W L 0 _ h
  have hW := hw W (le_refl _)
  rw [Nat.sub_self] at hW
  have hl := runTicks_leadingOnes cfg m _ B L 0 hW hB hN1 hN
  have hL := hl L (le_refl _)
  rw [Nat.sub_self, ← runTicks_add] at hL
  have hs := runTicks_stream cfg m _ B hL hN1 hN
  refine ⟨?_, ?_⟩
  · intro l i hlL hi1 hi2
    have h1 := hl l (by omega)
    rw [show L - l = L - 1 - l + 1 by omega] at h1
    have h2 := runTicks_leadingOne_tone cfg m _ B _ 0 _ h1 (le_refl _) hB hN i hi1 hi2
    rw [← runTicks_add, ← runTicks_add] at h2
    rwa [show W + cfg.F1200_PWM_PULSES_COUNT_PER_SYMBOL * l + i =
      W + (cfg.F1200_PWM_PULSES_COUNT_PER_SYMBOL * l + i) by omega]
  · intro j i hjB hi1 hi2
    have h1 := hs j (by omega)
    have h2 := runTicks_streamSymbol_tone cfg m _ B j _ h1 (le_refl _) hjB hN i hi1 hi2
    rw [runTicks_bitstream, runTicks_bitstream, ← runTicks_add, ← runTicks_add] at h2
    rwa [show W + cfg.F1200_PWM_PULSES_COUNT_PER_SYMBOL * (L + j) + i =
      W + cfg.F1200_PWM_PULSES_COUNT_PER_SYMBOL * L +
        (cfg.F1200_PWM_PULSES_COUNT_PER_SYMBOL * j + i) by rw [Nat.mul_add]; omega]

/-- C17: from the state that a successful `sendAprsMessage` leaves, with `W` warm-up ticks,
`L` leading ones (both below 65536), `N` ticks per symbol (`1 ≤ N ≤ 255`) and a fill size
of `B > 0` bits:
the sending flag is set after every tick up to `W + N * (L + B)` and cleared after tick
`W + N * (L + B) + 1`, when the cursor equals the fill size; the warm-up ticks leave cursor,
leading ones and pulse counter alone; tick `i` (`1 ≤ i ≤ N`) of leading one `l` has the cursor at
the start, pulse count `i` and the 1200 Hz tone; tick `i` of the symbol of bit `j` has the
cursor at bit `j + 1`, pulse count `i`, and the 1200 Hz tone exactly when bit `j` of the
bitstream is set. -/
theorem Pwm10Handler_transmission_length {F : Type} [LinearOrderedField F] (cfg : Config)
    (m : Synthesizer F) (s0 s : AprsState F) (gpsDataSource : Nat) (pGpsData : Option GpsData)
    (pTelemetry : Telemetry)
    (hsend : sendAprsMessage cfg s0 gpsDataSource pGpsData pTelemetry = (true, s))
    (hN1 : 1 ≤ cfg.F1200_PWM_PULSES_COUNT_PER_SYMBOL)
    (hN : cfg.F1200_PWM_PULSES_COUNT_PER_SYMBOL ≤ 255)
    (hW : cfg.LEADING_WARMUP_AMPLITUDE_DC_PULSES_COUNT < 65536)
    (hL : cfg.LEADING_ONES_COUNT_TO_CANCEL_PREVIOUS_PACKET < 65536)
    (hB : 0 < bitOffset s.g_currentBitstreamSize) :
    (∀ t, t ≤ cfg.LEADING_WARMUP_AMPLITUDE_DC_PULSES_COUNT +
          cfg.F1200_PWM_PULSES_COUNT_PER_SYMBOL *
            (cfg.LEADING_ONES_COUNT_TO_CANCEL_PREVIOUS_PACKET +
              bitOffset s.g_currentBitstreamSize) →
        (runTicks cfg m t s).g_sendingMessage = true) ∧
      Control
        (runTicks cfg m
          (cfg.LEADING_WARMUP_AMPLITUDE_DC_PULSES_COUNT +
            cfg.F1200_PWM_PULSES_COUNT_PER_SYMBOL *
              (cfg.LEADING_ONES_COUNT_TO_CANCEL_PREVIOUS_PACKET +
                bitOffset s.g_currentBitstreamSize) + 1) s)
        s.g_currentBitstreamSize false 0 0 (bitOffset s.g_currentBitstreamSize) 0 ∧
      (∀ t, t ≤ cfg.LEADING_WARMUP_AMPLITUDE_DC_PULSES_COUNT →
        Control (runTicks cfg m t s) s.g_currentBitstreamSize true
          (cfg.LEADING_WARMUP_AMPLITUDE_DC_PULSES_COUNT - t)
          cfg.LEADING_ONES_COUNT_TO_CANCEL_PREVIOUS_PACKET 0
          cfg.F1200_PWM_PULSES_COUNT_PER_SYMBOL) ∧
      (∀ l i, l < cfg.LEADING_ONES_COUNT_TO_CANCEL_PREVIOUS_PACKET → 1 ≤ i →
        i ≤ cfg.F1200_PWM_PULSES_COUNT_PER_SYMBOL →
        Control
            (runTicks cfg m
              (cfg.LEADING_WARMUP_AMPLITUDE_DC_PULSES_COUNT +
                cfg.F1200_PWM_PULSES_COUNT_PER_SYMBOL * l + i) s)
            s.g_currentBitstreamSize true 0
            (cfg.LEADING_ONES_COUNT_TO_CANCEL_PREVIOUS_PACKET - 1 - l) 0 i ∧
          (runTicks cfg m
            (cfg.LEADING_WARMUP_AMPLITUDE_DC_PULSES_COUNT +
              cfg.F1200_PWM_PULSES_COUNT_PER_SYMBOL * l + i) s).g_currentFrequencyIsF1200 =
            true) ∧
      (∀ j i, j < bitOffset s.g_currentBitstreamSize → 1 ≤ i →
        i ≤ cfg.F1200_PWM_PULSES_COUNT_PER_SYMBOL →
        Control
            (runTicks cfg m
              (cfg.LEADING_WARMUP_AMPLITUDE_DC_PULSES_COUNT +
                cfg.F1200_PWM_PULSES_COUNT_PER_SYMBOL *
                  (cfg.LEADING_ONES_COUNT_TO_CANCEL_PREVIOUS_PACKET + j) + i) s)
            s.g_currentBitstreamSize true 0 0 (j + 1) i ∧
          (runTicks cfg m
            (cfg.LEADING_WARMUP_AMPLITUDE_DC_PULSES_COUNT +
              cfg.F1200_PWM_PULSES_COUNT_PER_SYMBOL *
                (cfg.LEADING_ONES_COUNT_TO_CANCEL_PREVIOUS_PACKET + j) + i)
            s).g_currentFrequencyIsF1200 =
            readBufferBit s.g_currentBitstream (posOf j)) := by
  have hbit := sendAprsMessage_bitIdx_lt cfg s0 s gpsDataSource pGpsData pTelemetry hsend
  have hc := sendAprsMessage_control cfg s0 s gpsDataSource pGpsData pTelemetry hsend hN hW hL
    hbit
  obtain ⟨ha, hb, hd, he⟩ := runTicks_schedule cfg m s _ _ _ hc hN1 hN hB
  obtain ⟨hf, hg⟩ := runTicks_schedule_tone cfg m s _ _ _ hc hN1 hN hB
  rw [posOf_bitOffset _ hbit] at ha hb hd he
  refine ⟨?_, he, ha, fun l i h1 h2 h3 => ⟨hb l i h1 h2 h3, hf l i h1 h2 h3⟩,
    fun j i h1 h2 h3 => ⟨hd j i h1 h2 h3, hg j i h1 h2 h3⟩⟩
  intro t ht
  rcases tick_cases _ _ _ t hN1 ht with h1 | ⟨k, i, hk, hi1, hi2, rfl⟩
  · exact (ha t h1).1
  · by_cases hkL : k < cfg.LEADING_ONES_COUNT_TO_CANCEL_PREVIOUS_PACKET
    · exact (hb k i hkL hi1 hi2).1
    · have h2 := hd (k - cfg.LEADING_ONES_COUNT_TO_CANCEL_PREVIOUS_PACKET) i (by omega) hi1 hi2
      rw [show cfg.LEADING_ONES_COUNT_TO_CANCEL_PREVIOUS_PACKET +
        (k - cfg.LEADING_ONES_COUNT_TO_CANCEL_PREVIOUS_PACKET) = k by omega] at h2
      exact h2.1

theorem Pwm10Handler_transmission_length_witness :
    sendAprsMessage exampleConfig idleState 1 (some exampleGpsData) exampleTelemetry =
        (true, exampleTransmission) ∧
      1 ≤ exampleConfig.F1200_PWM_PULSES_COUNT_PER_SYMBOL ∧
      exampleConfig.F1200_PWM_PULSES_COUNT_PER_SYMBOL ≤ 255 ∧
      exampleConfig.LEADING_WARMUP_AMPLITUDE_DC_PULSES_COUNT < 65536 ∧
      exampleConfig.LEADING_ONES_COUNT_TO_CANCEL_PREVIOUS_PACKET < 65536 ∧
      0 < bitOffset exampleTransmission.g_currentBitstreamSize ∧
      (∀ t, t ≤ exampleConfig.LEADING_WARMUP_AMPLITUDE_DC_PULSES_COUNT +
          exampleConfig.F1200_PWM_PULSES_COUNT_PER_SYMBOL *
            (exampleConfig.LEADING_ONES_COUNT_TO_CANCEL_PREVIOUS_PACKET +
              bitOffset exampleTransmission.g_currentBitstreamSize) →
        (runTicks exampleConfig exampleSynthesizer t exampleTransmission).g_sendingMessage =
          true) ∧
      (runTicks exampleConfig exampleSynthesizer
        (exampleConfig.LEADING_WARMUP_AMPLITUDE_DC_PULSES_COUNT +
          exampleConfig.F1200_PWM_PULSES_COUNT_PER_SYMBOL *
            (exampleConfig.LEADING_ONES_COUNT_TO_CANCEL_PREVIOUS_PACKET +
              bitOffset exampleTransmission.g_currentBitstreamSize) + 1)
        exampleTransmission).g_sendingMessage = false := by
  obtain ⟨h1, B, hB, hsz⟩ := exampleTransmission_size
  have hsend : sendAprsMessage exampleConfig idleState 1 (some exampleGpsData)
      exampleTelemetry = (true, exampleTransmission) := Prod.ext h1 rfl
  have hsz2 : exampleTransmission.g_currentBitstreamSize = posOf B := hsz
  have hpos : 0 < bitOffset exampleTransmission.g_currentBitstreamSize := by
    rw [hsz2, bitOffset_posOf]
    omega
  have h := Pwm10Handler_transmission_length exampleConfig exampleSynthesizer idleState
    exampleTransmission 1 (some exampleGpsData) exampleTelemetry hsend (by decide) (by decide)
    (by decide) (by decide) hpos
  exact ⟨hsend, by decide, by decide, by decide, by decide, hpos, h.1, h.2.1.1⟩

theorem toneSample_sending {F : Type} [LinearOrderedField F] (cfg : Config)
    (m : Synthesizer F) (s : AprsState F) :
    (toneSample cfg m s).g_sendingMessage = s.g_sendingMessage := by
  simp only [toneSample]
  split <;> rfl

theorem streamSymbol_sending {F : Type} [LinearOrderedField F] (cfg : Config)
    (m : Synthesizer F) (s : AprsState F) :
    (streamSymbol cfg m s).g_sendingMessage = s.g_sendingMessage := by
  simp only [streamSymbol]
  split <;> [skip; split] <;> rfl

/-- C18: at a symbol boundary (no warm-up tick left, pulse counter at `N` or above) where the
sending flag is clear or the cursor is at or past the fill size in both components,
`Pwm10Handler` clears the interrupt, calls `disableAprsPwm`, `disableHx1` and
`setAprsPwmPulseWidth PWM_MIN_PULSE_WIDTH` in this order, resets the pulse counter, clears
the sending flag and changes nothing else: no tone sample, cursor and phases untouched.
A set sending flag is cleared by `Pwm10Handler` only in this case, and `sendAprsMessage`
never clears it. -/
theorem Pwm10Handler_idle_transition {F : Type} [LinearOrderedField F] (cfg : Config)
    (m : Synthesizer F) :
    (∀ s : AprsState F, s.g_leadingWarmUpLeft = 0 →
        cfg.F1200_PWM_PULSES_COUNT_PER_SYMBOL ≤ s.g_currentSymbolPulsesCount →
        (s.g_sendingMessage = false ∨
          (s.g_currentBitstreamPos.bitstreamCharIdx ≥
              s.g_currentBitstreamSize.bitstreamCharIdx ∧
            s.g_currentBitstreamPos.bitstreamCharBitIdx ≥
              s.g_currentBitstreamSize.bitstreamCharBitIdx)) →
        Pwm10Handler cfg m s =
          { s with
            g_currentSymbolPulsesCount := 0
            g_sendingMessage := false
            hardwareCalls := s.hardwareCalls ++
              [HardwareCall.clearAprsPwmInterrupt, HardwareCall.disableAprsPwm,
                HardwareCall.disableHx1,
                HardwareCall.setAprsPwmPulseWidth m.PWM_MIN_PULSE_WIDTH] }) ∧
      (∀ s : AprsState F, s.g_sendingMessage = true →
        (Pwm10Handler cfg m s).g_sendingMessage = false →
        s.g_leadingWarmUpLeft = 0 ∧
          cfg.F1200_PWM_PULSES_COUNT_PER_SYMBOL ≤ s.g_currentSymbolPulsesCount ∧
          s.g_currentBitstreamPos.bitstreamCharIdx ≥
            s.g_currentBitstreamSize.bitstreamCharIdx ∧
          s.g_currentBitstreamPos.bitstreamCharBitIdx ≥
            s.g_currentBitstreamSize.bitstreamCharBitIdx) ∧
      (∀ (s : AprsState F) (gpsDataSource : Nat) (pGpsData : Option GpsData)
        (pTelemetry : Telemetry), s.g_sendingMessage = true →
        (sendAprsMessage cfg s gpsDataSource pGpsData pTelemetry).2.g_sendingMessage = true) := by
  refine ⟨fun s h1 h2 h3 => Pwm10Handler_idle cfg m s h1 h2 h3, ?_, ?_⟩
  · intro s hs hH
    by_cases hw : s.g_leadingWarmUpLeft = 0
    · by_cases hc : cfg.F1200_PWM_PULSES_COUNT_PER_SYMBOL ≤ s.g_currentSymbolPulsesCount
      · refine ⟨hw, hc, ?_⟩
        by_contra hend
        simp only [Pwm10Handler, hw, ne_eq, not_true_eq_false, if_false, ge_iff_le, hc, if_true,
          hs, Bool.not_true, Bool.false_or] at hH
        split at hH
        · next ht =>
          apply hend
          simpa [cursorAtEnd] using ht
        · split at hH
          · rw [toneSample_sending] at hH
            simp at hH
          · rw [toneSample_sending, streamSymbol_sending] at hH
            simp at hH
      · simp only [Pwm10Handler, hw, ne_eq, not_true_eq_false, if_false, ge_iff_le, hc,
          toneSample_sending] at hH
        rw [hs] at hH
        cases hH
    · simp only [Pwm10Handler, ne_eq, hw, not_false_eq_true, if_true] at hH
      rw [hs] at hH
      cases hH
  · intro s src gps tel hs
    simp [sendAprsMessage, hs]

theorem Pwm10Handler_idle_transition_witness :
    (Pwm10Handler exampleConfig exampleSynthesizer
        { idleState with g_currentSymbolPulsesCount := 32 } =
      { idleState with
        g_currentSymbolPulsesCount := 0
        g_sendingMessage := false
        hardwareCalls :=
          [HardwareCall.clearAprsPwmInterrupt, HardwareCall.disableAprsPwm,
            HardwareCall.disableHx1, HardwareCall.setAprsPwmPulseWidth 1] }) ∧
      (sendAprsMessage exampleConfig { idleState with g_sendingMessage := true } 1
        (some exampleGpsData) exampleTelemetry).2.g_sendingMessage = true :=
  ⟨(Pwm10Handler_idle_transition exampleConfig exampleSynthesizer).1
      { idleState with g_currentSymbolPulsesCount := 32 } rfl (by decide) (Or.inl rfl),
    (Pwm10Handler_idle_transition exampleConfig exampleSynthesizer).2.2
      { idleState with g_sendingMessage := true } 1 (some exampleGpsData) exampleTelemetry rfl⟩

/-! ## Pulse widths and phase continuity -/

theorem normalizePulseWidth_of_mem {F : Type} [LinearOrderedField F] (m : Synthesizer F)
    (width : F) (hlo : (m.PWM_MIN_PULSE_WIDTH : F) ≤ width)
    (hhi : width ≤ (m.PWM_MAX_PULSE_WIDTH : F)) : normalizePulseWidth m width = width := by
  simp only [normalizePulseWidth, not_lt.mpr hlo, if_false, gt_iff_lt, not_lt.mpr hhi]

/-- Phase continuity of `switchedFrame` over the reals, for constants of the new tone that
are consistent with its angular frequency and an outgoing amplitude within the pulse-width
range. -/
theorem switchedFrame_continuity (m : Synthesizer ℝ) (hsin : m.sinf = Real.sin)
    (hcos : m.cosf = Real.cos) (hasin : m.asinf = Real.arcsin)
    (wo wn r h c p : ℝ) (hw : 0 < wn) (hr : r * wn = 1) (hh : h * wn = Real.pi)
    (hc : c * wn = 2 * Real.pi)
    (hRA : m.RECIPROCAL_AMPLITUDE_SCALER * m.AMPLITUDE_SCALER = 1)
    (hlo : (m.PWM_MIN_PULSE_WIDTH : ℝ) ≤
      m.AMPLITUDE_SHIFT + m.AMPLITUDE_SCALER * Real.sin (wo * p))
    (hhi : m.AMPLITUDE_SHIFT + m.AMPLITUDE_SCALER * Real.sin (wo * p) ≤
      (m.PWM_MAX_PULSE_WIDTH : ℝ)) :
    Real.sin (wn * switchedFrame m wo r h c p) = Real.sin (wo * p) ∧
      Real.cos (wn * switchedFrame m wo r h c p) = Real.cos (wo * p) ∧
      0 ≤ switchedFrame m wo r h c p ∧ switchedFrame m wo r h c p < c := by
  have hn := normalizePulseWidth_of_mem m _ hlo hhi
  have hx : m.RECIPROCAL_AMPLITUDE_SCALER *
      (m.AMPLITUDE_SHIFT + m.AMPLITUDE_SCALER * Real.sin (wo * p) - m.AMPLITUDE_SHIFT) =
      Real.sin (wo * p) := by
    rw [add_sub_cancel_left, ← mul_assoc, hRA, one_mul]
  have hsa : Real.sin (Real.arcsin (Real.sin (wo * p))) = Real.sin (wo * p) :=
    Real.sin_arcsin (Real.neg_one_le_sin _) (Real.sin_le_one _)
  have hca : Real.cos (Real.arcsin (Real.sin (wo * p))) = |Real.cos (wo * p)| := by
    rw [Real.cos_arcsin, ← Real.cos_sq', Real.sqrt_sq_eq_abs]
  have ha1 := Real.neg_pi_div_two_le_arcsin (Real.sin (wo * p))
  have ha2 := Real.arcsin_le_pi_div_two (Real.sin (wo * p))
  have hpi := Real.pi_pos
  have hrpos : 0 < r := by
    by_contra hneg
    have : r * wn ≤ 0 := mul_nonpos_of_nonpos_of_nonneg (not_lt.mp hneg) (le_of_lt hw)
    linarith
  have hh2 : h = Real.pi * r := by
    calc h = h * (r * wn) := by rw [hr, mul_one]
      _ = h * wn * r := by ring
      _ = Real.pi * r := by rw [hh]
  have hc2 : c = 2 * Real.pi * r := by
    calc c = c * (r * wn) := by rw [hr, mul_one]
      _ = c * wn * r := by ring
      _ = 2 * Real.pi * r := by rw [hc]
  simp only [switchedFrame, SINE, COSINE_G_THAN_0, INVERSE_SINE, hsin, hcos, hasin, hn, hx,
    decide_eq_true_eq]
  generalize ha : Real.arcsin (Real.sin (wo * p)) = a at hsa hca ha1 ha2
  by_cases hct : Real.cos (wo * p) ≥ 0
  · rw [if_pos hct]
    rw [abs_of_nonneg hct] at hca
    by_cases hneg : r * a < 0
    · rw [if_pos hneg]
      have e : wn * (r * a + c) = a + 2 * Real.pi := by linear_combination a * hr + hc
      rw [e, Real.sin_add_two_pi, Real.cos_add_two_pi]
      refine ⟨hsa, hca, ?_, by linarith⟩
      rw [hc2]
      nlinarith
    · rw [if_neg hneg]
      have e : wn * (r * a) = a := by linear_combination a * hr
      rw [e]
      refine ⟨hsa, hca, not_lt.mp hneg, ?_⟩
      rw [hc2]
      nlinarith
  · rw [if_neg hct]
    rw [abs_of_neg (not_le.mp hct)] at hca
    have hpos : ¬ (h - r * a < 0) := by
      rw [hh2, not_lt]
      nlinarith
    rw [if_neg hpos]
    have e : wn * (h - r * a) = Real.pi - a := by linear_combination hh - a * hr
    rw [e, Real.sin_pi_sub, Real.cos_pi_sub]
    refine ⟨hsa, by linarith, not_lt.mp hpos, ?_⟩
    rw [hh2, hc2]
    nlinarith

theorem Pwm10Handler_stream_eq {F : Type} [Add F] [Sub F] [Mul F] [Zero F] [NatCast F]
    [LT F] [LE F] [DecidableRel (LT.lt : F → F → Prop)]
    [DecidableRel (LE.le : F → F → Prop)] (cfg : Config)
    (m : Synthesizer F) (s : AprsState F)
    (hwarm : s.g_leadingWarmUpLeft = 0)
    (hcount : cfg.F1200_PWM_PULSES_COUNT_PER_SYMBOL ≤ s.g_currentSymbolPulsesCount)
    (hsend : s.g_sendingMessage = true) (hones : s.g_leadingOnesLeft = 0)
    (hend : ¬ (s.g_currentBitstreamPos.bitstreamCharIdx ≥
          s.g_currentBitstreamSize.bitstreamCharIdx ∧
        s.g_currentBitstreamPos.bitstreamCharBitIdx ≥
          s.g_currentBitstreamSize.bitstreamCharBitIdx)) :
    Pwm10Handler cfg m s =
      toneSample cfg m (streamSymbol cfg m
        { s with
          hardwareCalls := s.hardwareCalls ++ [HardwareCall.clearAprsPwmInterrupt]
          g_currentSymbolPulsesCount := 0 }) := by
  have hcur : ∀ s1 : AprsState F, cursorAtEnd s1 = true →
      s1.g_currentBitstreamPos = s.g_currentBitstreamPos →
      s1.g_currentBitstreamSize = s.g_currentBitstreamSize → False := by
    intro s1 ht h1 h2
    apply hend
    simpa [cursorAtEnd, h1, h2] using ht
  unfold Pwm10Handler
  simp only []
  rw [if_neg (by simp [hwarm]), if_pos hcount,
    if_neg (by
      simp only [hsend, Bool.not_true, Bool.false_or]
      intro ht
      exact hcur _ ht rfl rfl),
    if_neg (by simp [hones])]

/-- C20: at a symbol boundary of the streaming phase where the bit at the cursor asks for
the other tone, over the reals with `sinf`, `cosf`, `asinf` the real sine, cosine and
inverse sine, with constants of each tone consistent with its angular frequency (reciprocal,
half period, period in ticks) and an outgoing amplitude within the pulse-width range: the
tick is a tone sample of a state whose active tone is the other one and whose phase `p1`
for it has the sine and the cosine (hence the sign of the cosine) of the outgoing tone at
its phase, with `0 ≤ p1` and `p1` below the period of the new tone in ticks. -/
theorem Pwm10Handler_tone_switch_continuity (cfg : Config) (m : Synthesizer ℝ)
    (s : AprsState ℝ) (hsin : m.sinf = Real.sin) (hcos : m.cosf = Real.cos)
    (hasin : m.asinf = Real.arcsin)
    (hw1 : 0 < m.ANGULAR_FREQUENCY_F1200) (hw2 : 0 < m.ANGULAR_FREQUENCY_F2200)
    (hr1 : m.RECIPROCAL_ANGULAR_FREQUENCY_F1200 * m.ANGULAR_FREQUENCY_F1200 = 1)
    (hr2 : m.RECIPROCAL_ANGULAR_FREQUENCY_F2200 * m.ANGULAR_FREQUENCY_F2200 = 1)
    (hh1 : m.HALF_PERIOD_F1200 * m.ANGULAR_FREQUENCY_F1200 = Real.pi)
    (hh2 : m.HALF_PERIOD_F2200 * m.ANGULAR_FREQUENCY_F2200 = Real.pi)
    (hc1 : (cfg.F1200_PWM_PULSES_COUNT_PER_SYMBOL : ℝ) * m.ANGULAR_FREQUENCY_F1200 =
      2 * Real.pi)
    (hc2 : m.F2200_PWM_PULSES_COUNT_PER_SYMBOL * m.ANGULAR_FREQUENCY_F2200 = 2 * Real.pi)
    (hRA : m.RECIPROCAL_AMPLITUDE_SCALER * m.AMPLITUDE_SCALER = 1)
    (hwarm : s.g_leadingWarmUpLeft = 0)
    (hcount : cfg.F1200_PWM_PULSES_COUNT_PER_SYMBOL ≤ s.g_currentSymbolPulsesCount)
    (hsend : s.g_sendingMessage = true) (hones : s.g_leadingOnesLeft = 0)
    (hend : ¬ (s.g_currentBitstreamPos.bitstreamCharIdx ≥
          s.g_currentBitstreamSize.bitstreamCharIdx ∧
        s.g_currentBitstreamPos.bitstreamCharBitIdx ≥
          s.g_currentBitstreamSize.bitstreamCharBitIdx)) :
    ∃ s1 : AprsState ℝ, Pwm10Handler cfg m s = toneSample cfg m s1 ∧
      (s.g_currentFrequencyIsF1200 = true →
        readBufferBit s.g_currentBitstream s.g_currentBitstreamPos = false →
        (m.PWM_MIN_PULSE_WIDTH : ℝ) ≤ m.AMPLITUDE_SHIFT + m.AMPLITUDE_SCALER *
          Real.sin (m.ANGULAR_FREQUENCY_F1200 * s.g_currentF1200Frame) →
        m.AMPLITUDE_SHIFT + m.AMPLITUDE_SCALER *
          Real.sin (m.ANGULAR_FREQUENCY_F1200 * s.g_currentF1200Frame) ≤
            (m.PWM_MAX_PULSE_WIDTH : ℝ) →
        s1.g_currentFrequencyIsF1200 = false ∧
          Real.sin (m.ANGULAR_FREQUENCY_F2200 * s1.g_currentF2200Frame) =
            Real.sin (m.ANGULAR_FREQUENCY_F1200 * s.g_currentF1200Frame) ∧
          Real.cos (m.ANGULAR_FREQUENCY_F2200 * s1.g_currentF2200Frame) =
            Real.cos (m.ANGULAR_FREQUENCY_F1200 * s.g_currentF1200Frame) ∧
          0 ≤ s1.g_currentF2200Frame ∧
          s1.g_currentF2200Frame < m.F2200_PWM_PULSES_COUNT_PER_SYMBOL) ∧
      (s.g_currentFrequencyIsF1200 = false →
        readBufferBit s.g_currentBitstream s.g_currentBitstreamPos = true →
        (m.PWM_MIN_PULSE_WIDTH : ℝ) ≤ m.AMPLITUDE_SHIFT + m.AMPLITUDE_SCALER *
          Real.sin (m.ANGULAR_FREQUENCY_F2200 * s.g_currentF2200Frame) →
        m.AMPLITUDE_SHIFT + m.AMPLITUDE_SCALER *
          Real.sin (m.ANGULAR_FREQUENCY_F2200 * s.g_currentF2200Frame) ≤
            (m.PWM_MAX_PULSE_WIDTH : ℝ) →
        s1.g_currentFrequencyIsF1200 = true ∧
          Real.sin (m.ANGULAR_FREQUENCY_F1200 * s1.g_currentF1200Frame) =
            Real.sin (m.ANGULAR_FREQUENCY_F2200 * s.g_currentF2200Frame) ∧
          Real.cos (m.ANGULAR_FREQUENCY_F1200 * s1.g_currentF1200Frame) =
            Real.cos (m.ANGULAR_FREQUENCY_F2200 * s.g_currentF2200Frame) ∧
          0 ≤ s1.g_currentF1200Frame ∧
          s1.g_currentF1200Frame < (cfg.F1200_PWM_PULSES_COUNT_PER_SYMBOL : ℝ)) := by
  refine ⟨_, Pwm10Handler_stream_eq cfg m s hwarm hcount hsend hones hend, ?_, ?_⟩
  · intro htone hbit hlo hhi
    have h := switchedFrame_continuity m hsin hcos hasin m.ANGULAR_FREQUENCY_F1200
      m.ANGULAR_FREQUENCY_F2200 m.RECIPROCAL_ANGULAR_FREQUENCY_F2200 m.HALF_PERIOD_F2200
      m.F2200_PWM_PULSES_COUNT_PER_SYMBOL s.g_currentF1200Frame hw2 hr2 hh2 hc2 hRA hlo hhi
    simpa [streamSymbol, htone, hbit] using h
  · intro htone hbit hlo hhi
    have h := switchedFrame_continuity m hsin hcos hasin m.ANGULAR_FREQUENCY_F2200
      m.ANGULAR_FREQUENCY_F1200 m.RECIPROCAL_ANGULAR_FREQUENCY_F1200 m.HALF_PERIOD_F1200
      (cfg.F1200_PWM_PULSES_COUNT_PER_SYMBOL : ℝ) s.g_currentF2200Frame hw1 hr1 hh1 hc1 hRA
      hlo hhi
    simpa [streamSymbol, htone, hbit] using h

theorem Pwm10Handler_tone_switch_continuity_witness :
    (0 : ℝ) < Real.pi / 16 ∧ (0 : ℝ) < 11 * Real.pi / 96 ∧
      (toneSwitchState : AprsState ℝ).g_currentFrequencyIsF1200 = true ∧
      readBufferBit (toneSwitchState : AprsState ℝ).g_currentBitstream
        (toneSwitchState : AprsState ℝ).g_currentBitstreamPos = false ∧
      ∃ s1 : AprsState ℝ,
        Pwm10Handler exampleConfig
            (continuousSynthesizer Real.sin Real.cos Real.arcsin
              (fun x => ⌊x⌋.toNat % 4294967296) Real.pi) toneSwitchState =
          toneSample exampleConfig
            (continuousSynthesizer Real.sin Real.cos Real.arcsin
              (fun x => ⌊x⌋.toNat % 4294967296) Real.pi) s1 ∧
        s1.g_currentFrequencyIsF1200 = false ∧
        Real.sin (11 * Real.pi / 96 * s1.g_currentF2200Frame) = Real.sin (Real.pi / 16 * 0) ∧
        Real.cos (11 * Real.pi / 96 * s1.g_currentF2200Frame) = Real.cos (Real.pi / 16 * 0) ∧
        0 ≤ s1.g_currentF2200Frame ∧ s1.g_currentF2200Frame < 192 / 11 := by
  have hpi := Real.pi_pos
  have hpi0 : Real.pi ≠ 0 := ne_of_gt hpi
  have hbit : readBufferBit (toneSwitchState : AprsState ℝ).g_currentBitstream
      (toneSwitchState : AprsState ℝ).g_currentBitstreamPos = false := by
    simp [readBufferBit, toneSwitchState]
  obtain ⟨s1, h1, h2, _⟩ := Pwm10Handler_tone_switch_continuity exampleConfig
    (continuousSynthesizer Real.sin Real.cos Real.arcsin (fun x => ⌊x⌋.toNat % 4294967296)
      Real.pi) toneSwitchState rfl rfl rfl
    (show (0 : ℝ) < Real.pi / 16 by positivity)
    (show (0 : ℝ) < 11 * Real.pi / 96 by positivity)
    (show (16 / Real.pi : ℝ) * (Real.pi / 16) = 1 by field_simp)
    (show (96 / (11 * Real.pi) : ℝ) * (11 * Real.pi / 96) = 1 by field_simp)
    (show (16 : ℝ) * (Real.pi / 16) = Real.pi by ring)
    (show (96 / 11 : ℝ) * (11 * Real.pi / 96) = Real.pi by ring)
    (show ((32 : ℕ) : ℝ) * (Real.pi / 16) = 2 * Real.pi by push_cast; ring)
    (show (192 / 11 : ℝ) * (11 * Real.pi / 96) = 2 * Real.pi by ring)
    (show (1 / 49 : ℝ) * 49 = 1 by norm_num)
    rfl (by decide) rfl rfl (by decide)
  exact ⟨by positivity, by positivity, rfl, hbit, s1, h1,
    h2 rfl hbit
      (show ((1 : ℕ) : ℝ) ≤ 50 + 49 * Real.sin (Real.pi / 16 * 0) by
        rw [mul_zero, Real.sin_zero]; norm_num)
      (show (50 : ℝ) + 49 * Real.sin (Real.pi / 16 * 0) ≤ ((100 : ℕ) : ℝ) by
        rw [mul_zero, Real.sin_zero]; norm_num)⟩

theorem encodeAndAppendBits_normalize (pBitstreamBuffer : Option Buffer) (maxLen : Nat)
    (pEncodingData : Option EncodingData) (data : List Nat) (size : Nat) (st : STUFFING_TYPE)
    (ft : FCS_TYPE) (sh : SHIFT_ONE_LEFT_TYPE) :
    encodeAndAppendBits pBitstreamBuffer maxLen pEncodingData (some data) size st ft sh =
      encodeAndAppendBits pBitstreamBuffer maxLen pEncodingData
        (some ((List.range size).map (fun iByte => data.getD iByte 0)))
        ((List.range size).map (fun iByte => data.getD iByte 0)).length st ft sh := by
  simp only [encodeAndAppendBits, List.length_map, List.length_range]
  rw [show (List.range size).map
      (fun iByte => ((List.range size).map (fun iByte => data.getD iByte 0)).getD iByte 0) =
      (List.range size).map (fun iByte => data.getD iByte 0) from by
    have h := range_map_getD ((List.range size).map (fun iByte => data.getD iByte 0))
    rwa [List.length_map, List.length_range] at h]

theorem encodeAndAppendBits_within (buf : Buffer) (maxLen : Nat) (ed : EncodingData)
    (data : List Nat) (st : STUFFING_TYPE) (ft : FCS_TYPE) (sh : SHIFT_ONE_LEFT_TYPE)
    (buf1 : Buffer) (ed1 : EncodingData)
    (hbit : ed.bitstreamSize.bitstreamCharBitIdx < 8)
    (hstart : bitOffset ed.bitstreamSize ≤ 8 * maxLen)
    (hcall : encodeAndAppendBits (some buf) maxLen (some ed) (some data) data.length st ft sh =
      (true, some buf1, some ed1)) :
    ed1.bitstreamSize.bitstreamCharBitIdx < 8 ∧ bitOffset ed1.bitstreamSize ≤ 8 * maxLen := by
  have hpos : ed.bitstreamSize = posOf (bitOffset ed.bitstreamSize) :=
    (posOf_bitOffset _ hbit).symm
  by_cases hne : data = []
  · subst hne
    rw [show ([] : List Nat).length = 0 from rfl, encodeAndAppendBits_nil] at hcall
    simp only [Prod.mk.injEq, Option.some.injEq, true_and] at hcall
    rw [← hcall.2]
    exact ⟨hbit, hstart⟩
  · by_cases hcap : bitOffset ed.bitstreamSize +
        (stuffBits st ed.numberOfOnes (messageBits sh data)).length ≤ 8 * maxLen
    · rw [encodeAndAppendBits_eq buf maxLen ed data st ft sh _ hne hpos hcap] at hcall
      simp only [Prod.mk.injEq, Option.some.injEq, true_and] at hcall
      rw [← hcall.2]
      split
      · simp only [edAfter, posOf, bitOffset] at hcap ⊢
        omega
      · simp only [edAfter, posOf, bitOffset] at hcap ⊢
        omega
    · have hlen : 0 < (stuffBits st ed.numberOfOnes (messageBits sh data)).length := by
        have h1 := length_le_stuffBits st ed.numberOfOnes (messageBits sh data)
        rw [length_messageBits] at h1
        have h2 : 0 < data.length := List.length_pos.mpr hne
        omega
      have hf := encodeAndAppendBits_fail buf maxLen ed data st ft sh _ hpos hlen hcap
      rw [hcall] at hf
      cases hf

/-- C23: `advanceBitstreamBit` applied to a position with its bit index in 0..7 increases
the linear bit offset `8 * byteIndex + bitIndex` by exactly one and leaves the bit index in
0..7; and a call of `encodeAndAppendBits` that returns true, from a position with its bit
index in 0..7 that does not exceed the capacity, leaves a fill position with its bit index
in 0..7 that does not exceed the capacity: the byte index is below
`maxBitstreamBufferLen`, or equals it with the bit index 0. -/
theorem encodeAndAppendBits_position_invariant :
    (∀ p : BitstreamPos, p.bitstreamCharBitIdx < 8 →
      bitOffset (advanceBitstreamBit p) = bitOffset p + 1 ∧
        (advanceBitstreamBit p).bitstreamCharBitIdx < 8) ∧
      (∀ (buf : Buffer) (maxBitstreamBufferLen : Nat) (ed : EncodingData)
        (pMessageData : Option (List Nat)) (messageDataSize : Nat)
        (stuffingType : STUFFING_TYPE) (fcsType : FCS_TYPE)
        (shiftOneLeftType : SHIFT_ONE_LEFT_TYPE) (buf1 : Buffer) (ed1 : EncodingData),
        ed.bitstreamSize.bitstreamCharBitIdx < 8 →
        (ed.bitstreamSize.bitstreamCharIdx < maxBitstreamBufferLen ∨
          (ed.bitstreamSize.bitstreamCharIdx = maxBitstreamBufferLen ∧
            ed.bitstreamSize.bitstreamCharBitIdx = 0)) →
        encodeAndAppendBits (some buf) maxBitstreamBufferLen (some ed) pMessageData
          messageDataSize stuffingType fcsType shiftOneLeftType =
            (true, some buf1, some ed1) →
        ed1.bitstreamSize.bitstreamCharBitIdx < 8 ∧
          (ed1.bitstreamSize.bitstreamCharIdx < maxBitstreamBufferLen ∨
            (ed1.bitstreamSize.bitstreamCharIdx = maxBitstreamBufferLen ∧
              ed1.bitstreamSize.bitstreamCharBitIdx = 0))) := by
  refine ⟨?_, ?_⟩
  · intro p hp
    refine ⟨?_, advanceBitstreamBit_bitIdx_lt p⟩
    have h := advanceBitstreamBit_posOf (bitOffset p)
    rw [posOf_bitOffset p hp] at h
    rw [h, bitOffset_posOf]
  · intro buf maxLen ed pMessageData size st ft sh buf1 ed1 hbit hstart hcall
    have hstart2 : bitOffset ed.bitstreamSize ≤ 8 * maxLen := by
      simp only [bitOffset]
      omega
    have hgoal : ∀ e : EncodingData, e.bitstreamSize.bitstreamCharBitIdx < 8 →
        bitOffset e.bitstreamSize ≤ 8 * maxLen →
        e.bitstreamSize.bitstreamCharBitIdx < 8 ∧
          (e.bitstreamSize.bitstreamCharIdx < maxLen ∨
            (e.bitstreamSize.bitstreamCharIdx = maxLen ∧
              e.bitstreamSize.bitstreamCharBitIdx = 0)) := by
      intro e h1 h2
      simp only [bitOffset] at h2
      refine ⟨h1, ?_⟩
      omega
    cases pMessageData with
    | none =>
      simp only [encodeAndAppendBits] at hcall
      split at hcall
      · simp at hcall
      · split at hcall
        · simp only [Prod.mk.injEq, Option.some.injEq, true_and] at hcall
          rw [← hcall.2]
          exact hgoal ed hbit hstart2
        · simp at hcall
    | some data =>
      rw [encodeAndAppendBits_normalize] at hcall
      obtain ⟨h1, h2⟩ := encodeAndAppendBits_within buf maxLen ed _ st ft sh buf1 ed1 hbit
        hstart2 hcall
      exact hgoal ed1 h1 h2

theorem encodeAndAppendBits_position_invariant_witness :
    (({ bitstreamCharIdx := 2, bitstreamCharBitIdx := 7 } : BitstreamPos).bitstreamCharBitIdx
        < 8) ∧
      (bitOffset (advanceBitstreamBit { bitstreamCharIdx := 2, bitstreamCharBitIdx := 7 }) =
        bitOffset { bitstreamCharIdx := 2, bitstreamCharBitIdx := 7 } + 1 ∧
      (advanceBitstreamBit
        { bitstreamCharIdx := 2, bitstreamCharBitIdx := 7 }).bitstreamCharBitIdx < 8) ∧
      ∃ (buf1 : Buffer) (ed1 : EncodingData),
        encodeAndAppendBits (some (fun _ => 0)) 2
          (some { bitstreamSize := { bitstreamCharIdx := 1, bitstreamCharBitIdx := 0 },
                  lastBit := true, numberOfOnes := 0, fcs := 0xFFFF })
          (some [0x7E]) [0x7E].length
          ST_NO_STUFFING FCS_NONE SHIFT_ONE_LEFT_NO = (true, some buf1, some ed1) ∧
        ed1.bitstreamSize.bitstreamCharBitIdx < 8 ∧
        (ed1.bitstreamSize.bitstreamCharIdx < 2 ∨
          (ed1.bitstreamSize.bitstreamCharIdx = 2 ∧
            ed1.bitstreamSize.bitstreamCharBitIdx = 0)) :=
  ⟨by decide,
    encodeAndAppendBits_position_invariant.1 { bitstreamCharIdx := 2, bitstreamCharBitIdx := 7 }
      (by decide),
    _, _,
    encodeAndAppendBits_eq (fun _ => 0) 2
      { bitstreamSize := { bitstreamCharIdx := 1, bitstreamCharBitIdx := 0 },
        lastBit := true, numberOfOnes := 0, fcs := 0xFFFF }
      [0x7E] ST_NO_STUFFING FCS_NONE SHIFT_ONE_LEFT_NO 8 (by decide) (by decide) (by decide),
    encodeAndAppendBits_position_invariant.2 (fun _ => 0) 2
      { bitstreamSize := { bitstreamCharIdx := 1, bitstreamCharBitIdx := 0 },
        lastBit := true, numberOfOnes := 0, fcs := 0xFFFF }
      (some [0x7E]) [0x7E].length ST_NO_STUFFING FCS_NONE SHIFT_ONE_LEFT_NO _ _
      (by decide) (by decide)
      (encodeAndAppendBits_eq (fun _ => 0) 2
        { bitstreamSize := { bitstreamCharIdx := 1, bitstreamCharBitIdx := 0 },
          lastBit := true, numberOfOnes := 0, fcs := 0xFFFF }
        [0x7E] ST_NO_STUFFING FCS_NONE SHIFT_ONE_LEFT_NO 8 (by decide) (by decide)
        (by decide))⟩

theorem encodeBit_no_stuffing_ones (buf : Buffer) (max : Nat) (ed : EncodingData) (cb i : Nat)
    (ft : FCS_TYPE) :
    (encodeBit buf max ed cb i ST_NO_STUFFING ft).2.2.numberOfOnes = ed.numberOfOnes := by
  unfold encodeBit
  simp only [reduceCtorEq, if_false]
  split_ifs <;> rfl

theorem encodeByteBits_no_stuffing_ones (max cb : Nat) (ft : FCS_TYPE)
    (l : List Nat) (buf : Buffer) (ed : EncodingData) :
    (encodeByteBits max cb ST_NO_STUFFING ft l buf ed).2.2.numberOfOnes = ed.numberOfOnes := by
  induction l generalizing buf ed with
  | nil => rfl
  | cons i rest ih =>
    have h1 := encodeBit_no_stuffing_ones buf max ed cb i ft
    simp only [encodeByteBits]
    split
    · next buf1 ed1 heq =>
      rw [heq] at h1
      rw [ih buf1 ed1]
      exact h1
    · next buf1 ed1 heq =>
      rw [heq] at h1
      exact h1

theorem encodeBytes_no_stuffing_ones (max : Nat) (ft : FCS_TYPE) (sh : SHIFT_ONE_LEFT_TYPE)
    (l : List Nat) (buf : Buffer) (ed : EncodingData) :
    (encodeBytes max ST_NO_STUFFING ft sh l buf ed).2.2.numberOfOnes = ed.numberOfOnes := by
  induction l generalizing buf ed with
  | nil => rfl
  | cons b rest ih =>
    have h1 := encodeByteBits_no_stuffing_ones max (shiftedByte sh b) ft (List.range 8) buf ed
    simp only [encodeBytes]
    split
    · next buf1 ed1 heq =>
      rw [heq] at h1
      rw [ih buf1 ed1]
      exact h1
    · next buf1 ed1 heq =>
      rw [heq] at h1
      exact h1

/-- C24 (counterexample): a call with `ST_NO_STUFFING` and `messageDataSize = 0` returns
true and leaves the run counter at its value on entry, here 3. -/
theorem encodeAndAppendBits_empty_keeps_counter_counterexample :
    (encodeAndAppendBits (some (fun _ => 0)) 10
        (some { bitstreamSize := { bitstreamCharIdx := 0, bitstreamCharBitIdx := 0 },
                lastBit := true, numberOfOnes := 3, fcs := 0xFFFF })
        (some []) 0 ST_NO_STUFFING FCS_NONE SHIFT_ONE_LEFT_NO).1 = true ∧
      (encodeAndAppendBits (some (fun _ => 0)) 10
        (some { bitstreamSize := { bitstreamCharIdx := 0, bitstreamCharBitIdx := 0 },
                lastBit := true, numberOfOnes := 3, fcs := 0xFFFF })
        (some []) 0 ST_NO_STUFFING FCS_NONE SHIFT_ONE_LEFT_NO).2.2.map
          (fun ed => ed.numberOfOnes) = some 3 := by
  rw [encodeAndAppendBits_nil]
  exact ⟨rfl, rfl⟩

/-- C24 (amended): a call of `encodeAndAppendBits` with `ST_NO_STUFFING`, a destination and
encoding data leaves the run counter at zero when it returns true for a message of at
least one byte, and at its value on entry otherwise: when `messageDataSize` is 0, where the
call returns true at once, and when the call returns false. -/
theorem encodeAndAppendBits_no_stuffing_counter (buf : Buffer) (maxBitstreamBufferLen : Nat)
    (ed : EncodingData) (pMessageData : Option (List Nat)) (messageDataSize : Nat)
    (fcsType : FCS_TYPE) (shiftOneLeftType : SHIFT_ONE_LEFT_TYPE) :
    ∃ ok buf1 ed1,
      encodeAndAppendBits (some buf) maxBitstreamBufferLen (some ed) pMessageData
        messageDataSize ST_NO_STUFFING fcsType shiftOneLeftType = (ok, some buf1, some ed1) ∧
      ed1.numberOfOnes = if ok = true ∧ 0 < messageDataSize then 0 else ed.numberOfOnes := by
  simp only [encodeAndAppendBits]
  by_cases hm : maxBitstreamBufferLen < messageDataSize
  · exact ⟨false, buf, ed, by simp [hm], by simp⟩
  · by_cases h0 : messageDataSize = 0
    · exact ⟨true, buf, ed, by simp [hm, h0], by simp [h0]⟩
    · cases pMessageData with
      | none => exact ⟨false, buf, ed, by simp [hm, h0], by simp⟩
      | some data =>
        have h1 := encodeBytes_no_stuffing_ones maxBitstreamBufferLen fcsType shiftOneLeftType
          ((List.range messageDataSize).map (fun iByte => data.getD iByte 0)) buf ed
        rw [if_neg hm, if_neg h0]
        simp only []
        split
        · next buf1 ed1 heq =>
          refine ⟨true, buf1, { ed1 with numberOfOnes := 0 }, by simp, ?_⟩
          simp only [true_and]
          rw [if_pos (by omega)]
        · next buf1 ed1 heq =>
          rw [heq] at h1
          exact ⟨false, buf1, ed1, rfl, by simpa using h1⟩

/-! ## Length of the frame -/

theorem length_bufferBytes (buf : Buffer) (n : Nat) : (bufferBytes buf n).length = n := by
  simp [bufferBytes]

/-- C28: for flag counts that fit the `uint8_t` loop counters, a source callsign of six
characters, a payload of `len > 0` bytes and a buffer with room for
`8 * (PREFIX_FLAGS_COUNT + SUFFIX_FLAGS_COUNT + 25 + len) + 8 * (25 + len) / 5` bits,
`generateMessage` succeeds and the fill size in bits is `8 * PREFIX_FLAGS_COUNT` for the
prefix flags, plus the stuffed frame, plus `8 * SUFFIX_FLAGS_COUNT` for the suffix flags,
where the stuffed frame (21 address bytes, control, PID, payload, two FCS bytes) has at
least `8 * (25 + len)` bits and at most `8 * (25 + len) / 5` more. -/
theorem generateMessage_frame_length (cfg : Config) (messageId : Nat) (payloadBuffer : Buffer)
    (cs : Callsign) (gpsDataSource : Nat) (gps : GpsData) (tel : Telemetry) (buffer0 : Buffer)
    (maxLen : Nat) (size0 : BitstreamPos)
    (hprefixCount : cfg.PREFIX_FLAGS_COUNT < 256)
    (hsuffixCount : cfg.SUFFIX_FLAGS_COUNT < 256)
    (hcs : cs.callsign.length = 6)
    (hpay : (createPacketPayload gpsDataSource gps tel messageId payloadBuffer
      (cfg.APRS_PAYLOAD_LEN % 256)).1 ≠ 0)
    (hcap : 8 * (cfg.PREFIX_FLAGS_COUNT + cfg.SUFFIX_FLAGS_COUNT + 25 +
        (createPacketPayload gpsDataSource gps tel messageId payloadBuffer
          (cfg.APRS_PAYLOAD_LEN % 256)).1) +
      8 * (25 + (createPacketPayload gpsDataSource gps tel messageId payloadBuffer
          (cfg.APRS_PAYLOAD_LEN % 256)).1) / 5 ≤ 8 * maxLen) :
    ∃ size1 len stuffedLength,
      (generateMessage cfg messageId payloadBuffer (some cs) gpsDataSource (some gps) tel
        (some buffer0) maxLen (some size0)).result = true ∧
      (generateMessage cfg messageId payloadBuffer (some cs) gpsDataSource (some gps) tel
        (some buffer0) maxLen (some size0)).bitstreamSize = some size1 ∧
      len = (createPacketPayload gpsDataSource gps tel messageId payloadBuffer
        (cfg.APRS_PAYLOAD_LEN % 256)).1 ∧
      bitOffset size1 =
        8 * cfg.PREFIX_FLAGS_COUNT + stuffedLength + 8 * cfg.SUFFIX_FLAGS_COUNT ∧
      8 * (25 + len) ≤ stuffedLength ∧
      stuffedLength ≤ 8 * (25 + len) + 8 * (25 + len) / 5 ∧
      8 * (cfg.PREFIX_FLAGS_COUNT + cfg.SUFFIX_FLAGS_COUNT + 25 + len) ≤ bitOffset size1 ∧
      bitOffset size1 ≤
        8 * (cfg.PREFIX_FLAGS_COUNT + cfg.SUFFIX_FLAGS_COUNT + 25 + len) +
          8 * (25 + len) / 5 := by
  generalize hinfo : bufferBytes
      (createPacketPayload gpsDataSource gps tel messageId payloadBuffer
        (cfg.APRS_PAYLOAD_LEN % 256)).2
      (createPacketPayload gpsDataSource gps tel messageId payloadBuffer
        (cfg.APRS_PAYLOAD_LEN % 256)).1 = info
  have hlen : info.length = (createPacketPayload gpsDataSource gps tel messageId payloadBuffer
      (cfg.APRS_PAYLOAD_LEN % 256)).1 := by
    rw [← hinfo, length_bufferBytes]
  have hup := length_stuffBits_le ST_PERFORM_STUFFING 0
    ((frameWithFcs cs info).flatMap byteBits) (by decide)
  have hlo := length_le_stuffBits ST_PERFORM_STUFFING 0
    ((frameWithFcs cs info).flatMap byteBits)
  rw [length_flatMap_byteBits, length_frameWithFcs cs info hcs, Nat.zero_add] at hup
  rw [length_flatMap_byteBits, length_frameWithFcs cs info hcs] at hlo
  have hline : (frameLine cfg cs info).length = 8 * cfg.PREFIX_FLAGS_COUNT +
      (stuffBits ST_PERFORM_STUFFING 0 ((frameWithFcs cs info).flatMap byteBits)).length +
      8 * cfg.SUFFIX_FLAGS_COUNT := by
    simp only [frameLine, List.length_append, length_flagBits]
  have hg := generateMessage_eq cfg messageId payloadBuffer cs gpsDataSource gps tel buffer0
    maxLen size0 hcs hpay (by rw [hinfo, hline]; omega)
  rw [hinfo] at hg
  refine ⟨_, _,
    (stuffBits ST_PERFORM_STUFFING 0 ((frameWithFcs cs info).flatMap byteBits)).length,
    by rw [hg], by rw [hg], rfl, ?_, ?_, ?_, ?_, ?_⟩
  · rw [bitOffset_posOf, hline]
  · rw [← hlen]; exact hlo
  · rw [← hlen]; exact hup
  · rw [bitOffset_posOf, hline, ← hlen]; omega
  · rw [bitOffset_posOf, hline, ← hlen]; omega

theorem generateMessage_frame_length_witness :
    exampleConfig.PREFIX_FLAGS_COUNT < 256 ∧ exampleConfig.SUFFIX_FLAGS_COUNT < 256 ∧
    CALLSIGN_SOURCE.callsign.length = 6 ∧
    (createPacketPayload 1 exampleGpsData exampleTelemetry 7 (fun _ => 0)
      (exampleConfig.APRS_PAYLOAD_LEN % 256)).1 ≠ 0 ∧
    8 * (exampleConfig.PREFIX_FLAGS_COUNT + exampleConfig.SUFFIX_FLAGS_COUNT + 25 +
        (createPacketPayload 1 exampleGpsData exampleTelemetry 7 (fun _ => 0)
          (exampleConfig.APRS_PAYLOAD_LEN % 256)).1) +
      8 * (25 + (createPacketPayload 1 exampleGpsData exampleTelemetry 7 (fun _ => 0)
          (exampleConfig.APRS_PAYLOAD_LEN % 256)).1) / 5 ≤ 8 * 200 ∧
    ∃ size1,
      (generateMessage exampleConfig 7 (fun _ => 0) (some CALLSIGN_SOURCE) 1
        (some exampleGpsData) exampleTelemetry (some (fun _ => 0)) 200
        (some { bitstreamCharIdx := 0, bitstreamCharBitIdx := 0 })).bitstreamSize =
          some size1 ∧
      8 * (2 + 1 + 25 + 69) ≤ bitOffset size1 ∧
      bitOffset size1 ≤ 8 * (2 + 1 + 25 + 69) + 8 * (25 + 69) / 5 := by
  have hlen : (createPacketPayload 1 exampleGpsData exampleTelemetry 7 (fun _ => 0)
      (exampleConfig.APRS_PAYLOAD_LEN % 256)).1 = 69 := by decide
  have hcap : 8 * (exampleConfig.PREFIX_FLAGS_COUNT + exampleConfig.SUFFIX_FLAGS_COUNT + 25 +
        (createPacketPayload 1 exampleGpsData exampleTelemetry 7 (fun _ => 0)
          (exampleConfig.APRS_PAYLOAD_LEN % 256)).1) +
      8 * (25 + (createPacketPayload 1 exampleGpsData exampleTelemetry 7 (fun _ => 0)
          (exampleConfig.APRS_PAYLOAD_LEN % 256)).1) / 5 ≤ 8 * 200 := by
    rw [hlen]
    decide
  have hpay : (createPacketPayload 1 exampleGpsData exampleTelemetry 7 (fun _ => 0)
      (exampleConfig.APRS_PAYLOAD_LEN % 256)).1 ≠ 0 := by
    rw [hlen]
    decide
  obtain ⟨size1, len, stuffedLength, _, h2, h3, _, _, _, h7, h8⟩ :=
    generateMessage_frame_length exampleConfig 7 (fun _ => 0) CALLSIGN_SOURCE 1 exampleGpsData
      exampleTelemetry (fun _ => 0) 200 { bitstreamCharIdx := 0, bitstreamCharBitIdx := 0 }
      (by decide) (by decide) (by decide) hpay hcap
  rw [hlen] at h3
  subst h3
  exact ⟨by decide, by decide, by decide, hpay, hcap, size1, h2, h7, h8⟩

/-! ## The bits a call writes do not depend on the buffer -/

theorem writeBits_nil (buf : Buffer) (q : Nat) : writeBits buf q [] = buf := rfl

/-- One pass of the inner loop stores a fixed list of bits from the fill position on: the
return value, the bits and the encoding data after it do not depend on the buffer. -/
theorem encodeBit_trace (max : Nat) (ed : EncodingData) (cb i : Nat) (st : STUFFING_TYPE)
    (ft : FCS_TYPE) (q : Nat) (hpos : ed.bitstreamSize = posOf q) :
    ∃ bits,
      (∀ buf, encodeBit buf max ed cb i st ft =
        ((encodeBit (fun _ => 0) max ed cb i st ft).1, writeBits buf q bits,
          (encodeBit (fun _ => 0) max ed cb i st ft).2.2)) ∧
      (encodeBit (fun _ => 0) max ed cb i st ft).2.2.bitstreamSize =
        posOf (q + bits.length) := by
  obtain ⟨pos, last, n, fcs⟩ := ed
  simp only at hpos
  subst hpos
  cases ft
  all_goals
    by_cases h1 : cb &&& (1 <<< i) ≠ 0
    · by_cases h2 : (posOf q).bitstreamCharIdx ≥ max
      · exact ⟨[], fun buf => by simp [encodeBit, h1, h2, writeBits], by simp [encodeBit, *]⟩
      · cases st
        · cases last
          · exact ⟨[false],
              fun buf => by simp [encodeBit, h1, h2, writeBits, putBit],
              by simp [encodeBit, *, advanceBitstreamBit_posOf]⟩
          · exact ⟨[true],
              fun buf => by simp [encodeBit, h1, h2, writeBits, putBit],
              by simp [encodeBit, *, advanceBitstreamBit_posOf]⟩
        · by_cases h4 : n + 1 = 5
          · by_cases h5 : (posOf (q + 1)).bitstreamCharIdx ≥ max
            · cases last
              · exact ⟨[false],
                  fun buf => by
                    simp [encodeBit, h1, h2, h4, h5, writeBits, putBit, advanceBitstreamBit_posOf],
                  by simp [encodeBit, *, advanceBitstreamBit_posOf]⟩
              · exact ⟨[true],
                  fun buf => by
                    simp [encodeBit, h1, h2, h4, h5, writeBits, putBit, advanceBitstreamBit_posOf],
                  by simp [encodeBit, *, advanceBitstreamBit_posOf]⟩
            · cases last
              · exact ⟨[false, true],
                  fun buf => by
                    simp [encodeBit, h1, h2, h4, h5, writeBits, putBit, advanceBitstreamBit_posOf],
                  by simp [encodeBit, *, advanceBitstreamBit_posOf]⟩
              · exact ⟨[true, false],
                  fun buf => by
                    simp [encodeBit, h1, h2, h4, h5, writeBits, putBit, advanceBitstreamBit_posOf],
                  by simp [encodeBit, *, advanceBitstreamBit_posOf]⟩
          · cases last
            · exact ⟨[false],
                fun buf => by simp [encodeBit, h1, h2, h4, writeBits, putBit],
                by simp [encodeBit, *, advanceBitstreamBit_posOf]⟩
            · exact ⟨[true],
                fun buf => by simp [encodeBit, h1, h2, h4, writeBits, putBit],
                by simp [encodeBit, *, advanceBitstreamBit_posOf]⟩
    · by_cases h2 : (posOf q).bitstreamCharIdx ≥ max
      · exact ⟨[], fun buf => by simp [encodeBit, h1, h2, writeBits], by simp [encodeBit, *]⟩
      · cases st <;> cases last
        · exact ⟨[true],
            fun buf => by simp [encodeBit, h1, h2, writeBits, putBit],
            by simp [encodeBit, *, advanceBitstreamBit_posOf]⟩
        · exact ⟨[false],
            fun buf => by simp [encodeBit, h1, h2, writeBits, putBit],
            by simp [encodeBit, *, advanceBitstreamBit_posOf]⟩
        · exact ⟨[true],
            fun buf => by simp [encodeBit, h1, h2, writeBits, putBit],
            by simp [encodeBit, *, advanceBitstreamBit_posOf]⟩
        · exact ⟨[false],
            fun buf => by simp [encodeBit, h1, h2, writeBits, putBit],
            by simp [encodeBit, *, advanceBitstreamBit_posOf]⟩

theorem encodeByteBits_trace (max cb : Nat) (st : STUFFING_TYPE) (ft : FCS_TYPE) (l : List Nat)
    (ed : EncodingData) (q : Nat) (hpos : ed.bitstreamSize = posOf q) :
    ∃ ok bits ed1,
      (∀ buf, encodeByteBits max cb st ft l buf ed = (ok, writeBits buf q bits, ed1)) ∧
      ed1.bitstreamSize = posOf (q + bits.length) := by
  induction l generalizing ed q with
  | nil => exact ⟨true, [], ed, fun buf => rfl, hpos⟩
  | cons i rest ih =>
    obtain ⟨b1, h1, hp1⟩ := encodeBit_trace max ed cb i st ft q hpos
    generalize (encodeBit (fun _ => 0) max ed cb i st ft).1 = ok at h1
    generalize (encodeBit (fun _ => 0) max ed cb i st ft).2.2 = ed1 at h1 hp1
    cases ok
    · exact ⟨false, b1, ed1, fun buf => by simp only [encodeByteBits, h1 buf], hp1⟩
    · obtain ⟨ok2, b2, ed2, h2, hp2⟩ := ih ed1 (q + b1.length) hp1
      refine ⟨ok2, b1 ++ b2, ed2, fun buf => ?_, ?_⟩
      · simp only [encodeByteBits, h1 buf, h2, writeBits_append]
      · rw [hp2, List.length_append, Nat.add_assoc]

theorem encodeBytes_trace (max : Nat) (st : STUFFING_TYPE) (ft : FCS_TYPE)
    (sh : SHIFT_ONE_LEFT_TYPE) (l : List Nat) (ed : EncodingData) (q : Nat)
    (hpos : ed.bitstreamSize = posOf q) :
    ∃ ok bits ed1,
      (∀ buf, encodeBytes max st ft sh l buf ed = (ok, writeBits buf q bits, ed1)) ∧
      ed1.bitstreamSize = posOf (q + bits.length) := by
  induction l generalizing ed q with
  | nil => exact ⟨true, [], ed, fun buf => rfl, hpos⟩
  | cons b rest ih =>
    obtain ⟨ok, b1, ed1, h1, hp1⟩ :=
      encodeByteBits_trace max (shiftedByte sh b) st ft (List.range 8) ed q hpos
    cases ok
    · exact ⟨false, b1, ed1, fun buf => by simp only [encodeBytes, h1 buf], hp1⟩
    · obtain ⟨ok2, b2, ed2, h2, hp2⟩ := ih ed1 (q + b1.length) hp1
      refine ⟨ok2, b1 ++ b2, ed2, fun buf => ?_, ?_⟩
      · simp only [encodeBytes, h1 buf, h2, writeBits_append]
      · rw [hp2, List.length_append, Nat.add_assoc]

/-- A call of `encodeAndAppendBits` with a destination and encoding data stores a fixed
list of bits from the fill position on: the return value, the bits and the encoding data
after the call do not depend on the contents of the destination. -/
theorem encodeAndAppendBits_trace (max : Nat) (ed : EncodingData)
    (pMessageData : Option (List Nat)) (size : Nat) (st : STUFFING_TYPE) (ft : FCS_TYPE)
    (sh : SHIFT_ONE_LEFT_TYPE) (q : Nat) (hpos : ed.bitstreamSize = posOf q) :
    ∃ ok bits ed1,
      (∀ buf, encodeAndAppendBits (some buf) max (some ed) pMessageData size st ft sh =
        (ok, some (writeBits buf q bits), some ed1)) ∧
      ed1.bitstreamSize = posOf (q + bits.length) := by
  by_cases hm : max < size
  · exact ⟨false, [], ed, fun buf => by simp [encodeAndAppendBits, hm, writeBits], hpos⟩
  · by_cases h0 : size = 0
    · exact ⟨true, [], ed, fun buf => by simp [encodeAndAppendBits, h0, writeBits], hpos⟩
    · cases pMessageData with
      | none =>
        exact ⟨false, [], ed, fun buf => by simp [encodeAndAppendBits, hm, h0, writeBits], hpos⟩
      | some data =>
        obtain ⟨ok, b1, ed1, h1, hp1⟩ := encodeBytes_trace max st ft sh
          ((List.range size).map (fun iByte => data.getD iByte 0)) ed q hpos
        cases ok
        · exact ⟨false, b1, ed1,
            fun buf => by simp only [encodeAndAppendBits, if_neg hm, if_neg h0, h1 buf], hp1⟩
        · cases st
          · exact ⟨true, b1, { ed1 with numberOfOnes := 0 },
              fun buf => by
                simp only [encodeAndAppendBits, if_neg hm, if_neg h0, h1 buf, if_true],
              hp1⟩
          · exact ⟨true, b1, ed1,
              fun buf => by
                simp only [encodeAndAppendBits, if_neg hm, if_neg h0, h1 buf, reduceCtorEq,
                  if_false],
              hp1⟩

theorem encodeCall_trace (max : Nat) (ed : EncodingData) (data : List Nat) (size : Nat)
    (st : STUFFING_TYPE) (ft : FCS_TYPE) (sh : SHIFT_ONE_LEFT_TYPE) (line : List Bool)
    (hpos : ed.bitstreamSize = posOf line.length) :
    ∃ bits ed1,
      (∀ buffer0, encodeCall max (writeBits buffer0 0 line, ed) data size st ft sh =
        (writeBits buffer0 0 (line ++ bits), ed1)) ∧
      ed1.bitstreamSize = posOf (line ++ bits).length := by
  obtain ⟨ok, bits, ed1, h1, hp1⟩ :=
    encodeAndAppendBits_trace max ed (some data) size st ft sh line.length hpos
  refine ⟨bits, ed1, fun buffer0 => ?_, ?_⟩
  · simp only [encodeCall, h1, writeBits_append, Nat.zero_add]
  · rw [hp1, List.length_append]

theorem encodeFlags_trace (max count : Nat) (ed : EncodingData) (line : List Bool)
    (hpos : ed.bitstreamSize = posOf line.length) :
    ∃ bits ed1,
      (∀ buffer0, encodeFlags max count (writeBits buffer0 0 line, ed) =
        (writeBits buffer0 0 (line ++ bits), ed1)) ∧
      ed1.bitstreamSize = posOf (line ++ bits).length := by
  induction count generalizing ed line with
  | zero => exact ⟨[], ed, fun buffer0 => by simp [encodeFlags], by simpa using hpos⟩
  | succ count ih =>
    obtain ⟨b1, ed1, h1, hp1⟩ := encodeCall_trace max ed [0x7E] 1 ST_NO_STUFFING FCS_NONE
      SHIFT_ONE_LEFT_NO line hpos
    obtain ⟨b2, ed2, h2, hp2⟩ := ih ed1 (line ++ b1) hp1
    refine ⟨b1 ++ b2, ed2, fun buffer0 => ?_, ?_⟩
    · simp only [encodeFlags, h1, h2, List.append_assoc]
    · rw [hp2, List.append_assoc]

theorem generateMessage_trace (cfg : Config) (messageId : Nat) (payloadBuffer : Buffer)
    (cs : Callsign) (gpsDataSource : Nat) (gps : GpsData) (tel : Telemetry) (maxLen : Nat)
    (size0 : BitstreamPos) :
    ∃ res bits, ∀ buffer0,
      (generateMessage cfg messageId payloadBuffer (some cs) gpsDataSource (some gps) tel
        (some buffer0) maxLen (some size0)).result = res ∧
      (res = true →
        (generateMessage cfg messageId payloadBuffer (some cs) gpsDataSource (some gps) tel
          (some buffer0) maxLen (some size0)).bitstreamBuffer =
            some (writeBits buffer0 0 bits) ∧
        (generateMessage cfg messageId payloadBuffer (some cs) gpsDataSource (some gps) tel
          (some buffer0) maxLen (some size0)).bitstreamSize = some (posOf bits.length)) := by
  generalize hp : createPacketPayload gpsDataSource gps tel messageId payloadBuffer
    (cfg.APRS_PAYLOAD_LEN % 256) = payload
  obtain ⟨bufferSize, payloadBuffer1⟩ := payload
  by_cases hz : bufferSize = 0
  · refine ⟨false, [], fun buffer0 => ⟨?_, fun h => by cases h⟩⟩
    simp only [generateMessage, hp, hz, if_true]
  · obtain ⟨l0, e0, h0, p0⟩ := encodeFlags_trace maxLen cfg.PREFIX_FLAGS_COUNT
      { bitstreamSize := { bitstreamCharIdx := 0, bitstreamCharBitIdx := 0 }
        lastBit := true
        numberOfOnes := 0
        fcs := FCS_INITIAL_VALUE } [] rfl
    have h0b : ∀ b, encodeFlags maxLen cfg.PREFIX_FLAGS_COUNT
        (b, { bitstreamSize := { bitstreamCharIdx := 0, bitstreamCharBitIdx := 0 }
              lastBit := true
              numberOfOnes := 0
              fcs := FCS_INITIAL_VALUE }) = (writeBits b 0 l0, e0) := fun b => h0 b
    have p0b : e0.bitstreamSize = posOf l0.length := p0
    obtain ⟨l1, e1, h1, p1⟩ := encodeCall_trace maxLen e0 CALLSIGN_DESTINATION_1.callsign 6
      ST_PERFORM_STUFFING FCS_CALCULATE SHIFT_ONE_LEFT l0 p0b
    generalize l0 ++ l1 = m1 at h1 p1
    obtain ⟨l2, e2, h2, p2⟩ := encodeCall_trace maxLen e1 [CALLSIGN_DESTINATION_1.ssid] 1
      ST_PERFORM_STUFFING FCS_CALCULATE SHIFT_ONE_LEFT_NO m1 p1
    generalize m1 ++ l2 = m2 at h2 p2
    obtain ⟨l3, e3, h3, p3⟩ := encodeCall_trace maxLen e2 cs.callsign 6
      ST_PERFORM_STUFFING FCS_CALCULATE SHIFT_ONE_LEFT m2 p2
    generalize m2 ++ l3 = m3 at h3 p3
    obtain ⟨l4, e4, h4, p4⟩ := encodeCall_trace maxLen e3 [cs.ssid] 1
      ST_PERFORM_STUFFING FCS_CALCULATE SHIFT_ONE_LEFT_NO m3 p3
    generalize m3 ++ l4 = m4 at h4 p4
    obtain ⟨l5, e5, h5, p5⟩ := encodeCall_trace maxLen e4 CALLSIGN_DESTINATION_2.callsign 6
      ST_PERFORM_STUFFING FCS_CALCULATE SHIFT_ONE_LEFT m4 p4
    generalize m4 ++ l5 = m5 at h5 p5
    obtain ⟨l6, e6, h6, p6⟩ := encodeCall_trace maxLen e5 [CALLSIGN_DESTINATION_2.ssid] 1
      ST_PERFORM_STUFFING FCS_CALCULATE SHIFT_ONE_LEFT_NO m5 p5
    generalize m5 ++ l6 = m6 at h6 p6
    obtain ⟨l7, e7, h7, p7⟩ := encodeCall_trace maxLen e6 [0x03] 1
      ST_PERFORM_STUFFING FCS_CALCULATE SHIFT_ONE_LEFT_NO m6 p6
    generalize m6 ++ l7 = m7 at h7 p7
    obtain ⟨l8, e8, h8, p8⟩ := encodeCall_trace maxLen e7 [0xF0] 1
      ST_PERFORM_STUFFING FCS_CALCULATE SHIFT_ONE_LEFT_NO m7 p7
    generalize m7 ++ l8 = m8 at h8 p8
    obtain ⟨l9, e9, h9, p9⟩ := encodeCall_trace maxLen e8
      (bufferBytes payloadBuffer1 bufferSize) bufferSize
      ST_PERFORM_STUFFING FCS_CALCULATE SHIFT_ONE_LEFT_NO m8 p8
    generalize m8 ++ l9 = m9 at h9 p9
    obtain ⟨l11, e11, h11, p11⟩ := encodeCall_trace maxLen
      { e9 with fcs := e9.fcs ^^^ FCS_POST_PROCESSING_XOR_VALUE }
      [(e9.fcs ^^^ FCS_POST_PROCESSING_XOR_VALUE) &&& 0x00FF] 1
      ST_PERFORM_STUFFING FCS_NONE SHIFT_ONE_LEFT_NO m9 p9
    generalize m9 ++ l11 = m11 at h11 p11
    obtain ⟨l12, e12, h12, p12⟩ := encodeCall_trace maxLen e11
      [(e11.fcs >>> 8) &&& 0x00FF] 1
      ST_PERFORM_STUFFING FCS_NONE SHIFT_ONE_LEFT_NO m11 p11
    generalize m11 ++ l12 = m12 at h12 p12
    obtain ⟨l13, e13, h13, p13⟩ := encodeFlags_trace maxLen cfg.SUFFIX_FLAGS_COUNT e12 m12 p12
    generalize m12 ++ l13 = m13 at h13 p13
    refine ⟨true, m13, fun buffer0 => ?_⟩
    simp only [generateMessage, hp, if_neg hz, h0b, h1, h2, h3, h4, h5, h6, h7, h8, h9, h11, h12,
      h13, p13, true_and, implies_true]

theorem bitAt_writeBits_ge (buf : Buffer) (q j : Nat) (vs : List Bool) (h1 : q ≤ j)
    (h2 : j < q + vs.length) : bitAt (writeBits buf q vs) j = vs.getD (j - q) false := by
  induction vs generalizing buf q with
  | nil => simp at h2; omega
  | cons v vs ih =>
    simp only [writeBits]
    by_cases hj : j = q
    · subst hj
      rw [bitAt_writeBits_lt _ _ _ _ (by omega), bitAt_putBit, if_pos rfl]
      simp
    · simp only [List.length_cons] at h2
      rw [ih _ (q + 1) (by omega) (by omega)]
      rw [show j - q = (j - (q + 1)) + 1 by omega]
      simp

/-- C27: when `generateMessage` returns true for one initial content of the destination
buffer, it returns true for every other one, with the same fill size (whose bit index is
in 0..7); both results are the initial buffer with one and the same list of bits stored
from offset 0 on, one bit per position up to the fill size, so that every bit below the
fill size is equal in the two results. -/
theorem generateMessage_stale_independent (cfg : Config) (messageId : Nat)
    (payloadBuffer : Buffer) (pCallsignSource : Option Callsign) (gpsDataSource : Nat)
    (pGpsData : Option GpsData) (pTelemetry : Telemetry) (maxBitstreamBufferLen : Nat)
    (pBitstreamSize : Option BitstreamPos) (bufferA bufferB : Buffer)
    (hres : (generateMessage cfg messageId payloadBuffer pCallsignSource gpsDataSource pGpsData
      pTelemetry (some bufferA) maxBitstreamBufferLen pBitstreamSize).result = true) :
    (generateMessage cfg messageId payloadBuffer pCallsignSource gpsDataSource pGpsData
        pTelemetry (some bufferB) maxBitstreamBufferLen pBitstreamSize).result = true ∧
      ∃ bits size1,
        (generateMessage cfg messageId payloadBuffer pCallsignSource gpsDataSource pGpsData
          pTelemetry (some bufferA) maxBitstreamBufferLen pBitstreamSize).bitstreamSize =
            some size1 ∧
        (generateMessage cfg messageId payloadBuffer pCallsignSource gpsDataSource pGpsData
          pTelemetry (some bufferB) maxBitstreamBufferLen pBitstreamSize).bitstreamSize =
            some size1 ∧
        size1.bitstreamCharBitIdx < 8 ∧ bits.length = bitOffset size1 ∧
        (generateMessage cfg messageId payloadBuffer pCallsignSource gpsDataSource pGpsData
          pTelemetry (some bufferA) maxBitstreamBufferLen pBitstreamSize).bitstreamBuffer =
            some (writeBits bufferA 0 bits) ∧
        (generateMessage cfg messageId payloadBuffer pCallsignSource gpsDataSource pGpsData
          pTelemetry (some bufferB) maxBitstreamBufferLen pBitstreamSize).bitstreamBuffer =
            some (writeBits bufferB 0 bits) ∧
        readBits (writeBits bufferA 0 bits) { bitstreamCharIdx := 0, bitstreamCharBitIdx := 0 }
          (bitOffset size1) = bits ∧
        readBits (writeBits bufferB 0 bits) { bitstreamCharIdx := 0, bitstreamCharBitIdx := 0 }
          (bitOffset size1) = bits ∧
        ∀ p : BitstreamPos, p.bitstreamCharBitIdx < 8 → bitOffset p < bitOffset size1 →
          readBufferBit (writeBits bufferA 0 bits) p =
            readBufferBit (writeBits bufferB 0 bits) p := by
  cases pCallsignSource with
  | none => cases pBitstreamSize <;> simp [generateMessage] at hres
  | some cs =>
    cases pGpsData with
    | none => cases pBitstreamSize <;> simp [generateMessage] at hres
    | some gps =>
      cases pBitstreamSize with
      | none => simp [generateMessage] at hres
      | some size0 =>
        obtain ⟨res, bits, h⟩ := generateMessage_trace cfg messageId payloadBuffer cs
          gpsDataSource gps pTelemetry maxBitstreamBufferLen size0
        have hA := h bufferA
        have hB := h bufferB
        rw [hA.1] at hres
        subst hres
        have h0 : ({ bitstreamCharIdx := 0, bitstreamCharBitIdx := 0 } : BitstreamPos) =
          posOf 0 := rfl
        refine ⟨hB.1, bits, posOf bits.length, (hA.2 rfl).2, (hB.2 rfl).2,
          Nat.mod_lt _ (by decide), (bitOffset_posOf _).symm, (hA.2 rfl).1, (hB.2 rfl).1,
          ?_, ?_, ?_⟩
        · rw [bitOffset_posOf, h0, readBits_writeBits]
        · rw [bitOffset_posOf, h0, readBits_writeBits]
        · intro p hp hlt
          rw [bitOffset_posOf] at hlt
          rw [← posOf_bitOffset p hp, readBufferBit_posOf, readBufferBit_posOf,
            bitAt_writeBits_ge _ _ _ _ (Nat.zero_le _) (by omega),
            bitAt_writeBits_ge _ _ _ _ (Nat.zero_le _) (by omega)]

theorem generateMessage_stale_independent_witness :
    (generateMessage exampleConfig 7 (fun _ => 0) (some CALLSIGN_SOURCE) 1
        (some exampleGpsData) exampleTelemetry (some (fun _ => 0)) 200
        (some { bitstreamCharIdx := 0, bitstreamCharBitIdx := 0 })).result = true ∧
      (generateMessage exampleConfig 7 (fun _ => 0) (some CALLSIGN_SOURCE) 1
        (some exampleGpsData) exampleTelemetry (some (fun _ => 255)) 200
        (some { bitstreamCharIdx := 0, bitstreamCharBitIdx := 0 })).result = true := by
  have hlen : (createPacketPayload 1 exampleGpsData exampleTelemetry 7 (fun _ => 0)
      (exampleConfig.APRS_PAYLOAD_LEN % 256)).1 = 69 := by decide
  have hg := generateMessage_eq exampleConfig 7 (fun _ => 0) CALLSIGN_SOURCE 1 exampleGpsData
    exampleTelemetry (fun _ => 0) 200 { bitstreamCharIdx := 0, bitstreamCharBitIdx := 0 }
    (by decide) (by rw [hlen]; decide) exampleFrame_fits
  have hres : (generateMessage exampleConfig 7 (fun _ => 0) (some CALLSIGN_SOURCE) 1
      (some exampleGpsData) exampleTelemetry (some (fun _ => 0)) 200
      (some { bitstreamCharIdx := 0, bitstreamCharBitIdx := 0 })).result = true := by
    rw [hg]
  exact ⟨hres,
    (generateMessage_stale_independent exampleConfig 7 (fun _ => 0) (some CALLSIGN_SOURCE) 1
      (some exampleGpsData) exampleTelemetry 200
      (some { bitstreamCharIdx := 0, bitstreamCharBitIdx := 0 }) (fun _ => 0) (fun _ => 255)
      hres).1⟩

/-! ## Two runs with different message indices -/

theorem frameBytes_append (cs : Callsign) (a b : List Nat) :
    frameBytes cs (a ++ b) = frameBytes cs a ++ b.map (fun x => x % 256) := by
  simp [frameBytes]

/-- The bits stored for a line that starts with `common` start with the NRZI coding of
`common`, whatever follows. -/
theorem readBits_common_prefix (buffer0 : Buffer) (common rest : List Bool) :
    readBits (writeBits buffer0 0 (nrziEncode true (common ++ rest)))
      { bitstreamCharIdx := 0, bitstreamCharBitIdx := 0 } common.length =
        nrziEncode true common := by
  have h0 : ({ bitstreamCharIdx := 0, bitstreamCharBitIdx := 0 } : BitstreamPos) = posOf 0 := rfl
  rw [nrziEncode_append, writeBits_append, h0, ← length_nrziEncode true common,
    readBits_writeBits_below _ 0 _ _ _ (by omega), readBits_writeBits]

theorem frameLine_common_prefix (cfg : Config) (cs : Callsign) (head rest : List Nat) :
    ∃ more, frameLine cfg cs (head ++ rest) =
      (flagBits cfg.PREFIX_FLAGS_COUNT ++
        stuffBits ST_PERFORM_STUFFING 0 ((frameBytes cs head).flatMap byteBits)) ++ more := by
  simp only [frameLine, frameWithFcs, frameBytes_append, List.flatMap_append, stuffBits_append,
    List.append_assoc]
  exact ⟨_, rfl⟩

theorem informationField_split (src : Nat) (gps : GpsData) (tel : Telemetry) :
    ∃ head tail, ∀ idx,
      informationField src gps tel idx = head ++ formatUnsigned 3 idx ++ tail := by
  refine ⟨(if gps.gpggaData.latitude.isValid && gps.gpggaData.longitude.isValid then
      (if gps.gpggaData.utcTime.isValid then timestampChars gps else asciiBytes "!") ++
        positionChars gps ++ courseSpeedChars gps
    else []) ++ asciiBytes "T#",
    asciiBytes "," ++ formatUnsigned 3 src ++ asciiBytes "," ++
      formatUnsigned 3 (tel.cpuTemperature / 10) ++ asciiBytes "," ++
      formatUnsigned 3 (tel.voltage / 10) ++ asciiBytes ",000,000,00000000 a=" ++
      formatUnsigned 5 ((gps.gpggaData.altitudeMslMeters % 4294967296) / 10),
    fun idx => ?_⟩
  simp only [informationField, telemetryChars, List.append_assoc]

theorem generateMessage_fits (cfg : Config) (payloadBuffer : Buffer) (cs : Callsign)
    (src : Nat) (gps : GpsData) (tel : Telemetry) (buffer0 : Buffer) (maxLen : Nat)
    (size0 : BitstreamPos) (idx : Nat) (hcs : cs.callsign.length = 6)
    (hfit : fieldsFit src gps tel idx)
    (hpay : (informationField src gps tel idx).length ≤ cfg.APRS_PAYLOAD_LEN % 256)
    (hcap : 8 * cfg.PREFIX_FLAGS_COUNT +
        (8 * (25 + (informationField src gps tel idx).length) +
          8 * (25 + (informationField src gps tel idx).length) / 5) +
        8 * cfg.SUFFIX_FLAGS_COUNT ≤ 8 * maxLen) :
    ∃ payloadBuffer1,
      generateMessage cfg idx payloadBuffer (some cs) src (some gps) tel (some buffer0) maxLen
          (some size0) =
        { result := true
          bitstreamBuffer := some (writeBits buffer0 0
            (nrziEncode true (frameLine cfg cs (informationField src gps tel idx))))
          bitstreamSize := some (posOf (frameLine cfg cs (informationField src gps tel idx)).length)
          g_aprsMessageId := (idx + 1) % 65536
          g_aprsPayloadBuffer := payloadBuffer1 } ∧
      bufferBytes payloadBuffer1 (informationField src gps tel idx).length =
        informationField src gps tel idx := by
  obtain ⟨hret, hbytes⟩ := createPacketPayload_fits src gps tel idx payloadBuffer
    (cfg.APRS_PAYLOAD_LEN % 256) hfit
  rw [if_neg (by omega)] at hret
  have hb := hbytes hpay
  have hpos : 0 < (informationField src gps tel idx).length := by
    rw [length_informationField src gps tel idx hfit]
    split
    · split <;> decide
    · decide
  have hg := generateMessage_eq cfg idx payloadBuffer cs src gps tel buffer0 maxLen size0 hcs
    (by rw [hret]; omega)
    (by
      rw [hret, hb]
      exact Nat.le_trans (length_frameLine_le cfg cs _ hcs) hcap)
  rw [hret, hb] at hg
  exact ⟨_, hg, hb⟩

/-- C22 (counterexample): two runs on the example of the spec that differ only in the
message index, 0 and 2, report different fill sizes: 779 and 780 bits. -/
theorem generateMessage_index_changes_fill_size_counterexample :
    (generateMessage exampleConfig 0 (fun _ => 0) (some CALLSIGN_SOURCE) 1
        (some exampleGpsData) exampleTelemetry (some (fun _ => 0)) 200
        (some { bitstreamCharIdx := 0, bitstreamCharBitIdx := 0 })).result = true ∧
      (generateMessage exampleConfig 2 (fun _ => 0) (some CALLSIGN_SOURCE) 1
        (some exampleGpsData) exampleTelemetry (some (fun _ => 0)) 200
        (some { bitstreamCharIdx := 0, bitstreamCharBitIdx := 0 })).result = true ∧
      (generateMessage exampleConfig 0 (fun _ => 0) (some CALLSIGN_SOURCE) 1
        (some exampleGpsData) exampleTelemetry (some (fun _ => 0)) 200
        (some { bitstreamCharIdx := 0, bitstreamCharBitIdx := 0 })).bitstreamSize.map bitOffset =
          some 779 ∧
      (generateMessage exampleConfig 2 (fun _ => 0) (some CALLSIGN_SOURCE) 1
        (some exampleGpsData) exampleTelemetry (some (fun _ => 0)) 200
        (some { bitstreamCharIdx := 0, bitstreamCharBitIdx := 0 })).bitstreamSize.map bitOffset =
          some 780 := by
  have hl : ∀ idx, idx < 1000 → (informationField 1 exampleGpsData exampleTelemetry idx).length =
      69 := by
    intro idx hidx
    rw [length_informationField 1 exampleGpsData exampleTelemetry idx
      ⟨by decide, by decide, by decide, by decide, by decide, by decide, by decide, by decide,
        by decide, hidx, by decide, by decide, by decide, by decide⟩]
    rfl
  have h0 : (frameLine exampleConfig CALLSIGN_SOURCE
      (informationField 1 exampleGpsData exampleTelemetry 0)).length = 779 := by decide!
  have h2 : (frameLine exampleConfig CALLSIGN_SOURCE
      (informationField 1 exampleGpsData exampleTelemetry 2)).length = 780 := by decide!
  obtain ⟨p0, g0, _⟩ := generateMessage_fits exampleConfig (fun _ => 0) CALLSIGN_SOURCE 1
    exampleGpsData exampleTelemetry (fun _ => 0) 200
    { bitstreamCharIdx := 0, bitstreamCharBitIdx := 0 } 0 (by decide) (by decide)
    (by rw [hl 0 (by decide)]; decide) (by rw [hl 0 (by decide)]; decide)
  obtain ⟨p2, g2, _⟩ := generateMessage_fits exampleConfig (fun _ => 0) CALLSIGN_SOURCE 1
    exampleGpsData exampleTelemetry (fun _ => 0) 200
    { bitstreamCharIdx := 0, bitstreamCharBitIdx := 0 } 2 (by decide) (by decide)
    (by rw [hl 2 (by decide)]; decide) (by rw [hl 2 (by decide)]; decide)
  rw [g0, g2]
  simp only [Option.map_some', bitOffset_posOf, h0, h2, and_self]

/-- C22 (amended): two runs of `generateMessage` with the same callsign, GPS data,
telemetry, source id, buffers and capacity and the message indices `i` and `j`, for fields
that fit their printed widths and room for the longest frame: both succeed; the
information fields are `head`, the three digits of the index, `tail`, with the same `head`
and `tail`; the two bitstreams have the same bits before the first bit of the first index
digit, namely the NRZI coding of the prefix flags and the stuffed address, control, PID and
`head` bytes. Nothing is said of the bits from there on, nor of the fill sizes. With the
same index the results are equal. -/
theorem generateMessage_two_indices (cfg : Config) (payloadBuffer : Buffer) (cs : Callsign)
    (gpsDataSource : Nat) (gps : GpsData) (tel : Telemetry) (buffer0 : Buffer) (maxLen : Nat)
    (size0 : BitstreamPos) (i j : Nat)
    (hprefixCount : cfg.PREFIX_FLAGS_COUNT < 256)
    (hsuffixCount : cfg.SUFFIX_FLAGS_COUNT < 256)
    (hcs : cs.callsign.length = 6)
    (hfi : fieldsFit gpsDataSource gps tel i) (hfj : fieldsFit gpsDataSource gps tel j)
    (hpay : (informationField gpsDataSource gps tel i).length ≤ cfg.APRS_PAYLOAD_LEN % 256)
    (hcap : 8 * cfg.PREFIX_FLAGS_COUNT +
        (8 * (25 + (informationField gpsDataSource gps tel i).length) +
          8 * (25 + (informationField gpsDataSource gps tel i).length) / 5) +
        8 * cfg.SUFFIX_FLAGS_COUNT ≤ 8 * maxLen) :
    ∃ head tail common bufferI bufferJ sizeI sizeJ,
      (generateMessage cfg i payloadBuffer (some cs) gpsDataSource (some gps) tel
        (some buffer0) maxLen (some size0)).result = true ∧
      (generateMessage cfg j payloadBuffer (some cs) gpsDataSource (some gps) tel
        (some buffer0) maxLen (some size0)).result = true ∧
      (generateMessage cfg i payloadBuffer (some cs) gpsDataSource (some gps) tel
        (some buffer0) maxLen (some size0)).bitstreamBuffer = some bufferI ∧
      (generateMessage cfg j payloadBuffer (some cs) gpsDataSource (some gps) tel
        (some buffer0) maxLen (some size0)).bitstreamBuffer = some bufferJ ∧
      (generateMessage cfg i payloadBuffer (some cs) gpsDataSource (some gps) tel
        (some buffer0) maxLen (some size0)).bitstreamSize = some sizeI ∧
      (generateMessage cfg j payloadBuffer (some cs) gpsDataSource (some gps) tel
        (some buffer0) maxLen (some size0)).bitstreamSize = some sizeJ ∧
      bufferBytes
        (generateMessage cfg i payloadBuffer (some cs) gpsDataSource (some gps) tel
          (some buffer0) maxLen (some size0)).g_aprsPayloadBuffer
        (head ++ formatUnsigned 3 i ++ tail).length = head ++ formatUnsigned 3 i ++ tail ∧
      bufferBytes
        (generateMessage cfg j payloadBuffer (some cs) gpsDataSource (some gps) tel
          (some buffer0) maxLen (some size0)).g_aprsPayloadBuffer
        (head ++ formatUnsigned 3 j ++ tail).length = head ++ formatUnsigned 3 j ++ tail ∧
      (formatUnsigned 3 i).length = 3 ∧ (formatUnsigned 3 j).length = 3 ∧
      common = flagBits cfg.PREFIX_FLAGS_COUNT ++
        stuffBits ST_PERFORM_STUFFING 0 ((frameBytes cs head).flatMap byteBits) ∧
      common.length ≤ bitOffset sizeI ∧ common.length ≤ bitOffset sizeJ ∧
      readBits bufferI { bitstreamCharIdx := 0, bitstreamCharBitIdx := 0 } common.length =
        nrziEncode true common ∧
      readBits bufferJ { bitstreamCharIdx := 0, bitstreamCharBitIdx := 0 } common.length =
        nrziEncode true common ∧
      (i = j → bufferI = bufferJ ∧ sizeI = sizeJ) := by
  have hli := length_informationField gpsDataSource gps tel i hfi
  have hlj := length_informationField gpsDataSource gps tel j hfj
  have hlen : (informationField gpsDataSource gps tel j).length =
      (informationField gpsDataSource gps tel i).length := by rw [hli, hlj]
  obtain ⟨pi, gi, bi⟩ := generateMessage_fits cfg payloadBuffer cs gpsDataSource gps tel
    buffer0 maxLen size0 i hcs hfi hpay hcap
  obtain ⟨pj, gj, bj⟩ := generateMessage_fits cfg payloadBuffer cs gpsDataSource gps tel
    buffer0 maxLen size0 j hcs hfj (by rw [hlen]; exact hpay) (by rw [hlen]; exact hcap)
  obtain ⟨head, tail, hsplit⟩ := informationField_split gpsDataSource gps tel
  obtain ⟨mi, hmi⟩ := frameLine_common_prefix cfg cs head (formatUnsigned 3 i ++ tail)
  obtain ⟨mj, hmj⟩ := frameLine_common_prefix cfg cs head (formatUnsigned 3 j ++ tail)
  rw [hsplit i] at gi bi
  rw [hsplit j] at gj bj
  rw [gi, gj]
  rw [List.append_assoc] at gi gj
  refine ⟨head, tail, _, _, _, _, _, rfl, rfl, rfl, rfl, rfl, rfl, bi, bj,
    length_formatUnsigned 3 i (by decide) hfi.2.2.2.2.2.2.2.2.2.1,
    length_formatUnsigned 3 j (by decide) hfj.2.2.2.2.2.2.2.2.2.1, rfl, ?_, ?_, ?_, ?_, ?_⟩
  · rw [bitOffset_posOf, List.append_assoc head, hmi]
    simp only [List.length_append]
    omega
  · rw [bitOffset_posOf, List.append_assoc head, hmj]
    simp only [List.length_append]
    omega
  · rw [List.append_assoc head, hmi, readBits_common_prefix]
  · rw [List.append_assoc head, hmj, readBits_common_prefix]
  · intro hij
    subst hij
    exact ⟨rfl, rfl⟩

theorem generateMessage_two_indices_witness :
    exampleConfig.PREFIX_FLAGS_COUNT < 256 ∧ exampleConfig.SUFFIX_FLAGS_COUNT < 256 ∧
    CALLSIGN_SOURCE.callsign.length = 6 ∧
    fieldsFit 1 exampleGpsData exampleTelemetry 0 ∧
    fieldsFit 1 exampleGpsData exampleTelemetry 2 ∧
    (informationField 1 exampleGpsData exampleTelemetry 0).length ≤
      exampleConfig.APRS_PAYLOAD_LEN % 256 ∧
    8 * exampleConfig.PREFIX_FLAGS_COUNT +
        (8 * (25 + (informationField 1 exampleGpsData exampleTelemetry 0).length) +
          8 * (25 + (informationField 1 exampleGpsData exampleTelemetry 0).length) / 5) +
        8 * exampleConfig.SUFFIX_FLAGS_COUNT ≤ 8 * 200 ∧
    ∃ (common : List Bool) (bufferI bufferJ : Buffer),
      (generateMessage exampleConfig 0 (fun _ => 0) (some CALLSIGN_SOURCE) 1
        (some exampleGpsData) exampleTelemetry (some (fun _ => 0)) 200
        (some { bitstreamCharIdx := 0, bitstreamCharBitIdx := 0 })).bitstreamBuffer =
          some bufferI ∧
      (generateMessage exampleConfig 2 (fun _ => 0) (some CALLSIGN_SOURCE) 1
        (some exampleGpsData) exampleTelemetry (some (fun _ => 0)) 200
        (some { bitstreamCharIdx := 0, bitstreamCharBitIdx := 0 })).bitstreamBuffer =
          some bufferJ ∧
      readBits bufferI { bitstreamCharIdx := 0, bitstreamCharBitIdx := 0 } common.length =
        readBits bufferJ { bitstreamCharIdx := 0, bitstreamCharBitIdx := 0 } common.length := by
  have hl : (informationField 1 exampleGpsData exampleTelemetry 0).length = 69 := by decide
  have hpay : (informationField 1 exampleGpsData exampleTelemetry 0).length ≤
      exampleConfig.APRS_PAYLOAD_LEN % 256 := by rw [hl]; decide
  have hcap : 8 * exampleConfig.PREFIX_FLAGS_COUNT +
        (8 * (25 + (informationField 1 exampleGpsData exampleTelemetry 0).length) +
          8 * (25 + (informationField 1 exampleGpsData exampleTelemetry 0).length) / 5) +
        8 * exampleConfig.SUFFIX_FLAGS_COUNT ≤ 8 * 200 := by rw [hl]; decide
  obtain ⟨head, tail, common, bufferI, bufferJ, sizeI, sizeJ, _, _, h3, h4, _, _, _, _, _, _,
      _, _, _, h14, h15, _⟩ :=
    generateMessage_two_indices exampleConfig (fun _ => 0) CALLSIGN_SOURCE 1 exampleGpsData
      exampleTelemetry (fun _ => 0) 200 { bitstreamCharIdx := 0, bitstreamCharBitIdx := 0 } 0 2
      (by decide) (by decide) (by decide) (by decide) (by decide) hpay hcap
  exact ⟨by decide, by decide, by decide, by decide, by decide, hpay, hcap, common, bufferI,
    bufferJ, h3, h4, h14.trans h15.symm⟩

/-! ## Order of the idle transition -/

theorem actionCalls_append (a b : List HandlerAction) :
    actionCalls (a ++ b) = actionCalls a ++ actionCalls b := by
  induction a with
  | nil => rfl
  | cons x rest ih =>
    cases x with
    | call c => simp [actionCalls, ih]
    | setSendingMessage v => simp [actionCalls, ih]

theorem toneSampleTraced_state {F : Type} [Add F] [Sub F] [Mul F] [NatCast F] [LE F]
    [DecidableRel (LE.le : F → F → Prop)] (cfg : Config) (m : Synthesizer F)
    (t : TracedState F) :
    (toneSampleTraced cfg m t).state = toneSample cfg m t.state ∧
      ∃ c, (toneSampleTraced cfg m t).actions = t.actions ++ [HandlerAction.call c] ∧
        (toneSample cfg m t.state).hardwareCalls = t.state.hardwareCalls ++ [c] := by
  unfold toneSampleTraced toneSample
  split
  · exact ⟨rfl, _, rfl, rfl⟩
  · exact ⟨rfl, _, rfl, rfl⟩

/-- The traced handler computes the state of `Pwm10Handler`, and the hardware calls among
the actions it records are the calls that `Pwm10Handler` appends, in the same order. -/
theorem Pwm10HandlerTraced_state {F : Type} [Add F] [Sub F] [Mul F] [Zero F] [NatCast F]
    [LT F] [LE F] [DecidableRel (LT.lt : F → F → Prop)] [DecidableRel (LE.le : F → F → Prop)]
    (cfg : Config) (m : Synthesizer F) (t : TracedState F) :
    (Pwm10HandlerTraced cfg m t).state = Pwm10Handler cfg m t.state ∧
      ∃ new, (Pwm10HandlerTraced cfg m t).actions = t.actions ++ new ∧
        (Pwm10Handler cfg m t.state).hardwareCalls =
          t.state.hardwareCalls ++ actionCalls new := by
  have hcalls : ∀ s : AprsState F, (streamSymbol cfg m s).hardwareCalls =
      s.hardwareCalls := by
    intro s
    simp only [streamSymbol]
    split <;> [skip; split] <;> rfl
  by_cases hw : t.state.g_leadingWarmUpLeft = 0
  · by_cases hc : cfg.F1200_PWM_PULSES_COUNT_PER_SYMBOL ≤ t.state.g_currentSymbolPulsesCount
    · by_cases he : (!t.state.g_sendingMessage ||
          cursorAtEnd
            { t.state with
              hardwareCalls := t.state.hardwareCalls ++ [HardwareCall.clearAprsPwmInterrupt]
              g_currentSymbolPulsesCount := 0 }) = true
      · have e1 : Pwm10HandlerTraced cfg m t =
            (((((t.call HardwareCall.clearAprsPwmInterrupt).assign
              (fun s => { s with g_currentSymbolPulsesCount := 0 })).call
                HardwareCall.disableAprsPwm).call HardwareCall.disableHx1).call
                (HardwareCall.setAprsPwmPulseWidth m.PWM_MIN_PULSE_WIDTH)).setSendingMessage
                  false := by
          unfold Pwm10HandlerTraced
          simp only []
          rw [if_neg (by simpa [TracedState.call] using hw),
            if_pos (by simpa [TracedState.call] using hc),
            if_pos (by simpa [TracedState.call, TracedState.assign] using he)]
        have e2 : Pwm10Handler cfg m t.state =
            { t.state with
              g_currentSymbolPulsesCount := 0
              g_sendingMessage := false
              hardwareCalls := t.state.hardwareCalls ++
                [HardwareCall.clearAprsPwmInterrupt, HardwareCall.disableAprsPwm,
                  HardwareCall.disableHx1,
                  HardwareCall.setAprsPwmPulseWidth m.PWM_MIN_PULSE_WIDTH] } := by
          unfold Pwm10Handler
          simp only []
          rw [if_neg (by simpa using hw), if_pos (by simpa using hc), if_pos he]
          simp
        rw [e1, e2]
        exact ⟨by simp [TracedState.call, TracedState.assign, TracedState.setSendingMessage],
          [HandlerAction.call HardwareCall.clearAprsPwmInterrupt,
            HandlerAction.call HardwareCall.disableAprsPwm,
            HandlerAction.call HardwareCall.disableHx1,
            HandlerAction.call (HardwareCall.setAprsPwmPulseWidth m.PWM_MIN_PULSE_WIDTH),
            HandlerAction.setSendingMessage false],
          by simp [TracedState.call, TracedState.assign, TracedState.setSendingMessage],
          by simp [actionCalls]⟩
      · by_cases ho : t.state.g_leadingOnesLeft = 0
        · have e1 : Pwm10HandlerTraced cfg m t =
              toneSampleTraced cfg m
                (((t.call HardwareCall.clearAprsPwmInterrupt).assign
                  (fun s => { s with g_currentSymbolPulsesCount := 0 })).assign
                  (streamSymbol cfg m)) := by
            unfold Pwm10HandlerTraced
            simp only []
            rw [if_neg (by simpa [TracedState.call] using hw),
              if_pos (by simpa [TracedState.call] using hc),
              if_neg (by simpa [TracedState.call, TracedState.assign] using he),
              if_neg (by simpa [TracedState.call, TracedState.assign] using ho)]
          have e2 : Pwm10Handler cfg m t.state =
              toneSample cfg m (streamSymbol cfg m
                { t.state with
                  hardwareCalls :=
                    t.state.hardwareCalls ++ [HardwareCall.clearAprsPwmInterrupt]
                  g_currentSymbolPulsesCount := 0 }) := by
            unfold Pwm10Handler
            simp only []
            rw [if_neg (by simpa using hw), if_pos (by simpa using hc), if_neg he,
              if_neg (by simpa using ho)]
          obtain ⟨h1, c, h2, h3⟩ := toneSampleTraced_state cfg m
            (((t.call HardwareCall.clearAprsPwmInterrupt).assign
              (fun s => { s with g_currentSymbolPulsesCount := 0 })).assign
              (streamSymbol cfg m))
          rw [e1, e2]
          refine ⟨h1, [HandlerAction.call HardwareCall.clearAprsPwmInterrupt, HandlerAction.call c],
            ?_, ?_⟩
          · rw [h2]
            simp [TracedState.call, TracedState.assign]
          · refine h3.trans ?_
            simp only [TracedState.assign, hcalls]
            simp [TracedState.call, actionCalls]
        · have e1 : Pwm10HandlerTraced cfg m t =
              toneSampleTraced cfg m
                ((((t.call HardwareCall.clearAprsPwmInterrupt).assign
                  (fun s => { s with g_currentSymbolPulsesCount := 0 })).assign
                  (fun s => { s with g_currentFrequencyIsF1200 := true })).assign
                  (fun s => { s with g_leadingOnesLeft := s.g_leadingOnesLeft - 1 })) := by
            unfold Pwm10HandlerTraced
            simp only []
            rw [if_neg (by simpa [TracedState.call] using hw),
              if_pos (by simpa [TracedState.call] using hc),
              if_neg (by simpa [TracedState.call, TracedState.assign] using he),
              if_pos (by simpa [TracedState.call, TracedState.assign] using ho)]
          have e2 : Pwm10Handler cfg m t.state =
              toneSample cfg m
                { t.state with
                  hardwareCalls :=
                    t.state.hardwareCalls ++ [HardwareCall.clearAprsPwmInterrupt]
                  g_currentSymbolPulsesCount := 0
                  g_currentFrequencyIsF1200 := true
                  g_leadingOnesLeft := t.state.g_leadingOnesLeft - 1 } := by
            unfold Pwm10Handler
            simp only []
            rw [if_neg (by simpa using hw), if_pos (by simpa using hc), if_neg he,
              if_pos (by simpa using ho)]
          obtain ⟨h1, c, h2, h3⟩ := toneSampleTraced_state cfg m
            ((((t.call HardwareCall.clearAprsPwmInterrupt).assign
              (fun s => { s with g_currentSymbolPulsesCount := 0 })).assign
              (fun s => { s with g_currentFrequencyIsF1200 := true })).assign
              (fun s => { s with g_leadingOnesLeft := s.g_leadingOnesLeft - 1 }))
          rw [e1, e2]
          refine ⟨h1, [HandlerAction.call HardwareCall.clearAprsPwmInterrupt, HandlerAction.call c],
            ?_, ?_⟩
          · rw [h2]
            simp [TracedState.call, TracedState.assign]
          · exact h3.trans (by simp [TracedState.call, TracedState.assign, actionCalls])
    · have e1 : Pwm10HandlerTraced cfg m t =
          toneSampleTraced cfg m (t.call HardwareCall.clearAprsPwmInterrupt) := by
        unfold Pwm10HandlerTraced
        simp only []
        rw [if_neg (by simpa [TracedState.call] using hw),
          if_neg (by simpa [TracedState.call] using hc)]
      have e2 : Pwm10Handler cfg m t.state =
          toneSample cfg m
            { t.state with
              hardwareCalls :=
                t.state.hardwareCalls ++ [HardwareCall.clearAprsPwmInterrupt] } := by
        unfold Pwm10Handler
        simp only []
        rw [if_neg (by simpa using hw), if_neg (by simpa using hc)]
      obtain ⟨h1, c, h2, h3⟩ := toneSampleTraced_state cfg m
        (t.call HardwareCall.clearAprsPwmInterrupt)
      rw [e1, e2]
      refine ⟨h1, [HandlerAction.call HardwareCall.clearAprsPwmInterrupt, HandlerAction.call c],
            ?_, ?_⟩
      · rw [h2]
        simp [TracedState.call]
      · exact h3.trans (by simp [TracedState.call, actionCalls])
  · have e1 : Pwm10HandlerTraced cfg m t =
        ((t.call HardwareCall.clearAprsPwmInterrupt).call
          (HardwareCall.setAprsPwmPulseWidth m.PWM_MIN_PULSE_WIDTH)).assign
          (fun s => { s with g_leadingWarmUpLeft := s.g_leadingWarmUpLeft - 1 }) := by
      unfold Pwm10HandlerTraced
      simp only []
      rw [if_pos (by simpa [TracedState.call] using hw)]
    have e2 : Pwm10Handler cfg m t.state =
        { t.state with
          hardwareCalls := t.state.hardwareCalls ++ [HardwareCall.clearAprsPwmInterrupt] ++
            [HardwareCall.setAprsPwmPulseWidth m.PWM_MIN_PULSE_WIDTH]
          g_leadingWarmUpLeft := t.state.g_leadingWarmUpLeft - 1 } := by
      unfold Pwm10Handler
      simp only []
      rw [if_pos (by simpa using hw)]
    rw [e1, e2]
    exact ⟨by simp [TracedState.call, TracedState.assign],
      [HandlerAction.call HardwareCall.clearAprsPwmInterrupt,
        HandlerAction.call (HardwareCall.setAprsPwmPulseWidth m.PWM_MIN_PULSE_WIDTH)],
      by simp [TracedState.call, TracedState.assign],
      by simp [actionCalls]⟩

/-- C25 (counterexample): at the end of a transmission (sending, cursor at the fill size,
pulse counter at 32) the handler performs, in this order, `clearAprsPwmInterrupt`,
`disableAprsPwm`, `disableHx1`, `setAprsPwmPulseWidth(PWM_MIN_PULSE_WIDTH)` and the
assignment `g_sendingMessage = false`. The last two actions are the reset of the pulse
width and the assignment to the flag; `disableAprsPwm`, which disables the periodic
interrupt source, is not one of them and comes before `disableHx1` and before the reset
of the pulse width. -/
theorem Pwm10HandlerTraced_idle_order_counterexample :
    endOfTransmissionState.g_sendingMessage = true ∧
      (Pwm10HandlerTraced exampleConfig exampleSynthesizer
        { state := endOfTransmissionState, actions := [] }).actions =
        [HandlerAction.call HardwareCall.clearAprsPwmInterrupt,
          HandlerAction.call HardwareCall.disableAprsPwm,
          HandlerAction.call HardwareCall.disableHx1,
          HandlerAction.call (HardwareCall.setAprsPwmPulseWidth 1),
          HandlerAction.setSendingMessage false] ∧
      ((Pwm10HandlerTraced exampleConfig exampleSynthesizer
        { state := endOfTransmissionState, actions := [] }).actions.drop 3 =
        [HandlerAction.call (HardwareCall.setAprsPwmPulseWidth 1),
          HandlerAction.setSendingMessage false]) ∧
      HandlerAction.call HardwareCall.disableAprsPwm ∉
        (Pwm10HandlerTraced exampleConfig exampleSynthesizer
          { state := endOfTransmissionState, actions := [] }).actions.drop 3 ∧
      (Pwm10HandlerTraced exampleConfig exampleSynthesizer
          { state := endOfTransmissionState, actions := [] }).actions.indexOf
            (HandlerAction.call HardwareCall.disableAprsPwm) <
        (Pwm10HandlerTraced exampleConfig exampleSynthesizer
          { state := endOfTransmissionState, actions := [] }).actions.indexOf
            (HandlerAction.call HardwareCall.disableHx1) ∧
      (Pwm10HandlerTraced exampleConfig exampleSynthesizer
          { state := endOfTransmissionState, actions := [] }).actions.indexOf
            (HandlerAction.call HardwareCall.disableAprsPwm) <
        (Pwm10HandlerTraced exampleConfig exampleSynthesizer
          { state := endOfTransmissionState, actions := [] }).actions.indexOf
            (HandlerAction.call (HardwareCall.setAprsPwmPulseWidth 1)) := by
  have h : (Pwm10HandlerTraced exampleConfig exampleSynthesizer
        { state := endOfTransmissionState, actions := [] }).actions =
        [HandlerAction.call HardwareCall.clearAprsPwmInterrupt,
          HandlerAction.call HardwareCall.disableAprsPwm,
          HandlerAction.call HardwareCall.disableHx1,
          HandlerAction.call (HardwareCall.setAprsPwmPulseWidth 1),
          HandlerAction.setSendingMessage false] := by
    decide
  rw [h]
  exact ⟨rfl, rfl, by decide, by decide, by decide, by decide⟩

/-- C25 (amended): when `Pwm10Handler` ends a transmission (no warm-up tick left, pulse
counter at `N` or above, sending flag clear or cursor at or past the fill size), the
hardware calls and flag assignments it performs are, in the order of its statements:
`clearAprsPwmInterrupt`, `disableAprsPwm`, `disableHx1`,
`setAprsPwmPulseWidth(PWM_MIN_PULSE_WIDTH)`, `g_sendingMessage = false`. The assignment to
the sending flag is the last action and the only assignment to the flag; `disableAprsPwm`
comes before `disableHx1` and before the reset of the pulse width. The state it leaves is
the state of `Pwm10Handler`, with the flag clear. -/
theorem Pwm10HandlerTraced_idle_transition_order {F : Type} [Add F] [Sub F] [Mul F] [Zero F]
    [NatCast F] [LT F] [LE F] [DecidableRel (LT.lt : F → F → Prop)]
    [DecidableRel (LE.le : F → F → Prop)] (cfg : Config) (m : Synthesizer F)
    (t : TracedState F)
    (hwarm : t.state.g_leadingWarmUpLeft = 0)
    (hcount : cfg.F1200_PWM_PULSES_COUNT_PER_SYMBOL ≤ t.state.g_currentSymbolPulsesCount)
    (hend : t.state.g_sendingMessage = false ∨
      (t.state.g_currentBitstreamPos.bitstreamCharIdx ≥
          t.state.g_currentBitstreamSize.bitstreamCharIdx ∧
        t.state.g_currentBitstreamPos.bitstreamCharBitIdx ≥
          t.state.g_currentBitstreamSize.bitstreamCharBitIdx)) :
    (Pwm10HandlerTraced cfg m t).actions =
        t.actions ++
          [HandlerAction.call HardwareCall.clearAprsPwmInterrupt,
            HandlerAction.call HardwareCall.disableAprsPwm,
            HandlerAction.call HardwareCall.disableHx1,
            HandlerAction.call (HardwareCall.setAprsPwmPulseWidth m.PWM_MIN_PULSE_WIDTH),
            HandlerAction.setSendingMessage false] ∧
      (Pwm10HandlerTraced cfg m t).state = Pwm10Handler cfg m t.state ∧
      (Pwm10HandlerTraced cfg m t).state.g_sendingMessage = false ∧
      (Pwm10HandlerTraced cfg m t).state.hardwareCalls =
        t.state.hardwareCalls ++
          [HardwareCall.clearAprsPwmInterrupt, HardwareCall.disableAprsPwm,
            HardwareCall.disableHx1,
            HardwareCall.setAprsPwmPulseWidth m.PWM_MIN_PULSE_WIDTH] := by
  have he : (!t.state.g_sendingMessage ||
      cursorAtEnd
        { t.state with
          hardwareCalls := t.state.hardwareCalls ++ [HardwareCall.clearAprsPwmInterrupt]
          g_currentSymbolPulsesCount := 0 }) = true := by
    rcases hend with h | ⟨h1, h2⟩
    · simp [h]
    · simp [cursorAtEnd, h1, h2]
  have e1 : Pwm10HandlerTraced cfg m t =
      (((((t.call HardwareCall.clearAprsPwmInterrupt).assign
        (fun s => { s with g_currentSymbolPulsesCount := 0 })).call
          HardwareCall.disableAprsPwm).call HardwareCall.disableHx1).call
          (HardwareCall.setAprsPwmPulseWidth m.PWM_MIN_PULSE_WIDTH)).setSendingMessage
            false := by
    unfold Pwm10HandlerTraced
    simp only []
    rw [if_neg (by simpa [TracedState.call] using hwarm),
      if_pos (by simpa [TracedState.call] using hcount),
      if_pos (by simpa [TracedState.call, TracedState.assign] using he)]
  refine ⟨?_, (Pwm10HandlerTraced_state cfg m t).1, ?_, ?_⟩
  · rw [e1]
    simp [TracedState.call, TracedState.assign, TracedState.setSendingMessage]
  · rw [e1]
    rfl
  · rw [e1]
    simp [TracedState.call, TracedState.assign, TracedState.setSendingMessage]

theorem Pwm10HandlerTraced_idle_transition_order_witness :
    endOfTransmissionState.g_leadingWarmUpLeft = 0 ∧
      exampleConfig.F1200_PWM_PULSES_COUNT_PER_SYMBOL ≤
        endOfTransmissionState.g_currentSymbolPulsesCount ∧
      endOfTransmissionState.g_sendingMessage = true ∧
      (Pwm10HandlerTraced exampleConfig exampleSynthesizer
        { state := endOfTransmissionState, actions := [] }).actions =
        [] ++
          [HandlerAction.call HardwareCall.clearAprsPwmInterrupt,
            HandlerAction.call HardwareCall.disableAprsPwm,
            HandlerAction.call HardwareCall.disableHx1,
            HandlerAction.call
              (HardwareCall.setAprsPwmPulseWidth exampleSynthesizer.PWM_MIN_PULSE_WIDTH),
            HandlerAction.setSendingMessage false] ∧
      (Pwm10HandlerTraced exampleConfig exampleSynthesizer
        { state := endOfTransmissionState, actions := [] }).state.g_sendingMessage = false :=
  ⟨rfl, by decide, rfl,
    (Pwm10HandlerTraced_idle_transition_order exampleConfig exampleSynthesizer
      { state := endOfTransmissionState, actions := [] } rfl (by decide)
      (Or.inr (by decide))).1,
    (Pwm10HandlerTraced_idle_transition_order exampleConfig exampleSynthesizer
      { state := endOfTransmissionState, actions := [] } rfl (by decide)
      (Or.inr (by decide))).2.2.1⟩

/-! ## Tone selection -/

theorem toneSample_cursor {F : Type} [LinearOrderedField F] (cfg : Config) (m : Synthesizer F)
    (s : AprsState F) :
    (toneSample cfg m s).g_currentBitstreamPos = s.g_currentBitstreamPos ∧
      (toneSample cfg m s).g_leadingOnesLeft = s.g_leadingOnesLeft := by
  simp only [toneSample]
  split <;> exact ⟨rfl, rfl⟩

theorem streamSymbol_cursor {F : Type} [LinearOrderedField F] (cfg : Config)
    (m : Synthesizer F) (s : AprsState F) :
    (streamSymbol cfg m s).g_currentBitstreamPos =
      advanceBitstreamBit s.g_currentBitstreamPos := by
  simp only [streamSymbol]
  split <;> [skip; split] <;> rfl

theorem Pwm10Handler_hold_eq {F : Type} [Add F] [Sub F] [Mul F] [Zero F] [NatCast F]
    [LT F] [LE F] [DecidableRel (LT.lt : F → F → Prop)]
    [DecidableRel (LE.le : F → F → Prop)] (cfg : Config)
    (m : Synthesizer F) (s : AprsState F) (hwarm : s.g_leadingWarmUpLeft = 0)
    (hcount : s.g_currentSymbolPulsesCount < cfg.F1200_PWM_PULSES_COUNT_PER_SYMBOL) :
    Pwm10Handler cfg m s =
      toneSample cfg m
        { s with hardwareCalls := s.hardwareCalls ++ [HardwareCall.clearAprsPwmInterrupt] } := by
  unfold Pwm10Handler
  simp only []
  rw [if_neg (by simp [hwarm]), if_neg (by simpa using hcount)]

theorem Pwm10Handler_leadingOne_eq {F : Type} [Add F] [Sub F] [Mul F] [Zero F] [NatCast F]
    [LT F] [LE F] [DecidableRel (LT.lt : F → F → Prop)]
    [DecidableRel (LE.le : F → F → Prop)] (cfg : Config)
    (m : Synthesizer F) (s : AprsState F)
    (hwarm : s.g_leadingWarmUpLeft = 0)
    (hcount : cfg.F1200_PWM_PULSES_COUNT_PER_SYMBOL ≤ s.g_currentSymbolPulsesCount)
    (hsend : s.g_sendingMessage = true) (hones : s.g_leadingOnesLeft ≠ 0)
    (hend : ¬ (s.g_currentBitstreamPos.bitstreamCharIdx ≥
          s.g_currentBitstreamSize.bitstreamCharIdx ∧
        s.g_currentBitstreamPos.bitstreamCharBitIdx ≥
          s.g_currentBitstreamSize.bitstreamCharBitIdx)) :
    Pwm10Handler cfg m s =
      toneSample cfg m
        { s with
          hardwareCalls := s.hardwareCalls ++ [HardwareCall.clearAprsPwmInterrupt]
          g_currentSymbolPulsesCount := 0
          g_currentFrequencyIsF1200 := true
          g_leadingOnesLeft := s.g_leadingOnesLeft - 1 } := by
  have hcur : ∀ s1 : AprsState F, cursorAtEnd s1 = true →
      s1.g_currentBitstreamPos = s.g_currentBitstreamPos →
      s1.g_currentBitstreamSize = s.g_currentBitstreamSize → False := by
    intro s1 ht h1 h2
    apply hend
    simpa [cursorAtEnd, h1, h2] using ht
  unfold Pwm10Handler
  simp only []
  rw [if_neg (by simp [hwarm]), if_pos hcount,
    if_neg (by
      simp only [hsend, Bool.not_true, Bool.false_or]
      intro ht
      exact hcur _ ht rfl rfl),
    if_pos (by simpa using hones)]

/-- C29: at a symbol boundary of the streaming phase (no warm-up tick and no leading one
left, pulse counter at `N` or above, sending, cursor not at the end) the tone after
`Pwm10Handler` is the 1200 Hz tone exactly when the bit stored at the cursor is 1, and the
cursor has advanced by one bit; a warm-up tick changes neither the tone, nor the two
phases, nor the cursor, nor the leading ones left; at a symbol boundary with a leading one
left the tone after the handler is the 1200 Hz tone and the cursor has not moved; and a
tick within a symbol leaves the tone and the cursor as they are. -/
theorem Pwm10Handler_tone_selection {F : Type} [LinearOrderedField F] (cfg : Config)
    (m : Synthesizer F) (s : AprsState F) :
    (s.g_leadingWarmUpLeft = 0 →
      cfg.F1200_PWM_PULSES_COUNT_PER_SYMBOL ≤ s.g_currentSymbolPulsesCount →
      s.g_sendingMessage = true → s.g_leadingOnesLeft = 0 →
      ¬ (s.g_currentBitstreamPos.bitstreamCharIdx ≥
            s.g_currentBitstreamSize.bitstreamCharIdx ∧
          s.g_currentBitstreamPos.bitstreamCharBitIdx ≥
            s.g_currentBitstreamSize.bitstreamCharBitIdx) →
      ((Pwm10Handler cfg m s).g_currentFrequencyIsF1200 = true ↔
          readBufferBit s.g_currentBitstream s.g_currentBitstreamPos = true) ∧
        (Pwm10Handler cfg m s).g_currentBitstreamPos =
          advanceBitstreamBit s.g_currentBitstreamPos) ∧
      (s.g_leadingWarmUpLeft ≠ 0 →
        (Pwm10Handler cfg m s).g_currentFrequencyIsF1200 = s.g_currentFrequencyIsF1200 ∧
          (Pwm10Handler cfg m s).g_currentF1200Frame = s.g_currentF1200Frame ∧
          (Pwm10Handler cfg m s).g_currentF2200Frame = s.g_currentF2200Frame ∧
          (Pwm10Handler cfg m s).g_currentBitstreamPos = s.g_currentBitstreamPos ∧
          (Pwm10Handler cfg m s).g_leadingOnesLeft = s.g_leadingOnesLeft) ∧
      (s.g_leadingWarmUpLeft = 0 →
        cfg.F1200_PWM_PULSES_COUNT_PER_SYMBOL ≤ s.g_currentSymbolPulsesCount →
        s.g_sendingMessage = true → s.g_leadingOnesLeft ≠ 0 →
        ¬ (s.g_currentBitstreamPos.bitstreamCharIdx ≥
              s.g_currentBitstreamSize.bitstreamCharIdx ∧
            s.g_currentBitstreamPos.bitstreamCharBitIdx ≥
              s.g_currentBitstreamSize.bitstreamCharBitIdx) →
        (Pwm10Handler cfg m s).g_currentFrequencyIsF1200 = true ∧
          (Pwm10Handler cfg m s).g_currentBitstreamPos = s.g_currentBitstreamPos ∧
          (Pwm10Handler cfg m s).g_leadingOnesLeft = s.g_leadingOnesLeft - 1) ∧
      (s.g_leadingWarmUpLeft = 0 →
        s.g_currentSymbolPulsesCount < cfg.F1200_PWM_PULSES_COUNT_PER_SYMBOL →
        (Pwm10Handler cfg m s).g_currentFrequencyIsF1200 = s.g_currentFrequencyIsF1200 ∧
          (Pwm10Handler cfg m s).g_currentBitstreamPos = s.g_currentBitstreamPos) := by
  refine ⟨?_, ?_, ?_, ?_⟩
  · intro hwarm hcount hsend hones hend
    rw [Pwm10Handler_stream_eq cfg m s hwarm hcount hsend hones hend,
      (toneSample_tone cfg m _).1, (streamSymbol_tone cfg m _).1, (toneSample_cursor cfg m _).1,
      streamSymbol_cursor]
    exact ⟨Iff.rfl, rfl⟩
  · intro hwarm
    simp only [Pwm10Handler, ne_eq, hwarm, not_false_eq_true, if_true, and_self]
  · intro hwarm hcount hsend hones hend
    rw [Pwm10Handler_leadingOne_eq cfg m s hwarm hcount hsend hones hend,
      (toneSample_tone cfg m _).1, (toneSample_cursor cfg m _).1, (toneSample_cursor cfg m _).2]
    exact ⟨rfl, rfl, rfl⟩
  · intro hwarm hcount
    rw [Pwm10Handler_hold_eq cfg m s hwarm hcount, (toneSample_tone cfg m _).1,
      (toneSample_cursor cfg m _).1]
    exact ⟨rfl, rfl⟩

theorem Pwm10Handler_tone_selection_witness :
    (toneSwitchState : AprsState ℚ).g_leadingWarmUpLeft = 0 ∧
      exampleConfig.F1200_PWM_PULSES_COUNT_PER_SYMBOL ≤
        (toneSwitchState : AprsState ℚ).g_currentSymbolPulsesCount ∧
      (toneSwitchState : AprsState ℚ).g_sendingMessage = true ∧
      (toneSwitchState : AprsState ℚ).g_leadingOnesLeft = 0 ∧
      ¬ ((toneSwitchState : AprsState ℚ).g_currentBitstreamPos.bitstreamCharIdx ≥
            (toneSwitchState : AprsState ℚ).g_currentBitstreamSize.bitstreamCharIdx ∧
          (toneSwitchState : AprsState ℚ).g_currentBitstreamPos.bitstreamCharBitIdx ≥
            (toneSwitchState : AprsState ℚ).g_currentBitstreamSize.bitstreamCharBitIdx) ∧
      (((Pwm10Handler exampleConfig exampleSynthesizer
            toneSwitchState).g_currentFrequencyIsF1200 = true ↔
          readBufferBit (toneSwitchState : AprsState ℚ).g_currentBitstream
            (toneSwitchState : AprsState ℚ).g_currentBitstreamPos = true) ∧
        (Pwm10Handler exampleConfig exampleSynthesizer toneSwitchState).g_currentBitstreamPos =
          advanceBitstreamBit (toneSwitchState : AprsState ℚ).g_currentBitstreamPos) :=
  ⟨rfl, by decide, rfl, rfl, by decide,
    (Pwm10Handler_tone_selection exampleConfig exampleSynthesizer toneSwitchState).1 rfl
      (by decide) rfl rfl (by decide)⟩

/-! ## Phase of a static tone over a symbol -/

theorem toneSample_fields {F : Type} [Add F] [Sub F] [Mul F] [Zero F] [NatCast F]
    [LT F] [LE F] [DecidableRel (LT.lt : F → F → Prop)]
    [DecidableRel (LE.le : F → F → Prop)] (cfg : Config) (m : Synthesizer F)
    (s : AprsState F) :
    (toneSample cfg m s).g_leadingWarmUpLeft = s.g_leadingWarmUpLeft ∧
      (toneSample cfg m s).g_currentSymbolPulsesCount =
        (s.g_currentSymbolPulsesCount + 1) % 256 ∧
      (toneSample cfg m s).g_currentFrequencyIsF1200 = s.g_currentFrequencyIsF1200 ∧
      (toneSample cfg m s).g_currentF1200Frame =
        (if s.g_currentFrequencyIsF1200 then
          advancePhase m.PWM_STEP_SIZE (cfg.F1200_PWM_PULSES_COUNT_PER_SYMBOL : F)
            s.g_currentF1200Frame
        else s.g_currentF1200Frame) ∧
      (toneSample cfg m s).g_currentF2200Frame =
        (if s.g_currentFrequencyIsF1200 then s.g_currentF2200Frame
        else advancePhase m.PWM_STEP_SIZE m.F2200_PWM_PULSES_COUNT_PER_SYMBOL
          s.g_currentF2200Frame) := by
  simp only [toneSample, advancePhase]
  cases s.g_currentFrequencyIsF1200 <;> simp

/-- The ticks within a symbol: the active tone's phase is advanced once per tick. -/
theorem runTicks_hold_phase {F : Type} [Add F] [Sub F] [Mul F] [Zero F] [NatCast F]
    [LT F] [LE F] [DecidableRel (LT.lt : F → F → Prop)]
    [DecidableRel (LE.le : F → F → Prop)] (cfg : Config)
    (m : Synthesizer F) (s : AprsState F) (hN : cfg.F1200_PWM_PULSES_COUNT_PER_SYMBOL ≤ 255)
    (hwarm : s.g_leadingWarmUpLeft = 0) (j : Nat)
    (hj : s.g_currentSymbolPulsesCount + j ≤ cfg.F1200_PWM_PULSES_COUNT_PER_SYMBOL) :
    (runTicks cfg m j s).g_leadingWarmUpLeft = 0 ∧
      (runTicks cfg m j s).g_currentSymbolPulsesCount = s.g_currentSymbolPulsesCount + j ∧
      (runTicks cfg m j s).g_currentFrequencyIsF1200 = s.g_currentFrequencyIsF1200 ∧
      (runTicks cfg m j s).g_currentF1200Frame =
        (if s.g_currentFrequencyIsF1200 then
          (advancePhase m.PWM_STEP_SIZE (cfg.F1200_PWM_PULSES_COUNT_PER_SYMBOL : F))^[j]
            s.g_currentF1200Frame
        else s.g_currentF1200Frame) ∧
      (runTicks cfg m j s).g_currentF2200Frame =
        (if s.g_currentFrequencyIsF1200 then s.g_currentF2200Frame
        else (advancePhase m.PWM_STEP_SIZE m.F2200_PWM_PULSES_COUNT_PER_SYMBOL)^[j]
          s.g_currentF2200Frame) := by
  induction j with
  | zero => simp [runTicks, hwarm]
  | succ j ih =>
    obtain ⟨h1, h2, h3, h4, h5⟩ := ih (by omega)
    obtain ⟨t1, t2, t3, t4, t5⟩ := toneSample_fields cfg m
      { runTicks cfg m j s with
        hardwareCalls := (runTicks cfg m j s).hardwareCalls ++
          [HardwareCall.clearAprsPwmInterrupt] }
    rw [runTicks_succ, Pwm10Handler_hold_eq cfg m _ h1 (by omega)]
    refine ⟨t1.trans h1, ?_, t3.trans h3, ?_, ?_⟩
    · rw [t2]
      simp only [h2]
      omega
    · rw [t4]
      simp only [h3, h4]
      cases s.g_currentFrequencyIsF1200
      · simp
      · simp [Function.iterate_succ_apply']
    · rw [t5]
      simp only [h3, h5]
      cases s.g_currentFrequencyIsF1200
      · simp [Function.iterate_succ_apply']
      · simp

theorem streamSymbol_static {F : Type} [Add F] [Sub F] [Mul F] [Zero F] [NatCast F]
    [LT F] [LE F] [DecidableRel (LT.lt : F → F → Prop)]
    [DecidableRel (LE.le : F → F → Prop)] (cfg : Config)
    (m : Synthesizer F) (s : AprsState F)
    (h : readBufferBit s.g_currentBitstream s.g_currentBitstreamPos =
      s.g_currentFrequencyIsF1200) :
    streamSymbol cfg m s =
      { s with g_currentBitstreamPos := advanceBitstreamBit s.g_currentBitstreamPos } := by
  cases hb : s.g_currentFrequencyIsF1200 <;> simp [streamSymbol, h, hb]

/-- A whole symbol of a static tone, from its boundary tick on: `N` ticks, each advancing
the phase of the active tone once. -/
theorem runTicks_static_symbol {F : Type} [Add F] [Sub F] [Mul F] [Zero F] [NatCast F]
    [LT F] [LE F] [DecidableRel (LT.lt : F → F → Prop)]
    [DecidableRel (LE.le : F → F → Prop)] (cfg : Config)
    (m : Synthesizer F) (s : AprsState F)
    (hN1 : 1 ≤ cfg.F1200_PWM_PULSES_COUNT_PER_SYMBOL)
    (hN : cfg.F1200_PWM_PULSES_COUNT_PER_SYMBOL ≤ 255)
    (hwarm : s.g_leadingWarmUpLeft = 0)
    (hcount : cfg.F1200_PWM_PULSES_COUNT_PER_SYMBOL ≤ s.g_currentSymbolPulsesCount)
    (hsend : s.g_sendingMessage = true)
    (hend : ¬ (s.g_currentBitstreamPos.bitstreamCharIdx ≥
          s.g_currentBitstreamSize.bitstreamCharIdx ∧
        s.g_currentBitstreamPos.bitstreamCharBitIdx ≥
          s.g_currentBitstreamSize.bitstreamCharBitIdx))
    (hstatic : if s.g_leadingOnesLeft ≠ 0 then s.g_currentFrequencyIsF1200 = true
      else readBufferBit s.g_currentBitstream s.g_currentBitstreamPos =
        s.g_currentFrequencyIsF1200) :
    (runTicks cfg m cfg.F1200_PWM_PULSES_COUNT_PER_SYMBOL s).g_currentFrequencyIsF1200 =
        s.g_currentFrequencyIsF1200 ∧
      (runTicks cfg m cfg.F1200_PWM_PULSES_COUNT_PER_SYMBOL s).g_currentF1200Frame =
        (if s.g_currentFrequencyIsF1200 then
          (advancePhase m.PWM_STEP_SIZE (cfg.F1200_PWM_PULSES_COUNT_PER_SYMBOL : F))^[
            cfg.F1200_PWM_PULSES_COUNT_PER_SYMBOL] s.g_currentF1200Frame
        else s.g_currentF1200Frame) ∧
      (runTicks cfg m cfg.F1200_PWM_PULSES_COUNT_PER_SYMBOL s).g_currentF2200Frame =
        (if s.g_currentFrequencyIsF1200 then s.g_currentF2200Frame
        else (advancePhase m.PWM_STEP_SIZE m.F2200_PWM_PULSES_COUNT_PER_SYMBOL)^[
          cfg.F1200_PWM_PULSES_COUNT_PER_SYMBOL] s.g_currentF2200Frame) := by
  -- the state that the boundary tick hands to the tone sample
  have hfirst : ∃ s1 : AprsState F, Pwm10Handler cfg m s = toneSample cfg m s1 ∧
      s1.g_leadingWarmUpLeft = 0 ∧ s1.g_currentSymbolPulsesCount = 0 ∧
      s1.g_currentFrequencyIsF1200 = s.g_currentFrequencyIsF1200 ∧
      s1.g_currentF1200Frame = s.g_currentF1200Frame ∧
      s1.g_currentF2200Frame = s.g_currentF2200Frame := by
    by_cases hones : s.g_leadingOnesLeft = 0
    · rw [if_neg (by simpa using hones)] at hstatic
      refine ⟨_, Pwm10Handler_stream_eq cfg m s hwarm hcount hsend hones hend, ?_⟩
      have hs := streamSymbol_static cfg m
        { s with
          hardwareCalls := s.hardwareCalls ++ [HardwareCall.clearAprsPwmInterrupt]
          g_currentSymbolPulsesCount := 0 } hstatic
      rw [hs]
      exact ⟨hwarm, rfl, rfl, rfl, rfl⟩
    · rw [if_pos hones] at hstatic
      exact ⟨_, Pwm10Handler_leadingOne_eq cfg m s hwarm hcount hsend hones hend, hwarm, rfl,
        hstatic.symm, rfl, rfl⟩
  obtain ⟨s1, hH, w1, c1, f1, p1, p2⟩ := hfirst
  obtain ⟨t1, t2, t3, t4, t5⟩ := toneSample_fields cfg m s1
  rw [c1] at t2
  have hrun := runTicks_hold_phase cfg m (toneSample cfg m s1) hN (t1.trans w1)
    (cfg.F1200_PWM_PULSES_COUNT_PER_SYMBOL - 1) (by rw [t2]; omega)
  obtain ⟨_, _, r3, r4, r5⟩ := hrun
  have hsplit : runTicks cfg m cfg.F1200_PWM_PULSES_COUNT_PER_SYMBOL s =
      runTicks cfg m (cfg.F1200_PWM_PULSES_COUNT_PER_SYMBOL - 1) (toneSample cfg m s1) := by
    rw [← hH, ← runTicks_one, ← runTicks_add]
    congr 1
    omega
  have hiter : ∀ (f : F → F) (x : F),
      f^[cfg.F1200_PWM_PULSES_COUNT_PER_SYMBOL - 1] (f x) =
        f^[cfg.F1200_PWM_PULSES_COUNT_PER_SYMBOL] x := by
    intro f x
    rw [← Function.iterate_succ_apply]
    congr 1
    omega
  rw [hsplit, r3, r4, r5, t3, t4, t5, f1, p1, p2]
  refine ⟨rfl, ?_, ?_⟩
  · cases s.g_currentFrequencyIsF1200
    · simp
    · simp [hiter]
  · cases s.g_currentFrequencyIsF1200
    · simp [hiter]
    · simp

/-! ## Arithmetic of the C type `float` on small integers -/

theorem roundHalfEven_intCast (z : ℤ) : roundHalfEven (z : ℚ) = z := by
  simp [roundHalfEven]

theorem ulpExponent_natCast (n : Nat) (h0 : 0 < n) (h : n < 2 ^ 24) :
    ulpExponent (n : ℚ) = -((23 - Nat.log 2 n : Nat) : ℤ) := by
  have hlog : Nat.log 2 n < 24 := Nat.log_lt_of_lt_pow (by omega) h
  have habs : |(n : ℚ)| = (n : ℚ) := abs_of_nonneg (by positivity)
  rw [ulpExponent, habs, Int.log_natCast]
  omega

theorem roundBinary32_natCast (n : Nat) (h : n < 2 ^ 24) : roundBinary32 (n : ℚ) = n := by
  rcases Nat.eq_zero_or_pos n with h0 | h0
  · subst h0
    simp [roundBinary32, roundHalfEven]
  · rw [roundBinary32, ulpExponent_natCast n h0 h, zpow_neg, zpow_natCast, div_inv_eq_mul]
    have hz : ((n : ℚ) * 2 ^ (23 - Nat.log 2 n)) = ((n * 2 ^ (23 - Nat.log 2 n) : ℤ) : ℚ) := by
      push_cast
      rfl
    rw [hz, roundHalfEven_intCast]
    push_cast
    field_simp

theorem binary32_natCast (n : Nat) (h : n < 2 ^ 24) : ((n : Nat) : Binary32) = ⟨(n : ℚ)⟩ := by
  show (⟨roundBinary32 (n : ℚ)⟩ : Binary32) = ⟨(n : ℚ)⟩
  rw [roundBinary32_natCast n h]

theorem binary32_add_nat (a b : Nat) (h : a + b < 2 ^ 24) :
    ((⟨(a : ℚ)⟩ : Binary32) + ⟨(b : ℚ)⟩) = ⟨((a + b : Nat) : ℚ)⟩ := by
  show (⟨roundBinary32 ((a : ℚ) + (b : ℚ))⟩ : Binary32) = ⟨((a + b : Nat) : ℚ)⟩
  rw [← Nat.cast_add, roundBinary32_natCast (a + b) h]

theorem binary32_sub_nat (a b : Nat) (hb : b ≤ a) (h : a < 2 ^ 24) :
    ((⟨(a : ℚ)⟩ : Binary32) - ⟨(b : ℚ)⟩) = ⟨((a - b : Nat) : ℚ)⟩ := by
  show (⟨roundBinary32 ((a : ℚ) - (b : ℚ))⟩ : Binary32) = ⟨((a - b : Nat) : ℚ)⟩
  rw [← Nat.cast_sub hb, roundBinary32_natCast (a - b) (by omega)]

theorem binary32_le_nat (a b : Nat) : ((⟨(a : ℚ)⟩ : Binary32) ≤ ⟨(b : ℚ)⟩) ↔ a ≤ b := by
  show ((a : ℚ) ≤ (b : ℚ)) ↔ a ≤ b
  exact Nat.cast_le

/-- The phase update in `float` arithmetic with the step 1, on an integer phase below an
integer pulses count: every intermediate value is an integer below `2 ^ 24`, so nothing
is rounded. -/
theorem advancePhase_binary32_nat (c k : Nat) (hc : c < 2 ^ 23) (hk : k < c) :
    advancePhase (⟨((1 : Nat) : ℚ)⟩ : Binary32) ⟨(c : ℚ)⟩ ⟨(k : ℚ)⟩ =
      ⟨(((k + 1) % c : Nat) : ℚ)⟩ := by
  have h23 : (2 : Nat) ^ 24 = 2 * 2 ^ 23 := by norm_num
  unfold advancePhase
  rw [binary32_add_nat k 1 (by omega)]
  by_cases hw : c ≤ k + 1
  · rw [if_pos ((binary32_le_nat c (k + 1)).mpr hw), binary32_sub_nat (k + 1) c hw (by omega)]
    have : k + 1 = c := by omega
    rw [this, Nat.sub_self, Nat.mod_self]
  · rw [if_neg (fun h => hw ((binary32_le_nat c (k + 1)).mp h)),
      Nat.mod_eq_of_lt (by omega)]

theorem iterate_advancePhase_binary32_nat (c k : Nat) (hc : c < 2 ^ 23) (hk : k < c)
    (j : Nat) :
    (advancePhase (⟨((1 : Nat) : ℚ)⟩ : Binary32) ⟨(c : ℚ)⟩)^[j] ⟨(k : ℚ)⟩ =
      ⟨(((k + j) % c : Nat) : ℚ)⟩ := by
  induction j with
  | zero => simp [Nat.mod_eq_of_lt hk]
  | succ j ih =>
    rw [Function.iterate_succ_apply', ih,
      advancePhase_binary32_nat c ((k + j) % c) hc (Nat.mod_lt _ (by omega))]
    congr 2
    rw [Nat.add_mod, Nat.mod_mod, ← Nat.add_mod, Nat.add_assoc]

/-- The sum of `j` increments of 1 in `float` arithmetic is `j`. -/
theorem iterate_add_one_binary32 (j : Nat) (hj : j < 2 ^ 24) :
    (fun x : Binary32 => x + ⟨((1 : Nat) : ℚ)⟩)^[j] ⟨((0 : Nat) : ℚ)⟩ = ⟨(j : ℚ)⟩ := by
  induction j with
  | zero => rfl
  | succ j ih =>
    rw [Function.iterate_succ_apply', ih (by omega), binary32_add_nat j 1 hj]

/-- A rounding that does happen: `2 + 2 ^ (-23)` lies halfway between the neighbouring
`float` values 2 and `2 + 2 ^ (-22)` and is rounded to the even one, 2. -/
theorem roundBinary32_tie : roundBinary32 (2 + 1 / 8388608) = 2 := by
  have hlog : Int.log 2 |(2 + 1 / 8388608 : ℚ)| = 1 := by
    rw [abs_of_nonneg (by norm_num)]
    apply le_antisymm
    · have : Int.log 2 (2 + 1 / 8388608 : ℚ) < 2 := by
        rw [← Int.lt_zpow_iff_log_lt (by norm_num) (by norm_num)]
        norm_num
      omega
    · rw [← Int.zpow_le_iff_le_log (by norm_num) (by norm_num)]
      norm_num
  have hfl : ⌊(16777217 / 2 : ℚ)⌋ = 8388608 := by
    rw [Int.floor_eq_iff]
    norm_num
  have hu : ulpExponent (2 + 1 / 8388608 : ℚ) = -22 := by
    rw [ulpExponent, hlog]
    rfl
  rw [roundBinary32, hu]
  have hq : (2 + 1 / 8388608 : ℚ) / 2 ^ (-22 : ℤ) = 16777217 / 2 := by
    rw [zpow_neg]
    norm_num
  rw [hq]
  have hr : roundHalfEven (16777217 / 2 : ℚ) = 8388608 := by
    unfold roundHalfEven
    rw [hfl]
    norm_num
  rw [hr, zpow_neg]
  norm_num

theorem roundBinary32_above_one : roundBinary32 (1 + 1 / 8388608) = 1 + 1 / 8388608 := by
  have hlog : Int.log 2 |(1 + 1 / 8388608 : ℚ)| = 0 := by
    rw [abs_of_nonneg (by norm_num)]
    apply le_antisymm
    · have : Int.log 2 (1 + 1 / 8388608 : ℚ) < 1 := by
        rw [← Int.lt_zpow_iff_log_lt (by norm_num) (by norm_num)]
        norm_num
      omega
    · rw [← Int.zpow_le_iff_le_log (by norm_num) (by norm_num)]
      norm_num
  have hu : ulpExponent (1 + 1 / 8388608 : ℚ) = -23 := by
    rw [ulpExponent, hlog]
    rfl
  rw [roundBinary32, hu]
  have hq : (1 + 1 / 8388608 : ℚ) / 2 ^ (-23 : ℤ) = ((8388609 : ℤ) : ℚ) := by
    rw [zpow_neg]
    norm_num
  rw [hq, roundHalfEven_intCast, zpow_neg]
  norm_num

theorem updateI2CEEPROM_address (cfg : I2cConfig) (d : I2cData) :
    (updateI2CEEPROM cfg d).address = d.address := by
  simp only [updateI2CEEPROM]
  split <;> rfl

theorem I2cSlaveHandler_address (cfg : I2cConfig) (d : I2cData) (action busData : Nat)
    (hregs : 0 < cfg.I2C_NUM_REGS) (haddr : d.address < cfg.I2C_NUM_REGS) :
    (I2cSlaveHandler cfg d action busData).i2cData.address < cfg.I2C_NUM_REGS ∧
      ∀ i ∈ (I2cSlaveHandler cfg d action busData).addressedRegs, i < cfg.I2C_NUM_REGS := by
  simp only [I2cSlaveHandler]
  split
  · refine ⟨?_, by simp⟩
    simp only []
    split
    · have h1 := Nat.mod_le ((cfg.I2C_NUM_REGS + 4294967295) % 4294967296) 256
      have h2 : (cfg.I2C_NUM_REGS + 4294967295) % 4294967296 < cfg.I2C_NUM_REGS := by omega
      omega
    · have h1 := Nat.mod_le (busData % 4294967296) 256
      omega
  · split
    · refine ⟨?_, ?_⟩
      · have hx : ∀ x : I2cData, x.address = d.address →
            ({ x with address := (if (d.address + 1) % 4294967296 ≥ cfg.I2C_NUM_REGS then 0
              else (d.address + 1) % 4294967296) % 256 } : I2cData).address
              < cfg.I2C_NUM_REGS := by
          intro x _
          simp only []
          split
          · simpa using hregs
          · have h1 := Nat.mod_le ((d.address + 1) % 4294967296) 256
            omega
        split
        · exact hx _ (updateI2CEEPROM_address cfg _)
        · exact hx _ rfl
      · intro i hi
        split at hi
        · simp only [List.mem_singleton] at hi
          omega
        · simp at hi
    · split
      · refine ⟨?_, ?_⟩
        · have hx : ∀ x : I2cData,
              ({ x with address := (if (d.address + 1) % 4294967296 ≥ cfg.I2C_NUM_REGS then 0
                else (d.address + 1) % 4294967296) % 256 } : I2cData).address
                < cfg.I2C_NUM_REGS := by
            intro x
            simp only []
            split
            · simpa using hregs
            · have h1 := Nat.mod_le ((d.address + 1) % 4294967296) 256
              omega
          exact hx _
        · intro i hi
          simp only [List.mem_singleton] at hi
          omega
      · exact ⟨haddr, by simp⟩

/-- C26: with at least one register, for every sequence of invocations of
`I2cSlaveHandler` and all status and data values, from the address pointer 0 (or any
address pointer below `I2C_NUM_REGS`): the address pointer is below `I2C_NUM_REGS` after
the sequence, and so is the index of every access `regs[address]` made during it. With
`I2C_NUM_REGS ≤ 256` (the pointer is a `uint8_t`), an address from the master at or above
`I2C_NUM_REGS` gives the pointer `I2C_NUM_REGS - 1`, and the auto-increment at the last
register gives 0. -/
theorem I2cSlaveHandler_address_in_bounds (cfg : I2cConfig) (hregs : 0 < cfg.I2C_NUM_REGS) :
    (∀ (d : I2cData) (inputs : List (Nat × Nat)), d.address < cfg.I2C_NUM_REGS →
      (runI2cSlaveHandler cfg d inputs).1.address < cfg.I2C_NUM_REGS ∧
        ∀ i ∈ (runI2cSlaveHandler cfg d inputs).2, i < cfg.I2C_NUM_REGS) ∧
      (∀ (regs : Nat → Nat) (running : Nat) (inputs : List (Nat × Nat)),
        (runI2cSlaveHandler cfg { regs := regs, address := 0, running := running }
          inputs).1.address < cfg.I2C_NUM_REGS) ∧
      (∀ (d : I2cData) (action busData : Nat), cfg.I2C_NUM_REGS ≤ 256 →
        action % 4294967296 = cfg.I2C_SLAVE_ACT_RREQ_FBR →
        cfg.I2C_NUM_REGS ≤ busData % 4294967296 →
        (I2cSlaveHandler cfg d action busData).i2cData.address = cfg.I2C_NUM_REGS - 1) ∧
      (∀ (d : I2cData) (action busData : Nat), cfg.I2C_NUM_REGS ≤ 256 →
        action % 4294967296 ≠ cfg.I2C_SLAVE_ACT_RREQ_FBR →
        (action % 4294967296 = cfg.I2C_SLAVE_ACT_RREQ ∨
          action % 4294967296 = cfg.I2C_SLAVE_ACT_TREQ) →
        d.address + 1 = cfg.I2C_NUM_REGS →
        (I2cSlaveHandler cfg d action busData).i2cData.address = 0) := by
  have hrun : ∀ (inputs : List (Nat × Nat)) (d : I2cData), d.address < cfg.I2C_NUM_REGS →
      (runI2cSlaveHandler cfg d inputs).1.address < cfg.I2C_NUM_REGS ∧
        ∀ i ∈ (runI2cSlaveHandler cfg d inputs).2, i < cfg.I2C_NUM_REGS := by
    intro inputs
    induction inputs with
    | nil => intro d hd; exact ⟨hd, by simp [runI2cSlaveHandler]⟩
    | cons x rest ih =>
      intro d hd
      obtain ⟨action, busData⟩ := x
      obtain ⟨h1, h2⟩ := I2cSlaveHandler_address cfg d action busData hregs hd
      obtain ⟨h3, h4⟩ := ih _ h1
      refine ⟨h3, ?_⟩
      intro i hi
      simp only [runI2cSlaveHandler, List.mem_append] at hi
      rcases hi with hi | hi
      · exact h2 i hi
      · exact h4 i hi
  refine ⟨fun d inputs hd => hrun inputs d hd, fun regs running inputs => (hrun inputs _ hregs).1,
    ?_, ?_⟩
  · intro d action busData h256 hact hge
    simp only [I2cSlaveHandler, hact, if_true, ge_iff_le, hge]
    omega
  · intro d action busData h256 hfbr hact hlast
    have hwrap : (if (d.address + 1) % 4294967296 ≥ cfg.I2C_NUM_REGS then 0
        else (d.address + 1) % 4294967296) % 256 = 0 := by
      rw [if_pos (by omega)]
    simp only [I2cSlaveHandler, if_neg hfbr]
    split
    · exact hwrap
    · next hr =>
      rcases hact with h | h
      · exact absurd h hr
      · rw [if_pos h]
        exact hwrap

theorem I2cSlaveHandler_address_in_bounds_witness :
    0 < exampleI2cConfig.I2C_NUM_REGS ∧
      initialI2cData.address < exampleI2cConfig.I2C_NUM_REGS ∧
      (runI2cSlaveHandler exampleI2cConfig initialI2cData
        [(5, 200), (2, 0), (1, 7), (5, 8), (1, 255)]).1.address <
          exampleI2cConfig.I2C_NUM_REGS ∧
      ∀ i ∈ (runI2cSlaveHandler exampleI2cConfig initialI2cData
        [(5, 200), (2, 0), (1, 7), (5, 8), (1, 255)]).2, i < exampleI2cConfig.I2C_NUM_REGS :=
  ⟨by decide, by decide,
    (I2cSlaveHandler_address_in_bounds exampleI2cConfig (by decide)).1 initialI2cData
      [(5, 200), (2, 0), (1, 7), (5, 8), (1, 255)] (by decide)⟩

/-! ## Classification of GPS sentences -/

/-- C30, the code on the Copernicus channel: a VTG sentence received while the Venus
buffer holds no VTG sentence (here the zeroed buffer of start-up) is neither parsed nor
submitted, and a sentence that is neither GGA nor VTG (here RMC) received while the Venus
buffer holds a VTG sentence is parsed as VTG and submitted; on the Venus channel the same
VTG sentence is parsed as VTG. -/
theorem updateGPS_copernicus_uses_venus_buffer :
    (updateGPS initialGpsState 1 GpsModule.copernicus GpsModule.copernicus
        (some (messageOfString "$GPVTG,054.7,T,034.4,M,005.5,N,010.2,K*48"))).calls = [] ∧
      (updateGPS
        { initialGpsState with
          venusGpsMessage := messageOfString "$GPVTG,054.7,T,034.4,M,005.5,N,010.2,K*48" }
        1 GpsModule.copernicus GpsModule.copernicus
        (some (messageOfString
          "$GPRMC,123519,A,4807.038,N,01131.000,E,022.4,084.4,230394,003.1,W*6A"))).calls =
        [GpsCall.parseGpvtgMessageIfValid GpsModule.copernicus GpsModule.copernicus,
          GpsCall.submitI2CData 1 GpsModule.copernicus] ∧
      (updateGPS initialGpsState 0 GpsModule.venus GpsModule.venus
        (some (messageOfString "$GPVTG,054.7,T,034.4,M,005.5,N,010.2,K*48"))).calls =
        [GpsCall.parseGpvtgMessageIfValid GpsModule.venus GpsModule.venus,
          GpsCall.submitI2CData 0 GpsModule.venus] := by
  refine ⟨by decide, by decide, by decide⟩

end Hab
